import Mathlib

/-!
# The i915 GEM memory manager (`linux-core/i915_gem.c`)

A shallow embedding of the fence, residency, cache-domain, binding, pinning and
command-submission code of `i915_gem.c`, and theorems about it.

Conventions of the embedding:

* `uint32_t` values are natural numbers; arithmetic that can wrap is taken
  modulo `2 ^ 32` explicitly.
* Buffer objects are named by natural numbers; `Device.objs` maps a name to the
  fields of `struct drm_gem_object` and `struct drm_i915_gem_object`.
* The three LRU lists are lists of object names, head first.
* What the kernel, the allocator and the hardware answer during one call
  (allocation success, the value of the status page after a sleep, the result
  of an interruptible wait) is an explicit argument of type `Env`.
* A function that asks the environment more than once takes a stream
  `es : Nat → Env` and uses `es d.tick`; `Device.tock` advances the position.
* A loop that the source does not bound takes fuel and returns `none` when the
  fuel runs out.
* `BUG_ON` firing is the outcome `Outcome.bug`.
* The aperture allocator (`drm_memrange.c`) and the handle lookup
  (`drm_gem.c`) are not among the sources; they are modelled from their
  contracts.
* Calls into collaborators that have no state in this file (cache flushes,
  interrupt enabling, sleeping) are recorded in `Device.trace`.
* Object lifetime belongs to `drm_gem.c`, which is not among the sources:
  reference counts are kept, the release of the last reference destroys
  nothing here.
-/

namespace I915

/-! ## Machine integers -/

/-- Two to the power 32, the number of `uint32_t` values. -/
def U32 : Nat := 0x100000000

/-- Bitwise complement of a `uint32_t` (the C operator `~`). -/
def not32 (x : Nat) : Nat := 0xFFFFFFFF - x % U32

/-- Subtraction of two `uint32_t` values, wrapping modulo `2 ^ 32`. -/
def sub32 (a b : Nat) : Nat := (a % U32 + U32 - b % U32) % U32

/-- The cast `(int32_t) x` of a `uint32_t`: values from `2 ^ 31` on are negative. -/
def to_int32 (x : Nat) : Int :=
  if x % U32 < 0x80000000 then ((x % U32 : Nat) : Int) else ((x % U32 : Nat) : Int) - (U32 : Int)

/-- Source: `i915_seqno_passed`, `return (int32_t)(seq1 - seq2) >= 0;`. -/
def i915_seqno_passed (seq1 seq2 : Nat) : Bool :=
  decide (to_int32 (sub32 seq1 seq2) ≥ 0)

/-! ## Constants of headers that are not among the sources -/

/-- Modelled from the spec: the cache domains are the bits of a 32-bit mask, one
bit per agent that may hold a copy of a buffer. `i915_drm.h`, which numbers
them, is not among the sources; these are the values of that header.
This one is the CPU cache. -/
def I915_GEM_DOMAIN_CPU : Nat := 0x00000001
/-- Modelled from the spec: the render-engine cache domain (see `I915_GEM_DOMAIN_CPU`). -/
def I915_GEM_DOMAIN_RENDER : Nat := 0x00000002
/-- Modelled from the spec: the sampler cache domain (see `I915_GEM_DOMAIN_CPU`). -/
def I915_GEM_DOMAIN_SAMPLER : Nat := 0x00000004
/-- Modelled from the spec: the command-processor domain (see `I915_GEM_DOMAIN_CPU`). -/
def I915_GEM_DOMAIN_COMMAND : Nat := 0x00000008
/-- Modelled from the spec: the instruction cache domain (see `I915_GEM_DOMAIN_CPU`). -/
def I915_GEM_DOMAIN_INSTRUCTION : Nat := 0x00000010
/-- Modelled from the spec: the vertex cache domain (see `I915_GEM_DOMAIN_CPU`). -/
def I915_GEM_DOMAIN_VERTEX : Nat := 0x00000020

/-- Kernel error number `ENOMEM`. -/
def ENOMEM : Int := 12
/-- Kernel error number `EINVAL`. -/
def EINVAL : Int := 22
/-- Kernel error number `EBUSY`. -/
def EBUSY : Int := 16

/-- What lies outside `i915_gem.c` and is consulted during one call: the
command encodings and chip test of `i915_drv.h` (not among the sources), and
the answers of the kernel and of the hardware. -/
structure Env where
  /-- Opcode `CMD_MI_FLUSH`. -/
  CMD_MI_FLUSH : Nat
  /-- Flag `MI_NO_WRITE_FLUSH`. -/
  MI_NO_WRITE_FLUSH : Nat
  /-- Flag `MI_READ_FLUSH`. -/
  MI_READ_FLUSH : Nat
  /-- Flag `MI_EXE_FLUSH`. -/
  MI_EXE_FLUSH : Nat
  /-- Opcode `CMD_STORE_DWORD_IDX`. -/
  CMD_STORE_DWORD_IDX : Nat
  /-- Status-page slot `I915_GEM_HWS_INDEX`. -/
  I915_GEM_HWS_INDEX : Nat
  /-- Shift `STORE_DWORD_INDEX_SHIFT`. -/
  STORE_DWORD_INDEX_SHIFT : Nat
  /-- Opcode `GFX_OP_USER_INTERRUPT`. -/
  GFX_OP_USER_INTERRUPT : Nat
  /-- Result of `IS_I965G(dev)`. -/
  is_i965g : Bool
  /-- Whether `drm_calloc` returns memory. -/
  calloc_ok : Bool
  /-- The kernel tick counter `jiffies`. -/
  jiffies : Nat
  /-- Result of `wait_event_interruptible` when the caller has to sleep. -/
  wait_ret : Int
  /-- Sequence number in the hardware status page once the sleep is over. -/
  hws_after_wait : Nat
  /-- Result of fetching the backing pages in `i915_gem_object_get_page_list`
  (`find_get_page` / `shmem_getpage`): 0, or the error of the first page that
  cannot be had. -/
  getpage_ret : Int
  /-- Whether `drm_agp_bind_pages` returns a mapping. -/
  agp_bind_ok : Bool
  /-- Result of `copy_from_user`. -/
  copy_from_user_ret : Int
  /-- Result of `copy_to_user`. -/
  copy_to_user_ret : Int
  /-- Whether `ioremap` returns a mapping. -/
  ioremap_ok : Bool
  /-- Result of `i915_emit_box`. -/
  emit_box_ret : Int
  /-- Result of `IS_I830(dev) || IS_845G(dev)`. -/
  is_i830_or_845g : Bool
  /-- Opcode `MI_BATCH_BUFFER`. -/
  MI_BATCH_BUFFER : Nat
  /-- Opcode `MI_BATCH_BUFFER_START`. -/
  MI_BATCH_BUFFER_START : Nat
  /-- Flag `MI_BATCH_NON_SECURE`. -/
  MI_BATCH_NON_SECURE : Nat
  /-- Flag `MI_BATCH_NON_SECURE_I965`. -/
  MI_BATCH_NON_SECURE_I965 : Nat
  /-- The object `drm_gem_object_alloc` hands out. -/
  new_obj : Nat
  /-- Result of `drm_gem_handle_create`. -/
  handle_create_ret : Int
  /-- The handle `drm_gem_handle_create` hands out. -/
  new_handle : Nat

/-! ## Data model -/

/-- Source: `struct drm_i915_gem_request`. -/
structure Request where
  /-- Fence of the request. -/
  seqno : Nat
  /-- Time of emission. -/
  emitted_jiffies : Nat
  /-- Domains flushed by the command that produced the request. -/
  flush_domains : Nat
deriving DecidableEq, Repr

/-- Source: the fields of `struct drm_gem_object` and of its
`struct drm_i915_gem_object` that `i915_gem.c` uses. -/
structure GemObject where
  /-- Byte length. -/
  size : Nat
  /-- Reference count (`kref`). -/
  refcount : Nat
  /-- Domains that may hold a valid copy. -/
  read_domains : Nat
  /-- Domain that holds pending writes. -/
  write_domain : Nat
  /-- Read domains staged by a submission. -/
  pending_read_domains : Nat
  /-- Write domain staged by a submission. -/
  pending_write_domain : Nat
  /-- Start of the aperture block, `none` for `gtt_space == NULL`. -/
  gtt_space : Option Nat
  /-- Aperture offset. -/
  gtt_offset : Nat
  /-- Whether `page_list` is non-NULL. -/
  page_list : Bool
  /-- Whether `agp_mem` is non-NULL. -/
  agp_mem : Bool
  /-- Outstanding rendering. -/
  active : Bool
  /-- Pages were written through the aperture. -/
  dirty : Bool
  /-- Pin count (a C `int`). -/
  pin_count : Int
  /-- Fence of the last rendering that uses the object. -/
  last_rendering_seqno : Nat
deriving DecidableEq, Repr

/-- Calls into collaborators without state of their own in this file. -/
inductive Event where
  /-- Call of `drm_agp_chipset_flush`. -/
  | chipset_flush : Event
  /-- Call of `drm_ttm_cache_flush` on the pages of an object. -/
  | cache_flush (obj : Nat) : Event
  /-- Entry of `i915_gem_object_wait_rendering` for an object. -/
  | wait_rendering (obj : Nat) : Event
  /-- Call of `i915_user_irq_on`. -/
  | irq_on : Event
  /-- Call of `wait_event_interruptible` for a fence. -/
  | sleep (seqno : Nat) : Event
  /-- Call of `i915_user_irq_off`. -/
  | irq_off : Event
  /-- Call of `schedule_delayed_work` for the retire handler. -/
  | schedule_retire_work : Event
  /-- Call of `ioremap` for the aperture page at `page`. -/
  | ioremap (page : Nat) : Event
  /-- Call of `writel`: `val` is stored at aperture address `addr`, inside object `obj`. -/
  | reloc_write (obj : Nat) (addr : Nat) (val : Nat) : Event
  /-- Relocation `index` of object `obj` is copied back to the caller with a
  new presumed offset. -/
  | reloc_copy_out (obj : Nat) (index : Nat) (presumed : Nat) : Event
  /-- Call of `i915_emit_box` for clip rectangle `index`. -/
  | emit_box (index : Nat) : Event
  /-- The exec list, with these offsets, is copied back to the caller. -/
  | exec_copy_out (offsets : List Nat) : Event
  /-- Call of `i915_kernel_lost_context`. -/
  | kernel_lost_context : Event
  /-- Call of `msleep` for `ms` milliseconds. -/
  | msleep (ms : Nat) : Event
  /-- The message `DRM_ERROR("hardware wedged\n")`. -/
  | hardware_wedged : Event
  /-- Call of `drm_core_ioremapfree` for the mapping of the ring. -/
  | ioremapfree : Event
deriving DecidableEq, Repr

/-- Source: the parts of `struct drm_device` and `drm_i915_private_t` (`mm`)
that `i915_gem.c` reads and writes. -/
structure Device where
  /-- Object store. -/
  objs : Nat → GemObject
  /-- Field `mm.active_list`, head first. -/
  active_list : List Nat
  /-- Field `mm.flushing_list`, head first. -/
  flushing_list : List Nat
  /-- Field `mm.inactive_list`, head first. -/
  inactive_list : List Nat
  /-- Field `mm.request_list`, oldest first. -/
  request_list : List Request
  /-- Field `mm.next_gem_seqno`. -/
  next_gem_seqno : Nat
  /-- Field `mm.waiting_gem_seqno`. -/
  waiting_gem_seqno : Nat
  /-- Field `dev->invalidate_domains`. -/
  invalidate_domains : Nat
  /-- Field `dev->flush_domains`. -/
  flush_domains : Nat
  /-- Dwords written to the command ring, oldest first. -/
  ring : List Nat
  /-- Sequence number in the hardware status page (`READ_HWSP`). -/
  hws_seqno : Nat
  /-- Counter `dev->gtt_count`. -/
  gtt_count : Int
  /-- Counter `dev->gtt_memory`. -/
  gtt_memory : Int
  /-- Counter `dev->pin_count`. -/
  pin_count : Int
  /-- Counter `dev->pin_memory`. -/
  pin_memory : Int
  /-- Collaborator calls, oldest first. -/
  trace : List Event
  /-- Field `mm.suspended`. -/
  suspended : Bool
  /-- Free regions `(start, size)` of the aperture allocator `mm.gtt_space`, by
  ascending address. -/
  gtt_free : List (Nat × Nat)
  /-- Handle tables of the clients: `handles file handle` is the object a
  handle of a client names. -/
  handles : Nat → Nat → Option Nat
  /-- Field `mm.last_gem_seqno` of the private data of each client. -/
  last_gem_seqno : Nat → Nat
  /-- Field `mm.last_gem_throttle_seqno` of the private data of each client. -/
  last_gem_throttle_seqno : Nat → Nat
  /-- Field `dev->gtt_total`, a `uint32_t`. -/
  gtt_total : Nat
  /-- Field `ring.ring_obj`, `none` for `NULL`. -/
  ring_obj : Option Nat
  /-- Number of environment answers consumed so far by the operations that
  consult the environment more than once. -/
  tick : Nat

/-- Result of a call that returns an `int`: the value and the state left
behind, or a fired `BUG_ON`. -/
inductive Outcome where
  /-- The call returned `code`. -/
  | ret (code : Int) (d : Device) : Outcome
  /-- A `BUG_ON` fired. -/
  | bug : Outcome

/-- The three LRU lists of `mm`. -/
inductive Lru where
  /-- The list `mm.active_list`. -/
  | active : Lru
  /-- The list `mm.flushing_list`. -/
  | flushing : Lru
  /-- The list `mm.inactive_list`. -/
  | inactive : Lru
deriving DecidableEq, Repr

/-- Assignment to fields of one object. -/
def Device.update_obj (d : Device) (o : Nat) (f : GemObject → GemObject) : Device :=
  { d with objs := fun i => if i = o then f (d.objs i) else d.objs i }

/-- Append to the collaborator trace. -/
def Device.log (d : Device) (ev : Event) : Device :=
  { d with trace := d.trace ++ [ev] }

/-- The macros `BEGIN_LP_RING`, `OUT_RING`, `ADVANCE_LP_RING`: the dwords are
appended to the ring. -/
def Device.out_ring (d : Device) (dwords : List Nat) : Device :=
  { d with ring := d.ring ++ dwords }

/-- Kernel `list_del_init(&obj_priv->list)`: the object leaves the list it is on. -/
def list_del_init (o : Nat) (d : Device) : Device :=
  { d with
    active_list := d.active_list.filter (fun x => x != o)
    flushing_list := d.flushing_list.filter (fun x => x != o)
    inactive_list := d.inactive_list.filter (fun x => x != o) }

/-- Kernel `list_move_tail(&obj_priv->list, head)`: the object leaves the list
it is on and becomes the last entry of the list `l`. -/
def list_move_tail (o : Nat) (l : Lru) (d : Device) : Device :=
  let d1 := list_del_init o d
  match l with
  | .active => { d1 with active_list := d1.active_list ++ [o] }
  | .flushing => { d1 with flushing_list := d1.flushing_list ++ [o] }
  | .inactive => { d1 with inactive_list := d1.inactive_list ++ [o] }

/-- Modelled from the spec: `drm_gem_object_reference` (`drmP.h`, not among the
sources) takes one ownership reference on the object. -/
def drm_gem_object_reference (o : Nat) (d : Device) : Device :=
  d.update_obj o (fun x => { x with refcount := x.refcount + 1 })

/-- Modelled from the spec: `drm_gem_object_unreference` (`drmP.h`, not among
the sources) releases one ownership reference on the object. The destruction
that the release of the last reference triggers is done by the release hook of
`drm_gem.c` and has no counterpart here. -/
def drm_gem_object_unreference (o : Nat) (d : Device) : Device :=
  d.update_obj o (fun x => { x with refcount := x.refcount - 1 })

/-! ## Residency lists -/

/-- Source: `i915_gem_object_move_to_active`. -/
def i915_gem_object_move_to_active (o : Nat) (d : Device) : Device :=
  let d1 :=
    if (d.objs o).active then d
    else (drm_gem_object_reference o d).update_obj o (fun x => { x with active := true })
  list_move_tail o .active d1

/-- Source: `i915_gem_object_move_to_inactive` (`i915_verify_inactive` expands
to nothing, `WATCH_INACTIVE` being 0). -/
def i915_gem_object_move_to_inactive (o : Nat) (d : Device) : Device :=
  let d1 :=
    if (d.objs o).pin_count ≠ 0 then list_del_init o d
    else list_move_tail o .inactive d
  if (d1.objs o).active then
    drm_gem_object_unreference o (d1.update_obj o (fun x => { x with active := false }))
  else d1

/-- Source: the condition under which `i915_verify_inactive` reports an entry
of the inactive list: `obj_priv->pin_count || obj_priv->active ||
(obj->write_domain & ~I915_GEM_DOMAIN_CPU)`. -/
def verify_inactive_fails (x : GemObject) : Bool :=
  decide (x.pin_count ≠ 0) || x.active ||
    decide (x.write_domain &&& not32 I915_GEM_DOMAIN_CPU ≠ 0)

/-- Source: `i915_verify_inactive` as it is with `WATCH_INACTIVE` set: the
entries of the inactive list for which the function prints its `DRM_ERROR`,
in list order. The predicate the function checks holds when the result is
empty. -/
def i915_verify_inactive (d : Device) : List Nat :=
  d.inactive_list.filter (fun o => verify_inactive_fails (d.objs o))

/-! ## Requests and fences -/

/-- Source: `i915_add_request`. Returns the fence (0 when the allocation
fails) and the state. -/
def i915_add_request (e : Env) (flush_domains : Nat) (d : Device) : Nat × Device :=
  if e.calloc_ok = false then (0, d)
  else
    let seqno := d.next_gem_seqno
    let next1 := (d.next_gem_seqno + 1) % U32
    let next2 := if next1 = 0 then (next1 + 1) % U32 else next1
    let d1 := { d with next_gem_seqno := next2 }
    let d2 := d1.out_ring
      [e.CMD_STORE_DWORD_IDX, (e.I915_GEM_HWS_INDEX <<< e.STORE_DWORD_INDEX_SHIFT) % U32,
       seqno, e.GFX_OP_USER_INTERRUPT]
    let request : Request :=
      { seqno := seqno, emitted_jiffies := e.jiffies, flush_domains := flush_domains }
    let was_empty := d2.request_list.isEmpty
    let d3 := { d2 with request_list := d2.request_list ++ [request] }
    let d4 := if was_empty then d3.log .schedule_retire_work else d3
    (seqno, d4)

/-- Source: the first loop of `i915_gem_retire_request`
(`list_for_each_entry_safe` over `mm.flushing_list`); `objs` are the entries
of the list when the loop starts, the body moves only the entry it visits. -/
def retire_flushing (request : Request) : List Nat → Device → Device
  | [], d => d
  | o :: rest, d =>
    let d1 :=
      if (d.objs o).write_domain &&& request.flush_domains ≠ 0 then
        i915_gem_object_move_to_inactive o
          (d.update_obj o (fun x => { x with write_domain := 0 }))
      else d
    retire_flushing request rest d1

/-- Source: the second loop of `i915_gem_retire_request`
(`while (!list_empty(&dev_priv->mm.active_list))`); `fuel` bounds the number of
iterations. -/
def retire_active (request : Request) : Nat → Device → Device
  | 0, d => d
  | fuel + 1, d =>
    match d.active_list with
    | [] => d
    | o :: _ =>
      if (d.objs o).last_rendering_seqno ≠ request.seqno then d
      else if (d.objs o).write_domain ≠ 0 then
        retire_active request fuel (list_move_tail o .flushing d)
      else
        retire_active request fuel (i915_gem_object_move_to_inactive o d)

/-- Source: `i915_gem_retire_request`. Every iteration of the second loop takes
the head off the active list, so the length of that list bounds the loop. -/
def i915_gem_retire_request (request : Request) (d : Device) : Device :=
  let d1 :=
    if request.flush_domains ≠ 0 then retire_flushing request d.flushing_list d
    else d
  retire_active request d1.active_list.length d1

/-- Source: `i915_get_gem_seqno`, `READ_HWSP(dev_priv, I915_GEM_HWS_INDEX)`. -/
def i915_get_gem_seqno (d : Device) : Nat := d.hws_seqno

/-- Source: the loop of `i915_gem_retire_requests`; `fuel` bounds the number of
iterations. `list_del(&request->list)` removes the head of the queue. -/
def retire_requests_loop (seqno : Nat) : Nat → Device → Device
  | 0, d => d
  | fuel + 1, d =>
    match d.request_list with
    | [] => d
    | request :: _ =>
      if i915_seqno_passed seqno request.seqno then
        let d1 := i915_gem_retire_request request d
        retire_requests_loop seqno fuel { d1 with request_list := d1.request_list.tail }
      else d

/-- Source: `i915_gem_retire_requests`. Every iteration removes one request, so
the length of the queue bounds the loop. -/
def i915_gem_retire_requests (d : Device) : Device :=
  retire_requests_loop (i915_get_gem_seqno d) d.request_list.length d

/-- Source: the sleeping branch of `i915_wait_request`, from
`dev_priv->mm.waiting_gem_seqno = seqno` to `dev_priv->mm.waiting_gem_seqno = 0`;
the status page holds `hws_after_wait` when the sleep is over. -/
def wait_request_sleep (e : Env) (seqno : Nat) (d : Device) : Device :=
  let d1 := { d with waiting_gem_seqno := seqno }
  let d2 := (d1.log .irq_on).log (.sleep seqno)
  let d3 := { d2 with hws_seqno := e.hws_after_wait }
  let d4 := d3.log .irq_off
  { d4 with waiting_gem_seqno := 0 }

/-- Source: `i915_wait_request`; `ret` is 0 unless the caller sleeps, and the
requests are retired when `ret` is 0. -/
def i915_wait_request (e : Env) (seqno : Nat) (d : Device) : Outcome :=
  if seqno = 0 then .bug
  else if i915_seqno_passed (i915_get_gem_seqno d) seqno = false then
    if e.wait_ret = 0 then .ret 0 (i915_gem_retire_requests (wait_request_sleep e seqno d))
    else .ret e.wait_ret (wait_request_sleep e seqno d)
  else .ret 0 (i915_gem_retire_requests d)

/-- Source: `i915_gem_flush`. -/
def i915_gem_flush (e : Env) (invalidate_domains flush_domains : Nat) (d : Device) : Device :=
  let d1 := if flush_domains &&& I915_GEM_DOMAIN_CPU ≠ 0 then d.log .chipset_flush else d
  if (invalidate_domains ||| flush_domains) &&& not32 I915_GEM_DOMAIN_CPU ≠ 0 then
    let cmd0 := e.CMD_MI_FLUSH ||| e.MI_NO_WRITE_FLUSH
    let cmd1 :=
      if (invalidate_domains ||| flush_domains) &&& I915_GEM_DOMAIN_RENDER ≠ 0 then
        cmd0 &&& not32 e.MI_NO_WRITE_FLUSH
      else cmd0
    let cmd2 :=
      if e.is_i965g = false ∧ invalidate_domains &&& I915_GEM_DOMAIN_SAMPLER ≠ 0 then
        cmd1 ||| e.MI_READ_FLUSH
      else cmd1
    let cmd3 :=
      if invalidate_domains &&& I915_GEM_DOMAIN_INSTRUCTION ≠ 0 then cmd2 ||| e.MI_EXE_FLUSH
      else cmd2
    d1.out_ring [cmd3, 0]
  else d1

/-- Source: the body of the first `if` of `i915_gem_object_wait_rendering`, up
to the assignment of `last_rendering_seqno`: the queued writes are flushed and
a request is created for them. -/
def wait_rendering_flush (e : Env) (o : Nat) (d : Device) : Device :=
  let write_domain := (d.objs o).write_domain
  let d1 := i915_gem_flush e 0 write_domain d
  let d2 := d1.update_obj o (fun x => { x with write_domain := 0 })
  let d3 := i915_gem_object_move_to_active o d2
  let r := i915_add_request e write_domain d3
  r.2.update_obj o (fun x => { x with last_rendering_seqno := r.1 })

/-- Source: the second `if` of `i915_gem_object_wait_rendering` and its
`return 0`: an active object waits for its last fence. -/
def wait_rendering_wait (e : Env) (o : Nat) (d : Device) : Outcome :=
  if (d.objs o).active then
    match i915_wait_request e (d.objs o).last_rendering_seqno d with
    | .bug => .bug
    | .ret code d1 => if code ≠ 0 then .ret code d1 else .ret 0 d1
  else .ret 0 d

/-- Source: `i915_gem_object_wait_rendering`. -/
def i915_gem_object_wait_rendering (e : Env) (o : Nat) (d : Device) : Outcome :=
  let d0 := d.log (.wait_rendering o)
  if (d0.objs o).write_domain &&& not32 I915_GEM_DOMAIN_CPU ≠ 0 then
    let d1 := wait_rendering_flush e o d0
    if (d1.objs o).last_rendering_seqno = 0 then .bug
    else wait_rendering_wait e o d1
  else wait_rendering_wait e o d0

/-! ## Cache domains -/

/-- Source: `i915_gem_clflush_object`. -/
def i915_gem_clflush_object (o : Nat) (d : Device) : Device :=
  if (d.objs o).page_list = false then d
  else d.log (.cache_flush o)

/-- Source: the end of `i915_gem_object_set_domain`, from
`if ((write_domain | flush_domains) != 0)` to `return 0`. -/
def set_domain_commit (o : Nat) (read_domains write_domain invalidate_domains
    flush_domains : Nat) (d : Device) : Outcome :=
  let d1 :=
    if write_domain ||| flush_domains ≠ 0 then
      d.update_obj o (fun x => { x with write_domain := write_domain })
    else d
  let d2 := d1.update_obj o (fun x => { x with read_domains := read_domains })
  .ret 0 { d2 with
    invalidate_domains := d2.invalidate_domains ||| invalidate_domains
    flush_domains := d2.flush_domains ||| flush_domains }

/-- Source: `i915_gem_object_set_domain`, the value of the local `read_domains`
after `if (write_domain == 0) read_domains |= obj->read_domains;`. -/
def set_domain_reads (read_domains write_domain old_reads : Nat) : Nat :=
  if write_domain = 0 then read_domains ||| old_reads else read_domains

/-- Source: `i915_gem_object_set_domain`, the value of the local `flush_domains`
(initially 0) after `if (obj->write_domain && obj->write_domain != read_domains)`. -/
def set_domain_flush (old_write reads : Nat) : Nat :=
  if old_write ≠ 0 ∧ old_write ≠ reads then 0 ||| old_write else 0

/-- Source: `i915_gem_object_set_domain`, the value of the local
`invalidate_domains` (initially 0) after the two `invalidate_domains |= ...`. -/
def set_domain_invalidate (old_reads old_write reads : Nat) : Nat :=
  (if old_write ≠ 0 ∧ old_write ≠ reads then 0 ||| reads &&& not32 old_write else 0) |||
    reads &&& not32 old_reads

/-- Source: `i915_gem_object_set_domain`. -/
def i915_gem_object_set_domain (e : Env) (o : Nat) (read_domains write_domain : Nat)
    (d : Device) : Outcome :=
  let reads := set_domain_reads read_domains write_domain (d.objs o).read_domains
  let d1 := if write_domain = 0 then d else d.update_obj o (fun x => { x with dirty := true })
  let flush_domains := set_domain_flush (d.objs o).write_domain reads
  let invalidate_domains :=
    set_domain_invalidate (d.objs o).read_domains (d.objs o).write_domain reads
  if (flush_domains ||| invalidate_domains) &&& I915_GEM_DOMAIN_CPU ≠ 0 then
    if invalidate_domains &&& I915_GEM_DOMAIN_CPU ≠ 0 ∧
        flush_domains &&& not32 I915_GEM_DOMAIN_CPU ≠ 0 then
      match i915_gem_object_wait_rendering e o d1 with
      | .bug => .bug
      | .ret code d2 =>
        if code ≠ 0 then .ret code d2
        else set_domain_commit o reads write_domain invalidate_domains flush_domains
          (i915_gem_clflush_object o d2)
    else
      set_domain_commit o reads write_domain invalidate_domains flush_domains
        (i915_gem_clflush_object o d1)
  else
    set_domain_commit o reads write_domain invalidate_domains flush_domains d1

/-- Source: `i915_gem_init_object`; `drm_calloc` hands out zeroed private
fields, and `INIT_LIST_HEAD` leaves the object on no list. -/
def i915_gem_init_object (e : Env) (o : Nat) (d : Device) : Outcome :=
  if e.calloc_ok = false then .ret (-ENOMEM) d
  else
    .ret 0 (list_del_init o (d.update_obj o (fun x =>
      { x with
        write_domain := I915_GEM_DOMAIN_CPU
        read_domains := I915_GEM_DOMAIN_CPU
        gtt_space := none
        gtt_offset := 0
        page_list := false
        agp_mem := false
        active := false
        dirty := false
        pin_count := 0
        last_rendering_seqno := 0 })))

/-! ## The aperture allocator -/

/-- Modelled from the spec: the page granularity to which sizes and aperture
offsets are rounded; the kernel header that defines `PAGE_SIZE` is not among
the sources, 4096 is its value on the machines that carry this chip. -/
def PAGE_SIZE : Nat := 4096

/-- The least multiple of `a` that is at least `x`. -/
def roundup (x a : Nat) : Nat := (x + a - 1) / a * a

/-- Whether a block of `size` bytes aligned to `alignment` fits into the free
region `r = (start, size)`. -/
def region_fits (size alignment : Nat) (r : Nat × Nat) : Bool :=
  decide (roundup r.1 alignment + size ≤ r.1 + r.2)

/-- Modelled from the spec: `drm_memrange_search_free` (`drm_memrange.c`, not
among the sources) returns the lowest-address free region that can hold an
aligned block of the size, without removing it. -/
def drm_memrange_search_free (free : List (Nat × Nat)) (size alignment : Nat) :
    Option (Nat × Nat) :=
  free.find? (region_fits size alignment)

/-- The free list after the aligned block of `size` bytes is cut out of the
region `r`: what lies before and what lies after the block stays free. -/
def carve (r : Nat × Nat) (size alignment : Nat) : List (Nat × Nat) → List (Nat × Nat)
  | [] => []
  | x :: xs =>
    if x = r then
      (if r.1 < roundup r.1 alignment then [(r.1, roundup r.1 alignment - r.1)] else []) ++
      (if roundup r.1 alignment + size < r.1 + r.2 then
        [(roundup r.1 alignment + size, r.1 + r.2 - (roundup r.1 alignment + size))] else []) ++ xs
    else x :: carve r size alignment xs

/-- Modelled from the spec: `drm_memrange_get_block` (`drm_memrange.c`, not among
the sources) carves a block out of a free region and removes it from the free
pool; the result is the start of the block and the new free pool. -/
def drm_memrange_get_block (free : List (Nat × Nat)) (r : Nat × Nat) (size alignment : Nat) :
    Nat × List (Nat × Nat) :=
  (roundup r.1 alignment, carve r size alignment free)

/-- Modelled from the spec: `drm_memrange_put_block` (`drm_memrange.c`, not among
the sources) returns the block `b = (start, size)` to the free pool and
coalesces it with the free neighbours it touches. -/
def drm_memrange_put_block (b : Nat × Nat) : List (Nat × Nat) → List (Nat × Nat)
  | [] => [b]
  | r :: rs =>
    if b.1 + b.2 = r.1 then (b.1, b.2 + r.2) :: rs
    else if b.1 < r.1 then b :: r :: rs
    else if r.1 + r.2 = b.1 then drm_memrange_put_block (r.1, r.2 + b.2) rs
    else r :: drm_memrange_put_block b rs

/-! ## Binding and unbinding -/

/-- The next environment answer is consumed. -/
def Device.tock (d : Device) : Device := { d with tick := d.tick + 1 }

/-- Kernel `!list_empty(&obj_priv->list)`: the object is on one of the lists. -/
def on_list (o : Nat) (d : Device) : Bool :=
  decide (o ∈ d.active_list) || decide (o ∈ d.flushing_list) || decide (o ∈ d.inactive_list)

/-- Source: `i915_gem_object_free_page_list`. -/
def i915_gem_object_free_page_list (o : Nat) (d : Device) : Device :=
  if (d.objs o).page_list = false then d
  else d.update_obj o (fun x => { x with dirty := false, page_list := false })

/-- Source: `i915_gem_object_get_page_list`; the page array is allocated and
filled, and released again when a page cannot be had. -/
def i915_gem_object_get_page_list (e : Env) (o : Nat) (d : Device) : Int × Device :=
  if (d.objs o).page_list then (0, d)
  else if e.calloc_ok = false then (-ENOMEM, d)
  else
    let d1 := d.update_obj o (fun x => { x with page_list := true })
    if e.getpage_ret ≠ 0 then (e.getpage_ret, i915_gem_object_free_page_list o d1)
    else (0, d1)

/-- The block of an object goes back to the allocator:
`drm_memrange_put_block(obj_priv->gtt_space); obj_priv->gtt_space = NULL;`. -/
def put_gtt_space (o : Nat) (d : Device) : Device :=
  match (d.objs o).gtt_space with
  | none => d
  | some start =>
    { d with gtt_free := drm_memrange_put_block (start, (d.objs o).size) d.gtt_free }.update_obj o
      (fun x => { x with gtt_space := none })

/-- Source: the end of `i915_gem_object_unbind`, from
`if (obj_priv->agp_mem != NULL)` to `return 0`. -/
def unbind_release (o : Nat) (d : Device) : Outcome :=
  let d1 :=
    if (d.objs o).agp_mem then d.update_obj o (fun x => { x with agp_mem := false }) else d
  if (d1.objs o).active then .bug
  else
    let d2 := i915_gem_object_free_page_list o d1
    let d3 := { d2 with gtt_count := d2.gtt_count - 1
                        gtt_memory := d2.gtt_memory - ((d2.objs o).size : Int) }
    let d4 := put_gtt_space o d3
    let d5 := if on_list o d4 then list_del_init o d4 else d4
    .ret 0 d5

/-- Source: `i915_gem_object_unbind`; `es` answers in turn for the rendering
wait and for the move to the CPU domain. -/
def i915_gem_object_unbind (es : Nat → Env) (o : Nat) (d : Device) : Outcome :=
  if (d.objs o).gtt_space = none then .ret 0 d
  else if (d.objs o).pin_count ≠ 0 then .ret (-EINVAL) d
  else
    match i915_gem_object_wait_rendering (es d.tick) o d.tock with
    | .bug => .bug
    | .ret code d1 =>
      if code ≠ 0 then .ret code d1
      else
        match i915_gem_object_set_domain (es d1.tick) o I915_GEM_DOMAIN_CPU
            I915_GEM_DOMAIN_CPU d1.tock with
        | .bug => .bug
        | .ret code2 d2 =>
          if code2 ≠ 0 then .ret code2 d2
          else unbind_release o d2

/-- Source: `i915_gem_evict_something`; one unit of `fuel` per turn of the
`for (;;)` loop, `none` when the fuel runs out before the loop is left. -/
def i915_gem_evict_something (es : Nat → Env) : Nat → Device → Option Outcome
  | 0, _ => none
  | fuel + 1, d =>
    match d.inactive_list with
    | o :: _ =>
      if (d.objs o).pin_count ≠ 0 then some .bug
      else if (d.objs o).active then some .bug
      else some (i915_gem_object_unbind es o d)
    | [] =>
      match d.request_list with
      | request :: _ =>
        match i915_wait_request (es d.tick) request.seqno d.tock with
        | .bug => some .bug
        | .ret code d1 =>
          if d1.inactive_list.isEmpty = false then i915_gem_evict_something es fuel d1
          else some (.ret code d1)
      | [] =>
        match d.flushing_list with
        | o :: _ =>
          let d1 := i915_gem_flush (es d.tick) (d.objs o).write_domain (d.objs o).write_domain
            d.tock
          let d2 := (i915_add_request (es d.tick) (d.objs o).write_domain d1).2
          i915_gem_evict_something es fuel d2
        | [] => some (.ret (-ENOMEM) d)

/-- Source: the `search_free` loop of `i915_gem_object_bind_to_gtt`: a block is
looked for and, while none is found, something is evicted. A result with code
0 carries the block in `gtt_space`; `fuel` bounds the turns of the loop and
`efuel` those of each eviction. The object has no block when the loop is
entered: `i915_gem_object_pin`, the only caller of the bind, calls it when
`gtt_space` is NULL, so `if (obj_priv->gtt_space == NULL)` after a failed
search is taken. -/
def bind_search (es : Nat → Env) (o alignment efuel : Nat) : Nat → Device → Option Outcome
  | 0, _ => none
  | fuel + 1, d =>
    match drm_memrange_search_free d.gtt_free (d.objs o).size alignment with
    | some r =>
      let b := drm_memrange_get_block d.gtt_free r (d.objs o).size alignment
      some (.ret 0 ({ d with gtt_free := b.2 }.update_obj o
        (fun x => { x with gtt_space := some b.1, gtt_offset := b.1 })))
    | none =>
      if d.inactive_list.isEmpty ∧ d.flushing_list.isEmpty ∧ d.active_list.isEmpty then
        some (.ret (-ENOMEM) d)
      else
        match i915_gem_evict_something es efuel d with
        | none => none
        | some .bug => some .bug
        | some (.ret code d1) =>
          if code ≠ 0 then some (.ret code d1)
          else bind_search es o alignment efuel fuel d1

/-- Source: `i915_gem_object_bind_to_gtt` after the block is found, from
`ret = i915_gem_object_get_page_list(obj)` to `return 0`. -/
def bind_pages (es : Nat → Env) (o : Nat) (d : Device) : Outcome :=
  let r := i915_gem_object_get_page_list (es d.tick) o d.tock
  if r.1 ≠ 0 then .ret r.1 (put_gtt_space o r.2)
  else if (es r.2.tick).agp_bind_ok = false then
    .ret (-ENOMEM) (put_gtt_space o (i915_gem_object_free_page_list o r.2.tock))
  else
    let d1 := r.2.tock.update_obj o (fun x => { x with agp_mem := true })
    let d2 := { d1 with gtt_count := d1.gtt_count + 1
                        gtt_memory := d1.gtt_memory + ((d1.objs o).size : Int) }
    if (d2.objs o).read_domains &&& not32 I915_GEM_DOMAIN_CPU ≠ 0 then .bug
    else if (d2.objs o).write_domain &&& not32 I915_GEM_DOMAIN_CPU ≠ 0 then .bug
    else .ret 0 d2

/-- Source: `i915_gem_object_bind_to_gtt`. -/
def i915_gem_object_bind_to_gtt (es : Nat → Env) (fuel : Nat) (o alignment : Nat)
    (d : Device) : Option Outcome :=
  let alignment1 := if alignment = 0 then PAGE_SIZE else alignment
  if alignment1 &&& (PAGE_SIZE - 1) ≠ 0 then some (.ret (-EINVAL) d)
  else
    match bind_search es o alignment1 fuel fuel d with
    | none => none
    | some .bug => some .bug
    | some (.ret code d1) =>
      if code ≠ 0 then some (.ret code d1)
      else some (bind_pages es o d1)

/-! ## Pinning -/

/-- Source: `i915_gem_object_pin` after the binding, from
`obj_priv->pin_count++` on. -/
def pin_account (o : Nat) (d : Device) : Device :=
  let d1 := d.update_obj o (fun x => { x with pin_count := x.pin_count + 1 })
  if (d1.objs o).pin_count = 1 then
    let d2 := { d1 with pin_count := d1.pin_count + 1
                        pin_memory := d1.pin_memory + ((d1.objs o).size : Int) }
    if (d2.objs o).active = false ∧
        (d2.objs o).write_domain &&& not32 I915_GEM_DOMAIN_CPU = 0 ∧ on_list o d2 then
      list_del_init o d2
    else d2
  else d1

/-- Source: `i915_gem_object_pin`. -/
def i915_gem_object_pin (es : Nat → Env) (fuel : Nat) (o alignment : Nat) (d : Device) :
    Option Outcome :=
  let bound : Option Outcome :=
    if (d.objs o).gtt_space = none then i915_gem_object_bind_to_gtt es fuel o alignment d
    else some (.ret 0 d)
  match bound with
  | none => none
  | some .bug => some .bug
  | some (.ret code d1) =>
    if code ≠ 0 then some (.ret code d1)
    else some (.ret 0 (pin_account o d1))

/-- Source: `i915_gem_object_unpin`; the function returns nothing, the code of
the outcome is 0. -/
def i915_gem_object_unpin (o : Nat) (d : Device) : Outcome :=
  let d1 := d.update_obj o (fun x => { x with pin_count := x.pin_count - 1 })
  if (d1.objs o).pin_count < 0 then .bug
  else if (d1.objs o).gtt_space = none then .bug
  else if (d1.objs o).pin_count = 0 then
    let d2 :=
      if (d1.objs o).active = false ∧ (d1.objs o).write_domain &&& not32 I915_GEM_DOMAIN_CPU = 0
      then list_move_tail o .inactive d1 else d1
    .ret 0 { d2 with pin_count := d2.pin_count - 1
                     pin_memory := d2.pin_memory - ((d2.objs o).size : Int) }
  else .ret 0 d1

/-- Modelled from the spec: `drm_gem_object_lookup` (`drm_gem.c`, not among the
sources) resolves a handle of a client to an object and takes a reference on
it; an unknown handle resolves to nothing. -/
def drm_gem_object_lookup (file handle : Nat) (d : Device) : Option (Nat × Device) :=
  match d.handles file handle with
  | none => none
  | some o => some (o, drm_gem_object_reference o d)

/-- Source: `i915_gem_pin_ioctl`. -/
def i915_gem_pin_ioctl (es : Nat → Env) (fuel : Nat) (file handle alignment : Nat)
    (d : Device) : Option Outcome :=
  match drm_gem_object_lookup file handle d with
  | none => some (.ret (-EINVAL) d)
  | some (o, d1) =>
    match i915_gem_object_pin es fuel o alignment d1 with
    | none => none
    | some .bug => some .bug
    | some (.ret code d2) =>
      if code ≠ 0 then some (.ret code (drm_gem_object_unreference o d2))
      else
        let d3 :=
          if (d2.objs o).write_domain &&& I915_GEM_DOMAIN_CPU ≠ 0 then
            ((i915_gem_clflush_object o d2).log .chipset_flush).update_obj o
              (fun x => { x with write_domain := 0 })
          else d2
        some (.ret 0 (drm_gem_object_unreference o d3))

/-- Source: `i915_gem_unpin_ioctl`. -/
def i915_gem_unpin_ioctl (file handle : Nat) (d : Device) : Outcome :=
  match drm_gem_object_lookup file handle d with
  | none => .ret (-EINVAL) d
  | some (o, d1) =>
    match i915_gem_object_unpin o d1 with
    | .bug => .bug
    | .ret _ d2 => .ret 0 (drm_gem_object_unreference o d2)

/-- Source: `i915_gem_dev_set_domain`; the result is the flushed write domains
and the state. -/
def i915_gem_dev_set_domain (e : Env) (d : Device) : Nat × Device :=
  if d.invalidate_domains ||| d.flush_domains ≠ 0 then
    let d1 := i915_gem_flush e d.invalidate_domains d.flush_domains d
    (d.flush_domains, { d1 with invalidate_domains := 0, flush_domains := 0 })
  else (d.flush_domains, d)

/-- Source: `i915_gem_set_domain`. -/
def i915_gem_set_domain (es : Nat → Env) (o read_domains write_domain : Nat) (d : Device) :
    Outcome :=
  match i915_gem_object_set_domain (es d.tick) o read_domains write_domain d.tock with
  | .bug => .bug
  | .ret code d1 =>
    if code ≠ 0 then .ret code d1
    else
      let r := i915_gem_dev_set_domain (es d1.tick) d1.tock
      if r.1 &&& not32 I915_GEM_DOMAIN_CPU ≠ 0 then
        .ret 0 (i915_add_request (es d1.tick) r.1 r.2).2
      else .ret 0 r.2

/-- Source: `i915_gem_set_domain_ioctl` (the driver has the `DRIVER_GEM` feature). -/
def i915_gem_set_domain_ioctl (es : Nat → Env) (file handle read_domains write_domain : Nat)
    (d : Device) : Outcome :=
  match drm_gem_object_lookup file handle d with
  | none => .ret (-EINVAL) d
  | some (o, d1) =>
    match i915_gem_set_domain es o read_domains write_domain d1 with
    | .bug => .bug
    | .ret code d2 => .ret code (drm_gem_object_unreference o d2)

/-! ## Command submission -/

/-- Source: `struct drm_i915_gem_relocation_entry` (`i915_drm.h`), as
`i915_gem_object_pin_and_relocate` reads it. -/
structure Reloc where
  /-- Handle of the buffer the relocation points to. -/
  target_handle : Nat
  /-- Value added to the address of the target. -/
  delta : Nat
  /-- Byte offset of the patched word within the referencing buffer. -/
  offset : Nat
  /-- Address of the target the caller assumed. -/
  presumed_offset : Nat
  /-- Read domains requested for the target. -/
  read_domains : Nat
  /-- Write domain requested for the target. -/
  write_domain : Nat
deriving DecidableEq, Repr

/-- Source: `struct drm_i915_gem_exec_object` (`i915_drm.h`); `relocs` stands
for `relocation_count` and `relocs_ptr`. -/
structure ExecObject where
  /-- Handle of the buffer. -/
  handle : Nat
  /-- Relocations that land in the buffer. -/
  relocs : List Reloc
  /-- Requested alignment. -/
  alignment : Nat
  /-- Aperture offset reported back. -/
  offset : Nat
deriving DecidableEq, Repr

/-- Source: `struct drm_i915_gem_execbuffer` (`i915_drm.h`); `buffers` stands
for `buffer_count` and `buffers_ptr`. -/
structure ExecBuffer where
  /-- The exec list; the batch buffer is its last entry. -/
  buffers : List ExecObject
  /-- Start of the batch within the batch buffer. -/
  batch_start_offset : Nat
  /-- Length of the batch. -/
  batch_len : Nat
  /-- Drawing-rectangle word `DR1`. -/
  DR1 : Nat
  /-- Drawing-rectangle word `DR4`. -/
  DR4 : Nat
  /-- Number of clip rectangles, a 32-bit field. -/
  num_cliprects : Nat
deriving DecidableEq, Repr

/-- Subtraction of two `size_t` values, wrapping modulo `2 ^ 64`. -/
def sub_size_t (a b : Nat) : Nat := (a % 2 ^ 64 + 2 ^ 64 - b % 2 ^ 64) % 2 ^ 64

/-- The error exits of the relocation loop: `i915_gem_object_unpin(obj); return ret;`. -/
def reloc_fail (o : Nat) (code : Int) (d : Device) : Outcome :=
  match i915_gem_object_unpin o d with
  | .bug => .bug
  | .ret _ d1 => .ret code d1

/-- Source: the relocation loop of `i915_gem_object_pin_and_relocate`; `index`
is the loop counter `i`, `mapped` says whether `reloc_page` is non-NULL and
`last` is `last_reloc_offset`. Every relocation consumes one environment
answer. -/
def relocate (es : Nat → Env) (file o : Nat) :
    Nat → Bool → Nat → List Reloc → Device → Outcome
  | _, _, _, [], d => .ret 0 d
  | index, mapped, last, reloc :: rest, d =>
    let e := es d.tick
    if e.copy_from_user_ret ≠ 0 then reloc_fail o e.copy_from_user_ret d.tock
    else
      match drm_gem_object_lookup file reloc.target_handle d.tock with
      | none => reloc_fail o (-EINVAL) d.tock
      | some (t, d1) =>
        if (d1.objs t).gtt_space = none then
          reloc_fail o (-EINVAL) (drm_gem_object_unreference t d1)
        else if reloc.offset > sub_size_t (d1.objs o).size 4 then
          reloc_fail o (-EINVAL) (drm_gem_object_unreference t d1)
        else if reloc.offset &&& 3 ≠ 0 then
          reloc_fail o (-EINVAL) (drm_gem_object_unreference t d1)
        else if reloc.write_domain ≠ 0 ∧ (d1.objs t).pending_write_domain ≠ 0 ∧
            reloc.write_domain ≠ (d1.objs t).pending_write_domain then
          reloc_fail o (-EINVAL) (drm_gem_object_unreference t d1)
        else
          let d2 := d1.update_obj t (fun x =>
            { x with pending_read_domains := x.pending_read_domains ||| reloc.read_domains
                     pending_write_domain := x.pending_write_domain ||| reloc.write_domain })
          if (d2.objs t).gtt_offset = reloc.presumed_offset then
            relocate es file o (index + 1) mapped last rest (drm_gem_object_unreference t d2)
          else
            match i915_gem_object_wait_rendering e o d2 with
            | .bug => .bug
            | .ret _ d3 =>
              let d4 :=
                if (d3.objs o).write_domain &&& I915_GEM_DOMAIN_CPU ≠ 0 then
                  ((i915_gem_clflush_object o d3).log .chipset_flush).update_obj o
                    (fun x => { x with write_domain := 0 })
                else d3
              let reloc_offset := ((d4.objs o).gtt_offset + reloc.offset) % U32
              let remap : Bool := mapped = false ∨
                last &&& not32 (PAGE_SIZE - 1) ≠ reloc_offset &&& not32 (PAGE_SIZE - 1)
              if remap = true ∧ e.ioremap_ok = false then
                reloc_fail o (-ENOMEM) (drm_gem_object_unreference t
                  (d4.log (.ioremap (reloc_offset &&& not32 (PAGE_SIZE - 1)))))
              else
                let d5 :=
                  if remap then d4.log (.ioremap (reloc_offset &&& not32 (PAGE_SIZE - 1))) else d4
                let last1 := if remap then reloc_offset else last
                let reloc_val := ((d5.objs t).gtt_offset + reloc.delta) % U32
                let d6 := d5.log (.reloc_write o reloc_offset reloc_val)
                if e.copy_to_user_ret ≠ 0 then
                  reloc_fail o e.copy_to_user_ret (drm_gem_object_unreference t d6)
                else
                  relocate es file o (index + 1) true last1 rest
                    (drm_gem_object_unreference t
                      (d6.log (.reloc_copy_out o index (d6.objs t).gtt_offset)))

/-- Source: `i915_gem_object_pin_and_relocate`; the result carries the exec
entry with `entry->offset` filled in once the buffer is pinned. -/
def i915_gem_object_pin_and_relocate (es : Nat → Env) (fuel : Nat) (file o : Nat)
    (entry : ExecObject) (d : Device) : Option (ExecObject × Outcome) :=
  match i915_gem_object_pin es fuel o (entry.alignment % U32) d with
  | none => none
  | some .bug => some (entry, .bug)
  | some (.ret code d1) =>
    if code ≠ 0 then some (entry, .ret code d1)
    else
      some ({ entry with offset := (d1.objs o).gtt_offset },
        relocate es file o 0 false 0xFFFFFFFF entry.relocs d1)

/-- Source: the loop of `i915_dispatch_gem_execbuffer`; `n` turns are left and
`i` is the loop counter. Every turn consumes one environment answer. -/
def dispatch_loop (es : Nat → Env) (exec_start exec_len : Nat) (nbox : Int) :
    Nat → Nat → Device → Outcome
  | 0, _, d => .ret 0 d
  | n + 1, i, d =>
    let e := es d.tick
    let d1 := if (i : Int) < nbox then d.tock.log (.emit_box i) else d.tock
    if (i : Int) < nbox ∧ e.emit_box_ret ≠ 0 then .ret e.emit_box_ret d1
    else
      let d2 :=
        if e.is_i830_or_845g then
          d1.out_ring [e.MI_BATCH_BUFFER, exec_start ||| e.MI_BATCH_NON_SECURE,
            (exec_start + exec_len + U32 - 4) % U32, 0]
        else if e.is_i965g then
          d1.out_ring [e.MI_BATCH_BUFFER_START ||| (2 <<< 6) ||| e.MI_BATCH_NON_SECURE_I965,
            exec_start]
        else
          d1.out_ring [e.MI_BATCH_BUFFER_START ||| (2 <<< 6),
            exec_start ||| e.MI_BATCH_NON_SECURE]
      dispatch_loop es exec_start exec_len nbox n (i + 1) d2

/-- Source: `i915_dispatch_gem_execbuffer`; `nbox` and `count` are C `int`s. -/
def i915_dispatch_gem_execbuffer (es : Nat → Env) (exec : ExecBuffer) (exec_offset : Nat)
    (d : Device) : Outcome :=
  let nbox : Int := to_int32 exec.num_cliprects
  let exec_start := (exec_offset % U32 + exec.batch_start_offset % U32) % U32
  let exec_len := exec.batch_len % U32
  if (exec_start ||| exec_len) &&& 0x7 ≠ 0 then .ret (-EINVAL) d
  else if exec_start = 0 then .ret (-EINVAL) d
  else
    let count : Int := if nbox ≠ 0 then nbox else 1
    dispatch_loop es exec_start exec_len nbox count.toNat 0 d

/-- Source: `i915_retire_commands`; the result is the flushed domains and the
state. -/
def i915_retire_commands (e : Env) (d : Device) : Nat × Device :=
  let flush_domains := if e.is_i965g then 0 ||| I915_GEM_DOMAIN_SAMPLER else 0
  (flush_domains, d.out_ring [e.CMD_MI_FLUSH ||| e.MI_NO_WRITE_FLUSH, 0])

/-- How the first loop of `i915_gem_execbuffer` ends. -/
inductive PinLoop where
  /-- Every buffer is looked up, pinned and relocated: the object list and the
  exec list with its offsets. -/
  | done (objects : List Nat) (entries : List ExecObject) (d : Device) : PinLoop
  /-- The loop jumped to `err` with `ret = code`: the objects counted by `pinned`
  and the objects looked up so far. -/
  | failed (code : Int) (pinned : List Nat) (looked_up : List Nat) (d : Device) : PinLoop
  /-- A `BUG_ON` fired. -/
  | bug : PinLoop

/-- Source: the first loop of `i915_gem_execbuffer` ("Look up object handles and
perform the relocations"); `objects` and `entries` are what the turns so far
have put into `object_list` and `exec_list`. -/
def exec_pin_loop (es : Nat → Env) (fuel : Nat) (file : Nat) :
    List ExecObject → List Nat → List ExecObject → Device → Option PinLoop
  | [], objects, entries, d => some (.done objects entries d)
  | entry :: rest, objects, entries, d =>
    match drm_gem_object_lookup file entry.handle d with
    | none => some (.failed (-EINVAL) objects objects d)
    | some (o, d1) =>
      let d2 := d1.update_obj o (fun x =>
        { x with pending_read_domains := 0, pending_write_domain := 0 })
      match i915_gem_object_pin_and_relocate es fuel file o entry d2 with
      | none => none
      | some (_, .bug) => some .bug
      | some (entry1, .ret code d3) =>
        if code ≠ 0 then some (.failed code objects (objects ++ [o]) d3)
        else exec_pin_loop es fuel file rest (objects ++ [o]) (entries ++ [entry1]) d3

/-- Source: the second loop of `i915_gem_execbuffer`: the pending domains of
every buffer are committed. A nonzero code is the `ret` with which the loop
jumps to `err`. -/
def exec_set_domains (es : Nat → Env) : List Nat → Device → Outcome
  | [], d => .ret 0 d
  | o :: rest, d =>
    if (d.objs o).gtt_space = none then .ret (-ENOMEM) d
    else
      match i915_gem_object_set_domain (es d.tick) o (d.objs o).pending_read_domains
          (d.objs o).pending_write_domain d.tock with
      | .bug => .bug
      | .ret code d1 =>
        if code ≠ 0 then .ret code d1
        else exec_set_domains es rest d1

/-- Source: the third loop of `i915_gem_execbuffer`: every buffer moves to the
active list under the new fence. -/
def exec_move_to_active (seqno : Nat) : List Nat → Device → Device
  | [], d => d
  | o :: rest, d =>
    exec_move_to_active seqno rest
      ((i915_gem_object_move_to_active o d).update_obj o
        (fun x => { x with last_rendering_seqno := seqno }))

/-- The unpin loop at the label `err` of `i915_gem_execbuffer`; `none` when a
`BUG_ON` of `i915_gem_object_unpin` fires. -/
def unpin_all : List Nat → Device → Option Device
  | [], d => some d
  | o :: rest, d =>
    match i915_gem_object_unpin o d with
    | .bug => none
    | .ret _ d1 => unpin_all rest d1

/-- The unreference loop at the label `err` of `i915_gem_execbuffer`. -/
def unreference_all : List Nat → Device → Device
  | [], d => d
  | o :: rest, d => unreference_all rest (drm_gem_object_unreference o d)

/-- Source: `i915_gem_execbuffer` from the label `err` on: the pinned buffers
are unpinned, the looked-up objects released, and `ret` is returned. -/
def exec_cleanup (code : Int) (pinned looked_up : List Nat) (d : Device) : Outcome :=
  match unpin_all pinned d with
  | none => .bug
  | some d1 => .ret code (unreference_all looked_up d1)

/-- Source: `i915_gem_execbuffer` between the first loop and the label `err`:
the batch buffer gets its pending domains, the domains are committed, the batch
is dispatched, the fence is emitted and the buffers become active. The result
is `ret` and the state with which the code arrives at `err`. An empty object
list makes `object_list[args->buffer_count - 1]` an access outside the array,
which is the outcome `bug`. -/
def exec_submit (es : Nat → Env) (file : Nat) (args : ExecBuffer) (objects : List Nat)
    (entries : List ExecObject) (d : Device) : Outcome :=
  match objects.getLast?, entries.getLast? with
  | some batch_obj, some batch_entry =>
    let d1 := d.update_obj batch_obj (fun x =>
      { x with pending_read_domains := I915_GEM_DOMAIN_COMMAND, pending_write_domain := 0 })
    match exec_set_domains es objects d1 with
    | .bug => .bug
    | .ret code d2 =>
      if code ≠ 0 then .ret code d2
      else
        let r := i915_gem_dev_set_domain (es d2.tick) d2.tock
        match i915_dispatch_gem_execbuffer es args batch_entry.offset r.2 with
        | .bug => .bug
        | .ret code3 d3 =>
          if code3 ≠ 0 then .ret code3 d3
          else
            let e := es d3.tick
            let c := i915_retire_commands e d3.tock
            let a := i915_add_request e (r.1 ||| c.1) c.2
            if a.1 = 0 then .bug
            else
              let d4 := { a.2 with last_gem_seqno := fun f =>
                if f = file then a.1 else a.2.last_gem_seqno f }
              let d5 := exec_move_to_active a.1 objects d4
              if e.copy_to_user_ret ≠ 0 then .ret e.copy_to_user_ret d5
              else .ret 0 (d5.log (.exec_copy_out (entries.map (fun x => x.offset))))
  | _, _ => .bug

/-- Source: `i915_gem_execbuffer`. -/
def i915_gem_execbuffer (es : Nat → Env) (fuel : Nat) (file : Nat) (args : ExecBuffer)
    (d : Device) : Option Outcome :=
  let e := es d.tick
  if e.calloc_ok = false then some (.ret (-ENOMEM) d.tock)
  else if e.copy_from_user_ret ≠ 0 then some (.ret e.copy_from_user_ret d.tock)
  else if d.suspended then some (.ret (-EBUSY) d.tock)
  else
    let d1 := { d.tock with invalidate_domains := 0, flush_domains := 0 }
    match exec_pin_loop es fuel file args.buffers [] [] d1 with
    | none => none
    | some .bug => some .bug
    | some (.failed code pinned looked_up d2) => some (exec_cleanup code pinned looked_up d2)
    | some (.done objects entries d2) =>
      match exec_submit es file args objects entries d2 with
      | .bug => some .bug
      | .ret code d3 => some (exec_cleanup code objects objects d3)

/-- The batch-start command that one turn of the loop of
`i915_dispatch_gem_execbuffer` writes to the ring: the `OUT_RING` sequence for
the chip. -/
def batch_start_command (e : Env) (exec_start exec_len : Nat) : List Nat :=
  if e.is_i830_or_845g then
    [e.MI_BATCH_BUFFER, exec_start ||| e.MI_BATCH_NON_SECURE,
      (exec_start + exec_len + U32 - 4) % U32, 0]
  else if e.is_i965g then
    [e.MI_BATCH_BUFFER_START ||| (2 <<< 6) ||| e.MI_BATCH_NON_SECURE_I965, exec_start]
  else
    [e.MI_BATCH_BUFFER_START ||| (2 <<< 6), exec_start ||| e.MI_BATCH_NON_SECURE]

/-! ## Set-up and object creation -/

/-- Modelled from the spec: `drm_memrange_init` (`drm_memrange.c`, not among the
sources) makes the range of `size` bytes at `start` one free region. -/
def drm_memrange_init (start size : Nat) : List (Nat × Nat) := [(start, size)]

/-- Source: `i915_gem_init_ioctl`; `gtt_start` and `gtt_end` are the 64-bit
fields of `struct drm_i915_gem_init` (`i915_drm.h`). -/
def i915_gem_init_ioctl (gtt_start gtt_end : Nat) (d : Device) : Outcome :=
  if gtt_start ≥ gtt_end ∨ gtt_start &&& (PAGE_SIZE - 1) ≠ 0 ∨
      gtt_end &&& (PAGE_SIZE - 1) ≠ 0 then .ret (-EINVAL) d
  else
    .ret 0 { d with
      gtt_free := drm_memrange_init gtt_start (gtt_end - gtt_start)
      gtt_total := (gtt_end - gtt_start) % U32 }

/-- Modelled from the spec: the kernel macro `roundup(x, y)`,
`((((x) + ((y) - 1)) / (y)) * (y))` (`kernel.h`, not among the sources), on
64-bit unsigned operands: the sum wraps modulo `2 ^ 64`. -/
def roundup_u64 (x y : Nat) : Nat := (x % 2 ^ 64 + (y - 1)) % 2 ^ 64 / y * y

/-- Source: `struct drm_i915_gem_create` (`i915_drm.h`). -/
structure CreateArgs where
  /-- Requested size, a 64-bit field; the size of the object on return. -/
  size : Nat
  /-- Handle of the new object on return. -/
  handle : Nat
deriving DecidableEq, Repr

/-- Modelled from the spec: `drm_gem_object_alloc` (`drm_gem.c`, not among the
sources) allocates a zeroed object of the size, held by one reference, and has
the driver initialise it (`i915_gem_init_object`); it returns nothing when
memory cannot be had or the initialisation fails. -/
def drm_gem_object_alloc (e : Env) (size : Nat) (d : Device) : Option (Nat × Device) :=
  if e.calloc_ok = false then none
  else
    let d1 := d.update_obj e.new_obj (fun _ =>
      { size := size, refcount := 1, read_domains := 0, write_domain := 0
        pending_read_domains := 0, pending_write_domain := 0, gtt_space := none
        gtt_offset := 0, page_list := false, agp_mem := false, active := false
        dirty := false, pin_count := 0, last_rendering_seqno := 0 })
    match i915_gem_init_object e e.new_obj d1 with
    | .bug => none
    | .ret code d2 => if code ≠ 0 then none else some (e.new_obj, d2)

/-- Modelled from the spec: `drm_gem_handle_create` (`drm_gem.c`, not among the
sources) enters the object into the handle table of the client under a new
handle, which holds a reference; on failure nothing changes. -/
def drm_gem_handle_create (e : Env) (file o : Nat) (d : Device) : Device :=
  if e.handle_create_ret ≠ 0 then d
  else
    { drm_gem_object_reference o d with
      handles := fun f h => if f = file ∧ h = e.new_handle then some o else d.handles f h }

/-- Modelled from the spec: `drm_gem_object_handle_unreference` (`drmP.h`, not
among the sources) gives up the reference with which the object was allocated;
the handle, when one was created, keeps its own. -/
def drm_gem_object_handle_unreference (o : Nat) (d : Device) : Device :=
  drm_gem_object_unreference o d

/-- Source: `i915_gem_create_ioctl`; the result is `ret`, the argument block as
the caller gets it back, and the state. -/
def i915_gem_create_ioctl (e : Env) (file : Nat) (args : CreateArgs) (d : Device) :
    Int × CreateArgs × Device :=
  let args1 : CreateArgs := { args with size := roundup_u64 args.size PAGE_SIZE }
  match drm_gem_object_alloc e args1.size d with
  | none => (-ENOMEM, args1, d)
  | some (o, d1) =>
    let d2 := drm_gem_handle_create e file o d1
    let d3 := drm_gem_object_handle_unreference o d2
    if e.handle_create_ret ≠ 0 then (e.handle_create_ret, args1, d3)
    else (0, { args1 with handle := e.new_handle }, d3)

/-! ## Idling the device -/

/-- Source: `i915_gem_evict_from_list`, called on `mm.inactive_list` (its only
caller passes that list); one unit of `fuel` per turn of the `while` loop. -/
def i915_gem_evict_from_list (es : Nat → Env) : Nat → Device → Option Outcome
  | 0, _ => none
  | fuel + 1, d =>
    match d.inactive_list with
    | [] => some (.ret 0 d)
    | o :: _ =>
      if (d.objs o).pin_count ≠ 0 then some (.ret (-EINVAL) d)
      else
        match i915_gem_object_unbind es o d with
        | .bug => some .bug
        | .ret code d1 =>
          if code ≠ 0 then some (.ret code d1)
          else i915_gem_evict_from_list es fuel d1

/-- Source: the `for (;;)` loop of `i915_gem_idle`: the status page is polled
until the fence `seqno` has passed or the page has stood still for more than
100 polls in all; `last` is `last_seqno`, `stuck` the counter of that name.
Every `msleep(10)` consumes one environment answer, which is the content of the
status page after the sleep. -/
def idle_poll (es : Nat → Env) (seqno : Nat) : Nat → Nat → Nat → Device → Option Device
  | 0, _, _, _ => none
  | fuel + 1, last, stuck, d =>
    if i915_seqno_passed (i915_get_gem_seqno d) seqno then some d
    else if last = i915_get_gem_seqno d ∧ stuck > 100 then some (d.log .hardware_wedged)
    else
      let stuck1 := if last = i915_get_gem_seqno d then stuck + 1 else stuck
      let d1 := { (d.log (.msleep 10)).tock with hws_seqno := (es d.tick).hws_after_wait }
      idle_poll es seqno fuel (i915_get_gem_seqno d) stuck1 d1

/-- Source: `i915_gem_idle`; `fuel` bounds the polls and the turns of the
eviction loop. The result of `i915_gem_evict_from_list` is not looked at. -/
def i915_gem_idle (es : Nat → Env) (fuel : Nat) (d : Device) : Option Outcome :=
  if d.suspended then some (.ret 0 d)
  else
    let d1 := ({ d with suspended := true }).log .kernel_lost_context
    let e := es d1.tick
    let d2 := i915_gem_flush e (not32 I915_GEM_DOMAIN_CPU) (not32 I915_GEM_DOMAIN_CPU) d1.tock
    let a := i915_add_request e (not32 I915_GEM_DOMAIN_CPU) d2
    if a.1 = 0 then some (.ret (-ENOMEM) a.2)
    else
      match idle_poll es a.1 fuel 0 0 { a.2 with waiting_gem_seqno := a.1 } with
      | none => none
      | some d4 =>
        let d5 := i915_gem_retire_requests { d4 with waiting_gem_seqno := 0 }
        if d5.active_list.isEmpty = false then some .bug
        else if d5.flushing_list.isEmpty = false then some .bug
        else if d5.request_list.isEmpty = false then some .bug
        else
          match i915_gem_evict_from_list es fuel d5 with
          | none => none
          | some .bug => some .bug
          | some (.ret _ d6) =>
            if d6.active_list.isEmpty = false then some .bug
            else if d6.flushing_list.isEmpty = false then some .bug
            else if d6.inactive_list.isEmpty = false then some .bug
            else if d6.request_list.isEmpty = false then some .bug
            else some (.ret 0 d6)

/-- Source: `i915_gem_cleanup_ringbuffer`; the function returns nothing, the
code of the outcome is 0. -/
def i915_gem_cleanup_ringbuffer (d : Device) : Outcome :=
  match d.ring_obj with
  | none => .ret 0 d
  | some o =>
    match i915_gem_object_unpin o (d.log .ioremapfree) with
    | .bug => .bug
    | .ret _ d1 => .ret 0 { drm_gem_object_unreference o d1 with ring_obj := none }

/-- Source: `i915_gem_leavevt_ioctl`. -/
def i915_gem_leavevt_ioctl (es : Nat → Env) (fuel : Nat) (d : Device) : Option Outcome :=
  match i915_gem_idle es fuel d with
  | none => none
  | some .bug => some .bug
  | some (.ret code d1) =>
    if code = 0 then
      match i915_gem_cleanup_ringbuffer d1 with
      | .bug => some .bug
      | .ret _ d2 => some (.ret 0 d2)
    else some (.ret 0 d1)

/-! ## Sequences of calls -/

/-- A mask with at most one bit set: zero, or a power of two below `2 ^ 32`. -/
def at_most_one_bit (x : Nat) : Prop := x = 0 ∨ ∃ k, k < 32 ∧ x = 2 ^ k

instance (x : Nat) : Decidable (at_most_one_bit x) :=
  inferInstanceAs (Decidable (x = 0 ∨ ∃ k, k < 32 ∧ x = 2 ^ k))

/-- The states after each call of a sequence of `i915_gem_object_set_domain`
calls on object `o`, every call with its own environment, read domains and
write domain; the sequence ends when a `BUG_ON` fires. -/
def set_domain_states (o : Nat) : List (Env × Nat × Nat) → Device → List Device
  | [], _ => []
  | c :: cs, d =>
    match i915_gem_object_set_domain c.1 o c.2.1 c.2.2 d with
    | .bug => []
    | .ret _ d1 => d1 :: set_domain_states o cs d1

/-- The fences returned by the successful calls (those whose allocation
succeeds) of a sequence of `i915_add_request` calls, in call order; each call
has its own environment and `flush_domains` argument. -/
def add_request_fences : List (Env × Nat) → Device → List Nat
  | [], _ => []
  | c :: cs, d =>
    let r := i915_add_request c.1 c.2 d
    if c.1.calloc_ok then r.1 :: add_request_fences cs r.2
    else add_request_fences cs r.2

/-- One call that moves objects between the lists or changes a pin count, from
the state it is given to the state it returns: `i915_gem_object_pin` and
`i915_gem_execbuffer` with any return code, `i915_gem_object_unpin`,
`i915_gem_object_move_to_active`, `i915_gem_retire_request`, and
`i915_gem_object_move_to_inactive` of an object that is pinned or has no write
domain outside the CPU domain. -/
inductive LruStep (es : Nat → Env) (fuel : Nat) : Device → Device → Prop where
  /-- A call of `i915_gem_object_pin` that returns. -/
  | pin (o alignment : Nat) (code : Int) (d d' : Device) :
    i915_gem_object_pin es fuel o alignment d = some (.ret code d') → LruStep es fuel d d'
  /-- A call of `i915_gem_object_unpin` that returns. -/
  | unpin (o : Nat) (code : Int) (d d' : Device) :
    i915_gem_object_unpin o d = .ret code d' → LruStep es fuel d d'
  /-- A call of `i915_gem_object_move_to_active`. -/
  | move_to_active (o : Nat) (d : Device) :
    LruStep es fuel d (i915_gem_object_move_to_active o d)
  /-- A call of `i915_gem_object_move_to_inactive` as the driver makes it. -/
  | move_to_inactive (o : Nat) (d : Device) :
    ((d.objs o).pin_count ≠ 0 ∨ (d.objs o).write_domain &&& not32 I915_GEM_DOMAIN_CPU = 0) →
    LruStep es fuel d (i915_gem_object_move_to_inactive o d)
  /-- A call of `i915_gem_retire_request`. -/
  | retire_request (request : Request) (d : Device) :
    LruStep es fuel d (i915_gem_retire_request request d)
  /-- A call of `i915_gem_execbuffer` that returns. -/
  | execbuffer (file : Nat) (args : ExecBuffer) (code : Int) (d d' : Device) :
    i915_gem_execbuffer es fuel file args d = some (.ret code d') → LruStep es fuel d d'

/-- The states that sequences of `LruStep` calls reach from the state `d`. -/
inductive LruReach (es : Nat → Env) (fuel : Nat) (d : Device) : Device → Prop where
  /-- No call. -/
  | start : LruReach es fuel d d
  /-- One more call. -/
  | step (d1 d2 : Device) : LruReach es fuel d d1 → LruStep es fuel d1 d2 →
    LruReach es fuel d d2

/-! ## Relations between states -/

/-- The state an outcome leaves behind, `dflt` when a `BUG_ON` fired. -/
def Outcome.state (r : Outcome) (dflt : Device) : Device :=
  match r with
  | .ret _ d => d
  | .bug => dflt

/-- What the fence and residency code (flush emission, request creation,
waiting, retiring, list moves) leaves alone: the device accumulators, and of
every object the read domains, the dirty flag, the page list, the binding and
the pin count; a write domain is kept or cleared. -/
def RetireFrame (d d' : Device) : Prop :=
  d'.invalidate_domains = d.invalidate_domains ∧
  d'.flush_domains = d.flush_domains ∧
  ∀ x : Nat,
    (d'.objs x).read_domains = (d.objs x).read_domains ∧
    (d'.objs x).dirty = (d.objs x).dirty ∧
    (d'.objs x).page_list = (d.objs x).page_list ∧
    (d'.objs x).gtt_space = (d.objs x).gtt_space ∧
    (d'.objs x).pin_count = (d.objs x).pin_count ∧
    ((d'.objs x).write_domain = (d.objs x).write_domain ∨ (d'.objs x).write_domain = 0)

/-- What a domain transition without rendering wait leaves alone: everything
but the accumulators, the trace, and the domains and dirty flag of object `o`. -/
def DomainFrame (o : Nat) (d d' : Device) : Prop :=
  d'.ring = d.ring ∧ d'.request_list = d.request_list ∧
  d'.next_gem_seqno = d.next_gem_seqno ∧ d'.waiting_gem_seqno = d.waiting_gem_seqno ∧
  d'.active_list = d.active_list ∧ d'.flushing_list = d.flushing_list ∧
  d'.inactive_list = d.inactive_list ∧ d'.hws_seqno = d.hws_seqno ∧
  d'.gtt_count = d.gtt_count ∧ d'.gtt_memory = d.gtt_memory ∧
  d'.pin_count = d.pin_count ∧ d'.pin_memory = d.pin_memory ∧
  (∀ x : Nat, x ≠ o → d'.objs x = d.objs x) ∧
  d'.objs o = { d.objs o with
    read_domains := (d'.objs o).read_domains
    write_domain := (d'.objs o).write_domain
    dirty := (d'.objs o).dirty }

/-- What the two loops of `i915_gem_retire_request` do to the active list and to
the fences of the objects: no fence changes, and entries only leave the list. -/
def ActiveShrinks (d d' : Device) : Prop :=
  (∀ x : Nat, (d'.objs x).last_rendering_seqno = (d.objs x).last_rendering_seqno) ∧
  d'.active_list.Sublist d.active_list

/-- The state `d` with the request queue replaced by `l`. -/
def set_requests (l : List Request) (d : Device) : Device :=
  { d with request_list := l }

/-- The property `P` holds of the code and state a call returns; a call that ends
in a `BUG_ON` returns nothing. -/
def Outcome.Holds (P : Int → Device → Prop) : Outcome → Prop
  | .ret code d => P code d
  | .bug => True

/-- The property `P` holds of the code and state a call returns, when the call
returns within its fuel. -/
def holds_opt (P : Int → Device → Prop) : Option Outcome → Prop
  | some r => r.Holds P
  | none => True

/-- Every handle resolves to the object it resolved to, and every object has
the pin count it had. -/
def Kept (d d' : Device) : Prop :=
  d'.handles = d.handles ∧ ∀ x : Nat, (d'.objs x).pin_count = (d.objs x).pin_count

/-- Every handle resolves to the object it resolved to, and the pin count of
every object `x` has grown by `k x`. -/
def PinShift (k : Nat → Int) (d d' : Device) : Prop :=
  d'.handles = d.handles ∧ ∀ x : Nat, (d'.objs x).pin_count = (d.objs x).pin_count + k x

/-- One pin of object `o`: 1 at `o`, 0 elsewhere. -/
def pin_delta (o : Nat) (x : Nat) : Int := if x = o then 1 else 0

/-- What looking up, pinning, evicting, relocating and unpinning do to the
committed domains of an object: the read domains are kept or become CPU (the
object was evicted), the write domain is kept, cleared, or becomes CPU. -/
def DomainsSettle (d d' : Device) : Prop :=
  ∀ x : Nat,
    ((d'.objs x).read_domains = (d.objs x).read_domains ∨
      (d'.objs x).read_domains = I915_GEM_DOMAIN_CPU) ∧
    ((d'.objs x).write_domain = (d.objs x).write_domain ∨ (d'.objs x).write_domain = 0 ∨
      (d'.objs x).write_domain = I915_GEM_DOMAIN_CPU)

/-- What the cleanup of a submission leaves alone once the buffers are active:
the three lists, the request queue, the fences of the clients, and of every
object the active flag and the fence. -/
def ActiveFrame (d d' : Device) : Prop :=
  d'.active_list = d.active_list ∧ d'.flushing_list = d.flushing_list ∧
  d'.inactive_list = d.inactive_list ∧ d'.request_list = d.request_list ∧
  d'.last_gem_seqno = d.last_gem_seqno ∧
  ∀ x : Nat, (d'.objs x).active = (d.objs x).active ∧
    (d'.objs x).last_rendering_seqno = (d.objs x).last_rendering_seqno

/-- The position of the first request with fence `s` in the queue `q`; the
length of the queue when there is none. -/
def seqno_rank : List Request → Nat → Nat
  | [], _ => 0
  | r :: rs, s => if r.seqno = s then 0 else seqno_rank rs s + 1

/-- The active list is in the order of the request queue: an object never
stands in front of an object whose fence is queued earlier. -/
def ActiveInQueueOrder (d : Device) : Prop :=
  d.active_list.Pairwise (fun a b =>
    seqno_rank d.request_list (d.objs a).last_rendering_seqno ≤
      seqno_rank d.request_list (d.objs b).last_rendering_seqno)

/-- The fields of an object that flushing, waiting, retiring, domain
transitions and pin counting leave alone: the size, the pending domains, the
binding with its offset, the page list and the AGP memory. -/
structure ObjKept (a b : GemObject) : Prop where
  /-- The size. -/
  size : b.size = a.size
  /-- The pending read domains. -/
  pending_read_domains : b.pending_read_domains = a.pending_read_domains
  /-- The pending write domain. -/
  pending_write_domain : b.pending_write_domain = a.pending_write_domain
  /-- The aperture block. -/
  gtt_space : b.gtt_space = a.gtt_space
  /-- The aperture offset. -/
  gtt_offset : b.gtt_offset = a.gtt_offset
  /-- The page list. -/
  page_list : b.page_list = a.page_list
  /-- The AGP memory. -/
  agp_mem : b.agp_mem = a.agp_mem

/-- What flushing, waiting, retiring, domain transitions and pin counting leave
alone: the free pool of the allocator, the aperture counters, the handles, and
of every object the fields of `ObjKept`. -/
structure WaitFrame (d d' : Device) : Prop where
  /-- The free pool of the allocator. -/
  gtt_free : d'.gtt_free = d.gtt_free
  /-- The counter `gtt_count`. -/
  gtt_count : d'.gtt_count = d.gtt_count
  /-- The counter `gtt_memory`. -/
  gtt_memory : d'.gtt_memory = d.gtt_memory
  /-- The handle tables. -/
  handles : d'.handles = d.handles
  /-- The kept fields of every object. -/
  objs : ∀ x : Nat, ObjKept (d.objs x) (d'.objs x)

/-- What the relocations `relocs` of client `file` can have done to the pending
write domain of an object: a value is kept, or it was 0 and is now the write
domain of a relocation of the list whose target handle names the object. -/
def PendingWriteSettles (file : Nat) (relocs : List Reloc) (d d' : Device) : Prop :=
  ∀ x : Nat,
    (d'.objs x).pending_write_domain = (d.objs x).pending_write_domain ∨
    ((d.objs x).pending_write_domain = 0 ∧
      ∃ r ∈ relocs, d.handles file r.target_handle = some x ∧
        (d'.objs x).pending_write_domain = r.write_domain)

/-- What retiring requests leaves alone of what a client observes: the
collaborator trace and the fence registers of the clients. -/
structure ClientFrame (d d' : Device) : Prop where
  /-- The collaborator trace. -/
  trace : d'.trace = d.trace
  /-- The registers `mm.last_gem_seqno`. -/
  last_gem_seqno : d'.last_gem_seqno = d.last_gem_seqno
  /-- The registers `mm.last_gem_throttle_seqno`. -/
  last_gem_throttle_seqno : d'.last_gem_throttle_seqno = d.last_gem_throttle_seqno

/-- Every pinned object is bound: `pin_count > 0` implies that `gtt_space` is
not NULL. -/
def PinnedBound (d : Device) : Prop :=
  ∀ x : Nat, 0 < (d.objs x).pin_count → (d.objs x).gtt_space ≠ none

/-- No pin count is negative. -/
def NonNegPins (d : Device) : Prop := ∀ x : Nat, 0 ≤ (d.objs x).pin_count

/-- What a step keeps up, the second and third part under the condition `c`:
the throttle registers of the clients are as they were; an entry of the
inactive list that `i915_verify_inactive` reports afterwards was on the list
and was reported before; an object that is pinned and unbound afterwards was
pinned and unbound before. -/
structure Upkeep (c : Prop) (d d' : Device) : Prop where
  /-- The registers `mm.last_gem_throttle_seqno`. -/
  throttle : d'.last_gem_throttle_seqno = d.last_gem_throttle_seqno
  /-- No new report of `i915_verify_inactive`. -/
  inactive : c → ∀ x : Nat, x ∈ d'.inactive_list → verify_inactive_fails (d'.objs x) = true →
    x ∈ d.inactive_list ∧ verify_inactive_fails (d.objs x) = true
  /-- No new pinned object without binding. -/
  bound : c → ∀ x : Nat, 0 < (d'.objs x).pin_count → (d'.objs x).gtt_space = none →
    0 < (d.objs x).pin_count ∧ (d.objs x).gtt_space = none

/-- A step that touches the binding of object `o` only: the throttle registers,
the pin counts and what `i915_verify_inactive` looks at are as they were, no
object joins the inactive list, and the binding of every other object is as it
was. -/
structure BindOnly (o : Nat) (d d' : Device) : Prop where
  /-- The registers `mm.last_gem_throttle_seqno`. -/
  throttle : d'.last_gem_throttle_seqno = d.last_gem_throttle_seqno
  /-- The inactive list does not grow. -/
  inactive : ∀ x : Nat, x ∈ d'.inactive_list → x ∈ d.inactive_list
  /-- The pin counts. -/
  pins : ∀ x : Nat, (d'.objs x).pin_count = (d.objs x).pin_count
  /-- What `i915_verify_inactive` looks at. -/
  fails : ∀ x : Nat, verify_inactive_fails (d'.objs x) = verify_inactive_fails (d.objs x)
  /-- The binding of the other objects. -/
  others : ∀ x : Nat, x ≠ o → (d'.objs x).gtt_space = (d.objs x).gtt_space

/-- The fence of every object on the active list is the fence of a request in
the queue. -/
def ActiveQueued (d : Device) : Prop :=
  ∀ a ∈ d.active_list, ∃ r ∈ d.request_list, r.seqno = (d.objs a).last_rendering_seqno

/-- An object has one list node, `obj_priv->list`: it is on at most one of the
three lists, and at most once. -/
def OneList (d : Device) : Prop :=
  (d.active_list ++ d.flushing_list ++ d.inactive_list).Nodup

/-! ## Concrete states -/

/-- An environment in which every allocation succeeds and a sleep ends with the
status page at fence 2, with sample command encodings. -/
def sample_env : Env :=
  { CMD_MI_FLUSH := 0x02000000
    MI_NO_WRITE_FLUSH := 4
    MI_READ_FLUSH := 1
    MI_EXE_FLUSH := 2
    CMD_STORE_DWORD_IDX := 0x10800001
    I915_GEM_HWS_INDEX := 0x10
    STORE_DWORD_INDEX_SHIFT := 2
    GFX_OP_USER_INTERRUPT := 0x01000000
    is_i965g := false
    calloc_ok := true
    jiffies := 0
    wait_ret := 0
    hws_after_wait := 2
    getpage_ret := 0
    agp_bind_ok := true
    copy_from_user_ret := 0
    copy_to_user_ret := 0
    ioremap_ok := true
    emit_box_ret := 0
    is_i830_or_845g := false
    MI_BATCH_BUFFER := 0x18000001
    MI_BATCH_BUFFER_START := 0x18800000
    MI_BATCH_NON_SECURE := 1
    MI_BATCH_NON_SECURE_I965 := 0x100
    new_obj := 3
    handle_create_ret := 0
    new_handle := 4 }

/-- An unbound, idle object as `i915_gem_init_object` leaves it, held by one
reference. -/
def sample_obj : GemObject :=
  { size := 4096
    refcount := 1
    read_domains := I915_GEM_DOMAIN_CPU
    write_domain := I915_GEM_DOMAIN_CPU
    pending_read_domains := 0
    pending_write_domain := 0
    gtt_space := none
    gtt_offset := 0
    page_list := false
    agp_mem := false
    active := false
    dirty := false
    pin_count := 0
    last_rendering_seqno := 0 }

/-- A device with empty lists, an empty ring and the fence counter at 1. -/
def sample_dev : Device :=
  { objs := fun _ => sample_obj
    active_list := []
    flushing_list := []
    inactive_list := []
    request_list := []
    next_gem_seqno := 1
    waiting_gem_seqno := 0
    invalidate_domains := 0
    flush_domains := 0
    ring := []
    hws_seqno := 0
    gtt_count := 0
    gtt_memory := 0
    pin_count := 0
    pin_memory := 0
    trace := []
    suspended := false
    gtt_free := []
    handles := fun _ _ => none
    last_gem_seqno := fun _ => 0
    last_gem_throttle_seqno := fun _ => 0
    gtt_total := 0
    ring_obj := none
    tick := 0 }

/-- The device as a submission that renders into object 0 leaves it: the object
is bound, in state (RENDER, RENDER), active under fence 1, and request 1 is
pending; the hardware has completed nothing yet. -/
def render_dev : Device :=
  { sample_dev with
    objs := fun i =>
      if i = 0 then
        { sample_obj with
          refcount := 2
          read_domains := I915_GEM_DOMAIN_RENDER
          write_domain := I915_GEM_DOMAIN_RENDER
          gtt_space := some 0
          page_list := true
          agp_mem := true
          active := true
          dirty := true
          last_rendering_seqno := 1 }
      else sample_obj
    active_list := [0]
    request_list := [{ seqno := 1, emitted_jiffies := 0, flush_domains := 0 }]
    next_gem_seqno := 2
    gtt_count := 1
    gtt_memory := 4096 }

/-- The answers of `sample_env` at every step. -/
def sample_es : Nat → Env := fun _ => sample_env

/-- A device after initialisation with an aperture of two pages: nothing is
bound, every list is empty, and client 0 holds the handles 1, 2 and 3 of the
objects 0, 1 and 2; object 2 is two pages long, the others one page. -/
def aperture_dev : Device :=
  { sample_dev with
    objs := fun i => if i = 2 then { sample_obj with size := 8192 } else sample_obj
    gtt_free := [(0, 8192)]
    handles := fun f h => if f = 0 ∧ 1 ≤ h ∧ h ≤ 3 then some (h - 1) else none }

/-- A submission of client 0 with two buffers: handle 1, and the batch buffer
handle 2, which has one relocation that points at handle 1 for rendering and
whose presumed offset is not the offset the target gets. -/
def sample_exec : ExecBuffer :=
  { buffers :=
      [{ handle := 1, relocs := [], alignment := 0, offset := 0 },
       { handle := 2
         relocs := [{ target_handle := 1, delta := 16, offset := 8, presumed_offset := 12345
                      read_domains := I915_GEM_DOMAIN_RENDER
                      write_domain := I915_GEM_DOMAIN_RENDER }]
         alignment := 0
         offset := 0 }]
    batch_start_offset := 0
    batch_len := 64
    DR1 := 0
    DR4 := 0
    num_cliprects := 0 }

/-- The submission `sample_exec` with a second relocation in the batch buffer
whose target handle 9 does not exist. -/
def failing_exec : ExecBuffer :=
  { sample_exec with
    buffers :=
      [{ handle := 1, relocs := [], alignment := 0, offset := 0 },
       { handle := 2
         relocs := [{ target_handle := 1, delta := 16, offset := 8, presumed_offset := 12345
                      read_domains := I915_GEM_DOMAIN_RENDER
                      write_domain := I915_GEM_DOMAIN_RENDER },
                    { target_handle := 9, delta := 0, offset := 16, presumed_offset := 0
                      read_domains := I915_GEM_DOMAIN_RENDER
                      write_domain := 0 }]
         alignment := 0
         offset := 0 }] }

/-- A dispatch request without clip rectangles for a batch of length 0. -/
def empty_batch_exec : ExecBuffer :=
  { buffers := [], batch_start_offset := 0, batch_len := 0, DR1 := 0, DR4 := 0
    num_cliprects := 0 }

/-- A dispatch request for a batch of 64 bytes whose `num_cliprects` field holds
`2 ^ 31`. -/
def negative_box_exec : ExecBuffer :=
  { buffers := [], batch_start_offset := 0, batch_len := 64, DR1 := 0, DR4 := 0
    num_cliprects := 2 ^ 31 }

/-- A dispatch request for a batch of 64 bytes with three clip rectangles. -/
def three_box_exec : ExecBuffer :=
  { buffers := [], batch_start_offset := 0, batch_len := 64, DR1 := 0, DR4 := 0
    num_cliprects := 3 }

/-- A device on which client 0 holds the handles 1 and 2 of the objects 0 and
1; object 0 is bound at offset 0 and idle, object 1 has size 0 (what
`roundup(0, PAGE_SIZE)` gives a request for 0 bytes), is bound at offset 4096
and pinned once. -/
def zero_size_dev : Device :=
  { sample_dev with
    objs := fun i =>
      if i = 0 then
        { sample_obj with gtt_space := some 0, page_list := true, agp_mem := true }
      else if i = 1 then
        { sample_obj with
          size := 0, gtt_space := some 4096, gtt_offset := 4096, page_list := true
          agp_mem := true, pin_count := 1 }
      else sample_obj
    inactive_list := [0]
    gtt_count := 2
    gtt_memory := 4096
    pin_count := 1
    handles := fun f h => if f = 0 ∧ 1 ≤ h ∧ h ≤ 2 then some (h - 1) else none }

/-- The device `zero_size_dev` with an object 1 of one page. -/
def one_page_dev : Device :=
  { zero_size_dev with
    objs := fun i =>
      if i = 1 then { zero_size_dev.objs 1 with size := 4096 } else zero_size_dev.objs i
    gtt_memory := 8192
    pin_memory := 4096 }

/-- A relocation at byte 0 of the referencing buffer that points at handle 1
and presumes it at address 12345. -/
def sample_reloc : Reloc :=
  { target_handle := 1, delta := 16, offset := 0, presumed_offset := 12345
    read_domains := I915_GEM_DOMAIN_RENDER, write_domain := 0 }

/-- A device with empty lists whose hardware stands at sequence number 2 while
the next fence to hand out is 3: with a status page that stays at 2, that
fence never completes. -/
def wedged_dev : Device :=
  { sample_dev with hws_seqno := 2, next_gem_seqno := 3 }

/-- A submission of client 0 with the batch buffer handle 2 alone, which has one
relocation that points at handle 1, asks for no write domain, and presumes the
target at offset 0. -/
def stale_exec : ExecBuffer :=
  { buffers :=
      [{ handle := 2
         relocs := [{ target_handle := 1, delta := 16, offset := 8, presumed_offset := 0
                      read_domains := I915_GEM_DOMAIN_RENDER
                      write_domain := 0 }]
         alignment := 0
         offset := 0 }]
    batch_start_offset := 0
    batch_len := 64
    DR1 := 0
    DR4 := 0
    num_cliprects := 0 }

/-- The device `one_page_dev` in which object 0 carries a pending write
domain RENDER. -/
def conflict_dev : Device :=
  { one_page_dev with
    objs := fun i =>
      if i = 0 then { one_page_dev.objs 0 with pending_write_domain := I915_GEM_DOMAIN_RENDER }
      else one_page_dev.objs i }

/-- A relocation at byte 0 of the referencing buffer that points at handle 1
and asks for the write domain SAMPLER. -/
def conflict_reloc : Reloc :=
  { sample_reloc with
    read_domains := I915_GEM_DOMAIN_SAMPLER, write_domain := I915_GEM_DOMAIN_SAMPLER }

/-- A device on which handle 2 of client 0 names object 1, an unbound, unpinned
object of size 0, and the aperture page at 4096 is free; object 0 is bound at
offset 0. -/
def empty_object_dev : Device :=
  { zero_size_dev with
    objs := fun i => if i = 1 then { sample_obj with size := 0 } else zero_size_dev.objs i
    gtt_count := 1
    pin_count := 0
    gtt_free := [(4096, 4096)] }

/-- The exec entry of handle 2 with the relocation `sample_reloc`. -/
def empty_object_entry : ExecObject :=
  { handle := 2, relocs := [sample_reloc], alignment := 0, offset := 0 }

theorem to_int32_nonneg_iff (x : Nat) : to_int32 x ≥ 0 ↔ x % U32 < 0x80000000 := by
  unfold to_int32 U32
  split <;> omega

theorem seqno_passed_iff (a b : Nat) :
    i915_seqno_passed a b = true ↔ sub32 a b < 0x80000000 := by
  unfold i915_seqno_passed
  rw [decide_eq_true_iff, to_int32_nonneg_iff]
  have : sub32 a b % U32 = sub32 a b := by
    unfold sub32 U32
    omega
  rw [this]

/-- C1: for 32-bit `a` and `b`, `i915_seqno_passed a b` holds exactly when
`(a - b) mod 2^32` is below `2^31`; so `passed(x, x)` and `passed(x+1, x)` hold
and `passed(x, x+1)` fails for every 32-bit `x`, the successor wrapping. -/
theorem seqno_passed_wraparound (a b : Nat) (ha : a < U32) (hb : b < U32) :
    (i915_seqno_passed a b = true ↔ ((a : Int) - (b : Int)) % 4294967296 < 2147483648) ∧
    i915_seqno_passed a a = true ∧
    i915_seqno_passed ((a + 1) % U32) a = true ∧
    i915_seqno_passed a ((a + 1) % U32) = false := by
  refine ⟨?_, ?_, ?_, ?_⟩
  · rw [seqno_passed_iff]
    unfold sub32 U32 at *
    omega
  · rw [seqno_passed_iff]
    unfold sub32 U32 at *
    omega
  · rw [seqno_passed_iff]
    unfold sub32 U32 at *
    omega
  · rw [← Bool.not_eq_true, seqno_passed_iff]
    unfold sub32 U32 at *
    omega

/-- Witness for C1 at the wraparound boundary, `a = 0xFFFFFFFF` and `b = 1`. -/
theorem seqno_passed_wraparound_witness :
    (0xFFFFFFFF < U32 ∧ 1 < U32) ∧
    (i915_seqno_passed 0xFFFFFFFF 1 = true ↔
      (((0xFFFFFFFF : Nat) : Int) - ((1 : Nat) : Int)) % 4294967296 < 2147483648) ∧
    i915_seqno_passed 0xFFFFFFFF 0xFFFFFFFF = true ∧
    i915_seqno_passed ((0xFFFFFFFF + 1) % U32) 0xFFFFFFFF = true ∧
    i915_seqno_passed 0xFFFFFFFF ((0xFFFFFFFF + 1) % U32) = false :=
  ⟨⟨by decide, by decide⟩, seqno_passed_wraparound 0xFFFFFFFF 1 (by decide) (by decide)⟩

/-! ## Fence allocation -/

theorem add_request_ok_fst (e : Env) (fl : Nat) (d : Device) (h : e.calloc_ok = true) :
    (i915_add_request e fl d).1 = d.next_gem_seqno := by
  simp [i915_add_request, h]

theorem add_request_fail (e : Env) (fl : Nat) (d : Device) (h : e.calloc_ok = false) :
    i915_add_request e fl d = (0, d) := by
  simp [i915_add_request, h]

theorem add_request_ok_next (e : Env) (fl : Nat) (d : Device) (h : e.calloc_ok = true) :
    (i915_add_request e fl d).2.next_gem_seqno =
      if (d.next_gem_seqno + 1) % U32 = 0 then 1 else (d.next_gem_seqno + 1) % U32 := by
  unfold i915_add_request
  simp only [h, Bool.true_eq_false, if_false]
  have hlog : ∀ (c : Prop) [Decidable c] (x : Device),
      (if c then x.log Event.schedule_retire_work else x).next_gem_seqno = x.next_gem_seqno := by
    intro c _ x
    split <;> rfl
  rw [hlog]
  simp only [Device.out_ring]
  split
  · rename_i h0
    rw [h0]
    rfl
  · rfl

theorem add_request_next_ne_zero (e : Env) (fl : Nat) (d : Device)
    (h : d.next_gem_seqno ≠ 0) : (i915_add_request e fl d).2.next_gem_seqno ≠ 0 := by
  cases hc : e.calloc_ok
  · rw [add_request_fail e fl d hc]
    exact h
  · rw [add_request_ok_next e fl d hc]
    split
    · decide
    · assumption

theorem add_request_next_lt (e : Env) (fl : Nat) (d : Device)
    (h : d.next_gem_seqno < U32) : (i915_add_request e fl d).2.next_gem_seqno < U32 := by
  cases hc : e.calloc_ok
  · rw [add_request_fail e fl d hc]
    exact h
  · rw [add_request_ok_next e fl d hc]
    split
    · decide
    · exact Nat.mod_lt _ (by decide)

theorem add_request_fences_ne_zero (calls : List (Env × Nat)) :
    ∀ d : Device, d.next_gem_seqno ≠ 0 → ∀ s ∈ add_request_fences calls d, s ≠ 0 := by
  induction calls with
  | nil => intro d _ s hs; simp [add_request_fences] at hs
  | cons c cs ih =>
    intro d h s hs
    have hn := add_request_next_ne_zero c.1 c.2 d h
    simp only [add_request_fences] at hs
    cases hc : c.1.calloc_ok
    · rw [hc] at hs
      exact ih _ hn s (by simpa using hs)
    · rw [hc] at hs
      simp only [if_true, List.mem_cons] at hs
      rcases hs with hs | hs
      · rw [hs, add_request_ok_fst c.1 c.2 d hc]
        exact h
      · exact ih _ hn s hs

/-- C2: when `next_gem_seqno` is nonzero, a successful `i915_add_request`
returns a nonzero fence and leaves `next_gem_seqno` nonzero; so in every
sequence of calls that starts from a nonzero counter no successful call
returns 0. -/
theorem add_request_never_returns_zero (d : Device) (h : d.next_gem_seqno ≠ 0) :
    (∀ (e : Env) (fl : Nat), e.calloc_ok = true →
      (i915_add_request e fl d).1 ≠ 0 ∧ (i915_add_request e fl d).2.next_gem_seqno ≠ 0) ∧
    (∀ calls : List (Env × Nat), ∀ s ∈ add_request_fences calls d, s ≠ 0) := by
  refine ⟨fun e fl hc => ⟨?_, add_request_next_ne_zero e fl d h⟩,
    fun calls => add_request_fences_ne_zero calls d h⟩
  rw [add_request_ok_fst e fl d hc]
  exact h

/-- Witness for C2 with the counter at `0xFFFFFFFF`, where the successor wraps. -/
theorem add_request_never_returns_zero_witness :
    ({ sample_dev with next_gem_seqno := 0xFFFFFFFF } : Device).next_gem_seqno ≠ 0 ∧
    (∀ (e : Env) (fl : Nat), e.calloc_ok = true →
      (i915_add_request e fl { sample_dev with next_gem_seqno := 0xFFFFFFFF }).1 ≠ 0 ∧
      (i915_add_request e fl
        { sample_dev with next_gem_seqno := 0xFFFFFFFF }).2.next_gem_seqno ≠ 0) ∧
    (∀ calls : List (Env × Nat),
      ∀ s ∈ add_request_fences calls { sample_dev with next_gem_seqno := 0xFFFFFFFF },
        s ≠ 0) :=
  ⟨by decide, add_request_never_returns_zero _ (by decide)⟩

/-- The fence that follows `s`: the successor, skipping zero on wraparound. -/
theorem next_fence_after (s : Nat) (hlt : s < U32) :
    let s2 := if (s + 1) % U32 = 0 then 1 else (s + 1) % U32
    s2 = (if s = 0xFFFFFFFF then 1 else s + 1) ∧
    i915_seqno_passed s2 s = true ∧ i915_seqno_passed s s2 = false := by
  intro s2
  have hs2 : s2 = (if s = 0xFFFFFFFF then 1 else s + 1) := by
    show (if (s + 1) % U32 = 0 then 1 else (s + 1) % U32) = _
    unfold U32 at *
    split <;> split <;> omega
  refine ⟨hs2, ?_, ?_⟩
  · rw [seqno_passed_iff, hs2]
    unfold sub32 U32 at *
    split <;> omega
  · rw [← Bool.not_eq_true, seqno_passed_iff, hs2]
    unfold sub32 U32 at *
    split <;> omega

theorem add_request_fences_chain (calls : List (Env × Nat)) :
    ∀ d : Device, d.next_gem_seqno < U32 →
      List.Chain' (fun s1 s2 => s2 = (if s1 = 0xFFFFFFFF then 1 else s1 + 1) ∧
        i915_seqno_passed s2 s1 = true ∧ i915_seqno_passed s1 s2 = false)
        (add_request_fences calls d) ∧
      ∀ s ∈ (add_request_fences calls d).head?, s = d.next_gem_seqno := by
  induction calls with
  | nil => intro d _; simp [add_request_fences]
  | cons c cs ih =>
    intro d hlt
    have hl := add_request_next_lt c.1 c.2 d hlt
    have ih1 := ih _ hl
    simp only [add_request_fences]
    cases hc : c.1.calloc_ok
    · simp only [Bool.false_eq_true, if_false]
      rw [add_request_fail c.1 c.2 d hc] at ih1 ⊢
      exact ih1
    · simp only [if_true]
      refine ⟨?_, ?_⟩
      · rw [List.chain'_cons']
        refine ⟨?_, ih1.1⟩
        intro s hs
        rw [ih1.2 s hs, add_request_ok_next c.1 c.2 d hc, add_request_ok_fst c.1 c.2 d hc]
        exact next_fence_after d.next_gem_seqno hlt
      · intro s hs
        simp only [List.head?_cons, Option.mem_def, Option.some.injEq] at hs
        rw [← hs, add_request_ok_fst c.1 c.2 d hc]

/-- C3: in every sequence of `i915_add_request` calls on a 32-bit counter
(nonzero or not), any two consecutive successful calls return `s1` and then
`s2` with `s2 = s1 + 1`, or `s2 = 1` when `s1 = 0xFFFFFFFF`, and `s2` is
strictly after `s1`: `i915_seqno_passed s2 s1` holds and
`i915_seqno_passed s1 s2` does not. -/
theorem add_request_fences_strictly_increase (d : Device) (calls : List (Env × Nat))
    (hlt : d.next_gem_seqno < U32) :
    List.Chain' (fun s1 s2 => s2 = (if s1 = 0xFFFFFFFF then 1 else s1 + 1) ∧
      i915_seqno_passed s2 s1 = true ∧ i915_seqno_passed s1 s2 = false)
      (add_request_fences calls d) :=
  (add_request_fences_chain calls d hlt).1

/-- Witness for C3: two successful calls around a failed one, with the counter at
`0xFFFFFFFF`, return `0xFFFFFFFF` and then 1. -/
theorem add_request_fences_strictly_increase_witness :
    ({ sample_dev with next_gem_seqno := 0xFFFFFFFF } : Device).next_gem_seqno < U32 ∧
    add_request_fences
      [(sample_env, 0), ({ sample_env with calloc_ok := false }, 0), (sample_env, 2)]
      { sample_dev with next_gem_seqno := 0xFFFFFFFF } = [0xFFFFFFFF, 1] ∧
    List.Chain' (fun s1 s2 => s2 = (if s1 = 0xFFFFFFFF then 1 else s1 + 1) ∧
      i915_seqno_passed s2 s1 = true ∧ i915_seqno_passed s1 s2 = false)
      (add_request_fences
        [(sample_env, 0), ({ sample_env with calloc_ok := false }, 0), (sample_env, 2)]
        { sample_dev with next_gem_seqno := 0xFFFFFFFF }) :=
  ⟨by decide, by decide,
    add_request_fences_strictly_increase _ _ (by decide)⟩

/-! ## What waiting and retiring leave alone -/

theorem retire_frame_refl (d : Device) : RetireFrame d d :=
  ⟨rfl, rfl, fun _ => ⟨rfl, rfl, rfl, rfl, rfl, Or.inl rfl⟩⟩

theorem retire_frame_trans {a b c : Device} (h1 : RetireFrame a b) (h2 : RetireFrame b c) :
    RetireFrame a c := by
  obtain ⟨i1, f1, o1⟩ := h1
  obtain ⟨i2, f2, o2⟩ := h2
  refine ⟨i2.trans i1, f2.trans f1, fun x => ?_⟩
  obtain ⟨r1, d1, p1, g1, c1, w1⟩ := o1 x
  obtain ⟨r2, d2, p2, g2, c2, w2⟩ := o2 x
  refine ⟨r2.trans r1, d2.trans d1, p2.trans p1, g2.trans g1, c2.trans c1, ?_⟩
  rcases w2 with w2 | w2
  · rw [w2]
    exact w1
  · exact Or.inr w2

theorem frame_ite {c : Prop} [Decidable c] {d a b : Device} (ha : RetireFrame d a)
    (hb : RetireFrame d b) : RetireFrame d (if c then a else b) := by
  split
  · exact ha
  · exact hb

theorem frame_update_obj (d : Device) (o : Nat) (f : GemObject → GemObject)
    (hf : ∀ x : GemObject, (f x).read_domains = x.read_domains ∧ (f x).dirty = x.dirty ∧
      (f x).page_list = x.page_list ∧ (f x).gtt_space = x.gtt_space ∧
      (f x).pin_count = x.pin_count ∧
      ((f x).write_domain = x.write_domain ∨ (f x).write_domain = 0)) :
    RetireFrame d (d.update_obj o f) := by
  refine ⟨rfl, rfl, fun x => ?_⟩
  by_cases hx : x = o
  · have : (d.update_obj o f).objs x = f (d.objs x) := by
      simp [Device.update_obj, hx]
    rw [this]
    exact hf _
  · have : (d.update_obj o f).objs x = d.objs x := by
      simp [Device.update_obj, hx]
    rw [this]
    exact ⟨rfl, rfl, rfl, rfl, rfl, Or.inl rfl⟩

theorem frame_list_del_init (o : Nat) (d : Device) : RetireFrame d (list_del_init o d) :=
  ⟨rfl, rfl, fun _ => ⟨rfl, rfl, rfl, rfl, rfl, Or.inl rfl⟩⟩

theorem frame_list_move_tail (o : Nat) (l : Lru) (d : Device) :
    RetireFrame d (list_move_tail o l d) := by
  cases l <;> exact ⟨rfl, rfl, fun _ => ⟨rfl, rfl, rfl, rfl, rfl, Or.inl rfl⟩⟩

theorem frame_log (d : Device) (ev : Event) : RetireFrame d (d.log ev) :=
  ⟨rfl, rfl, fun _ => ⟨rfl, rfl, rfl, rfl, rfl, Or.inl rfl⟩⟩

theorem frame_out_ring (d : Device) (ws : List Nat) : RetireFrame d (d.out_ring ws) :=
  ⟨rfl, rfl, fun _ => ⟨rfl, rfl, rfl, rfl, rfl, Or.inl rfl⟩⟩

theorem frame_reference (o : Nat) (d : Device) : RetireFrame d (drm_gem_object_reference o d) :=
  frame_update_obj d o _ (fun _ => ⟨rfl, rfl, rfl, rfl, rfl, Or.inl rfl⟩)

theorem frame_unreference (o : Nat) (d : Device) :
    RetireFrame d (drm_gem_object_unreference o d) :=
  frame_update_obj d o _ (fun _ => ⟨rfl, rfl, rfl, rfl, rfl, Or.inl rfl⟩)

theorem frame_move_to_active (o : Nat) (d : Device) :
    RetireFrame d (i915_gem_object_move_to_active o d) := by
  unfold i915_gem_object_move_to_active
  have h1 : RetireFrame d
      (if (d.objs o).active then d
       else (drm_gem_object_reference o d).update_obj o (fun x => { x with active := true })) :=
    frame_ite (retire_frame_refl d) (retire_frame_trans (frame_reference o d)
      (frame_update_obj _ o _ (fun _ => ⟨rfl, rfl, rfl, rfl, rfl, Or.inl rfl⟩)))
  exact retire_frame_trans h1 (frame_list_move_tail _ _ _)

theorem frame_move_to_inactive (o : Nat) (d : Device) :
    RetireFrame d (i915_gem_object_move_to_inactive o d) := by
  unfold i915_gem_object_move_to_inactive
  have h1 : RetireFrame d
      (if (d.objs o).pin_count ≠ 0 then list_del_init o d else list_move_tail o .inactive d) :=
    frame_ite (frame_list_del_init o d) (frame_list_move_tail o _ d)
  refine retire_frame_trans h1 (frame_ite ?_ (retire_frame_refl _))
  refine retire_frame_trans ?_ (frame_unreference o _)
  exact frame_update_obj _ o _ (fun _ => ⟨rfl, rfl, rfl, rfl, rfl, Or.inl rfl⟩)

theorem frame_add_request (e : Env) (fl : Nat) (d : Device) :
    RetireFrame d (i915_add_request e fl d).2 := by
  cases hc : e.calloc_ok
  · rw [add_request_fail e fl d hc]
    exact retire_frame_refl d
  · unfold i915_add_request
    simp only [hc, Bool.true_eq_false, if_false]
    exact frame_ite (retire_frame_trans ⟨rfl, rfl, fun _ => ⟨rfl, rfl, rfl, rfl, rfl, Or.inl rfl⟩⟩
      (frame_log _ _)) ⟨rfl, rfl, fun _ => ⟨rfl, rfl, rfl, rfl, rfl, Or.inl rfl⟩⟩

theorem frame_flush (e : Env) (inv fl : Nat) (d : Device) :
    RetireFrame d (i915_gem_flush e inv fl d) := by
  unfold i915_gem_flush
  have h1 : RetireFrame d
      (if fl &&& I915_GEM_DOMAIN_CPU ≠ 0 then d.log .chipset_flush else d) :=
    frame_ite (frame_log d _) (retire_frame_refl d)
  exact frame_ite (retire_frame_trans h1 (frame_out_ring _ _)) h1

theorem frame_retire_flushing (request : Request) (l : List Nat) :
    ∀ d : Device, RetireFrame d (retire_flushing request l d) := by
  induction l with
  | nil => intro d; exact retire_frame_refl d
  | cons o rest ih =>
    intro d
    simp only [retire_flushing]
    refine retire_frame_trans ?_ (ih _)
    split
    · refine retire_frame_trans (frame_update_obj d o _ ?_) (frame_move_to_inactive o _)
      intro x
      exact ⟨rfl, rfl, rfl, rfl, rfl, Or.inr rfl⟩
    · exact retire_frame_refl d

theorem frame_retire_active (request : Request) (fuel : Nat) :
    ∀ d : Device, RetireFrame d (retire_active request fuel d) := by
  induction fuel with
  | zero => intro d; exact retire_frame_refl d
  | succ n ih =>
    intro d
    simp only [retire_active]
    split
    · exact retire_frame_refl d
    · split
      · exact retire_frame_refl d
      · split
        · exact retire_frame_trans (frame_list_move_tail _ _ d) (ih _)
        · exact retire_frame_trans (frame_move_to_inactive _ d) (ih _)

theorem frame_retire_request (request : Request) (d : Device) :
    RetireFrame d (i915_gem_retire_request request d) := by
  unfold i915_gem_retire_request
  have h1 : RetireFrame d
      (if request.flush_domains ≠ 0 then retire_flushing request d.flushing_list d else d) := by
    split
    · exact frame_retire_flushing _ _ d
    · exact retire_frame_refl d
  exact retire_frame_trans h1 (frame_retire_active _ _ _)

theorem frame_retire_requests_loop (seqno : Nat) (fuel : Nat) :
    ∀ d : Device, RetireFrame d (retire_requests_loop seqno fuel d) := by
  induction fuel with
  | zero => intro d; exact retire_frame_refl d
  | succ n ih =>
    intro d
    simp only [retire_requests_loop]
    split
    · exact retire_frame_refl d
    · rename_i request _ _
      split
      · have h2 : RetireFrame (i915_gem_retire_request request d)
            { i915_gem_retire_request request d with
              request_list := (i915_gem_retire_request request d).request_list.tail } :=
          ⟨rfl, rfl, fun _ => ⟨rfl, rfl, rfl, rfl, rfl, Or.inl rfl⟩⟩
        exact retire_frame_trans (frame_retire_request request d) (retire_frame_trans h2 (ih _))
      · exact retire_frame_refl d

theorem frame_retire_requests (d : Device) : RetireFrame d (i915_gem_retire_requests d) :=
  frame_retire_requests_loop _ _ d

theorem frame_wait_request_sleep (e : Env) (seqno : Nat) (d : Device) :
    RetireFrame d (wait_request_sleep e seqno d) :=
  ⟨rfl, rfl, fun _ => ⟨rfl, rfl, rfl, rfl, rfl, Or.inl rfl⟩⟩

theorem frame_wait_request (e : Env) (seqno : Nat) (d d' : Device) (code : Int)
    (h : i915_wait_request e seqno d = .ret code d') : RetireFrame d d' := by
  unfold i915_wait_request at h
  split at h
  · cases h
  · split at h
    · split at h
      · cases h
        exact retire_frame_trans (frame_wait_request_sleep e seqno d) (frame_retire_requests _)
      · cases h
        exact frame_wait_request_sleep e seqno d
    · cases h
      exact frame_retire_requests d

theorem frame_wait_rendering_flush (e : Env) (o : Nat) (d : Device) :
    RetireFrame d (wait_rendering_flush e o d) := by
  unfold wait_rendering_flush
  have h1 := frame_flush e 0 (d.objs o).write_domain d
  have h2 : RetireFrame (i915_gem_flush e 0 (d.objs o).write_domain d)
      ((i915_gem_flush e 0 (d.objs o).write_domain d).update_obj o
        (fun x => { x with write_domain := 0 })) :=
    frame_update_obj _ o _ (fun _ => ⟨rfl, rfl, rfl, rfl, rfl, Or.inr rfl⟩)
  have h3 := frame_move_to_active o ((i915_gem_flush e 0 (d.objs o).write_domain d).update_obj o
        (fun x => { x with write_domain := 0 }))
  have h4 := frame_add_request e (d.objs o).write_domain (i915_gem_object_move_to_active o
    ((i915_gem_flush e 0 (d.objs o).write_domain d).update_obj o
        (fun x => { x with write_domain := 0 })))
  refine retire_frame_trans (retire_frame_trans (retire_frame_trans (retire_frame_trans h1 h2) h3) h4) ?_
  exact frame_update_obj _ o _ (fun _ => ⟨rfl, rfl, rfl, rfl, rfl, Or.inl rfl⟩)

theorem frame_wait_rendering_wait (e : Env) (o : Nat) (d d' : Device) (code : Int)
    (h : wait_rendering_wait e o d = .ret code d') : RetireFrame d d' := by
  unfold wait_rendering_wait at h
  split at h
  · split at h
    · cases h
    · rename_i c1 d1 h1
      have h2 := frame_wait_request e _ d d1 c1 h1
      split at h
      · cases h
        exact h2
      · cases h
        exact h2
  · cases h
    exact retire_frame_refl d

theorem frame_wait_rendering (e : Env) (o : Nat) (d d' : Device) (code : Int)
    (h : i915_gem_object_wait_rendering e o d = .ret code d') : RetireFrame d d' := by
  unfold i915_gem_object_wait_rendering at h
  simp only [] at h
  split at h
  · split at h
    · cases h
    · exact retire_frame_trans (retire_frame_trans (frame_log d _)
        (frame_wait_rendering_flush e o _)) (frame_wait_rendering_wait e o _ d' code h)
  · exact retire_frame_trans (frame_log d _) (frame_wait_rendering_wait e o _ d' code h)

/-! ## Domain transitions -/

theorem or_eq_zero_iff (a b : Nat) : a ||| b = 0 ↔ a = 0 ∧ b = 0 := by
  constructor
  · intro h
    have hb : ∀ i, (a ||| b).testBit i = false := by
      intro i
      rw [h]
      exact Nat.zero_testBit i
    constructor
    · apply Nat.eq_of_testBit_eq
      intro i
      have := hb i
      rw [Nat.testBit_or, Bool.or_eq_false_iff] at this
      rw [this.1, Nat.zero_testBit]
    · apply Nat.eq_of_testBit_eq
      intro i
      have := hb i
      rw [Nat.testBit_or, Bool.or_eq_false_iff] at this
      rw [this.2, Nat.zero_testBit]
  · rintro ⟨rfl, rfl⟩
    rfl

theorem frame_clflush (o : Nat) (d : Device) : RetireFrame d (i915_gem_clflush_object o d) := by
  unfold i915_gem_clflush_object
  exact frame_ite (retire_frame_refl d) (frame_log d _)

/-- The state in which `i915_gem_object_set_domain` starts its flush
computation: the object is dirty when a write domain is requested. -/
theorem set_domain_dirty_state (o w : Nat) (d : Device) :
    let d1 := if w = 0 then d else d.update_obj o (fun x => { x with dirty := true })
    d1.invalidate_domains = d.invalidate_domains ∧ d1.flush_domains = d.flush_domains ∧
    (d1.objs o).write_domain = (d.objs o).write_domain ∧
    (d1.objs o).page_list = (d.objs o).page_list ∧
    (w ≠ 0 → (d1.objs o).dirty = true) := by
  intro d1
  by_cases hw : w = 0
  · have h1 : d1 = d := if_pos hw
    rw [h1]
    exact ⟨rfl, rfl, rfl, rfl, fun h => absurd hw h⟩
  · have h1 : d1 = d.update_obj o (fun x => { x with dirty := true }) := if_neg hw
    rw [h1]
    refine ⟨rfl, rfl, ?_, ?_, fun _ => ?_⟩ <;> simp [Device.update_obj]

/-- The commit step: what it writes. -/
theorem set_domain_commit_spec (o reads w inv fl : Nat) (d : Device) :
    ∃ d', set_domain_commit o reads w inv fl d = .ret 0 d' ∧
      d'.invalidate_domains = d.invalidate_domains ||| inv ∧
      d'.flush_domains = d.flush_domains ||| fl ∧
      (d'.objs o).read_domains = reads ∧
      (d'.objs o).write_domain = (if w ≠ 0 ∨ fl ≠ 0 then w else (d.objs o).write_domain) ∧
      (d'.objs o).dirty = (d.objs o).dirty ∧
      d'.trace = d.trace := by
  unfold set_domain_commit
  refine ⟨_, rfl, ?_⟩
  by_cases h : w ||| fl ≠ 0
  · have h' : w ≠ 0 ∨ fl ≠ 0 := by
      by_contra hc
      push_neg at hc
      exact h ((or_eq_zero_iff w fl).2 hc)
    rw [if_pos h, if_pos h']
    refine ⟨rfl, rfl, ?_, ?_, ?_, rfl⟩ <;> simp [Device.update_obj]
  · have h' : ¬ (w ≠ 0 ∨ fl ≠ 0) := by
      intro hc
      apply h
      intro h0
      rw [or_eq_zero_iff] at h0
      rcases hc with hc | hc
      · exact hc h0.1
      · exact hc h0.2
    rw [if_neg h, if_neg h']
    refine ⟨rfl, rfl, ?_, ?_, ?_, rfl⟩ <;> simp [Device.update_obj]

/-- How a call of `i915_gem_object_set_domain` that returns came about: either
the rendering wait was not needed and the commit ran on the start state (after
the CPU cache flush when CPU is among the computed domains), or the wait ran
and, if it succeeded, the commit followed it. -/
theorem set_domain_cases (e : Env) (o r w : Nat) (d d' : Device) (code : Int)
    (h : i915_gem_object_set_domain e o r w d = .ret code d') :
    let reads := set_domain_reads r w (d.objs o).read_domains
    let fl := set_domain_flush (d.objs o).write_domain reads
    let inv := set_domain_invalidate (d.objs o).read_domains (d.objs o).write_domain reads
    let d1 := if w = 0 then d else d.update_obj o (fun x => { x with dirty := true })
    (¬ (inv &&& I915_GEM_DOMAIN_CPU ≠ 0 ∧ fl &&& not32 I915_GEM_DOMAIN_CPU ≠ 0) ∧
      set_domain_commit o reads w inv fl
        (if (fl ||| inv) &&& I915_GEM_DOMAIN_CPU ≠ 0 then i915_gem_clflush_object o d1 else d1)
        = .ret code d') ∨
    ((inv &&& I915_GEM_DOMAIN_CPU ≠ 0 ∧ fl &&& not32 I915_GEM_DOMAIN_CPU ≠ 0) ∧
      ∃ d2, i915_gem_object_wait_rendering e o d1 = .ret code d2 ∧
        ((code ≠ 0 ∧ d' = d2) ∨
         (code = 0 ∧ set_domain_commit o reads w inv fl (i915_gem_clflush_object o d2)
            = .ret code d'))) := by
  intro reads fl inv d1
  unfold i915_gem_object_set_domain at h
  simp only [] at h
  by_cases hcpu : (fl ||| inv) &&& I915_GEM_DOMAIN_CPU ≠ 0
  · by_cases hw : inv &&& I915_GEM_DOMAIN_CPU ≠ 0 ∧ fl &&& not32 I915_GEM_DOMAIN_CPU ≠ 0
    · right
      refine ⟨hw, ?_⟩
      rw [if_pos hcpu, if_pos hw] at h
      cases hwr : i915_gem_object_wait_rendering e o d1 with
      | bug =>
        rw [hwr] at h
        cases h
      | ret c2 d2 =>
        rw [hwr] at h
        simp only [] at h
        by_cases hc : c2 ≠ 0
        · rw [if_pos hc] at h
          cases h
          exact ⟨_, rfl, Or.inl ⟨hc, rfl⟩⟩
        · rw [if_neg hc] at h
          have hc0 : c2 = 0 := not_not.mp hc
          have hcode : code = 0 := by
            obtain ⟨d3, h3, -⟩ := set_domain_commit_spec o reads w inv fl
              (i915_gem_clflush_object o d2)
            rw [h3] at h
            cases h
            rfl
          subst hcode
          subst hc0
          exact ⟨d2, rfl, Or.inr ⟨rfl, h⟩⟩
    · left
      rw [if_pos hcpu, if_neg hw] at h
      exact ⟨hw, by rw [if_pos hcpu]; exact h⟩
  · left
    rw [if_neg hcpu] at h
    refine ⟨?_, by rw [if_neg hcpu]; exact h⟩
    rintro ⟨h1, -⟩
    apply hcpu
    intro h0
    apply h1
    rw [Nat.and_comm, Nat.and_or_distrib_left, or_eq_zero_iff] at h0
    rw [Nat.and_comm]
    exact h0.2

/-- A successful `i915_gem_object_set_domain` is the commit step run on a state
that differs from the start state by the dirty flag and by what flushing,
waiting and retiring do; without the rendering wait, the object's write domain
is still the old one when the commit runs. -/
theorem set_domain_ok_frame (e : Env) (o r w : Nat) (d d' : Device)
    (h : i915_gem_object_set_domain e o r w d = .ret 0 d') :
    let reads := set_domain_reads r w (d.objs o).read_domains
    let fl := set_domain_flush (d.objs o).write_domain reads
    let inv := set_domain_invalidate (d.objs o).read_domains (d.objs o).write_domain reads
    let d1 := if w = 0 then d else d.update_obj o (fun x => { x with dirty := true })
    ∃ dm, RetireFrame d1 dm ∧ set_domain_commit o reads w inv fl dm = .ret 0 d' ∧
      (fl = 0 → (dm.objs o).write_domain = (d.objs o).write_domain) := by
  intro reads fl inv d1
  have hd1 := set_domain_dirty_state o w d
  rcases set_domain_cases e o r w d d' 0 h with ⟨-, hc⟩ | ⟨hw, d2, h2, hc⟩
  · refine ⟨_, frame_ite (frame_clflush o d1) (retire_frame_refl d1), hc, fun _ => ?_⟩
    have hf : RetireFrame d1 (if (fl ||| inv) &&& I915_GEM_DOMAIN_CPU ≠ 0 then
        i915_gem_clflush_object o d1 else d1) :=
      frame_ite (frame_clflush o d1) (retire_frame_refl d1)
    have hwd : ((if (fl ||| inv) &&& I915_GEM_DOMAIN_CPU ≠ 0 then
        i915_gem_clflush_object o d1 else d1).objs o).write_domain = (d1.objs o).write_domain := by
      split
      · unfold i915_gem_clflush_object
        split <;> rfl
      · rfl
    rw [hwd]
    exact hd1.2.2.1
  · rcases hc with ⟨hne, -⟩ | ⟨-, hc⟩
    · exact absurd rfl hne
    · refine ⟨_, retire_frame_trans (frame_wait_rendering e o d1 d2 0 h2) (frame_clflush o d2),
        hc, fun hfl => ?_⟩
      exfalso
      apply hw.2
      show fl &&& not32 I915_GEM_DOMAIN_CPU = 0
      rw [hfl]
      exact Nat.zero_and _

/-- C5: a successful `i915_gem_object_set_domain` ORs into the device
accumulators exactly the computed sets: with `new_reads = reads | old_reads`
for `write = 0` and `new_reads = reads` otherwise, `flush_domains` gains
`old_write` when `old_write` is nonzero and differs from `new_reads` (nothing
otherwise), and `invalidate_domains` gains `new_reads & ~old_write` (in that
same case only) together with `new_reads & ~old_reads`; bits already set in
the accumulators stay set. -/
theorem set_domain_accumulates (e : Env) (o r w : Nat) (d d' : Device)
    (h : i915_gem_object_set_domain e o r w d = .ret 0 d') :
    let old_reads := (d.objs o).read_domains
    let old_write := (d.objs o).write_domain
    let new_reads := if w = 0 then r ||| old_reads else r
    let flush := if old_write ≠ 0 ∧ old_write ≠ new_reads then old_write else 0
    let invalidate :=
      (if old_write ≠ 0 ∧ old_write ≠ new_reads then new_reads &&& not32 old_write else 0) |||
        (new_reads &&& not32 old_reads)
    d'.flush_domains = d.flush_domains ||| flush ∧
    d'.invalidate_domains = d.invalidate_domains ||| invalidate ∧
    (∀ i, d.flush_domains.testBit i = true → d'.flush_domains.testBit i = true) ∧
    (∀ i, d.invalidate_domains.testBit i = true → d'.invalidate_domains.testBit i = true) := by
  intro old_reads old_write new_reads flush invalidate
  obtain ⟨dm, hfr, hc, -⟩ := set_domain_ok_frame e o r w d d' h
  obtain ⟨d'', hc', hinv, hfl, -⟩ := set_domain_commit_spec o
    (set_domain_reads r w (d.objs o).read_domains) w
    (set_domain_invalidate (d.objs o).read_domains (d.objs o).write_domain
      (set_domain_reads r w (d.objs o).read_domains))
    (set_domain_flush (d.objs o).write_domain (set_domain_reads r w (d.objs o).read_domains)) dm
  rw [hc] at hc'
  cases hc'
  have hd1 := set_domain_dirty_state o w d
  have e1 : d'.flush_domains = d.flush_domains ||| flush := by
    rw [hfl, hfr.2.1, hd1.2.1]
    show _ ||| set_domain_flush old_write new_reads = _
    unfold set_domain_flush
    simp only [Nat.zero_or]
  have e2 : d'.invalidate_domains = d.invalidate_domains ||| invalidate := by
    rw [hinv, hfr.1, hd1.1]
    show _ ||| set_domain_invalidate old_reads old_write new_reads = _
    unfold set_domain_invalidate
    simp only [Nat.zero_or]
  refine ⟨e1, e2, fun i hi => ?_, fun i hi => ?_⟩
  · rw [e1, Nat.testBit_or, hi]
    rfl
  · rw [e2, Nat.testBit_or, hi]
    rfl

/-- Witness for C5 on the path that waits for rendering: object 0 of
`render_dev` goes from (RENDER, RENDER) to (CPU, CPU); RENDER is flushed and
CPU invalidated. -/
theorem set_domain_accumulates_witness :
    let d' := (i915_gem_object_set_domain sample_env 0 I915_GEM_DOMAIN_CPU I915_GEM_DOMAIN_CPU
      render_dev).state render_dev
    i915_gem_object_set_domain sample_env 0 I915_GEM_DOMAIN_CPU I915_GEM_DOMAIN_CPU render_dev
      = .ret 0 d' ∧
    d'.flush_domains = 2 ∧ d'.invalidate_domains = 1 ∧
    (let old_reads := (render_dev.objs 0).read_domains
     let old_write := (render_dev.objs 0).write_domain
     let new_reads := if I915_GEM_DOMAIN_CPU = 0 then I915_GEM_DOMAIN_CPU ||| old_reads
       else I915_GEM_DOMAIN_CPU
     let flush := if old_write ≠ 0 ∧ old_write ≠ new_reads then old_write else 0
     let invalidate :=
      (if old_write ≠ 0 ∧ old_write ≠ new_reads then new_reads &&& not32 old_write else 0) |||
        (new_reads &&& not32 old_reads)
     d'.flush_domains = render_dev.flush_domains ||| flush ∧
     d'.invalidate_domains = render_dev.invalidate_domains ||| invalidate ∧
     (∀ i, render_dev.flush_domains.testBit i = true → d'.flush_domains.testBit i = true) ∧
     (∀ i, render_dev.invalidate_domains.testBit i = true →
       d'.invalidate_domains.testBit i = true)) :=
  ⟨by rfl, by decide, by decide,
    set_domain_accumulates sample_env 0 I915_GEM_DOMAIN_CPU I915_GEM_DOMAIN_CPU render_dev _
      (by rfl)⟩

/-- C6: after a successful `i915_gem_object_set_domain(obj, reads, write)` the
object's `read_domains` is `reads | old read_domains` for `write = 0` and
`reads` otherwise; its `write_domain` is `write` when `write` is nonzero or the
computed flush set is nonzero, and is unchanged otherwise; and the object is
dirty whenever `write` is nonzero. -/
theorem set_domain_result_domains (e : Env) (o r w : Nat) (d d' : Device)
    (h : i915_gem_object_set_domain e o r w d = .ret 0 d') :
    let old_reads := (d.objs o).read_domains
    let old_write := (d.objs o).write_domain
    let new_reads := if w = 0 then r ||| old_reads else r
    let flush := if old_write ≠ 0 ∧ old_write ≠ new_reads then old_write else 0
    (d'.objs o).read_domains = new_reads ∧
    (d'.objs o).write_domain = (if w ≠ 0 ∨ flush ≠ 0 then w else old_write) ∧
    (w ≠ 0 → (d'.objs o).dirty = true) := by
  intro old_reads old_write new_reads flush
  obtain ⟨dm, hfr, hc, hkeep⟩ := set_domain_ok_frame e o r w d d' h
  obtain ⟨d'', hc', -, -, hrd, hwd, hdirty, -⟩ := set_domain_commit_spec o
    (set_domain_reads r w (d.objs o).read_domains) w
    (set_domain_invalidate (d.objs o).read_domains (d.objs o).write_domain
      (set_domain_reads r w (d.objs o).read_domains))
    (set_domain_flush (d.objs o).write_domain (set_domain_reads r w (d.objs o).read_domains)) dm
  rw [hc] at hc'
  cases hc'
  have hd1 := set_domain_dirty_state o w d
  have hflush : set_domain_flush (d.objs o).write_domain
      (set_domain_reads r w (d.objs o).read_domains) = flush := by
    show set_domain_flush old_write new_reads = _
    unfold set_domain_flush
    simp only [Nat.zero_or]
  refine ⟨hrd, ?_, fun hw => ?_⟩
  · rw [hwd, hflush]
    by_cases hcond : w ≠ 0 ∨ flush ≠ 0
    · rw [if_pos hcond, if_pos hcond]
    · rw [if_neg hcond, if_neg hcond]
      apply hkeep
      rw [hflush]
      by_contra hne
      exact hcond (Or.inr hne)
  · rw [hdirty, (hfr.2.2 o).2.1]
    exact hd1.2.2.2.2 hw

/-- Witness for C6 on the path that waits for rendering: object 0 of
`render_dev` is read by the CPU, `set_domain(obj, CPU, 0)`; the flush set is
RENDER, so the write domain becomes the requested 0 and the read domains
become CPU | RENDER. -/
theorem set_domain_result_domains_witness :
    let d' := (i915_gem_object_set_domain sample_env 0 I915_GEM_DOMAIN_CPU 0
      render_dev).state render_dev
    i915_gem_object_set_domain sample_env 0 I915_GEM_DOMAIN_CPU 0 render_dev = .ret 0 d' ∧
    (d'.objs 0).read_domains = 3 ∧ (d'.objs 0).write_domain = 0 ∧
    (let old_reads := (render_dev.objs 0).read_domains
     let old_write := (render_dev.objs 0).write_domain
     let new_reads := if (0 : Nat) = 0 then I915_GEM_DOMAIN_CPU ||| old_reads
       else I915_GEM_DOMAIN_CPU
     let flush := if old_write ≠ 0 ∧ old_write ≠ new_reads then old_write else 0
     (d'.objs 0).read_domains = new_reads ∧
     (d'.objs 0).write_domain = (if (0 : Nat) ≠ 0 ∨ flush ≠ 0 then 0 else old_write) ∧
     ((0 : Nat) ≠ 0 → (d'.objs 0).dirty = true)) :=
  ⟨by rfl, by decide, by decide,
    set_domain_result_domains sample_env 0 I915_GEM_DOMAIN_CPU 0 render_dev _ (by rfl)⟩

/-! ## Transitions without rendering wait -/

theorem domain_frame_refl (o : Nat) (d : Device) : DomainFrame o d d :=
  ⟨rfl, rfl, rfl, rfl, rfl, rfl, rfl, rfl, rfl, rfl, rfl, rfl, fun _ _ => rfl, rfl⟩

theorem domain_frame_trans {o : Nat} {a b c : Device} (h1 : DomainFrame o a b)
    (h2 : DomainFrame o b c) : DomainFrame o a c := by
  obtain ⟨a1, a2, a3, a4, a5, a6, a7, a8, a9, a10, a11, a12, a13, a14⟩ := h1
  obtain ⟨b1, b2, b3, b4, b5, b6, b7, b8, b9, b10, b11, b12, b13, b14⟩ := h2
  refine ⟨b1.trans a1, b2.trans a2, b3.trans a3, b4.trans a4, b5.trans a5, b6.trans a6,
    b7.trans a7, b8.trans a8, b9.trans a9, b10.trans a10, b11.trans a11, b12.trans a12,
    fun x hx => (b13 x hx).trans (a13 x hx), ?_⟩
  rw [b14, a14]

theorem domain_frame_update (o : Nat) (d : Device) (f : GemObject → GemObject)
    (hf : ∀ x : GemObject, f x = { x with read_domains := (f x).read_domains
                                          write_domain := (f x).write_domain
                                          dirty := (f x).dirty }) :
    DomainFrame o d (d.update_obj o f) := by
  refine ⟨rfl, rfl, rfl, rfl, rfl, rfl, rfl, rfl, rfl, rfl, rfl, rfl, fun x hx => ?_, ?_⟩
  · simp [Device.update_obj, hx]
  · have : (d.update_obj o f).objs o = f (d.objs o) := by simp [Device.update_obj]
    rw [this]
    exact hf _

theorem domain_frame_ite {c : Prop} [Decidable c] {o : Nat} {d a b : Device}
    (ha : DomainFrame o d a) (hb : DomainFrame o d b) : DomainFrame o d (if c then a else b) := by
  split
  · exact ha
  · exact hb

theorem domain_frame_clflush (o : Nat) (d : Device) :
    DomainFrame o d (i915_gem_clflush_object o d) := by
  unfold i915_gem_clflush_object
  exact domain_frame_ite (domain_frame_refl o d) (domain_frame_refl o d)

theorem domain_frame_commit (o reads w inv fl : Nat) (d d' : Device) (code : Int)
    (h : set_domain_commit o reads w inv fl d = .ret code d') : DomainFrame o d d' := by
  unfold set_domain_commit at h
  cases h
  have h1 : DomainFrame o d (if w ||| fl ≠ 0 then
      d.update_obj o (fun x => { x with write_domain := w }) else d) :=
    domain_frame_ite (domain_frame_update o d _ (fun _ => rfl)) (domain_frame_refl o d)
  have h2 := domain_frame_update o (if w ||| fl ≠ 0 then
      d.update_obj o (fun x => { x with write_domain := w }) else d)
      (fun x => { x with read_domains := reads }) (fun _ => rfl)
  exact domain_frame_trans (domain_frame_trans h1 h2)
    ⟨rfl, rfl, rfl, rfl, rfl, rfl, rfl, rfl, rfl, rfl, rfl, rfl, fun _ _ => rfl, rfl⟩

/-- Without the rendering wait `i915_gem_object_set_domain` is the commit step
run on the start state, after the CPU cache flush when CPU is among the
computed domains. -/
theorem set_domain_no_wait (e : Env) (o r w : Nat) (d : Device)
    (hnw : ¬ (set_domain_invalidate (d.objs o).read_domains (d.objs o).write_domain
        (set_domain_reads r w (d.objs o).read_domains) &&& I915_GEM_DOMAIN_CPU ≠ 0 ∧
      set_domain_flush (d.objs o).write_domain (set_domain_reads r w (d.objs o).read_domains)
        &&& not32 I915_GEM_DOMAIN_CPU ≠ 0)) :
    i915_gem_object_set_domain e o r w d =
      set_domain_commit o (set_domain_reads r w (d.objs o).read_domains) w
        (set_domain_invalidate (d.objs o).read_domains (d.objs o).write_domain
          (set_domain_reads r w (d.objs o).read_domains))
        (set_domain_flush (d.objs o).write_domain (set_domain_reads r w (d.objs o).read_domains))
        (if (set_domain_flush (d.objs o).write_domain
              (set_domain_reads r w (d.objs o).read_domains) |||
            set_domain_invalidate (d.objs o).read_domains (d.objs o).write_domain
              (set_domain_reads r w (d.objs o).read_domains)) &&& I915_GEM_DOMAIN_CPU ≠ 0
         then i915_gem_clflush_object o
           (if w = 0 then d else d.update_obj o (fun x => { x with dirty := true }))
         else (if w = 0 then d else d.update_obj o (fun x => { x with dirty := true }))) := by
  unfold i915_gem_object_set_domain
  simp only []
  split <;> rfl

/-- C7 (amended): when the call does not take the rendering-wait branch (the
computed invalidate set lacks CPU or the computed flush set has no non-CPU
domain), `i915_gem_object_set_domain` succeeds and leaves the ring, the request
queue, the fence counter and the three lists as they were; only the
accumulators, the collaborator trace and the object's `read_domains`,
`write_domain` and dirty flag can change. -/
theorem set_domain_no_wait_frame (e : Env) (o r w : Nat) (d : Device)
    (hnw : ¬ (set_domain_invalidate (d.objs o).read_domains (d.objs o).write_domain
        (set_domain_reads r w (d.objs o).read_domains) &&& I915_GEM_DOMAIN_CPU ≠ 0 ∧
      set_domain_flush (d.objs o).write_domain (set_domain_reads r w (d.objs o).read_domains)
        &&& not32 I915_GEM_DOMAIN_CPU ≠ 0)) :
    ∃ d', i915_gem_object_set_domain e o r w d = .ret 0 d' ∧
      d'.ring = d.ring ∧ d'.request_list = d.request_list ∧
      d'.next_gem_seqno = d.next_gem_seqno ∧
      d'.active_list = d.active_list ∧ d'.flushing_list = d.flushing_list ∧
      d'.inactive_list = d.inactive_list ∧
      (∀ x : Nat, x ≠ o → d'.objs x = d.objs x) ∧
      d'.objs o = { d.objs o with
        read_domains := (d'.objs o).read_domains
        write_domain := (d'.objs o).write_domain
        dirty := (d'.objs o).dirty } := by
  rw [set_domain_no_wait e o r w d hnw]
  obtain ⟨d', hc, -⟩ := set_domain_commit_spec o (set_domain_reads r w (d.objs o).read_domains) w
        (set_domain_invalidate (d.objs o).read_domains (d.objs o).write_domain
          (set_domain_reads r w (d.objs o).read_domains))
        (set_domain_flush (d.objs o).write_domain (set_domain_reads r w (d.objs o).read_domains))
        (if (set_domain_flush (d.objs o).write_domain
              (set_domain_reads r w (d.objs o).read_domains) |||
            set_domain_invalidate (d.objs o).read_domains (d.objs o).write_domain
              (set_domain_reads r w (d.objs o).read_domains)) &&& I915_GEM_DOMAIN_CPU ≠ 0
         then i915_gem_clflush_object o
           (if w = 0 then d else d.update_obj o (fun x => { x with dirty := true }))
         else (if w = 0 then d else d.update_obj o (fun x => { x with dirty := true })))
  have h1 : DomainFrame o d
      (if w = 0 then d else d.update_obj o (fun x => { x with dirty := true })) :=
    domain_frame_ite (domain_frame_refl o d) (domain_frame_update o d _ (fun _ => rfl))
  have h2 := domain_frame_ite
    (c := (set_domain_flush (d.objs o).write_domain
              (set_domain_reads r w (d.objs o).read_domains) |||
            set_domain_invalidate (d.objs o).read_domains (d.objs o).write_domain
              (set_domain_reads r w (d.objs o).read_domains)) &&& I915_GEM_DOMAIN_CPU ≠ 0)
    (domain_frame_trans h1 (domain_frame_clflush o _)) h1
  have h3 := domain_frame_trans h2 (domain_frame_commit _ _ _ _ _ _ _ _ hc)
  obtain ⟨a1, a2, a3, -, a5, a6, a7, -, -, -, -, -, a13, a14⟩ := h3
  exact ⟨d', hc, a1, a2, a3, a5, a6, a7, a13, a14⟩

/-- Witness for C7 (amended): the fresh object 0 of `sample_dev` is handed to the
command processor, `set_domain(obj, COMMAND, 0)`. -/
theorem set_domain_no_wait_frame_witness :
    ¬ (set_domain_invalidate (sample_dev.objs 0).read_domains (sample_dev.objs 0).write_domain
        (set_domain_reads I915_GEM_DOMAIN_COMMAND 0 (sample_dev.objs 0).read_domains)
          &&& I915_GEM_DOMAIN_CPU ≠ 0 ∧
      set_domain_flush (sample_dev.objs 0).write_domain
        (set_domain_reads I915_GEM_DOMAIN_COMMAND 0 (sample_dev.objs 0).read_domains)
          &&& not32 I915_GEM_DOMAIN_CPU ≠ 0) ∧
    ∃ d', i915_gem_object_set_domain sample_env 0 I915_GEM_DOMAIN_COMMAND 0 sample_dev
        = .ret 0 d' ∧
      d'.ring = sample_dev.ring ∧ d'.request_list = sample_dev.request_list ∧
      d'.next_gem_seqno = sample_dev.next_gem_seqno ∧
      d'.active_list = sample_dev.active_list ∧ d'.flushing_list = sample_dev.flushing_list ∧
      d'.inactive_list = sample_dev.inactive_list ∧
      (∀ x : Nat, x ≠ 0 → d'.objs x = sample_dev.objs x) ∧
      d'.objs 0 = { sample_dev.objs 0 with
        read_domains := (d'.objs 0).read_domains
        write_domain := (d'.objs 0).write_domain
        dirty := (d'.objs 0).dirty } :=
  ⟨by decide, set_domain_no_wait_frame sample_env 0 I915_GEM_DOMAIN_COMMAND 0 sample_dev
    (by decide)⟩

/-- C7 (counterexample): on an object in state (RENDER, RENDER) with rendering
outstanding, `i915_gem_object_set_domain(obj, CPU, CPU)` succeeds after its
rendering wait has written an `MI_FLUSH` and a fence store to the ring, created
request 2 and retired both pending requests: the ring and the request queue are
not what they were before the call. -/
theorem set_domain_wait_emits_flush_and_fence :
    let d' := (i915_gem_object_set_domain sample_env 0 I915_GEM_DOMAIN_CPU I915_GEM_DOMAIN_CPU
      render_dev).state render_dev
    i915_gem_object_set_domain sample_env 0 I915_GEM_DOMAIN_CPU I915_GEM_DOMAIN_CPU render_dev
      = .ret 0 d' ∧
    render_dev.ring = [] ∧
    d'.ring = [0x02000000, 0, 0x10800001, 0x40, 2, 0x01000000] ∧
    render_dev.next_gem_seqno = 2 ∧ d'.next_gem_seqno = 3 ∧
    render_dev.request_list = [{ seqno := 1, emitted_jiffies := 0, flush_domains := 0 }] ∧
    d'.request_list = [] ∧
    d'.ring ≠ render_dev.ring ∧ d'.request_list ≠ render_dev.request_list := by
  refine ⟨by rfl, by decide, by decide, by decide, by decide, by decide, by decide, by decide,
    by decide⟩

/-! ## The documented cases -/

theorem clflush_trace (o : Nat) (d : Device) :
    (i915_gem_clflush_object o d).trace =
      d.trace ++ (if (d.objs o).page_list then [Event.cache_flush o] else []) := by
  unfold i915_gem_clflush_object
  cases h : (d.objs o).page_list
  · simp
  · simp [Device.log]

/-- C8 (amended): for an object in state (CPU, CPU),
`i915_gem_object_set_domain(obj, COMMAND, 0)` succeeds, leaves the object in
state (CPU | COMMAND, 0), ORs exactly CPU into `flush_domains` and exactly
COMMAND into `invalidate_domains`, performs no rendering wait, and flushes the
object's CPU cache lines when the object has a page list; for an object without
a page list `i915_gem_clflush_object` returns without flushing. -/
theorem set_domain_batch_buffer_case (e : Env) (o : Nat) (d : Device)
    (hr : (d.objs o).read_domains = I915_GEM_DOMAIN_CPU)
    (hw : (d.objs o).write_domain = I915_GEM_DOMAIN_CPU) :
    ∃ d', i915_gem_object_set_domain e o I915_GEM_DOMAIN_COMMAND 0 d = .ret 0 d' ∧
      (d'.objs o).read_domains = I915_GEM_DOMAIN_CPU ||| I915_GEM_DOMAIN_COMMAND ∧
      (d'.objs o).write_domain = 0 ∧
      d'.flush_domains = d.flush_domains ||| I915_GEM_DOMAIN_CPU ∧
      d'.invalidate_domains = d.invalidate_domains ||| I915_GEM_DOMAIN_COMMAND ∧
      d'.trace = d.trace ++ (if (d.objs o).page_list then [Event.cache_flush o] else []) := by
  have hreads : set_domain_reads I915_GEM_DOMAIN_COMMAND 0 (d.objs o).read_domains = 9 := by
    rw [hr]
    decide
  have hfl : set_domain_flush (d.objs o).write_domain 9 = 1 := by
    rw [hw]
    decide
  have hinv : set_domain_invalidate (d.objs o).read_domains (d.objs o).write_domain 9 = 8 := by
    rw [hr, hw]
    decide
  have hno := set_domain_no_wait e o I915_GEM_DOMAIN_COMMAND 0 d (by
    rw [hreads, hfl, hinv]
    decide)
  rw [hreads, hfl, hinv] at hno
  have hcpu : ((1 : Nat) ||| 8) &&& I915_GEM_DOMAIN_CPU ≠ 0 := by decide
  rw [if_pos hcpu, if_pos rfl] at hno
  obtain ⟨d', hc, h1, h2, h3, h4, -, h6⟩ := set_domain_commit_spec o 9 0 8 1
    (i915_gem_clflush_object o d)
  rw [hno]
  refine ⟨d', hc, ?_, ?_, ?_, ?_, ?_⟩
  · rw [h3]
    decide
  · rw [h4, if_pos (Or.inr (by decide))]
  · rw [h2, (frame_clflush o d).2.1]
    rfl
  · rw [h1, (frame_clflush o d).1]
    rfl
  · rw [h6, clflush_trace]

/-- Witness for C8 (amended) on object 1 of `render_dev`, which is in state (CPU, CPU). -/
theorem set_domain_batch_buffer_case_witness :
    ((render_dev.objs 1).read_domains = I915_GEM_DOMAIN_CPU ∧
      (render_dev.objs 1).write_domain = I915_GEM_DOMAIN_CPU) ∧
    ∃ d', i915_gem_object_set_domain sample_env 1 I915_GEM_DOMAIN_COMMAND 0 render_dev
        = .ret 0 d' ∧
      (d'.objs 1).read_domains = I915_GEM_DOMAIN_CPU ||| I915_GEM_DOMAIN_COMMAND ∧
      (d'.objs 1).write_domain = 0 ∧
      d'.flush_domains = render_dev.flush_domains ||| I915_GEM_DOMAIN_CPU ∧
      d'.invalidate_domains = render_dev.invalidate_domains ||| I915_GEM_DOMAIN_COMMAND ∧
      d'.trace = render_dev.trace ++
        (if (render_dev.objs 1).page_list then [Event.cache_flush 1] else []) :=
  ⟨⟨by decide, by decide⟩,
    set_domain_batch_buffer_case sample_env 1 render_dev (by decide) (by decide)⟩

/-- C8 (counterexample): object 0 of `sample_dev` is in state (CPU, CPU) and has
no page list; `i915_gem_object_set_domain(obj, COMMAND, 0)` succeeds on it and
reaches state (CPU | COMMAND, 0) without any cache flush: the collaborator
trace stays empty. -/
theorem set_domain_batch_buffer_without_pages :
    let d' := (i915_gem_object_set_domain sample_env 0 I915_GEM_DOMAIN_COMMAND 0
      sample_dev).state sample_dev
    (sample_dev.objs 0).read_domains = I915_GEM_DOMAIN_CPU ∧
    (sample_dev.objs 0).write_domain = I915_GEM_DOMAIN_CPU ∧
    (sample_dev.objs 0).page_list = false ∧
    i915_gem_object_set_domain sample_env 0 I915_GEM_DOMAIN_COMMAND 0 sample_dev = .ret 0 d' ∧
    (d'.objs 0).read_domains = I915_GEM_DOMAIN_CPU ||| I915_GEM_DOMAIN_COMMAND ∧
    (d'.objs 0).write_domain = 0 ∧
    d'.trace = [] ∧ Event.cache_flush 0 ∉ d'.trace := by
  refine ⟨by decide, by decide, by decide, by rfl, by decide, by decide, by decide, by decide⟩

/-- C9: for an object whose `write_domain` is 0 or CPU and whose `read_domains`
contains CPU, `i915_gem_object_set_domain(obj, CPU, CPU)` succeeds, leaves both
device accumulators unchanged, performs no wait and no cache flush (the
collaborator trace is unchanged), and leaves the object in state (CPU, CPU); on
an object already in (CPU, CPU) neither domain field changes. -/
theorem set_domain_cpu_cpu_is_noop (e : Env) (o : Nat) (d : Device)
    (hw : (d.objs o).write_domain = 0 ∨ (d.objs o).write_domain = I915_GEM_DOMAIN_CPU)
    (hr : (d.objs o).read_domains &&& I915_GEM_DOMAIN_CPU ≠ 0) :
    ∃ d', i915_gem_object_set_domain e o I915_GEM_DOMAIN_CPU I915_GEM_DOMAIN_CPU d = .ret 0 d' ∧
      d'.flush_domains = d.flush_domains ∧
      d'.invalidate_domains = d.invalidate_domains ∧
      d'.trace = d.trace ∧
      d'.ring = d.ring ∧ d'.request_list = d.request_list ∧
      (d'.objs o).read_domains = I915_GEM_DOMAIN_CPU ∧
      (d'.objs o).write_domain = I915_GEM_DOMAIN_CPU ∧
      ((d.objs o).read_domains = I915_GEM_DOMAIN_CPU →
        (d.objs o).write_domain = I915_GEM_DOMAIN_CPU →
        (d'.objs o).read_domains = (d.objs o).read_domains ∧
        (d'.objs o).write_domain = (d.objs o).write_domain) := by
  have hreads : set_domain_reads I915_GEM_DOMAIN_CPU I915_GEM_DOMAIN_CPU
      (d.objs o).read_domains = 1 := by
    unfold set_domain_reads
    rw [if_neg (by decide)]
    rfl
  have hfl : set_domain_flush (d.objs o).write_domain 1 = 0 := by
    rcases hw with hw | hw <;> rw [hw] <;> decide
  have hodd : (d.objs o).read_domains % 2 = 1 := by
    have h2 : (d.objs o).read_domains &&& 1 ≠ 0 := hr
    rw [Nat.and_one_is_mod] at h2
    omega
  have hinv : set_domain_invalidate (d.objs o).read_domains (d.objs o).write_domain 1 = 0 := by
    have h1 : (1 : Nat) &&& not32 (d.objs o).read_domains = 0 := by
      rw [Nat.one_and_eq_mod_two]
      unfold not32 U32
      omega
    unfold set_domain_invalidate
    rcases hw with hw | hw
    · rw [hw, h1]
      decide
    · rw [hw, h1]
      decide
  have hno := set_domain_no_wait e o I915_GEM_DOMAIN_CPU I915_GEM_DOMAIN_CPU d (by
    rw [hreads, hfl, hinv]
    decide)
  rw [hreads, hfl, hinv] at hno
  have hcpu : ¬ (((0 : Nat) ||| 0) &&& I915_GEM_DOMAIN_CPU ≠ 0) := by decide
  have hw1 : ¬ (I915_GEM_DOMAIN_CPU = 0) := by decide
  rw [if_neg hcpu, if_neg hw1] at hno
  obtain ⟨d', hc, h1, h2, h3, h4, -, h6⟩ := set_domain_commit_spec o 1 I915_GEM_DOMAIN_CPU 0 0
    (d.update_obj o (fun x => { x with dirty := true }))
  have hfr := domain_frame_commit _ _ _ _ _ _ _ _ hc
  rw [hno]
  have hwd : (d'.objs o).write_domain = I915_GEM_DOMAIN_CPU := by
    rw [h4, if_pos (Or.inl hw1)]
  refine ⟨d', hc, ?_, ?_, ?_, hfr.1, hfr.2.1, h3, hwd, fun a b => ?_⟩
  · rw [h2, Nat.or_zero]
    rfl
  · rw [h1, Nat.or_zero]
    rfl
  · rw [h6]
    rfl
  · rw [h3, hwd, a, b]
    exact ⟨rfl, rfl⟩

/-- Witness for C9 on the fresh object 0 of `sample_dev`. -/
theorem set_domain_cpu_cpu_is_noop_witness :
    ((sample_dev.objs 0).write_domain = 0 ∨
      (sample_dev.objs 0).write_domain = I915_GEM_DOMAIN_CPU) ∧
    (sample_dev.objs 0).read_domains &&& I915_GEM_DOMAIN_CPU ≠ 0 ∧
    ∃ d', i915_gem_object_set_domain sample_env 0 I915_GEM_DOMAIN_CPU I915_GEM_DOMAIN_CPU
        sample_dev = .ret 0 d' ∧
      d'.flush_domains = sample_dev.flush_domains ∧
      d'.invalidate_domains = sample_dev.invalidate_domains ∧
      d'.trace = sample_dev.trace ∧
      d'.ring = sample_dev.ring ∧ d'.request_list = sample_dev.request_list ∧
      (d'.objs 0).read_domains = I915_GEM_DOMAIN_CPU ∧
      (d'.objs 0).write_domain = I915_GEM_DOMAIN_CPU ∧
      ((sample_dev.objs 0).read_domains = I915_GEM_DOMAIN_CPU →
        (sample_dev.objs 0).write_domain = I915_GEM_DOMAIN_CPU →
        (d'.objs 0).read_domains = (sample_dev.objs 0).read_domains ∧
        (d'.objs 0).write_domain = (sample_dev.objs 0).write_domain) :=
  ⟨by decide, by decide,
    set_domain_cpu_cpu_is_noop sample_env 0 sample_dev (by decide) (by decide)⟩

/-! ## Write domains along a sequence of transitions -/

theorem clflush_objs (o : Nat) (d : Device) : (i915_gem_clflush_object o d).objs = d.objs := by
  unfold i915_gem_clflush_object
  split <;> rfl

/-- After a call of `i915_gem_object_set_domain` that returns, the object's
write domain is the requested one, the old one, or zero. -/
theorem set_domain_write_domain (e : Env) (o r w : Nat) (d d' : Device) (code : Int)
    (h : i915_gem_object_set_domain e o r w d = .ret code d') :
    (d'.objs o).write_domain = w ∨ (d'.objs o).write_domain = (d.objs o).write_domain ∨
      (d'.objs o).write_domain = 0 := by
  have hd1 := set_domain_dirty_state o w d
  have hcommit : ∀ dm : Device,
      ((dm.objs o).write_domain = (d.objs o).write_domain ∨ (dm.objs o).write_domain = 0) →
      set_domain_commit o (set_domain_reads r w (d.objs o).read_domains) w
        (set_domain_invalidate (d.objs o).read_domains (d.objs o).write_domain
          (set_domain_reads r w (d.objs o).read_domains))
        (set_domain_flush (d.objs o).write_domain (set_domain_reads r w (d.objs o).read_domains))
        dm = .ret code d' →
      (d'.objs o).write_domain = w ∨ (d'.objs o).write_domain = (d.objs o).write_domain ∨
        (d'.objs o).write_domain = 0 := by
    intro dm hdm hc
    obtain ⟨d'', hc', -, -, -, hwd, -⟩ := set_domain_commit_spec o
      (set_domain_reads r w (d.objs o).read_domains) w
      (set_domain_invalidate (d.objs o).read_domains (d.objs o).write_domain
        (set_domain_reads r w (d.objs o).read_domains))
      (set_domain_flush (d.objs o).write_domain (set_domain_reads r w (d.objs o).read_domains)) dm
    rw [hc] at hc'
    cases hc'
    rw [hwd]
    split
    · exact Or.inl rfl
    · exact Or.inr hdm
  rcases set_domain_cases e o r w d d' code h with ⟨-, hc⟩ | ⟨-, d2, h2, hc⟩
  · refine hcommit _ (Or.inl ?_) hc
    have : ((if (set_domain_flush (d.objs o).write_domain
          (set_domain_reads r w (d.objs o).read_domains) |||
        set_domain_invalidate (d.objs o).read_domains (d.objs o).write_domain
          (set_domain_reads r w (d.objs o).read_domains)) &&& I915_GEM_DOMAIN_CPU ≠ 0 then
        i915_gem_clflush_object o
          (if w = 0 then d else d.update_obj o (fun x => { x with dirty := true }))
        else (if w = 0 then d else d.update_obj o (fun x => { x with dirty := true }))).objs
          o).write_domain =
        ((if w = 0 then d else d.update_obj o (fun x => { x with dirty := true })).objs
          o).write_domain := by
      split
      · rw [clflush_objs]
      · rfl
    rw [this]
    exact hd1.2.2.1
  · have hfr := frame_wait_rendering e o _ d2 code h2
    have hw2 : (d2.objs o).write_domain = (d.objs o).write_domain ∨
        (d2.objs o).write_domain = 0 := by
      rcases (hfr.2.2 o).2.2.2.2.2 with hx | hx
      · left
        rw [hx]
        exact hd1.2.2.1
      · exact Or.inr hx
    rcases hc with ⟨-, rfl⟩ | ⟨-, hc⟩
    · exact Or.inr hw2
    · refine hcommit _ ?_ hc
      rw [clflush_objs]
      exact hw2

theorem init_object_write_domain (e : Env) (o : Nat) (d d0 : Device)
    (h : i915_gem_init_object e o d = .ret 0 d0) :
    (d0.objs o).write_domain = I915_GEM_DOMAIN_CPU ∧
    (d0.objs o).read_domains = I915_GEM_DOMAIN_CPU := by
  unfold i915_gem_init_object at h
  split at h
  · cases h
  · cases h
    constructor <;> simp [list_del_init, Device.update_obj]

theorem set_domain_states_single_bit (o : Nat) (calls : List (Env × Nat × Nat)) :
    ∀ d : Device, at_most_one_bit (d.objs o).write_domain →
      (∀ c ∈ calls, at_most_one_bit c.2.2) →
      ∀ d' ∈ set_domain_states o calls d, at_most_one_bit (d'.objs o).write_domain := by
  induction calls with
  | nil =>
    intro d _ _ d' hd'
    simp [set_domain_states] at hd'
  | cons c cs ih =>
    intro d hd hreq d' hd'
    simp only [set_domain_states] at hd'
    cases hres : i915_gem_object_set_domain c.1 o c.2.1 c.2.2 d with
    | bug =>
      rw [hres] at hd'
      simp at hd'
    | ret code d1 =>
      rw [hres] at hd'
      have h1 : at_most_one_bit (d1.objs o).write_domain := by
        rcases set_domain_write_domain c.1 o c.2.1 c.2.2 d d1 code hres with hx | hx | hx
        · rw [hx]
          exact hreq c (List.mem_cons_self _ _)
        · rw [hx]
          exact hd
        · rw [hx]
          exact Or.inl rfl
      simp only [List.mem_cons] at hd'
      rcases hd' with rfl | hd'
      · exact h1
      · exact ih d1 h1 (fun c' hc' => hreq c' (List.mem_cons_of_mem _ hc')) d' hd'

/-- C4 (amended): for every sequence of `i915_gem_object_set_domain` calls whose
requested `write_domain` arguments each have at most one bit set (any read
domains, any environment), applied to an object fresh from
`i915_gem_init_object`, the object's `write_domain` has at most one bit set
after every call that returns. -/
theorem set_domain_keeps_single_write_domain (e0 : Env) (o : Nat) (d d0 : Device)
    (calls : List (Env × Nat × Nat))
    (hinit : i915_gem_init_object e0 o d = .ret 0 d0)
    (hreq : ∀ c ∈ calls, at_most_one_bit c.2.2) :
    ∀ d' ∈ set_domain_states o calls d0, at_most_one_bit (d'.objs o).write_domain := by
  apply set_domain_states_single_bit o calls d0 _ hreq
  rw [(init_object_write_domain e0 o d d0 hinit).1]
  decide

/-- Witness for C4 (amended): a fresh object is read by the command processor,
rendered to, and taken back by the CPU; its write domain is 0, RENDER, CPU in
turn. -/
theorem set_domain_keeps_single_write_domain_witness :
    let d0 := (i915_gem_init_object sample_env 0 sample_dev).state sample_dev
    let calls : List (Env × Nat × Nat) :=
      [(sample_env, I915_GEM_DOMAIN_COMMAND, 0),
       (sample_env, I915_GEM_DOMAIN_RENDER, I915_GEM_DOMAIN_RENDER),
       (sample_env, I915_GEM_DOMAIN_CPU, I915_GEM_DOMAIN_CPU)]
    i915_gem_init_object sample_env 0 sample_dev = .ret 0 d0 ∧
    (∀ c ∈ calls, at_most_one_bit c.2.2) ∧
    (set_domain_states 0 calls d0).map (fun d => (d.objs 0).write_domain) = [0, 2, 1] ∧
    ∀ d' ∈ set_domain_states 0 calls d0, at_most_one_bit (d'.objs 0).write_domain :=
  ⟨by rfl, by decide, by decide,
    set_domain_keeps_single_write_domain sample_env 0 sample_dev _ _ (by rfl) (by decide)⟩

/-- C4 (counterexample): on a fresh object, the single call
`i915_gem_object_set_domain(obj, RENDER | SAMPLER, RENDER | SAMPLER)` returns 0
and leaves `write_domain = RENDER | SAMPLER`, a mask with two bits set. -/
theorem set_domain_two_bit_write_domain :
    let d0 := (i915_gem_init_object sample_env 0 sample_dev).state sample_dev
    let both := I915_GEM_DOMAIN_RENDER ||| I915_GEM_DOMAIN_SAMPLER
    i915_gem_init_object sample_env 0 sample_dev = .ret 0 d0 ∧
    i915_gem_object_set_domain sample_env 0 both both d0 =
      .ret 0 ((i915_gem_object_set_domain sample_env 0 both both d0).state d0) ∧
    (set_domain_states 0 [(sample_env, both, both)] d0).map
      (fun d => (d.objs 0).write_domain) = [6] ∧
    ¬ at_most_one_bit 6 := by
  refine ⟨by rfl, by rfl, by decide, by decide⟩

/-! ## Retiring a request -/

theorem active_shrinks_refl (d : Device) : ActiveShrinks d d :=
  ⟨fun _ => rfl, List.Sublist.refl _⟩

theorem active_shrinks_trans {a b c : Device} (h1 : ActiveShrinks a b) (h2 : ActiveShrinks b c) :
    ActiveShrinks a c :=
  ⟨fun x => (h2.1 x).trans (h1.1 x), h2.2.trans h1.2⟩

theorem update_obj_lrs (d : Device) (o : Nat) (f : GemObject → GemObject)
    (hf : ∀ x : GemObject, (f x).last_rendering_seqno = x.last_rendering_seqno) :
    ActiveShrinks d (d.update_obj o f) := by
  refine ⟨fun x => ?_, List.Sublist.refl _⟩
  by_cases hx : x = o
  · simp [Device.update_obj, hx, hf]
  · simp [Device.update_obj, hx]

theorem list_del_init_active (o : Nat) (d : Device) :
    (list_del_init o d).active_list = d.active_list.filter (fun x => x != o) ∧
    (list_del_init o d).objs = d.objs :=
  ⟨rfl, rfl⟩

theorem list_move_tail_active (o : Nat) (l : Lru) (hl : l ≠ .active) (d : Device) :
    (list_move_tail o l d).active_list = d.active_list.filter (fun x => x != o) ∧
    (list_move_tail o l d).objs = d.objs := by
  cases l
  · exact absurd rfl hl
  · exact ⟨rfl, rfl⟩
  · exact ⟨rfl, rfl⟩

theorem clear_active_step (o : Nat) (d1 : Device) :
    (if (d1.objs o).active then
        drm_gem_object_unreference o (d1.update_obj o (fun x => { x with active := false }))
      else d1).active_list = d1.active_list ∧
    ∀ x : Nat, ((if (d1.objs o).active then
        drm_gem_object_unreference o (d1.update_obj o (fun x => { x with active := false }))
      else d1).objs x).last_rendering_seqno = (d1.objs x).last_rendering_seqno := by
  split
  · refine ⟨rfl, fun x => ?_⟩
    unfold drm_gem_object_unreference
    by_cases hx : x = o
    · simp [Device.update_obj, hx]
    · simp [Device.update_obj, hx]
  · exact ⟨rfl, fun _ => rfl⟩

theorem move_to_inactive_active (o : Nat) (d : Device) :
    (i915_gem_object_move_to_inactive o d).active_list = d.active_list.filter (fun x => x != o) ∧
    ∀ x : Nat, ((i915_gem_object_move_to_inactive o d).objs x).last_rendering_seqno =
      (d.objs x).last_rendering_seqno := by
  unfold i915_gem_object_move_to_inactive
  have h1 : (if (d.objs o).pin_count ≠ 0 then list_del_init o d
      else list_move_tail o .inactive d).active_list = d.active_list.filter (fun x => x != o) ∧
      (if (d.objs o).pin_count ≠ 0 then list_del_init o d
      else list_move_tail o .inactive d).objs = d.objs := by
    split
    · exact list_del_init_active o d
    · exact list_move_tail_active o .inactive (by decide) d
  have h2 := clear_active_step o
    (if (d.objs o).pin_count ≠ 0 then list_del_init o d else list_move_tail o .inactive d)
  refine ⟨h2.1.trans h1.1, fun x => ?_⟩
  rw [h2.2 x, h1.2]

theorem shrinks_move_to_inactive (o : Nat) (d : Device) :
    ActiveShrinks d (i915_gem_object_move_to_inactive o d) := by
  obtain ⟨h1, h2⟩ := move_to_inactive_active o d
  refine ⟨h2, ?_⟩
  rw [h1]
  exact List.filter_sublist _

theorem shrinks_retire_flushing (request : Request) (l : List Nat) :
    ∀ d : Device, ActiveShrinks d (retire_flushing request l d) := by
  induction l with
  | nil => intro d; exact active_shrinks_refl d
  | cons o rest ih =>
    intro d
    simp only [retire_flushing]
    refine active_shrinks_trans ?_ (ih _)
    split
    · refine active_shrinks_trans ?_ (shrinks_move_to_inactive o _)
      exact update_obj_lrs d o _ (fun _ => rfl)
    · exact active_shrinks_refl d

theorem move_to_inactive_request_list (o : Nat) (d : Device) :
    (i915_gem_object_move_to_inactive o d).request_list = d.request_list := by
  unfold i915_gem_object_move_to_inactive
  have h1 : (if (d.objs o).pin_count ≠ 0 then list_del_init o d
      else list_move_tail o .inactive d).request_list = d.request_list := by
    split <;> rfl
  have h2 : ∀ d1 : Device, (if (d1.objs o).active then
        drm_gem_object_unreference o (d1.update_obj o (fun x => { x with active := false }))
      else d1).request_list = d1.request_list := by
    intro d1
    split <;> rfl
  exact (h2 _).trans h1

theorem retire_flushing_request_list (request : Request) (l : List Nat) :
    ∀ d : Device, (retire_flushing request l d).request_list = d.request_list := by
  induction l with
  | nil => intro d; rfl
  | cons o rest ih =>
    intro d
    simp only [retire_flushing]
    rw [ih]
    split
    · rw [move_to_inactive_request_list]
      rfl
    · rfl

theorem retire_active_request_list (request : Request) (fuel : Nat) :
    ∀ d : Device, (retire_active request fuel d).request_list = d.request_list := by
  induction fuel with
  | zero => intro d; rfl
  | succ n ih =>
    intro d
    simp only [retire_active]
    split
    · rfl
    · split
      · rfl
      · split
        · rw [ih]
          rfl
        · rw [ih, move_to_inactive_request_list]

/-- Retiring one request leaves the request queue alone. -/
theorem retire_request_request_list (request : Request) (d : Device) :
    (i915_gem_retire_request request d).request_list = d.request_list := by
  unfold i915_gem_retire_request
  simp only []
  rw [retire_active_request_list]
  split
  · rw [retire_flushing_request_list]
  · rfl

/-- The second loop of `i915_gem_retire_request` does not run out of fuel: with
as much fuel as the active list is long, it ends on an empty list or on a head
whose fence differs from the retired one, as the C loop does. -/
theorem retire_active_exit (request : Request) (fuel : Nat) :
    ∀ d : Device, d.active_list.length ≤ fuel →
      (retire_active request fuel d).active_list = [] ∨
      ∃ o t, (retire_active request fuel d).active_list = o :: t ∧
        ((retire_active request fuel d).objs o).last_rendering_seqno ≠ request.seqno := by
  induction fuel with
  | zero =>
    intro d hlen
    left
    simp only [retire_active]
    exact List.length_eq_zero.mp (Nat.le_zero.mp hlen)
  | succ n ih =>
    intro d hlen
    simp only [retire_active]
    cases hlist : d.active_list with
    | nil =>
      left
      exact hlist
    | cons o t =>
      simp only []
      rw [hlist] at hlen
      by_cases hm : (d.objs o).last_rendering_seqno ≠ request.seqno
      · rw [if_pos hm]
        exact Or.inr ⟨o, t, hlist, hm⟩
      · rw [if_neg hm]
        have hshort : ∀ dn : Device,
            dn.active_list = d.active_list.filter (fun x => x != o) →
            dn.active_list.length ≤ n := by
          intro dn hact
          rw [hact, hlist, List.filter_cons_of_neg (by simp)]
          have := List.length_filter_le (fun x => x != o) t
          simp only [List.length_cons] at hlen
          omega
        split
        · exact ih _ (hshort _ (list_move_tail_active o .flushing (by decide) d).1)
        · exact ih _ (hshort _ (move_to_inactive_active o d).1)

/-- The loop of `i915_gem_retire_requests` does not run out of fuel: with as
much fuel as the queue is long, it ends on an empty queue or on a head request
that has not passed, as the C loop does. -/
theorem retire_requests_exit (seqno : Nat) (fuel : Nat) :
    ∀ d : Device, d.request_list.length ≤ fuel →
      (retire_requests_loop seqno fuel d).request_list = [] ∨
      ∃ r t, (retire_requests_loop seqno fuel d).request_list = r :: t ∧
        i915_seqno_passed seqno r.seqno = false := by
  induction fuel with
  | zero =>
    intro d hlen
    left
    simp only [retire_requests_loop]
    exact List.length_eq_zero.mp (Nat.le_zero.mp hlen)
  | succ n ih =>
    intro d hlen
    simp only [retire_requests_loop]
    cases hlist : d.request_list with
    | nil =>
      left
      exact hlist
    | cons r t =>
      simp only []
      rw [hlist] at hlen
      by_cases hp : i915_seqno_passed seqno r.seqno = true
      · rw [if_pos hp]
        apply ih
        show (i915_gem_retire_request r d).request_list.tail.length ≤ n
        rw [retire_request_request_list, hlist]
        simp only [List.tail_cons]
        simp only [List.length_cons] at hlen
        omega
      · rw [if_neg hp]
        exact Or.inr ⟨r, t, hlist, by simpa using hp⟩

/-! ## Retiring the passed requests -/

theorem move_to_inactive_set_requests (l : List Request) (o : Nat) (d : Device) :
    i915_gem_object_move_to_inactive o (set_requests l d) =
      set_requests l (i915_gem_object_move_to_inactive o d) := by
  unfold i915_gem_object_move_to_inactive
  by_cases hp : (d.objs o).pin_count ≠ 0
  · have h1 : ((set_requests l d).objs o).pin_count ≠ 0 := hp
    rw [if_pos hp, if_pos h1]
    by_cases ha : ((list_del_init o d).objs o).active = true
    · have h2 : ((list_del_init o (set_requests l d)).objs o).active = true := ha
      rw [if_pos ha, if_pos h2]
      rfl
    · have h2 : ¬ ((list_del_init o (set_requests l d)).objs o).active = true := ha
      rw [if_neg ha, if_neg h2]
      rfl
  · have h1 : ¬ ((set_requests l d).objs o).pin_count ≠ 0 := hp
    rw [if_neg hp, if_neg h1]
    by_cases ha : ((list_move_tail o .inactive d).objs o).active = true
    · have h2 : ((list_move_tail o .inactive (set_requests l d)).objs o).active = true := ha
      rw [if_pos ha, if_pos h2]
      rfl
    · have h2 : ¬ ((list_move_tail o .inactive (set_requests l d)).objs o).active = true := ha
      rw [if_neg ha, if_neg h2]
      rfl

theorem retire_flushing_set_requests (request : Request) (l : List Request) (os : List Nat) :
    ∀ d : Device, retire_flushing request os (set_requests l d) =
      set_requests l (retire_flushing request os d) := by
  induction os with
  | nil => intro d; rfl
  | cons o rest ih =>
    intro d
    simp only [retire_flushing]
    by_cases hc : (d.objs o).write_domain &&& request.flush_domains ≠ 0
    · have h1 : ((set_requests l d).objs o).write_domain &&& request.flush_domains ≠ 0 := hc
      rw [if_pos hc, if_pos h1, ← ih]
      congr 1
      exact move_to_inactive_set_requests l o
        (d.update_obj o (fun x => { x with write_domain := 0 }))
    · have h1 : ¬ ((set_requests l d).objs o).write_domain &&& request.flush_domains ≠ 0 := hc
      rw [if_neg hc, if_neg h1, ih]

theorem retire_active_set_requests (request : Request) (l : List Request) (fuel : Nat) :
    ∀ d : Device, retire_active request fuel (set_requests l d) =
      set_requests l (retire_active request fuel d) := by
  induction fuel with
  | zero => intro d; rfl
  | succ n ih =>
    intro d
    simp only [retire_active]
    have hl : (set_requests l d).active_list = d.active_list := rfl
    rw [hl]
    cases d.active_list with
    | nil => rfl
    | cons o t =>
      simp only []
      by_cases hm : (d.objs o).last_rendering_seqno ≠ request.seqno
      · have h1 : ((set_requests l d).objs o).last_rendering_seqno ≠ request.seqno := hm
        rw [if_pos hm, if_pos h1]
      · have h1 : ¬ ((set_requests l d).objs o).last_rendering_seqno ≠ request.seqno := hm
        rw [if_neg hm, if_neg h1]
        by_cases hw : (d.objs o).write_domain ≠ 0
        · have h2 : ((set_requests l d).objs o).write_domain ≠ 0 := hw
          rw [if_pos hw, if_pos h2, ← ih]
          rfl
        · have h2 : ¬ ((set_requests l d).objs o).write_domain ≠ 0 := hw
          rw [if_neg hw, if_neg h2, ← ih, move_to_inactive_set_requests]

/-- Retiring a request does not look at the request queue. -/
theorem retire_request_set_requests (request : Request) (l : List Request) (d : Device) :
    i915_gem_retire_request request (set_requests l d) =
      set_requests l (i915_gem_retire_request request d) := by
  unfold i915_gem_retire_request
  simp only []
  by_cases hf : request.flush_domains ≠ 0
  · rw [if_pos hf, if_pos hf]
    have h1 : (set_requests l d).flushing_list = d.flushing_list := rfl
    rw [h1, retire_flushing_set_requests, ← retire_active_set_requests]
    rfl
  · rw [if_neg hf, if_neg hf, ← retire_active_set_requests]
    rfl

theorem foldl_retire_set_requests (l : List Request) (rs : List Request) :
    ∀ d : Device, rs.foldl (fun s r => i915_gem_retire_request r s) (set_requests l d) =
      set_requests l (rs.foldl (fun s r => i915_gem_retire_request r s) d) := by
  induction rs with
  | nil => intro d; rfl
  | cons r t ih =>
    intro d
    simp only [List.foldl_cons]
    rw [retire_request_set_requests, ih]

theorem retire_requests_loop_spec (seqno : Nat) (fuel : Nat) :
    ∀ (l : List Request) (d : Device), d.request_list = l → l.length ≤ fuel →
      retire_requests_loop seqno fuel d =
        set_requests (l.dropWhile (fun r => i915_seqno_passed seqno r.seqno))
          ((l.takeWhile (fun r => i915_seqno_passed seqno r.seqno)).foldl
            (fun s r => i915_gem_retire_request r s) d) := by
  induction fuel with
  | zero =>
    intro l d hl hlen
    have hnil : l = [] := List.length_eq_zero.mp (Nat.le_zero.mp hlen)
    subst hnil
    simp only [retire_requests_loop, List.dropWhile_nil, List.takeWhile_nil, List.foldl_nil]
    unfold set_requests
    rw [← hl]
  | succ n ih =>
    intro l d hl hlen
    simp only [retire_requests_loop]
    cases l with
    | nil =>
      rw [hl]
      simp only [List.dropWhile_nil, List.takeWhile_nil, List.foldl_nil]
      unfold set_requests
      rw [← hl]
    | cons r t =>
      rw [hl]
      simp only []
      by_cases hp : i915_seqno_passed seqno r.seqno = true
      · have e1 : (r :: t).dropWhile (fun r => i915_seqno_passed seqno r.seqno) =
            t.dropWhile (fun r => i915_seqno_passed seqno r.seqno) := by
          simp only [List.dropWhile_cons, hp, if_true]
        have e2 : (r :: t).takeWhile (fun r => i915_seqno_passed seqno r.seqno) =
            r :: t.takeWhile (fun r => i915_seqno_passed seqno r.seqno) := by
          simp only [List.takeWhile_cons, hp, if_true]
        rw [if_pos hp, e1, e2, List.foldl_cons]
        have htail : (i915_gem_retire_request r d).request_list.tail = t := by
          rw [retire_request_request_list, hl]
          rfl
        have hstate : ({ i915_gem_retire_request r d with
            request_list := (i915_gem_retire_request r d).request_list.tail } : Device) =
            set_requests t (i915_gem_retire_request r d) := by
          unfold set_requests
          rw [htail]
        rw [hstate, ih t (set_requests t (i915_gem_retire_request r d)) rfl
          (by simp only [List.length_cons] at hlen; omega), foldl_retire_set_requests]
        rfl
      · have e1 : (r :: t).dropWhile (fun r => i915_seqno_passed seqno r.seqno) = r :: t := by
          simp [List.dropWhile_cons, hp]
        have e2 : (r :: t).takeWhile (fun r => i915_seqno_passed seqno r.seqno) = [] := by
          simp [List.takeWhile_cons, hp]
        rw [if_neg hp, e1, e2, List.foldl_nil]
        unfold set_requests
        rw [← hl]

/-- C11: `i915_gem_retire_requests` reads the completed sequence number `h` once,
takes the maximal prefix of requests `r` with `i915_seqno_passed(h, r.seqno)`
off the head of the queue, applies `i915_gem_retire_request` to each of them
in queue order, and leaves the remaining requests in the queue in their order:
the first request left, if any, has not passed. -/
theorem retire_requests_takes_passed_prefix (d : Device) :
    i915_gem_retire_requests d =
      set_requests (d.request_list.dropWhile (fun r => i915_seqno_passed d.hws_seqno r.seqno))
        ((d.request_list.takeWhile (fun r => i915_seqno_passed d.hws_seqno r.seqno)).foldl
          (fun s r => i915_gem_retire_request r s) d) ∧
    (i915_gem_retire_requests d).request_list =
      d.request_list.dropWhile (fun r => i915_seqno_passed d.hws_seqno r.seqno) ∧
    d.request_list =
      d.request_list.takeWhile (fun r => i915_seqno_passed d.hws_seqno r.seqno) ++
        (i915_gem_retire_requests d).request_list ∧
    (∀ r ∈ (i915_gem_retire_requests d).request_list.head?,
      i915_seqno_passed d.hws_seqno r.seqno = false) := by
  have h := retire_requests_loop_spec d.hws_seqno d.request_list.length d.request_list d rfl
    (Nat.le_refl _)
  have h1 : (i915_gem_retire_requests d).request_list =
      d.request_list.dropWhile (fun r => i915_seqno_passed d.hws_seqno r.seqno) := by
    unfold i915_gem_retire_requests i915_get_gem_seqno
    rw [h]
    rfl
  refine ⟨h, h1, ?_, ?_⟩
  · rw [h1, List.takeWhile_append_dropWhile]
  · intro r hr
    rw [h1] at hr
    have := List.head?_dropWhile_not (fun r => i915_seqno_passed d.hws_seqno r.seqno)
      d.request_list
    rw [Option.mem_def.mp hr] at this
    simpa using this

/-! ## Eviction -/

/-- C13: when the inactive list, the request queue and the flushing list are
all empty, `i915_gem_evict_something` returns -ENOMEM in its first turn and the
device state it returns is the state it was given: nothing is unbound, no
command is emitted, no list changes. -/
theorem evict_nothing_evictable (es : Nat → Env) (fuel : Nat) (d : Device)
    (hi : d.inactive_list = []) (hr : d.request_list = []) (hf : d.flushing_list = []) :
    i915_gem_evict_something es (fuel + 1) d = some (.ret (-ENOMEM) d) := by
  simp only [i915_gem_evict_something, hi, hr, hf]

/-- Witness for C13: on the device with empty lists the eviction returns -ENOMEM
and the state it was given. -/
theorem evict_nothing_evictable_witness :
    i915_gem_evict_something sample_es (0 + 1) sample_dev = some (.ret (-ENOMEM) sample_dev) :=
  evict_nothing_evictable sample_es 0 sample_dev rfl rfl rfl

/-! ## Unbinding -/

/-- C16 fails in the code: on a device where nothing is pinned, the unpin ioctl
on handle 1 finds object 0 with `pin_count = 0`, `i915_gem_object_unpin`
decrements the count to -1 and its `BUG_ON(obj_priv->pin_count < 0)` fires.
After a pin and an unpin the second unpin does the same. -/
theorem unpin_ioctl_at_zero_is_fatal :
    (aperture_dev.objs 0).pin_count = 0 ∧
    i915_gem_unpin_ioctl 0 1 aperture_dev = .bug ∧
    ∃ d1 d2, i915_gem_pin_ioctl sample_es 5 0 1 0 aperture_dev = some (.ret 0 d1) ∧
      (d1.objs 0).pin_count = 1 ∧
      i915_gem_unpin_ioctl 0 1 d1 = .ret 0 d2 ∧
      (d2.objs 0).pin_count = 0 ∧
      i915_gem_unpin_ioctl 0 1 d2 = .bug :=
  ⟨rfl, rfl, _, _, rfl, rfl, rfl, rfl, rfl⟩

/-- C12 fails in the code: from a device with nothing bound, client 0 pins
object 0, unpins it (the object goes to the inactive list), moves it to the
render domain for writing, and pins it again: `i915_gem_object_pin` leaves an
object with a GPU write domain on its list, so the object is now at the head of
the inactive list with `pin_count = 1`. Pinning the two-page object 2 then finds
no room, `i915_gem_evict_something` selects object 0 and its
`BUG_ON(obj_priv->pin_count != 0)` fires. -/
theorem evict_selects_pinned_object :
    aperture_dev.inactive_list = [] ∧ aperture_dev.active_list = [] ∧
    aperture_dev.flushing_list = [] ∧ aperture_dev.request_list = [] ∧
    ∃ d1 d2 d3 d4,
      i915_gem_pin_ioctl sample_es 5 0 1 0 aperture_dev = some (.ret 0 d1) ∧
      i915_gem_unpin_ioctl 0 1 d1 = .ret 0 d2 ∧
      i915_gem_set_domain_ioctl sample_es 0 1 I915_GEM_DOMAIN_RENDER I915_GEM_DOMAIN_RENDER d2 =
        .ret 0 d3 ∧
      i915_gem_pin_ioctl sample_es 5 0 1 0 d3 = some (.ret 0 d4) ∧
      d4.inactive_list = [0] ∧ (d4.objs 0).pin_count = 1 ∧ (d4.objs 0).active = false ∧
      i915_gem_evict_something sample_es 5 d4 = some .bug ∧
      i915_gem_pin_ioctl sample_es 5 0 3 0 d4 = some .bug :=
  ⟨rfl, rfl, rfl, rfl, _, _, _, _, rfl, rfl, rfl, rfl, rfl, rfl, rfl, rfl, rfl⟩

/-! ## What a successful eviction has done -/

theorem holds_of_eq {P : Int → Device → Prop} {r : Outcome} {code : Int} {d : Device}
    (h : r.Holds P) (e : r = .ret code d) : P code d := by
  subst e
  exact h

theorem holds_opt_of_eq {P : Int → Device → Prop} {r : Option Outcome} {code : Int}
    {d : Device} (h : holds_opt P r) (e : r = some (.ret code d)) : P code d := by
  subst e
  exact h

theorem holds_mono {P Q : Int → Device → Prop} {r : Outcome} (h : r.Holds P)
    (pq : ∀ c d, P c d → Q c d) : r.Holds Q := by
  cases r with
  | bug => trivial
  | ret c d => exact pq c d h

theorem holds_opt_mono {P Q : Int → Device → Prop} {r : Option Outcome} (h : holds_opt P r)
    (pq : ∀ c d, P c d → Q c d) : holds_opt Q r := by
  cases r with
  | none => trivial
  | some r => exact holds_mono h pq

theorem holds_intro {P : Int → Device → Prop} {r : Outcome}
    (h : ∀ c d, r = .ret c d → P c d) : r.Holds P := by
  cases r with
  | bug => trivial
  | ret c d => exact h c d rfl

theorem kept_refl (d : Device) : Kept d d := ⟨rfl, fun _ => rfl⟩

theorem kept_trans {a b c : Device} (h1 : Kept a b) (h2 : Kept b c) : Kept a c :=
  ⟨h2.1.trans h1.1, fun x => (h2.2 x).trans (h1.2 x)⟩

theorem kept_ite {c : Prop} [Decidable c] {d a b : Device} (ha : Kept d a) (hb : Kept d b) :
    Kept d (if c then a else b) := by
  split
  · exact ha
  · exact hb

theorem kept_of_frame {d d' : Device} (hf : RetireFrame d d') (hh : d'.handles = d.handles) :
    Kept d d' :=
  ⟨hh, fun x => (hf.2.2 x).2.2.2.2.1⟩

theorem kept_update_obj (d : Device) (o : Nat) (f : GemObject → GemObject)
    (hf : ∀ x : GemObject, (f x).pin_count = x.pin_count) : Kept d (d.update_obj o f) := by
  refine ⟨rfl, fun x => ?_⟩
  by_cases hx : x = o
  · have : (d.update_obj o f).objs x = f (d.objs x) := by
      simp [Device.update_obj, hx]
    rw [this]
    exact hf _
  · have : (d.update_obj o f).objs x = d.objs x := by
      simp [Device.update_obj, hx]
    rw [this]

theorem handles_ite {c : Prop} [Decidable c] (a b : Device) :
    (if c then a else b).handles = if c then a.handles else b.handles := by
  split <;> rfl

theorem handles_move_to_active (o : Nat) (d : Device) :
    (i915_gem_object_move_to_active o d).handles = d.handles := by
  unfold i915_gem_object_move_to_active
  simp only []
  split_ifs <;> rfl

theorem handles_move_to_inactive (o : Nat) (d : Device) :
    (i915_gem_object_move_to_inactive o d).handles = d.handles := by
  unfold i915_gem_object_move_to_inactive
  simp only []
  split_ifs <;> rfl

theorem handles_add_request (e : Env) (fl : Nat) (d : Device) :
    (i915_add_request e fl d).2.handles = d.handles := by
  unfold i915_add_request
  simp only []
  split_ifs <;> rfl

theorem handles_flush (e : Env) (inv fl : Nat) (d : Device) :
    (i915_gem_flush e inv fl d).handles = d.handles := by
  unfold i915_gem_flush
  simp only []
  split_ifs <;> rfl

theorem handles_retire_flushing (request : Request) (l : List Nat) :
    ∀ d : Device, (retire_flushing request l d).handles = d.handles := by
  induction l with
  | nil => intro d; rfl
  | cons o rest ih =>
    intro d
    simp only [retire_flushing]
    rw [ih]
    split
    · exact handles_move_to_inactive o _
    · rfl

theorem handles_retire_active (request : Request) (fuel : Nat) :
    ∀ d : Device, (retire_active request fuel d).handles = d.handles := by
  induction fuel with
  | zero => intro d; rfl
  | succ n ih =>
    intro d
    simp only [retire_active]
    split
    · rfl
    · split
      · rfl
      · split
        · rw [ih]
          rfl
        · rw [ih]
          exact handles_move_to_inactive _ _

theorem handles_retire_request (request : Request) (d : Device) :
    (i915_gem_retire_request request d).handles = d.handles := by
  unfold i915_gem_retire_request
  simp only []
  rw [handles_retire_active]
  split
  · exact handles_retire_flushing _ _ _
  · rfl

theorem handles_retire_requests_loop (seqno : Nat) (fuel : Nat) :
    ∀ d : Device, (retire_requests_loop seqno fuel d).handles = d.handles := by
  induction fuel with
  | zero => intro d; rfl
  | succ n ih =>
    intro d
    simp only [retire_requests_loop]
    split
    · rfl
    · split
      · rw [ih]
        exact handles_retire_request _ _
      · rfl

theorem handles_retire_requests (d : Device) :
    (i915_gem_retire_requests d).handles = d.handles :=
  handles_retire_requests_loop _ _ d

theorem handles_wait_request (e : Env) (seqno : Nat) (d : Device) :
    (i915_wait_request e seqno d).Holds (fun _ d' => d'.handles = d.handles) := by
  unfold i915_wait_request
  split
  · trivial
  · split
    · split
      · exact (handles_retire_requests _).trans rfl
      · rfl
    · exact handles_retire_requests d

theorem handles_wait_rendering_flush (e : Env) (o : Nat) (d : Device) :
    (wait_rendering_flush e o d).handles = d.handles := by
  unfold wait_rendering_flush
  simp only []
  exact (handles_add_request _ _ _).trans
    ((handles_move_to_active _ _).trans (handles_flush _ _ _ _))

theorem handles_wait_rendering_wait (e : Env) (o : Nat) (d : Device) :
    (wait_rendering_wait e o d).Holds (fun _ d' => d'.handles = d.handles) := by
  unfold wait_rendering_wait
  split
  · have h := handles_wait_request e (d.objs o).last_rendering_seqno d
    cases hw : i915_wait_request e (d.objs o).last_rendering_seqno d with
    | bug => trivial
    | ret code d1 =>
      rw [hw] at h
      simp only []
      split
      · exact h
      · exact h
  · rfl

theorem handles_wait_rendering (e : Env) (o : Nat) (d : Device) :
    (i915_gem_object_wait_rendering e o d).Holds (fun _ d' => d'.handles = d.handles) := by
  unfold i915_gem_object_wait_rendering
  simp only []
  split
  · split
    · trivial
    · exact holds_mono (handles_wait_rendering_wait e o _)
        (fun _ _ h => h.trans (handles_wait_rendering_flush e o _))
  · exact handles_wait_rendering_wait e o _

theorem kept_wait_request (e : Env) (seqno : Nat) (d : Device) :
    (i915_wait_request e seqno d).Holds (fun _ d' => Kept d d') :=
  holds_intro (fun c d' h =>
    kept_of_frame (frame_wait_request e seqno d d' c h) (holds_of_eq (handles_wait_request e seqno d) h))

theorem kept_wait_rendering (e : Env) (o : Nat) (d : Device) :
    (i915_gem_object_wait_rendering e o d).Holds (fun _ d' => Kept d d') :=
  holds_intro (fun c d' h =>
    kept_of_frame (frame_wait_rendering e o d d' c h)
      (holds_of_eq (handles_wait_rendering e o d) h))

theorem kept_flush (e : Env) (inv fl : Nat) (d : Device) : Kept d (i915_gem_flush e inv fl d) :=
  kept_of_frame (frame_flush e inv fl d) (handles_flush e inv fl d)

theorem kept_add_request (e : Env) (fl : Nat) (d : Device) : Kept d (i915_add_request e fl d).2 :=
  kept_of_frame (frame_add_request e fl d) (handles_add_request e fl d)

theorem kept_clflush (o : Nat) (d : Device) : Kept d (i915_gem_clflush_object o d) := by
  unfold i915_gem_clflush_object
  exact kept_ite (kept_refl d) ⟨rfl, fun _ => rfl⟩

theorem kept_tock (d : Device) : Kept d d.tock := ⟨rfl, fun _ => rfl⟩

theorem kept_log (d : Device) (ev : Event) : Kept d (d.log ev) := ⟨rfl, fun _ => rfl⟩

theorem kept_out_ring (d : Device) (ws : List Nat) : Kept d (d.out_ring ws) :=
  ⟨rfl, fun _ => rfl⟩

theorem kept_list_del_init (o : Nat) (d : Device) : Kept d (list_del_init o d) :=
  ⟨rfl, fun _ => rfl⟩

theorem kept_list_move_tail (o : Nat) (l : Lru) (d : Device) : Kept d (list_move_tail o l d) := by
  cases l <;> exact ⟨rfl, fun _ => rfl⟩

theorem kept_reference (o : Nat) (d : Device) : Kept d (drm_gem_object_reference o d) :=
  kept_update_obj d o _ (fun _ => rfl)

theorem kept_unreference (o : Nat) (d : Device) : Kept d (drm_gem_object_unreference o d) :=
  kept_update_obj d o _ (fun _ => rfl)

/-- A relation between states that every step of `i915_gem_object_set_domain`
respects holds between the state the call is given and the state it returns. -/
theorem set_domain_rel (R : Device → Device → Prop) (e : Env) (o r w : Nat) (d d' : Device)
    (code : Int) (hrefl : ∀ a, R a a) (htrans : ∀ a b c, R a b → R b c → R a c)
    (hdirty : R d (d.update_obj o (fun x => { x with dirty := true })))
    (hclflush : ∀ a, R a (i915_gem_clflush_object o a))
    (hwait : ∀ a c b, i915_gem_object_wait_rendering e o a = .ret c b → R a b)
    (hcommit : ∀ a c b, set_domain_commit o (set_domain_reads r w (d.objs o).read_domains) w
      (set_domain_invalidate (d.objs o).read_domains (d.objs o).write_domain
        (set_domain_reads r w (d.objs o).read_domains))
      (set_domain_flush (d.objs o).write_domain (set_domain_reads r w (d.objs o).read_domains))
      a = .ret c b → R a b)
    (h : i915_gem_object_set_domain e o r w d = .ret code d') : R d d' := by
  have hite : ∀ (c : Prop) [Decidable c] (x a b : Device), R x a → R x b →
      R x (if c then a else b) := by
    intro c _ x a b ha hb
    split
    · exact ha
    · exact hb
  have hd1 : R d (if w = 0 then d else d.update_obj o (fun x => { x with dirty := true })) :=
    hite _ _ _ _ (hrefl d) hdirty
  rcases set_domain_cases e o r w d d' code h with ⟨-, hc⟩ | ⟨-, d2, h2, ⟨-, he⟩ | ⟨-, hc⟩⟩
  · exact htrans _ _ _ hd1 (htrans _ _ _ (hite _ _ _ _ (hclflush _) (hrefl _))
      (hcommit _ _ _ hc))
  · rw [he]
    exact htrans _ _ _ hd1 (hwait _ _ _ h2)
  · exact htrans _ _ _ hd1 (htrans _ _ _ (hwait _ _ _ h2)
      (htrans _ _ _ (hclflush _) (hcommit _ _ _ hc)))

theorem kept_commit (o reads w inv fl : Nat) (d d' : Device) (code : Int)
    (h : set_domain_commit o reads w inv fl d = .ret code d') : Kept d d' := by
  unfold set_domain_commit at h
  cases h
  have h1 : Kept d (if w ||| fl ≠ 0 then
      d.update_obj o (fun x => { x with write_domain := w }) else d) :=
    kept_ite (kept_update_obj d o _ (fun _ => rfl)) (kept_refl d)
  have h2 := kept_trans h1 (kept_update_obj _ o (fun x => { x with read_domains := reads })
    (fun _ => rfl))
  exact kept_trans h2 ⟨rfl, fun _ => rfl⟩

theorem kept_set_domain (e : Env) (o r w : Nat) (d : Device) :
    (i915_gem_object_set_domain e o r w d).Holds (fun _ d' => Kept d d') :=
  holds_intro (fun c d' h =>
    set_domain_rel Kept e o r w d d' c kept_refl (fun _ _ _ => kept_trans)
      (kept_update_obj d o _ (fun _ => rfl)) (kept_clflush o)
      (fun a _ _ hw => holds_of_eq (kept_wait_rendering e o a) hw)
      (fun a c b hc => kept_commit _ _ _ _ _ a b c hc) h)

theorem kept_free_page_list (o : Nat) (d : Device) :
    Kept d (i915_gem_object_free_page_list o d) := by
  unfold i915_gem_object_free_page_list
  exact kept_ite (kept_refl d) (kept_update_obj d o _ (fun _ => rfl))

theorem kept_get_page_list (e : Env) (o : Nat) (d : Device) :
    Kept d (i915_gem_object_get_page_list e o d).2 := by
  unfold i915_gem_object_get_page_list
  by_cases hp : (d.objs o).page_list = true
  · rw [if_pos hp]
    exact kept_refl d
  · rw [if_neg hp]
    by_cases hc : e.calloc_ok = false
    · rw [if_pos hc]
      exact kept_refl d
    · rw [if_neg hc]
      simp only []
      by_cases hg : e.getpage_ret ≠ 0
      · rw [if_pos hg]
        exact kept_trans (kept_update_obj d o (fun x => { x with page_list := true })
          (fun _ => rfl)) (kept_free_page_list o _)
      · rw [if_neg hg]
        exact kept_update_obj d o (fun x => { x with page_list := true }) (fun _ => rfl)

theorem kept_put_gtt_space (o : Nat) (d : Device) : Kept d (put_gtt_space o d) := by
  unfold put_gtt_space
  cases (d.objs o).gtt_space with
  | none => exact kept_refl d
  | some start =>
    have h1 : Kept d { d with
        gtt_free := drm_memrange_put_block (start, (d.objs o).size) d.gtt_free } :=
      ⟨rfl, fun _ => rfl⟩
    exact kept_trans h1 (kept_update_obj _ o _ (fun _ => rfl))

theorem kept_unbind_release (o : Nat) (d : Device) :
    (unbind_release o d).Holds (fun _ d' => Kept d d') := by
  unfold unbind_release
  have h1 : Kept d (if (d.objs o).agp_mem = true then
      d.update_obj o (fun x => { x with agp_mem := false }) else d) :=
    kept_ite (kept_update_obj d o _ (fun _ => rfl)) (kept_refl d)
  generalize (if (d.objs o).agp_mem = true then
    d.update_obj o (fun x => { x with agp_mem := false }) else d) = d1 at h1
  simp only []
  by_cases ha : (d1.objs o).active = true
  · rw [if_pos ha]
    trivial
  · rw [if_neg ha]
    have h2 := kept_trans h1 (kept_free_page_list o d1)
    have h3 : Kept d (put_gtt_space o
        { i915_gem_object_free_page_list o d1 with
          gtt_count := (i915_gem_object_free_page_list o d1).gtt_count - 1
          gtt_memory := (i915_gem_object_free_page_list o d1).gtt_memory -
            (((i915_gem_object_free_page_list o d1).objs o).size : Int) }) :=
      kept_trans (kept_trans h2 ⟨rfl, fun _ => rfl⟩) (kept_put_gtt_space o _)
    exact kept_ite (kept_trans h3 (kept_list_del_init o _)) h3

theorem kept_unbind (es : Nat → Env) (o : Nat) (d : Device) :
    (i915_gem_object_unbind es o d).Holds (fun _ d' => Kept d d') := by
  unfold i915_gem_object_unbind
  by_cases hg : (d.objs o).gtt_space = none
  · rw [if_pos hg]
    exact kept_refl d
  · rw [if_neg hg]
    by_cases hp : (d.objs o).pin_count ≠ 0
    · rw [if_pos hp]
      exact kept_refl d
    · rw [if_neg hp]
      have hw := kept_wait_rendering (es d.tick) o d.tock
      cases hwr : i915_gem_object_wait_rendering (es d.tick) o d.tock with
      | bug => trivial
      | ret code d1 =>
        rw [hwr] at hw
        have k1 : Kept d d1 := kept_trans (kept_tock d) hw
        simp only []
        by_cases hc : code ≠ 0
        · rw [if_pos hc]
          exact k1
        · rw [if_neg hc]
          have hs := kept_set_domain (es d1.tick) o I915_GEM_DOMAIN_CPU I915_GEM_DOMAIN_CPU
            d1.tock
          cases hsd : i915_gem_object_set_domain (es d1.tick) o I915_GEM_DOMAIN_CPU
              I915_GEM_DOMAIN_CPU d1.tock with
          | bug => trivial
          | ret code2 d2 =>
            rw [hsd] at hs
            have k2 : Kept d d2 := kept_trans k1 (kept_trans (kept_tock d1) hs)
            simp only []
            by_cases hc2 : code2 ≠ 0
            · rw [if_pos hc2]
              exact k2
            · rw [if_neg hc2]
              exact holds_mono (kept_unbind_release o d2) (fun _ _ h => kept_trans k2 h)

theorem kept_evict (es : Nat → Env) :
    ∀ (fuel : Nat) (d : Device),
      holds_opt (fun _ d' => Kept d d') (i915_gem_evict_something es fuel d) := by
  intro fuel
  induction fuel with
  | zero => intro d; trivial
  | succ n ih =>
    intro d
    simp only [i915_gem_evict_something]
    cases d.inactive_list with
    | cons o t =>
      simp only []
      split_ifs
      · trivial
      · trivial
      · exact kept_unbind es o d
    | nil =>
      simp only []
      cases d.request_list with
      | cons request t =>
        simp only []
        have hw := kept_wait_request (es d.tick) request.seqno d.tock
        cases hwr : i915_wait_request (es d.tick) request.seqno d.tock with
        | bug => trivial
        | ret code d1 =>
          rw [hwr] at hw
          have k1 : Kept d d1 := kept_trans (kept_tock d) hw
          simp only []
          split_ifs
          · exact holds_opt_mono (ih d1) (fun _ _ h => kept_trans k1 h)
          · exact k1
      | nil =>
        simp only []
        cases d.flushing_list with
        | cons o t =>
          simp only []
          exact holds_opt_mono (ih _) (fun _ _ h =>
            kept_trans (kept_trans (kept_tock d)
              (kept_trans (kept_flush _ _ _ _) (kept_add_request _ _ _))) h)
        | nil => exact kept_refl d

theorem shift_comp {k1 k2 k : Nat → Int} {a b c : Device} (h1 : PinShift k1 a b)
    (h2 : PinShift k2 b c) (hk : ∀ x, k1 x + k2 x = k x) : PinShift k a c := by
  refine ⟨h2.1.trans h1.1, fun x => ?_⟩
  rw [h2.2 x, h1.2 x, ← hk x]
  omega

theorem shift_of_kept {a b : Device} (h : Kept a b) : PinShift (fun _ => 0) a b :=
  ⟨h.1, fun x => by rw [h.2 x]; simp⟩

theorem kept_of_shift {k : Nat → Int} {a b : Device} (h : PinShift k a b)
    (hk : ∀ x, k x = 0) : Kept a b :=
  ⟨h.1, fun x => by rw [h.2 x, hk x]; omega⟩

theorem kept_shift {k : Nat → Int} {a b c : Device} (h1 : Kept a b) (h2 : PinShift k b c) :
    PinShift k a c :=
  shift_comp (shift_of_kept h1) h2 (fun x => by simp)

theorem shift_kept {k : Nat → Int} {a b c : Device} (h1 : PinShift k a b) (h2 : Kept b c) :
    PinShift k a c :=
  shift_comp h1 (shift_of_kept h2) (fun x => by simp)

theorem kept_bind_search (es : Nat → Env) (o alignment efuel : Nat) :
    ∀ (fuel : Nat) (d : Device),
      holds_opt (fun _ d' => Kept d d') (bind_search es o alignment efuel fuel d) := by
  intro fuel
  induction fuel with
  | zero => intro d; trivial
  | succ n ih =>
    intro d
    simp only [bind_search]
    cases drm_memrange_search_free d.gtt_free (d.objs o).size alignment with
    | some r =>
      simp only []
      have h1 : Kept d { d with
          gtt_free := (drm_memrange_get_block d.gtt_free r (d.objs o).size alignment).2 } :=
        ⟨rfl, fun _ => rfl⟩
      exact kept_trans h1 (kept_update_obj _ o _ (fun _ => rfl))
    | none =>
      simp only []
      by_cases he : d.inactive_list.isEmpty ∧ d.flushing_list.isEmpty ∧ d.active_list.isEmpty
      · rw [if_pos he]
        exact kept_refl d
      · rw [if_neg he]
        have hev := kept_evict es efuel d
        cases hr : i915_gem_evict_something es efuel d with
        | none => trivial
        | some r =>
          rw [hr] at hev
          cases r with
          | bug => trivial
          | ret code d1 =>
            simp only []
            by_cases hc : code ≠ 0
            · rw [if_pos hc]
              exact hev
            · rw [if_neg hc]
              exact holds_opt_mono (ih d1) (fun _ _ h => kept_trans hev h)

theorem kept_bind_pages (es : Nat → Env) (o : Nat) (d : Device) :
    (bind_pages es o d).Holds (fun _ d' => Kept d d') := by
  unfold bind_pages
  have hr : Kept d (i915_gem_object_get_page_list (es d.tick) o d.tock).2 :=
    kept_trans (kept_tock d) (kept_get_page_list _ o _)
  generalize i915_gem_object_get_page_list (es d.tick) o d.tock = r at hr
  simp only []
  by_cases h1 : r.1 ≠ 0
  · rw [if_pos h1]
    exact kept_trans hr (kept_put_gtt_space o _)
  · rw [if_neg h1]
    by_cases h2 : (es r.2.tick).agp_bind_ok = false
    · rw [if_pos h2]
      exact kept_trans hr (kept_trans (kept_trans (kept_tock _) (kept_free_page_list o _))
        (kept_put_gtt_space o _))
    · rw [if_neg h2]
      have h3 : Kept d (r.2.tock.update_obj o (fun x => { x with agp_mem := true })) :=
        kept_trans hr (kept_trans (kept_tock _) (kept_update_obj _ o _ (fun _ => rfl)))
      split_ifs
      · trivial
      · trivial
      · exact kept_trans h3 ⟨rfl, fun _ => rfl⟩

theorem kept_bind_to_gtt (es : Nat → Env) (fuel o alignment : Nat) (d : Device) :
    holds_opt (fun _ d' => Kept d d') (i915_gem_object_bind_to_gtt es fuel o alignment d) := by
  unfold i915_gem_object_bind_to_gtt
  generalize (if alignment = 0 then PAGE_SIZE else alignment) = al
  simp only []
  by_cases ha : al &&& (PAGE_SIZE - 1) ≠ 0
  · rw [if_pos ha]
    exact kept_refl d
  · rw [if_neg ha]
    have hs := kept_bind_search es o al fuel fuel d
    cases hr : bind_search es o al fuel fuel d with
    | none => trivial
    | some r =>
      rw [hr] at hs
      cases r with
      | bug => trivial
      | ret code d1 =>
        simp only []
        by_cases hc : code ≠ 0
        · rw [if_pos hc]
          exact hs
        · rw [if_neg hc]
          exact holds_mono (kept_bind_pages es o d1) (fun _ _ h => kept_trans hs h)

theorem shift_pin_account (o : Nat) (d : Device) : PinShift (pin_delta o) d (pin_account o d) := by
  have h1 : PinShift (pin_delta o) d
      (d.update_obj o (fun x => { x with pin_count := x.pin_count + 1 })) := by
    refine ⟨rfl, fun x => ?_⟩
    unfold pin_delta
    by_cases hx : x = o
    · simp [Device.update_obj, hx]
    · simp [Device.update_obj, hx]
  unfold pin_account
  simp only []
  split_ifs
  · exact shift_kept h1 ⟨rfl, fun _ => rfl⟩
  · exact shift_kept h1 ⟨rfl, fun _ => rfl⟩
  · exact h1

/-- A successful pin adds one to the pin count of the object; a failed one
changes no pin count. -/
theorem shift_pin (es : Nat → Env) (fuel o alignment : Nat) (d : Device) :
    holds_opt (fun c d' => (c = 0 → PinShift (pin_delta o) d d') ∧ (c ≠ 0 → Kept d d'))
      (i915_gem_object_pin es fuel o alignment d) := by
  unfold i915_gem_object_pin
  have hb : holds_opt (fun _ d' => Kept d d')
      (if (d.objs o).gtt_space = none then i915_gem_object_bind_to_gtt es fuel o alignment d
        else some (.ret 0 d)) := by
    split
    · exact kept_bind_to_gtt es fuel o alignment d
    · exact kept_refl d
  generalize (if (d.objs o).gtt_space = none then i915_gem_object_bind_to_gtt es fuel o alignment d
    else some (.ret 0 d)) = bound at hb
  simp only []
  cases bound with
  | none => trivial
  | some r =>
    cases r with
    | bug => trivial
    | ret code d1 =>
      simp only []
      by_cases hc : code ≠ 0
      · rw [if_pos hc]
        exact ⟨fun h => absurd h hc, fun _ => hb⟩
      · rw [if_neg hc]
        exact ⟨fun _ => kept_shift hb (shift_pin_account o d1), fun h => absurd rfl h⟩

/-- An unpin that returns has taken one from the pin count of the object. -/
theorem shift_unpin (o : Nat) (d : Device) :
    (i915_gem_object_unpin o d).Holds
      (fun _ d' => PinShift (fun x => - pin_delta o x) d d') := by
  have h1 : PinShift (fun x => - pin_delta o x) d
      (d.update_obj o (fun x => { x with pin_count := x.pin_count - 1 })) := by
    refine ⟨rfl, fun x => ?_⟩
    unfold pin_delta
    by_cases hx : x = o
    · simp [Device.update_obj, hx]
      omega
    · simp [Device.update_obj, hx]
  unfold i915_gem_object_unpin
  generalize (d.update_obj o (fun x => { x with pin_count := x.pin_count - 1 })) = d1 at h1
  simp only []
  by_cases hn : (d1.objs o).pin_count < 0
  · rw [if_pos hn]
    trivial
  · rw [if_neg hn]
    by_cases hg : (d1.objs o).gtt_space = none
    · rw [if_pos hg]
      trivial
    · rw [if_neg hg]
      by_cases hz : (d1.objs o).pin_count = 0
      · rw [if_pos hz]
        have h2 : Kept d1 (if (d1.objs o).active = false ∧
            (d1.objs o).write_domain &&& not32 I915_GEM_DOMAIN_CPU = 0
            then list_move_tail o .inactive d1 else d1) :=
          kept_ite (kept_list_move_tail o .inactive d1) (kept_refl d1)
        exact shift_kept h1 (kept_trans h2 ⟨rfl, fun _ => rfl⟩)
      · rw [if_neg hz]
        exact h1

theorem lookup_spec (file handle : Nat) (d : Device) :
    (d.handles file handle = none ∧ drm_gem_object_lookup file handle d = none) ∨
    ∃ o, d.handles file handle = some o ∧
      drm_gem_object_lookup file handle d = some (o, drm_gem_object_reference o d) := by
  unfold drm_gem_object_lookup
  cases h : d.handles file handle with
  | none => exact Or.inl ⟨rfl, rfl⟩
  | some o => exact Or.inr ⟨o, rfl, rfl⟩

theorem kept_lookup (file handle o : Nat) (d d1 : Device)
    (h : drm_gem_object_lookup file handle d = some (o, d1)) :
    d.handles file handle = some o ∧ Kept d d1 := by
  rcases lookup_spec file handle d with ⟨-, h2⟩ | ⟨o2, h1, h2⟩
  · rw [h2] at h
    cases h
  · rw [h2] at h
    cases h
    exact ⟨h1, kept_reference o d⟩

theorem shift_reloc_fail (o : Nat) (code : Int) (d : Device) :
    (reloc_fail o code d).Holds
      (fun c d' => c = code ∧ PinShift (fun x => - pin_delta o x) d d') := by
  unfold reloc_fail
  have h := shift_unpin o d
  cases hu : i915_gem_object_unpin o d with
  | bug => trivial
  | ret c d1 =>
    rw [hu] at h
    exact ⟨rfl, h⟩

theorem shift_reloc_fail_after (o : Nat) (code : Int) (d0 d : Device) (hk : Kept d0 d)
    (hc : code ≠ 0) :
    (reloc_fail o code d).Holds
      (fun c d' => (c = 0 → Kept d0 d') ∧
        (c ≠ 0 → PinShift (fun x => - pin_delta o x) d0 d')) :=
  holds_mono (shift_reloc_fail o code d)
    (fun _ _ h => ⟨fun h0 => absurd (h.1 ▸ h0) hc, fun _ => kept_shift hk h.2⟩)

/-- The relocation loop changes no pin count when it succeeds; when it fails it
has unpinned the object once. -/
theorem shift_relocate (es : Nat → Env) (file o : Nat) :
    ∀ (relocs : List Reloc) (index : Nat) (mapped : Bool) (last : Nat) (d : Device),
      (relocate es file o index mapped last relocs d).Holds
        (fun c d' => (c = 0 → Kept d d') ∧
          (c ≠ 0 → PinShift (fun x => - pin_delta o x) d d')) := by
  intro relocs
  induction relocs with
  | nil =>
    intro index mapped last d
    simp only [relocate]
    exact ⟨fun _ => kept_refl d, fun h => absurd rfl h⟩
  | cons reloc rest ih =>
    intro index mapped last d
    simp only [relocate]
    have step : ∀ (i : Nat) (m : Bool) (l : Nat) (d1 : Device), Kept d d1 →
        (relocate es file o i m l rest d1).Holds
          (fun c d' => (c = 0 → Kept d d') ∧
            (c ≠ 0 → PinShift (fun x => - pin_delta o x) d d')) :=
      fun i m l d1 hk => holds_mono (ih i m l d1)
        (fun c d' h => ⟨fun h0 => kept_trans hk (h.1 h0), fun h0 => kept_shift hk (h.2 h0)⟩)
    by_cases h1 : (es d.tick).copy_from_user_ret ≠ 0
    · rw [if_pos h1]
      exact shift_reloc_fail_after o _ d _ (kept_tock d) h1
    · rw [if_neg h1]
      cases hl : drm_gem_object_lookup file reloc.target_handle d.tock with
      | none =>
        simp only []
        exact shift_reloc_fail_after o _ d _ (kept_tock d) (by decide)
      | some p =>
        obtain ⟨t, d1⟩ := p
        have k1 : Kept d d1 := kept_trans (kept_tock d) (kept_lookup _ _ _ _ _ hl).2
        simp only []
        by_cases h2 : (d1.objs t).gtt_space = none
        · rw [if_pos h2]
          exact shift_reloc_fail_after o _ d _ (kept_trans k1 (kept_unreference t d1))
            (by decide)
        · rw [if_neg h2]
          by_cases h3 : reloc.offset > sub_size_t (d1.objs o).size 4
          · rw [if_pos h3]
            exact shift_reloc_fail_after o _ d _ (kept_trans k1 (kept_unreference t d1))
              (by decide)
          · rw [if_neg h3]
            by_cases h4 : reloc.offset &&& 3 ≠ 0
            · rw [if_pos h4]
              exact shift_reloc_fail_after o _ d _ (kept_trans k1 (kept_unreference t d1))
                (by decide)
            · rw [if_neg h4]
              by_cases h5 : reloc.write_domain ≠ 0 ∧ (d1.objs t).pending_write_domain ≠ 0 ∧
                  reloc.write_domain ≠ (d1.objs t).pending_write_domain
              · rw [if_pos h5]
                exact shift_reloc_fail_after o _ d _ (kept_trans k1 (kept_unreference t d1))
                  (by decide)
              · rw [if_neg h5]
                have k2 : Kept d (d1.update_obj t (fun x =>
                    { x with
                      pending_read_domains := x.pending_read_domains ||| reloc.read_domains
                      pending_write_domain :=
                        x.pending_write_domain ||| reloc.write_domain })) :=
                  kept_trans k1 (kept_update_obj d1 t _ (fun _ => rfl))
                generalize (d1.update_obj t (fun x =>
                    { x with
                      pending_read_domains := x.pending_read_domains ||| reloc.read_domains
                      pending_write_domain :=
                        x.pending_write_domain ||| reloc.write_domain })) = d2 at k2
                by_cases h6 : (d2.objs t).gtt_offset = reloc.presumed_offset
                · rw [if_pos h6]
                  exact step _ _ _ _ (kept_trans k2 (kept_unreference t d2))
                · rw [if_neg h6]
                  have hw := kept_wait_rendering (es d.tick) o d2
                  cases hwr : i915_gem_object_wait_rendering (es d.tick) o d2 with
                  | bug => trivial
                  | ret cw d3 =>
                    rw [hwr] at hw
                    simp only []
                    have k4 : Kept d (if (d3.objs o).write_domain &&& I915_GEM_DOMAIN_CPU ≠ 0 then
                        ((i915_gem_clflush_object o d3).log .chipset_flush).update_obj o
                          (fun x => { x with write_domain := 0 })
                        else d3) :=
                      kept_trans (kept_trans k2 hw) (kept_ite
                        (kept_trans (kept_trans (kept_clflush o d3) (kept_log _ _))
                          (kept_update_obj _ o _ (fun _ => rfl))) (kept_refl d3))
                    generalize (if (d3.objs o).write_domain &&& I915_GEM_DOMAIN_CPU ≠ 0 then
                        ((i915_gem_clflush_object o d3).log .chipset_flush).update_obj o
                          (fun x => { x with write_domain := 0 })
                        else d3) = d4 at k4
                    have l1 : ∀ ev, Kept d (drm_gem_object_unreference t (d4.log ev)) :=
                      fun ev => kept_trans k4 (kept_trans (kept_log _ _) (kept_unreference t _))
                    have l2 : ∀ ev1 ev2,
                        Kept d (drm_gem_object_unreference t ((d4.log ev1).log ev2)) :=
                      fun ev1 ev2 => kept_trans k4 (kept_trans (kept_trans (kept_log _ _)
                        (kept_log _ _)) (kept_unreference t _))
                    have l3 : ∀ ev1 ev2 ev3,
                        Kept d (drm_gem_object_unreference t (((d4.log ev1).log ev2).log ev3)) :=
                      fun ev1 ev2 ev3 => kept_trans k4 (kept_trans (kept_trans (kept_trans
                        (kept_log _ _) (kept_log _ _)) (kept_log _ _)) (kept_unreference t _))
                    split_ifs <;> first
                      | exact shift_reloc_fail_after o _ d _ (l1 _) (by decide)
                      | exact shift_reloc_fail_after o _ d _ (l1 _) (by assumption)
                      | exact shift_reloc_fail_after o _ d _ (l2 _ _) (by assumption)
                      | exact step _ _ _ _ (l2 _ _)
                      | exact step _ _ _ _ (l3 _ _ _)

/-- A successful pin-and-relocate has pinned the object once; a failed one
leaves every pin count as it was. -/
theorem shift_pin_and_relocate (es : Nat → Env) (fuel file o : Nat) (entry : ExecObject)
    (d : Device) (r : ExecObject × Outcome)
    (h : i915_gem_object_pin_and_relocate es fuel file o entry d = some r) :
    r.2.Holds (fun c d' => (c = 0 → PinShift (pin_delta o) d d') ∧ (c ≠ 0 → Kept d d')) := by
  unfold i915_gem_object_pin_and_relocate at h
  have hp := shift_pin es fuel o (entry.alignment % U32) d
  cases hpin : i915_gem_object_pin es fuel o (entry.alignment % U32) d with
  | none =>
    rw [hpin] at h
    cases h
  | some p =>
    rw [hpin] at h hp
    cases p with
    | bug =>
      cases h
      trivial
    | ret code d1 =>
      simp only [] at h
      by_cases hc : code ≠ 0
      · rw [if_pos hc] at h
        cases h
        exact hp
      · rw [if_neg hc] at h
        cases h
        have hs : PinShift (pin_delta o) d d1 := hp.1 (not_not.mp hc)
        exact holds_mono (shift_relocate es file o entry.relocs 0 false 0xFFFFFFFF d1)
          (fun c d' hr => ⟨fun h0 => shift_kept hs (hr.1 h0),
            fun h0 => kept_of_shift (shift_comp hs (hr.2 h0) (fun x => rfl))
              (fun x => by omega)⟩)

theorem count_singleton_delta (o x : Nat) : (([o].count x : Nat) : Int) = pin_delta o x := by
  unfold pin_delta
  by_cases h : x = o
  · subst h
    simp
  · have h2 : ¬ o = x := fun e => h e.symm
    simp [List.count_singleton, h, h2]

/-- The first loop of `i915_gem_execbuffer`: when it is through, the objects it
has added to the list are the ones the handles of the exec list resolve to, and
each has been pinned once per entry; when it jumps to `err`, the code is not 0,
the objects it counts as pinned are those of the turns before the failing one,
and each of these has been pinned once per entry. -/
theorem pin_loop_spec (es : Nat → Env) (fuel file : Nat) :
    ∀ (buffers : List ExecObject) (objects : List Nat) (entries : List ExecObject)
      (d : Device) (r : PinLoop),
      exec_pin_loop es fuel file buffers objects entries d = some r →
      match r with
      | .done objects1 entries1 d' =>
        PinShift (fun x => (objects1.count x : Int) - (objects.count x : Int)) d d' ∧
        entries1.length = entries.length + buffers.length ∧
        ∃ res, objects1 = objects ++ res ∧
          List.Forall₂ (fun (b : ExecObject) o => d.handles file b.handle = some o) buffers res
      | .failed code pinned _ d' =>
        PinShift (fun x => (pinned.count x : Int) - (objects.count x : Int)) d d' ∧
        code ≠ 0 ∧
        ∃ res, pinned = objects ++ res ∧ res.length < buffers.length ∧
          List.Forall₂ (fun (b : ExecObject) o => d.handles file b.handle = some o)
            (buffers.take res.length) res
      | .bug => True := by
  intro buffers
  induction buffers with
  | nil =>
    intro objects entries d r h
    simp only [exec_pin_loop] at h
    cases h
    exact ⟨⟨rfl, fun x => by simp⟩, rfl, [], by simp, List.Forall₂.nil⟩
  | cons entry rest ih =>
    intro objects entries d r h
    simp only [exec_pin_loop] at h
    cases hl : drm_gem_object_lookup file entry.handle d with
    | none =>
      rw [hl] at h
      cases h
      exact ⟨⟨rfl, fun x => by simp⟩, by decide, [], by simp, by simp, by simp⟩
    | some p =>
      obtain ⟨o, d1⟩ := p
      rw [hl] at h
      simp only [] at h
      obtain ⟨hres, k1⟩ := kept_lookup _ _ _ _ _ hl
      have k2 : Kept d (d1.update_obj o (fun x =>
          { x with pending_read_domains := 0, pending_write_domain := 0 })) :=
        kept_trans k1 (kept_update_obj d1 o _ (fun _ => rfl))
      generalize (d1.update_obj o (fun x =>
          { x with pending_read_domains := 0, pending_write_domain := 0 })) = d2 at h k2
      cases hpr : i915_gem_object_pin_and_relocate es fuel file o entry d2 with
      | none =>
        rw [hpr] at h
        cases h
      | some q =>
        have hq := shift_pin_and_relocate es fuel file o entry d2 q hpr
        obtain ⟨entry1, out⟩ := q
        rw [hpr] at h
        cases out with
        | bug =>
          cases h
          trivial
        | ret code d3 =>
          simp only [] at h
          by_cases hc : code ≠ 0
          · rw [if_pos hc] at h
            cases h
            exact ⟨shift_comp (shift_of_kept (kept_trans k2 (hq.2 hc))) (shift_of_kept (kept_refl _))
              (fun x => by omega), hc, [], by simp, by simp, by simp⟩
          · rw [if_neg hc] at h
            have hs : PinShift (pin_delta o) d d3 := kept_shift k2 (hq.1 (not_not.mp hc))
            have hrec := ih (objects ++ [o]) (entries ++ [entry1]) d3 r h
            cases r with
            | bug => trivial
            | done objects1 entries1 d' =>
              obtain ⟨h1, h2, res, h3, h4⟩ := hrec
              refine ⟨shift_comp hs h1 (fun x => ?_), ?_, o :: res, ?_, ?_⟩
              · rw [List.count_append, Nat.cast_add, count_singleton_delta]
                omega
              · rw [h2]
                simp only [List.length_append, List.length_cons, List.length_nil]
                omega
              · rw [h3, List.append_assoc]
                rfl
              · refine List.Forall₂.cons hres ?_
                rw [hs.1] at h4
                exact h4
            | failed code2 pinned looked d' =>
              obtain ⟨h1, h2, res, h3, h4, h5⟩ := hrec
              refine ⟨shift_comp hs h1 (fun x => ?_), h2, o :: res, ?_, ?_, ?_⟩
              · rw [List.count_append, Nat.cast_add, count_singleton_delta]
                omega
              · rw [h3, List.append_assoc]
                rfl
              · simp only [List.length_cons]
                omega
              · simp only [List.length_cons, List.take_succ_cons]
                refine List.Forall₂.cons hres ?_
                rw [hs.1] at h5
                exact h5

theorem kept_exec_set_domains (es : Nat → Env) :
    ∀ (objects : List Nat) (d : Device),
      (exec_set_domains es objects d).Holds (fun _ d' => Kept d d') := by
  intro objects
  induction objects with
  | nil => intro d; exact kept_refl d
  | cons o rest ih =>
    intro d
    simp only [exec_set_domains]
    by_cases hg : (d.objs o).gtt_space = none
    · rw [if_pos hg]
      exact kept_refl d
    · rw [if_neg hg]
      have hs := kept_set_domain (es d.tick) o (d.objs o).pending_read_domains
        (d.objs o).pending_write_domain d.tock
      cases hsd : i915_gem_object_set_domain (es d.tick) o (d.objs o).pending_read_domains
          (d.objs o).pending_write_domain d.tock with
      | bug => trivial
      | ret code d1 =>
        rw [hsd] at hs
        have k1 : Kept d d1 := kept_trans (kept_tock d) hs
        simp only []
        by_cases hc : code ≠ 0
        · rw [if_pos hc]
          exact k1
        · rw [if_neg hc]
          exact holds_mono (ih d1) (fun _ _ h => kept_trans k1 h)

theorem kept_dev_set_domain (e : Env) (d : Device) : Kept d (i915_gem_dev_set_domain e d).2 := by
  unfold i915_gem_dev_set_domain
  by_cases h : d.invalidate_domains ||| d.flush_domains ≠ 0
  · rw [if_pos h]
    exact kept_trans (kept_flush e _ _ d) ⟨rfl, fun _ => rfl⟩
  · rw [if_neg h]
    exact kept_refl d

theorem kept_dispatch_loop (es : Nat → Env) (exec_start exec_len : Nat) (nbox : Int) :
    ∀ (n i : Nat) (d : Device),
      (dispatch_loop es exec_start exec_len nbox n i d).Holds (fun _ d' => Kept d d') := by
  intro n
  induction n with
  | zero => intro i d; exact kept_refl d
  | succ n ih =>
    intro i d
    simp only [dispatch_loop]
    have k1 : Kept d (if (i : Int) < nbox then d.tock.log (.emit_box i) else d.tock) :=
      kept_ite (kept_trans (kept_tock d) (kept_log _ _)) (kept_tock d)
    generalize (if (i : Int) < nbox then d.tock.log (.emit_box i) else d.tock) = d1 at k1
    by_cases hb : (i : Int) < nbox ∧ (es d.tick).emit_box_ret ≠ 0
    · rw [if_pos hb]
      exact k1
    · rw [if_neg hb]
      refine holds_mono (ih _ _) (fun _ _ h => kept_trans (kept_trans k1 ?_) h)
      exact kept_ite (kept_out_ring _ _) (kept_ite (kept_out_ring _ _) (kept_out_ring _ _))

theorem kept_dispatch (es : Nat → Env) (exec : ExecBuffer) (exec_offset : Nat) (d : Device) :
    (i915_dispatch_gem_execbuffer es exec exec_offset d).Holds (fun _ d' => Kept d d') := by
  unfold i915_dispatch_gem_execbuffer
  simp only []
  split_ifs
  · exact kept_refl d
  · exact kept_refl d
  · exact kept_dispatch_loop es _ _ _ _ _ d
  · exact kept_dispatch_loop es _ _ _ _ _ d

theorem kept_move_to_active (o : Nat) (d : Device) :
    Kept d (i915_gem_object_move_to_active o d) :=
  kept_of_frame (frame_move_to_active o d) (handles_move_to_active o d)

theorem kept_exec_move_to_active (seqno : Nat) :
    ∀ (objects : List Nat) (d : Device), Kept d (exec_move_to_active seqno objects d) := by
  intro objects
  induction objects with
  | nil => intro d; exact kept_refl d
  | cons o rest ih =>
    intro d
    simp only [exec_move_to_active]
    exact kept_trans (kept_trans (kept_move_to_active o d)
      (kept_update_obj _ o (fun x => { x with last_rendering_seqno := seqno })
        (fun _ => rfl))) (ih _)

theorem kept_exec_submit (es : Nat → Env) (file : Nat) (args : ExecBuffer)
    (objects : List Nat) (entries : List ExecObject) (d : Device) :
    (exec_submit es file args objects entries d).Holds (fun _ d' => Kept d d') := by
  unfold exec_submit
  cases objects.getLast? with
  | none => trivial
  | some batch_obj =>
    cases entries.getLast? with
    | none => trivial
    | some batch_entry =>
      simp only []
      have k1 : Kept d (d.update_obj batch_obj (fun x =>
          { x with pending_read_domains := I915_GEM_DOMAIN_COMMAND, pending_write_domain := 0 })) :=
        kept_update_obj d batch_obj _ (fun _ => rfl)
      generalize (d.update_obj batch_obj (fun x =>
          { x with pending_read_domains := I915_GEM_DOMAIN_COMMAND, pending_write_domain := 0 }))
        = d1 at k1
      have hs := kept_exec_set_domains es objects d1
      cases hsd : exec_set_domains es objects d1 with
      | bug => trivial
      | ret code d2 =>
        rw [hsd] at hs
        have k2 : Kept d d2 := kept_trans k1 hs
        simp only []
        by_cases hc : code ≠ 0
        · rw [if_pos hc]
          exact k2
        · rw [if_neg hc]
          have k3 : Kept d (i915_gem_dev_set_domain (es d2.tick) d2.tock).2 :=
            kept_trans k2 (kept_trans (kept_tock d2) (kept_dev_set_domain _ _))
          generalize i915_gem_dev_set_domain (es d2.tick) d2.tock = r at k3
          have hd := kept_dispatch es args batch_entry.offset r.2
          cases hdi : i915_dispatch_gem_execbuffer es args batch_entry.offset r.2 with
          | bug => trivial
          | ret code3 d3 =>
            rw [hdi] at hd
            have k4 : Kept d d3 := kept_trans k3 hd
            simp only []
            by_cases hc3 : code3 ≠ 0
            · rw [if_pos hc3]
              exact k4
            · rw [if_neg hc3]
              have k5 : Kept d (i915_add_request (es d3.tick)
                  (r.1 ||| (i915_retire_commands (es d3.tick) d3.tock).1)
                  (i915_retire_commands (es d3.tick) d3.tock).2).2 :=
                kept_trans k4 (kept_trans (kept_trans (kept_tock d3) (kept_out_ring _ _))
                  (kept_add_request _ _ _))
              generalize i915_add_request (es d3.tick)
                  (r.1 ||| (i915_retire_commands (es d3.tick) d3.tock).1)
                  (i915_retire_commands (es d3.tick) d3.tock).2 = a at k5
              by_cases ha : a.1 = 0
              · rw [if_pos ha]
                trivial
              · rw [if_neg ha]
                have k6 : Kept d (exec_move_to_active a.1 objects
                    { a.2 with last_gem_seqno := fun f =>
                      if f = file then a.1 else a.2.last_gem_seqno f }) :=
                  kept_trans (kept_trans k5 ⟨rfl, fun _ => rfl⟩) (kept_exec_move_to_active _ _ _)
                split_ifs
                · exact k6
                · exact kept_trans k6 (kept_log _ _)

theorem shift_unpin_all :
    ∀ (l : List Nat) (d d' : Device), unpin_all l d = some d' →
      PinShift (fun x => - (l.count x : Int)) d d' := by
  intro l
  induction l with
  | nil =>
    intro d d' h
    simp only [unpin_all] at h
    cases h
    exact ⟨rfl, fun x => by simp⟩
  | cons o rest ih =>
    intro d d' h
    simp only [unpin_all] at h
    have hu := shift_unpin o d
    cases hun : i915_gem_object_unpin o d with
    | bug =>
      rw [hun] at h
      cases h
    | ret c d1 =>
      rw [hun] at h hu
      simp only [] at h
      refine shift_comp hu (ih d1 d' h) (fun x => ?_)
      have e1 : (o :: rest).count x = [o].count x + rest.count x := by
        rw [← List.count_append]
        rfl
      rw [e1, Nat.cast_add, count_singleton_delta]
      omega

theorem kept_unreference_all :
    ∀ (l : List Nat) (d : Device), Kept d (unreference_all l d) := by
  intro l
  induction l with
  | nil => intro d; exact kept_refl d
  | cons o rest ih =>
    intro d
    simp only [unreference_all]
    exact kept_trans (kept_unreference o d) (ih _)

theorem shift_exec_cleanup (code : Int) (pinned looked_up : List Nat) (d : Device) :
    (exec_cleanup code pinned looked_up d).Holds
      (fun c d' => c = code ∧ PinShift (fun x => - (pinned.count x : Int)) d d') := by
  unfold exec_cleanup
  cases hu : unpin_all pinned d with
  | none => trivial
  | some d1 =>
    exact ⟨rfl, shift_kept (shift_unpin_all pinned d d1 hu) (kept_unreference_all _ _)⟩

theorem kept_execbuffer (es : Nat → Env) (fuel file : Nat) (args : ExecBuffer) (d : Device) :
    holds_opt (fun _ d' => Kept d d') (i915_gem_execbuffer es fuel file args d) := by
  unfold i915_gem_execbuffer
  simp only []
  by_cases h1 : (es d.tick).calloc_ok = false
  · rw [if_pos h1]
    exact kept_tock d
  · rw [if_neg h1]
    by_cases h2 : (es d.tick).copy_from_user_ret ≠ 0
    · rw [if_pos h2]
      exact kept_tock d
    · rw [if_neg h2]
      by_cases h3 : d.suspended = true
      · rw [if_pos h3]
        exact kept_tock d
      · rw [if_neg h3]
        have k1 : Kept d { d.tock with invalidate_domains := 0, flush_domains := 0 } :=
          ⟨rfl, fun _ => rfl⟩
        generalize ({ d.tock with invalidate_domains := 0, flush_domains := 0 } : Device) = d1
          at k1
        cases hl : exec_pin_loop es fuel file args.buffers [] [] d1 with
        | none => trivial
        | some r =>
          have hspec := pin_loop_spec es fuel file args.buffers [] [] d1 r hl
          cases r with
          | bug => trivial
          | failed code pinned looked d2 =>
            simp only []
            obtain ⟨hs, -, -⟩ := hspec
            refine holds_mono (shift_exec_cleanup code pinned looked d2) (fun c d' hc => ?_)
            exact kept_trans k1 (kept_of_shift (shift_comp hs hc.2 (fun x => rfl))
              (fun x => by simp))
          | done objects entries d2 =>
            simp only []
            obtain ⟨hs, -, -⟩ := hspec
            have hsub := kept_exec_submit es file args objects entries d2
            cases hsb : exec_submit es file args objects entries d2 with
            | bug => trivial
            | ret code d3 =>
              rw [hsb] at hsub
              simp only []
              refine holds_mono (shift_exec_cleanup code objects objects d3) (fun c d' hc => ?_)
              exact kept_trans k1 (kept_of_shift
                (shift_comp (shift_kept hs hsub) hc.2 (fun x => rfl)) (fun x => by simp))

/-- C17: whatever `i915_gem_execbuffer` returns, success or any error, every
object has the pin count it had before the call: the pins taken for the
buffers of the exec list are all released by the time the call returns. -/
theorem execbuffer_pins_are_transient (es : Nat → Env) (fuel file : Nat) (args : ExecBuffer)
    (d d' : Device) (code : Int)
    (h : i915_gem_execbuffer es fuel file args d = some (.ret code d')) :
    ∀ x : Nat, (d'.objs x).pin_count = (d.objs x).pin_count :=
  (holds_opt_of_eq (kept_execbuffer es fuel file args d) h).2

/-- Witness for C17: the submission `sample_exec` on `aperture_dev` returns 0 and
leaves every pin count as it was. -/
theorem execbuffer_pins_are_transient_witness :
    ∃ d', i915_gem_execbuffer sample_es 5 0 sample_exec aperture_dev = some (.ret 0 d') ∧
      ∀ x : Nat, (d'.objs x).pin_count = (aperture_dev.objs x).pin_count :=
  ⟨_, rfl, execbuffer_pins_are_transient sample_es 5 0 sample_exec aperture_dev _ 0 rfl⟩

/-! ## Committed domains along a failing submission -/

theorem settle_refl (d : Device) : DomainsSettle d d :=
  fun _ => ⟨Or.inl rfl, Or.inl rfl⟩

theorem settle_trans {a b c : Device} (h1 : DomainsSettle a b) (h2 : DomainsSettle b c) :
    DomainsSettle a c := by
  intro x
  obtain ⟨r1, w1⟩ := h1 x
  obtain ⟨r2, w2⟩ := h2 x
  constructor
  · rcases r2 with r2 | r2
    · rw [r2]
      exact r1
    · exact Or.inr r2
  · rcases w2 with w2 | w2 | w2
    · rw [w2]
      exact w1
    · exact Or.inr (Or.inl w2)
    · exact Or.inr (Or.inr w2)

theorem settle_ite {c : Prop} [Decidable c] {d a b : Device} (ha : DomainsSettle d a)
    (hb : DomainsSettle d b) : DomainsSettle d (if c then a else b) := by
  split
  · exact ha
  · exact hb

theorem settle_of_frame {d d' : Device} (hf : RetireFrame d d') : DomainsSettle d d' := by
  intro x
  obtain ⟨r, -, -, -, -, w⟩ := hf.2.2 x
  exact ⟨Or.inl r, w.elim Or.inl (fun h => Or.inr (Or.inl h))⟩

theorem settle_same_objs {d d' : Device} (h : d'.objs = d.objs) : DomainsSettle d d' := by
  intro x
  rw [h]
  exact ⟨Or.inl rfl, Or.inl rfl⟩

theorem settle_update_obj (d : Device) (o : Nat) (f : GemObject → GemObject)
    (hf : ∀ x : GemObject, (f x).read_domains = x.read_domains ∧
      ((f x).write_domain = x.write_domain ∨ (f x).write_domain = 0)) :
    DomainsSettle d (d.update_obj o f) := by
  intro x
  by_cases hx : x = o
  · have : (d.update_obj o f).objs x = f (d.objs x) := by
      simp [Device.update_obj, hx]
    rw [this]
    exact ⟨Or.inl (hf _).1, (hf _).2.elim Or.inl (fun h => Or.inr (Or.inl h))⟩
  · have : (d.update_obj o f).objs x = d.objs x := by
      simp [Device.update_obj, hx]
    rw [this]
    exact ⟨Or.inl rfl, Or.inl rfl⟩

theorem settle_wait_request (e : Env) (seqno : Nat) (d : Device) :
    (i915_wait_request e seqno d).Holds (fun _ d' => DomainsSettle d d') :=
  holds_intro (fun c d' h => settle_of_frame (frame_wait_request e seqno d d' c h))

theorem settle_wait_rendering (e : Env) (o : Nat) (d : Device) :
    (i915_gem_object_wait_rendering e o d).Holds (fun _ d' => DomainsSettle d d') :=
  holds_intro (fun c d' h => settle_of_frame (frame_wait_rendering e o d d' c h))

theorem settle_commit_cpu (o reads inv fl : Nat) (d d' : Device) (code : Int)
    (hr : reads = I915_GEM_DOMAIN_CPU)
    (h : set_domain_commit o reads I915_GEM_DOMAIN_CPU inv fl d = .ret code d') :
    DomainsSettle d d' := by
  obtain ⟨d2, h2, -, -, hrd, hwd, -, -⟩ :=
    set_domain_commit_spec o reads I915_GEM_DOMAIN_CPU inv fl d
  have hupd : ∀ (a : Device) (f : GemObject → GemObject) (x : Nat), x ≠ o →
      (a.update_obj o f).objs x = a.objs x := by
    intro a f x hx
    simp [Device.update_obj, hx]
  have hother : ∀ x, x ≠ o → d2.objs x = d.objs x := by
    intro x hx
    unfold set_domain_commit at h2
    injection h2 with _ h3
    rw [← h3]
    show ((if I915_GEM_DOMAIN_CPU ||| fl ≠ 0 then
      d.update_obj o (fun x => { x with write_domain := I915_GEM_DOMAIN_CPU })
      else d).update_obj o (fun x => { x with read_domains := reads })).objs x = d.objs x
    rw [hupd _ _ x hx]
    split
    · exact hupd _ _ x hx
    · rfl
  rw [h2] at h
  cases h
  intro x
  by_cases hx : x = o
  · subst hx
    refine ⟨Or.inr (hrd.trans hr), Or.inr (Or.inr ?_)⟩
    rw [hwd, if_pos (Or.inl (by decide))]
  · rw [hother x hx]
    exact ⟨Or.inl rfl, Or.inl rfl⟩

theorem settle_set_domain_cpu (e : Env) (o : Nat) (d : Device) :
    (i915_gem_object_set_domain e o I915_GEM_DOMAIN_CPU I915_GEM_DOMAIN_CPU d).Holds
      (fun _ d' => DomainsSettle d d') :=
  holds_intro (fun c d' h =>
    set_domain_rel DomainsSettle e o _ _ d d' c settle_refl (fun _ _ _ => settle_trans)
      (settle_update_obj d o _ (fun _ => ⟨rfl, Or.inl rfl⟩))
      (fun a => settle_ite (settle_refl a) (settle_same_objs rfl))
      (fun a _ _ hw => holds_of_eq (settle_wait_rendering e o a) hw)
      (fun a c b hc => settle_commit_cpu _ _ _ _ a b c (by
        unfold set_domain_reads
        rw [if_neg (by decide)]) hc) h)

theorem settle_tock (d : Device) : DomainsSettle d d.tock := settle_same_objs rfl

theorem settle_log (d : Device) (ev : Event) : DomainsSettle d (d.log ev) := settle_same_objs rfl

theorem settle_keep (d : Device) (o : Nat) (f : GemObject → GemObject)
    (hf : ∀ x : GemObject, (f x).read_domains = x.read_domains ∧
      (f x).write_domain = x.write_domain) : DomainsSettle d (d.update_obj o f) :=
  settle_update_obj d o f (fun x => ⟨(hf x).1, Or.inl (hf x).2⟩)

theorem settle_reference (o : Nat) (d : Device) : DomainsSettle d (drm_gem_object_reference o d) :=
  settle_keep d o _ (fun _ => ⟨rfl, rfl⟩)

theorem settle_unreference (o : Nat) (d : Device) :
    DomainsSettle d (drm_gem_object_unreference o d) :=
  settle_keep d o _ (fun _ => ⟨rfl, rfl⟩)

theorem settle_list_del_init (o : Nat) (d : Device) : DomainsSettle d (list_del_init o d) :=
  settle_same_objs rfl

theorem settle_list_move_tail (o : Nat) (l : Lru) (d : Device) :
    DomainsSettle d (list_move_tail o l d) := by
  cases l <;> exact settle_same_objs rfl

theorem settle_free_page_list (o : Nat) (d : Device) :
    DomainsSettle d (i915_gem_object_free_page_list o d) := by
  unfold i915_gem_object_free_page_list
  exact settle_ite (settle_refl d) (settle_keep d o _ (fun _ => ⟨rfl, rfl⟩))

theorem settle_get_page_list (e : Env) (o : Nat) (d : Device) :
    DomainsSettle d (i915_gem_object_get_page_list e o d).2 := by
  unfold i915_gem_object_get_page_list
  by_cases hp : (d.objs o).page_list = true
  · rw [if_pos hp]
    exact settle_refl d
  · rw [if_neg hp]
    by_cases hc : e.calloc_ok = false
    · rw [if_pos hc]
      exact settle_refl d
    · rw [if_neg hc]
      simp only []
      by_cases hg : e.getpage_ret ≠ 0
      · rw [if_pos hg]
        exact settle_trans (settle_keep d o (fun x => { x with page_list := true })
          (fun _ => ⟨rfl, rfl⟩)) (settle_free_page_list o _)
      · rw [if_neg hg]
        exact settle_keep d o (fun x => { x with page_list := true }) (fun _ => ⟨rfl, rfl⟩)

theorem settle_put_gtt_space (o : Nat) (d : Device) : DomainsSettle d (put_gtt_space o d) := by
  unfold put_gtt_space
  cases (d.objs o).gtt_space with
  | none => exact settle_refl d
  | some start =>
    have h1 : DomainsSettle d { d with
        gtt_free := drm_memrange_put_block (start, (d.objs o).size) d.gtt_free } :=
      settle_same_objs rfl
    exact settle_trans h1 (settle_keep _ o _ (fun _ => ⟨rfl, rfl⟩))

theorem settle_unbind_release (o : Nat) (d : Device) :
    (unbind_release o d).Holds (fun _ d' => DomainsSettle d d') := by
  unfold unbind_release
  have h1 : DomainsSettle d (if (d.objs o).agp_mem = true then
      d.update_obj o (fun x => { x with agp_mem := false }) else d) :=
    settle_ite (settle_keep d o _ (fun _ => ⟨rfl, rfl⟩)) (settle_refl d)
  generalize (if (d.objs o).agp_mem = true then
    d.update_obj o (fun x => { x with agp_mem := false }) else d) = d1 at h1
  simp only []
  by_cases ha : (d1.objs o).active = true
  · rw [if_pos ha]
    trivial
  · rw [if_neg ha]
    have h2 := settle_trans h1 (settle_free_page_list o d1)
    have h3 : DomainsSettle d (put_gtt_space o
        { i915_gem_object_free_page_list o d1 with
          gtt_count := (i915_gem_object_free_page_list o d1).gtt_count - 1
          gtt_memory := (i915_gem_object_free_page_list o d1).gtt_memory -
            (((i915_gem_object_free_page_list o d1).objs o).size : Int) }) :=
      settle_trans (settle_trans h2 (settle_same_objs rfl)) (settle_put_gtt_space o _)
    exact settle_ite (settle_trans h3 (settle_list_del_init o _)) h3

theorem settle_unbind (es : Nat → Env) (o : Nat) (d : Device) :
    (i915_gem_object_unbind es o d).Holds (fun _ d' => DomainsSettle d d') := by
  unfold i915_gem_object_unbind
  by_cases hg : (d.objs o).gtt_space = none
  · rw [if_pos hg]
    exact settle_refl d
  · rw [if_neg hg]
    by_cases hp : (d.objs o).pin_count ≠ 0
    · rw [if_pos hp]
      exact settle_refl d
    · rw [if_neg hp]
      have hw := settle_wait_rendering (es d.tick) o d.tock
      cases hwr : i915_gem_object_wait_rendering (es d.tick) o d.tock with
      | bug => trivial
      | ret code d1 =>
        rw [hwr] at hw
        have k1 : DomainsSettle d d1 := settle_trans (settle_tock d) hw
        simp only []
        by_cases hc : code ≠ 0
        · rw [if_pos hc]
          exact k1
        · rw [if_neg hc]
          have hs := settle_set_domain_cpu (es d1.tick) o d1.tock
          cases hsd : i915_gem_object_set_domain (es d1.tick) o I915_GEM_DOMAIN_CPU
              I915_GEM_DOMAIN_CPU d1.tock with
          | bug => trivial
          | ret code2 d2 =>
            rw [hsd] at hs
            have k2 : DomainsSettle d d2 := settle_trans k1 (settle_trans (settle_tock d1) hs)
            simp only []
            by_cases hc2 : code2 ≠ 0
            · rw [if_pos hc2]
              exact k2
            · rw [if_neg hc2]
              exact holds_mono (settle_unbind_release o d2) (fun _ _ h => settle_trans k2 h)

theorem settle_evict (es : Nat → Env) :
    ∀ (fuel : Nat) (d : Device),
      holds_opt (fun _ d' => DomainsSettle d d') (i915_gem_evict_something es fuel d) := by
  intro fuel
  induction fuel with
  | zero => intro d; trivial
  | succ n ih =>
    intro d
    simp only [i915_gem_evict_something]
    cases d.inactive_list with
    | cons o t =>
      simp only []
      split_ifs
      · trivial
      · trivial
      · exact settle_unbind es o d
    | nil =>
      simp only []
      cases d.request_list with
      | cons request t =>
        simp only []
        have hw := settle_wait_request (es d.tick) request.seqno d.tock
        cases hwr : i915_wait_request (es d.tick) request.seqno d.tock with
        | bug => trivial
        | ret code d1 =>
          rw [hwr] at hw
          have k1 : DomainsSettle d d1 := settle_trans (settle_tock d) hw
          simp only []
          split_ifs
          · exact holds_opt_mono (ih d1) (fun _ _ h => settle_trans k1 h)
          · exact k1
      | nil =>
        simp only []
        cases d.flushing_list with
        | cons o t =>
          simp only []
          exact holds_opt_mono (ih _) (fun _ _ h =>
            settle_trans (settle_trans (settle_tock d)
              (settle_trans (settle_of_frame (frame_flush _ _ _ _))
                (settle_of_frame (frame_add_request _ _ _)))) h)
        | nil => exact settle_refl d

theorem settle_bind_search (es : Nat → Env) (o alignment efuel : Nat) :
    ∀ (fuel : Nat) (d : Device),
      holds_opt (fun _ d' => DomainsSettle d d') (bind_search es o alignment efuel fuel d) := by
  intro fuel
  induction fuel with
  | zero => intro d; trivial
  | succ n ih =>
    intro d
    simp only [bind_search]
    cases drm_memrange_search_free d.gtt_free (d.objs o).size alignment with
    | some r =>
      simp only []
      have h1 : DomainsSettle d { d with
          gtt_free := (drm_memrange_get_block d.gtt_free r (d.objs o).size alignment).2 } :=
        settle_same_objs rfl
      exact settle_trans h1 (settle_keep _ o _ (fun _ => ⟨rfl, rfl⟩))
    | none =>
      simp only []
      by_cases he : d.inactive_list.isEmpty ∧ d.flushing_list.isEmpty ∧ d.active_list.isEmpty
      · rw [if_pos he]
        exact settle_refl d
      · rw [if_neg he]
        have hev := settle_evict es efuel d
        cases hr : i915_gem_evict_something es efuel d with
        | none => trivial
        | some r =>
          rw [hr] at hev
          cases r with
          | bug => trivial
          | ret code d1 =>
            simp only []
            by_cases hc : code ≠ 0
            · rw [if_pos hc]
              exact hev
            · rw [if_neg hc]
              exact holds_opt_mono (ih d1) (fun _ _ h => settle_trans hev h)

theorem settle_bind_pages (es : Nat → Env) (o : Nat) (d : Device) :
    (bind_pages es o d).Holds (fun _ d' => DomainsSettle d d') := by
  unfold bind_pages
  have hr : DomainsSettle d (i915_gem_object_get_page_list (es d.tick) o d.tock).2 :=
    settle_trans (settle_tock d) (settle_get_page_list _ o _)
  generalize i915_gem_object_get_page_list (es d.tick) o d.tock = r at hr
  simp only []
  by_cases h1 : r.1 ≠ 0
  · rw [if_pos h1]
    exact settle_trans hr (settle_put_gtt_space o _)
  · rw [if_neg h1]
    by_cases h2 : (es r.2.tick).agp_bind_ok = false
    · rw [if_pos h2]
      exact settle_trans hr (settle_trans (settle_trans (settle_tock _)
        (settle_free_page_list o _)) (settle_put_gtt_space o _))
    · rw [if_neg h2]
      have h3 : DomainsSettle d (r.2.tock.update_obj o (fun x => { x with agp_mem := true })) :=
        settle_trans hr (settle_trans (settle_tock _) (settle_keep _ o _ (fun _ => ⟨rfl, rfl⟩)))
      split_ifs
      · trivial
      · trivial
      · exact settle_trans h3 (settle_same_objs rfl)

theorem settle_bind_to_gtt (es : Nat → Env) (fuel o alignment : Nat) (d : Device) :
    holds_opt (fun _ d' => DomainsSettle d d')
      (i915_gem_object_bind_to_gtt es fuel o alignment d) := by
  unfold i915_gem_object_bind_to_gtt
  generalize (if alignment = 0 then PAGE_SIZE else alignment) = al
  simp only []
  by_cases ha : al &&& (PAGE_SIZE - 1) ≠ 0
  · rw [if_pos ha]
    exact settle_refl d
  · rw [if_neg ha]
    have hs := settle_bind_search es o al fuel fuel d
    cases hr : bind_search es o al fuel fuel d with
    | none => trivial
    | some r =>
      rw [hr] at hs
      cases r with
      | bug => trivial
      | ret code d1 =>
        simp only []
        by_cases hc : code ≠ 0
        · rw [if_pos hc]
          exact hs
        · rw [if_neg hc]
          exact holds_mono (settle_bind_pages es o d1) (fun _ _ h => settle_trans hs h)

theorem settle_pin_account (o : Nat) (d : Device) : DomainsSettle d (pin_account o d) := by
  have h1 : DomainsSettle d
      (d.update_obj o (fun x => { x with pin_count := x.pin_count + 1 })) :=
    settle_keep d o _ (fun _ => ⟨rfl, rfl⟩)
  unfold pin_account
  simp only []
  split_ifs
  · exact settle_trans h1 (settle_same_objs rfl)
  · exact settle_trans h1 (settle_same_objs rfl)
  · exact h1

theorem settle_pin (es : Nat → Env) (fuel o alignment : Nat) (d : Device) :
    holds_opt (fun _ d' => DomainsSettle d d') (i915_gem_object_pin es fuel o alignment d) := by
  unfold i915_gem_object_pin
  have hb : holds_opt (fun _ d' => DomainsSettle d d')
      (if (d.objs o).gtt_space = none then i915_gem_object_bind_to_gtt es fuel o alignment d
        else some (.ret 0 d)) := by
    split
    · exact settle_bind_to_gtt es fuel o alignment d
    · exact settle_refl d
  generalize (if (d.objs o).gtt_space = none then i915_gem_object_bind_to_gtt es fuel o alignment d
    else some (.ret 0 d)) = bound at hb
  simp only []
  cases bound with
  | none => trivial
  | some r =>
    cases r with
    | bug => trivial
    | ret code d1 =>
      simp only []
      by_cases hc : code ≠ 0
      · rw [if_pos hc]
        exact hb
      · rw [if_neg hc]
        exact settle_trans hb (settle_pin_account o d1)

theorem settle_unpin (o : Nat) (d : Device) :
    (i915_gem_object_unpin o d).Holds (fun _ d' => DomainsSettle d d') := by
  have h1 : DomainsSettle d
      (d.update_obj o (fun x => { x with pin_count := x.pin_count - 1 })) :=
    settle_keep d o _ (fun _ => ⟨rfl, rfl⟩)
  unfold i915_gem_object_unpin
  generalize (d.update_obj o (fun x => { x with pin_count := x.pin_count - 1 })) = d1 at h1
  simp only []
  by_cases hn : (d1.objs o).pin_count < 0
  · rw [if_pos hn]
    trivial
  · rw [if_neg hn]
    by_cases hg : (d1.objs o).gtt_space = none
    · rw [if_pos hg]
      trivial
    · rw [if_neg hg]
      by_cases hz : (d1.objs o).pin_count = 0
      · rw [if_pos hz]
        have h2 : DomainsSettle d1 (if (d1.objs o).active = false ∧
            (d1.objs o).write_domain &&& not32 I915_GEM_DOMAIN_CPU = 0
            then list_move_tail o .inactive d1 else d1) :=
          settle_ite (settle_list_move_tail o .inactive d1) (settle_refl d1)
        exact settle_trans h1 (settle_trans h2 (settle_same_objs rfl))
      · rw [if_neg hz]
        exact h1

theorem settle_reloc_fail (o : Nat) (code : Int) (d0 d : Device) (hk : DomainsSettle d0 d) :
    (reloc_fail o code d).Holds (fun _ d' => DomainsSettle d0 d') := by
  unfold reloc_fail
  have h := settle_unpin o d
  cases hu : i915_gem_object_unpin o d with
  | bug => trivial
  | ret c d1 =>
    rw [hu] at h
    exact settle_trans hk h

theorem settle_relocate (es : Nat → Env) (file o : Nat) :
    ∀ (relocs : List Reloc) (index : Nat) (mapped : Bool) (last : Nat) (d : Device),
      (relocate es file o index mapped last relocs d).Holds
        (fun _ d' => DomainsSettle d d') := by
  intro relocs
  induction relocs with
  | nil =>
    intro index mapped last d
    simp only [relocate]
    exact settle_refl d
  | cons reloc rest ih =>
    intro index mapped last d
    simp only [relocate]
    have step : ∀ (i : Nat) (m : Bool) (l : Nat) (d1 : Device), DomainsSettle d d1 →
        (relocate es file o i m l rest d1).Holds (fun _ d' => DomainsSettle d d') :=
      fun i m l d1 hk => holds_mono (ih i m l d1) (fun _ _ h => settle_trans hk h)
    by_cases h1 : (es d.tick).copy_from_user_ret ≠ 0
    · rw [if_pos h1]
      exact settle_reloc_fail o _ d _ (settle_tock d)
    · rw [if_neg h1]
      cases hl : drm_gem_object_lookup file reloc.target_handle d.tock with
      | none =>
        simp only []
        exact settle_reloc_fail o _ d _ (settle_tock d)
      | some p =>
        obtain ⟨t, d1⟩ := p
        have k1 : DomainsSettle d d1 := by
          rcases lookup_spec file reloc.target_handle d.tock with ⟨-, h2⟩ | ⟨o2, -, h2⟩
          · rw [h2] at hl
            cases hl
          · rw [h2] at hl
            cases hl
            exact settle_trans (settle_tock d) (settle_reference _ _)
        simp only []
        by_cases h2 : (d1.objs t).gtt_space = none
        · rw [if_pos h2]
          exact settle_reloc_fail o _ d _ (settle_trans k1 (settle_unreference t d1))
        · rw [if_neg h2]
          by_cases h3 : reloc.offset > sub_size_t (d1.objs o).size 4
          · rw [if_pos h3]
            exact settle_reloc_fail o _ d _ (settle_trans k1 (settle_unreference t d1))
          · rw [if_neg h3]
            by_cases h4 : reloc.offset &&& 3 ≠ 0
            · rw [if_pos h4]
              exact settle_reloc_fail o _ d _ (settle_trans k1 (settle_unreference t d1))
            · rw [if_neg h4]
              by_cases h5 : reloc.write_domain ≠ 0 ∧ (d1.objs t).pending_write_domain ≠ 0 ∧
                  reloc.write_domain ≠ (d1.objs t).pending_write_domain
              · rw [if_pos h5]
                exact settle_reloc_fail o _ d _ (settle_trans k1 (settle_unreference t d1))
              · rw [if_neg h5]
                have k2 : DomainsSettle d (d1.update_obj t (fun x =>
                    { x with
                      pending_read_domains := x.pending_read_domains ||| reloc.read_domains
                      pending_write_domain :=
                        x.pending_write_domain ||| reloc.write_domain })) :=
                  settle_trans k1 (settle_keep d1 t _ (fun _ => ⟨rfl, rfl⟩))
                generalize (d1.update_obj t (fun x =>
                    { x with
                      pending_read_domains := x.pending_read_domains ||| reloc.read_domains
                      pending_write_domain :=
                        x.pending_write_domain ||| reloc.write_domain })) = d2 at k2
                by_cases h6 : (d2.objs t).gtt_offset = reloc.presumed_offset
                · rw [if_pos h6]
                  exact step _ _ _ _ (settle_trans k2 (settle_unreference t d2))
                · rw [if_neg h6]
                  have hw := settle_wait_rendering (es d.tick) o d2
                  cases hwr : i915_gem_object_wait_rendering (es d.tick) o d2 with
                  | bug => trivial
                  | ret cw d3 =>
                    rw [hwr] at hw
                    simp only []
                    have k4 : DomainsSettle d
                        (if (d3.objs o).write_domain &&& I915_GEM_DOMAIN_CPU ≠ 0 then
                        ((i915_gem_clflush_object o d3).log .chipset_flush).update_obj o
                          (fun x => { x with write_domain := 0 })
                        else d3) :=
                      settle_trans (settle_trans k2 hw) (settle_ite
                        (settle_trans (settle_trans (settle_of_frame (frame_clflush o d3))
                          (settle_log _ _))
                          (settle_update_obj _ o _ (fun _ => ⟨rfl, Or.inr rfl⟩)))
                        (settle_refl d3))
                    generalize (if (d3.objs o).write_domain &&& I915_GEM_DOMAIN_CPU ≠ 0 then
                        ((i915_gem_clflush_object o d3).log .chipset_flush).update_obj o
                          (fun x => { x with write_domain := 0 })
                        else d3) = d4 at k4
                    have l1 : ∀ ev, DomainsSettle d (drm_gem_object_unreference t (d4.log ev)) :=
                      fun ev => settle_trans k4 (settle_trans (settle_log _ _)
                        (settle_unreference t _))
                    have l2 : ∀ ev1 ev2,
                        DomainsSettle d (drm_gem_object_unreference t ((d4.log ev1).log ev2)) :=
                      fun ev1 ev2 => settle_trans k4 (settle_trans (settle_trans (settle_log _ _)
                        (settle_log _ _)) (settle_unreference t _))
                    have l3 : ∀ ev1 ev2 ev3, DomainsSettle d
                        (drm_gem_object_unreference t (((d4.log ev1).log ev2).log ev3)) :=
                      fun ev1 ev2 ev3 => settle_trans k4 (settle_trans (settle_trans
                        (settle_trans (settle_log _ _) (settle_log _ _)) (settle_log _ _))
                        (settle_unreference t _))
                    split_ifs <;> first
                      | exact settle_reloc_fail o _ d _ (l1 _)
                      | exact settle_reloc_fail o _ d _ (l2 _ _)
                      | exact step _ _ _ _ (l2 _ _)
                      | exact step _ _ _ _ (l3 _ _ _)

theorem settle_pin_and_relocate (es : Nat → Env) (fuel file o : Nat) (entry : ExecObject)
    (d : Device) (r : ExecObject × Outcome)
    (h : i915_gem_object_pin_and_relocate es fuel file o entry d = some r) :
    r.2.Holds (fun _ d' => DomainsSettle d d') := by
  unfold i915_gem_object_pin_and_relocate at h
  have hp := settle_pin es fuel o (entry.alignment % U32) d
  cases hpin : i915_gem_object_pin es fuel o (entry.alignment % U32) d with
  | none =>
    rw [hpin] at h
    cases h
  | some p =>
    rw [hpin] at h hp
    cases p with
    | bug =>
      cases h
      trivial
    | ret code d1 =>
      simp only [] at h
      by_cases hc : code ≠ 0
      · rw [if_pos hc] at h
        cases h
        exact hp
      · rw [if_neg hc] at h
        cases h
        exact holds_mono (settle_relocate es file o entry.relocs 0 false 0xFFFFFFFF d1)
          (fun _ _ hr => settle_trans hp hr)

/-- The first loop of `i915_gem_execbuffer` commits no pending domain: when it
jumps to `err`, the committed domains have only settled. -/
theorem settle_pin_loop (es : Nat → Env) (fuel file : Nat) :
    ∀ (buffers : List ExecObject) (objects : List Nat) (entries : List ExecObject)
      (d : Device) (code : Int) (pinned looked : List Nat) (d' : Device),
      exec_pin_loop es fuel file buffers objects entries d =
        some (.failed code pinned looked d') → DomainsSettle d d' := by
  intro buffers
  induction buffers with
  | nil =>
    intro objects entries d code pinned looked d' h
    simp only [exec_pin_loop] at h
    cases h
  | cons entry rest ih =>
    intro objects entries d code pinned looked d' h
    simp only [exec_pin_loop] at h
    rcases lookup_spec file entry.handle d with ⟨-, hl⟩ | ⟨o, -, hl⟩
    · rw [hl] at h
      cases h
      exact settle_refl d
    · rw [hl] at h
      simp only [] at h
      have k2 : DomainsSettle d ((drm_gem_object_reference o d).update_obj o (fun x =>
          { x with pending_read_domains := 0, pending_write_domain := 0 })) :=
        settle_trans (settle_reference o d) (settle_keep _ o _ (fun _ => ⟨rfl, rfl⟩))
      generalize ((drm_gem_object_reference o d).update_obj o (fun x =>
          { x with pending_read_domains := 0, pending_write_domain := 0 })) = d2 at h k2
      cases hpr : i915_gem_object_pin_and_relocate es fuel file o entry d2 with
      | none =>
        rw [hpr] at h
        cases h
      | some q =>
        have hq := settle_pin_and_relocate es fuel file o entry d2 q hpr
        obtain ⟨entry1, out⟩ := q
        rw [hpr] at h
        cases out with
        | bug => cases h
        | ret c d3 =>
          simp only [] at h
          by_cases hc : c ≠ 0
          · rw [if_pos hc] at h
            cases h
            exact settle_trans k2 hq
          · rw [if_neg hc] at h
            exact settle_trans (settle_trans k2 hq) (ih _ _ _ _ _ _ _ h)

theorem settle_unpin_all :
    ∀ (l : List Nat) (d d' : Device), unpin_all l d = some d' → DomainsSettle d d' := by
  intro l
  induction l with
  | nil =>
    intro d d' h
    simp only [unpin_all] at h
    cases h
    exact settle_refl d
  | cons o rest ih =>
    intro d d' h
    simp only [unpin_all] at h
    have hu := settle_unpin o d
    cases hun : i915_gem_object_unpin o d with
    | bug =>
      rw [hun] at h
      cases h
    | ret c d1 =>
      rw [hun] at h hu
      simp only [] at h
      exact settle_trans hu (ih d1 d' h)

theorem settle_unreference_all :
    ∀ (l : List Nat) (d : Device), DomainsSettle d (unreference_all l d) := by
  intro l
  induction l with
  | nil => intro d; exact settle_refl d
  | cons o rest ih =>
    intro d
    simp only [unreference_all]
    exact settle_trans (settle_unreference o d) (ih _)

theorem settle_exec_cleanup (code : Int) (pinned looked_up : List Nat) (d : Device) :
    (exec_cleanup code pinned looked_up d).Holds (fun _ d' => DomainsSettle d d') := by
  unfold exec_cleanup
  cases hu : unpin_all pinned d with
  | none => trivial
  | some d1 =>
    exact settle_trans (settle_unpin_all pinned d d1 hu) (settle_unreference_all _ _)

/-- C18, as stated, fails: in a submission of two buffers whose second buffer
has a relocation to patch and then a relocation with an unknown target handle,
pin-and-relocate of the second buffer fails with -EINVAL after the first buffer
was pinned; on return every pin count is 0 again, but the write domain of the
second buffer (object 1) has gone from CPU to 0, because patching the first
relocation flushed the CPU writes of the buffer. -/
theorem execbuffer_failure_changes_write_domain :
    ∃ d2 d',
      exec_pin_loop sample_es 5 0 failing_exec.buffers [] []
        { aperture_dev.tock with invalidate_domains := 0, flush_domains := 0 } =
        some (.failed (-EINVAL) [0] [0, 1] d2) ∧
      i915_gem_execbuffer sample_es 5 0 failing_exec aperture_dev = some (.ret (-EINVAL) d') ∧
      (aperture_dev.objs 1).write_domain = I915_GEM_DOMAIN_CPU ∧
      (d'.objs 1).write_domain = 0 ∧
      (d'.objs 0).pin_count = 0 ∧ (d'.objs 1).pin_count = 0 :=
  ⟨_, _, rfl, rfl, rfl, rfl, rfl, rfl⟩

/-- C18, amended: when the first loop of `i915_gem_execbuffer` jumps to `err`
with `ret = code` and the objects `pinned` counted as pinned, then `code` is not
0, fewer objects are counted than the exec list has buffers, and at the jump
every object has its pin count of before the call plus the number of times it
is counted; when the call returns, it returns `code`, every object has the pin
count it had before the call, and the committed domains have only settled:
read domains are as before or CPU, a write domain is as before, 0 or CPU. -/
theorem execbuffer_failure_unpins (es : Nat → Env) (fuel file : Nat) (args : ExecBuffer)
    (d d2 d' : Device) (code c : Int) (pinned looked : List Nat)
    (h1 : (es d.tick).calloc_ok = true) (h2 : (es d.tick).copy_from_user_ret = 0)
    (h3 : d.suspended = false)
    (hl : exec_pin_loop es fuel file args.buffers [] []
      { d.tock with invalidate_domains := 0, flush_domains := 0 } =
      some (.failed code pinned looked d2))
    (h : i915_gem_execbuffer es fuel file args d = some (.ret c d')) :
    c = code ∧ code ≠ 0 ∧ pinned.length < args.buffers.length ∧
    (∀ x : Nat, (d2.objs x).pin_count = (d.objs x).pin_count + (pinned.count x : Int)) ∧
    (∀ x : Nat, (d'.objs x).pin_count = (d.objs x).pin_count) ∧
    DomainsSettle d d' := by
  have hk := (holds_opt_of_eq (kept_execbuffer es fuel file args d) h).2
  have hspec := pin_loop_spec es fuel file args.buffers [] [] _ _ hl
  obtain ⟨hs, hne, res, hres, hlen, -⟩ := hspec
  have hset := settle_pin_loop es fuel file args.buffers [] [] _ code pinned looked d2 hl
  unfold i915_gem_execbuffer at h
  simp only [] at h
  rw [if_neg (by rw [h1]; decide), if_neg (by rw [h2]; decide), if_neg (by rw [h3]; decide),
    hl] at h
  simp only [] at h
  have hc := settle_exec_cleanup code pinned looked d2
  have hc2 := shift_exec_cleanup code pinned looked d2
  cases hcl : exec_cleanup code pinned looked d2 with
  | bug =>
    rw [hcl] at h
    cases h
  | ret c1 d1 =>
    rw [hcl] at h hc hc2
    cases h
    refine ⟨hc2.1, hne, ?_, fun x => ?_, hk, ?_⟩
    · rw [hres]
      simpa using hlen
    · have := hs.2 x
      simpa using this
    · exact settle_trans (settle_trans (settle_same_objs rfl) hset) hc

/-- Witness for C18 (amended): the submission `failing_exec` on `aperture_dev`
fails with -EINVAL at its second buffer after object 0 was pinned. -/
theorem execbuffer_failure_unpins_witness :
    ∃ d2 d' : Device,
      exec_pin_loop sample_es 5 0 failing_exec.buffers [] []
        { aperture_dev.tock with invalidate_domains := 0, flush_domains := 0 } =
        some (.failed (-EINVAL) [0] [0, 1] d2) ∧
      i915_gem_execbuffer sample_es 5 0 failing_exec aperture_dev = some (.ret (-EINVAL) d') ∧
      ((-EINVAL : Int) = -EINVAL ∧ (-EINVAL : Int) ≠ 0 ∧
      [0].length < failing_exec.buffers.length ∧
      (∀ x : Nat, (d2.objs x).pin_count =
        (aperture_dev.objs x).pin_count + (([0] : List Nat).count x : Int)) ∧
      (∀ x : Nat, (d'.objs x).pin_count = (aperture_dev.objs x).pin_count) ∧
      DomainsSettle aperture_dev d') :=
  ⟨_, _, rfl, rfl, execbuffer_failure_unpins sample_es 5 0 failing_exec aperture_dev _ _
    (-EINVAL) (-EINVAL) [0] [0, 1] rfl rfl rfl rfl rfl⟩

/-! ## A successful submission -/

theorem active_frame_refl (d : Device) : ActiveFrame d d :=
  ⟨rfl, rfl, rfl, rfl, rfl, fun _ => ⟨rfl, rfl⟩⟩

theorem active_frame_trans {a b c : Device} (h1 : ActiveFrame a b) (h2 : ActiveFrame b c) :
    ActiveFrame a c := by
  obtain ⟨a1, f1, i1, r1, l1, o1⟩ := h1
  obtain ⟨a2, f2, i2, r2, l2, o2⟩ := h2
  exact ⟨a2.trans a1, f2.trans f1, i2.trans i1, r2.trans r1, l2.trans l1,
    fun x => ⟨(o2 x).1.trans (o1 x).1, (o2 x).2.trans (o1 x).2⟩⟩

theorem active_frame_update_obj (d : Device) (o : Nat) (f : GemObject → GemObject)
    (hf : ∀ x : GemObject, (f x).active = x.active ∧
      (f x).last_rendering_seqno = x.last_rendering_seqno) :
    ActiveFrame d (d.update_obj o f) := by
  refine ⟨rfl, rfl, rfl, rfl, rfl, fun x => ?_⟩
  by_cases hx : x = o
  · have : (d.update_obj o f).objs x = f (d.objs x) := by
      simp [Device.update_obj, hx]
    rw [this]
    exact hf _
  · have : (d.update_obj o f).objs x = d.objs x := by
      simp [Device.update_obj, hx]
    rw [this]
    exact ⟨rfl, rfl⟩

/-- Unpinning an active object moves it to no list. -/
theorem active_frame_unpin (o : Nat) (d d1 : Device) (c : Int)
    (ha : (d.objs o).active = true) (h : i915_gem_object_unpin o d = .ret c d1) :
    ActiveFrame d d1 := by
  have h1 : ActiveFrame d (d.update_obj o (fun x => { x with pin_count := x.pin_count - 1 })) :=
    active_frame_update_obj d o _ (fun _ => ⟨rfl, rfl⟩)
  unfold i915_gem_object_unpin at h
  generalize (d.update_obj o (fun x => { x with pin_count := x.pin_count - 1 })) = d0 at h h1
  have ha0 : (d0.objs o).active = true := by
    rw [(h1.2.2.2.2.2 o).1]
    exact ha
  simp only [] at h
  by_cases hn : (d0.objs o).pin_count < 0
  · rw [if_pos hn] at h
    cases h
  · rw [if_neg hn] at h
    by_cases hg : (d0.objs o).gtt_space = none
    · rw [if_pos hg] at h
      cases h
    · rw [if_neg hg] at h
      by_cases hz : (d0.objs o).pin_count = 0
      · rw [if_pos hz, if_neg (by rw [ha0]; simp)] at h
        cases h
        exact active_frame_trans h1 ⟨rfl, rfl, rfl, rfl, rfl, fun _ => ⟨rfl, rfl⟩⟩
      · rw [if_neg hz] at h
        cases h
        exact h1

theorem active_frame_unpin_all :
    ∀ (l : List Nat) (d d' : Device), (∀ o ∈ l, (d.objs o).active = true) →
      unpin_all l d = some d' → ActiveFrame d d' := by
  intro l
  induction l with
  | nil =>
    intro d d' _ h
    simp only [unpin_all] at h
    cases h
    exact active_frame_refl d
  | cons o rest ih =>
    intro d d' ha h
    simp only [unpin_all] at h
    cases hun : i915_gem_object_unpin o d with
    | bug =>
      rw [hun] at h
      cases h
    | ret c d1 =>
      rw [hun] at h
      simp only [] at h
      have h1 := active_frame_unpin o d d1 c (ha o (List.mem_cons_self _ _)) hun
      have ha1 : ∀ x ∈ rest, (d1.objs x).active = true := by
        intro x hx
        rw [(h1.2.2.2.2.2 x).1]
        exact ha x (List.mem_cons_of_mem _ hx)
      exact active_frame_trans h1 (ih d1 d' ha1 h)

theorem active_frame_unreference_all :
    ∀ (l : List Nat) (d : Device), ActiveFrame d (unreference_all l d) := by
  intro l
  induction l with
  | nil => intro d; exact active_frame_refl d
  | cons o rest ih =>
    intro d
    simp only [unreference_all]
    have h1 : ActiveFrame d (drm_gem_object_unreference o d) :=
      active_frame_update_obj d o _ (fun _ => ⟨rfl, rfl⟩)
    exact active_frame_trans h1 (ih _)

/-- One turn of the third loop of `i915_gem_execbuffer`. -/
theorem move_to_active_spec (o : Nat) (d : Device) :
    (i915_gem_object_move_to_active o d).active_list =
      d.active_list.filter (fun x => x != o) ++ [o] ∧
    (i915_gem_object_move_to_active o d).request_list = d.request_list ∧
    (i915_gem_object_move_to_active o d).last_gem_seqno = d.last_gem_seqno ∧
    ((i915_gem_object_move_to_active o d).objs o).active = true ∧
    ∀ x, x ≠ o → (i915_gem_object_move_to_active o d).objs x = d.objs x := by
  unfold i915_gem_object_move_to_active
  simp only []
  by_cases ha : (d.objs o).active = true
  · rw [if_pos ha]
    exact ⟨rfl, rfl, rfl, ha, fun _ _ => rfl⟩
  · rw [if_neg ha]
    refine ⟨rfl, rfl, rfl, ?_, fun x hx => ?_⟩
    · show (((drm_gem_object_reference o d).update_obj o
        (fun x => { x with active := true })).objs o).active = true
      simp [Device.update_obj]
    · show ((drm_gem_object_reference o d).update_obj o
        (fun x => { x with active := true })).objs x = d.objs x
      simp [Device.update_obj, drm_gem_object_reference, hx]

theorem move_to_active_step (seqno o : Nat) (d : Device) :
    let d1 := (i915_gem_object_move_to_active o d).update_obj o
      (fun x => { x with last_rendering_seqno := seqno })
    d1.active_list = d.active_list.filter (fun x => x != o) ++ [o] ∧
    d1.request_list = d.request_list ∧ d1.last_gem_seqno = d.last_gem_seqno ∧
    (d1.objs o).active = true ∧ (d1.objs o).last_rendering_seqno = seqno ∧
    ∀ x, x ≠ o → d1.objs x = d.objs x := by
  intro d1
  obtain ⟨h1, h2, h3, h4, h5⟩ := move_to_active_spec o d
  refine ⟨h1, h2, h3, ?_, ?_, fun x hx => ?_⟩
  · show (((i915_gem_object_move_to_active o d).update_obj o _).objs o).active = true
    simp [Device.update_obj, h4]
  · show (((i915_gem_object_move_to_active o d).update_obj o _).objs o).last_rendering_seqno
      = seqno
    simp [Device.update_obj]
  · show ((i915_gem_object_move_to_active o d).update_obj o _).objs x = d.objs x
    simp [Device.update_obj, hx, h5 x hx]

/-- A call of `i915_add_request` that returns a fence other than 0 has put a
request with that fence at the tail of the queue. -/
theorem add_request_queues (e : Env) (fl : Nat) (d : Device)
    (h : (i915_add_request e fl d).1 ≠ 0) :
    ∃ r : Request, r.seqno = (i915_add_request e fl d).1 ∧
      (i915_add_request e fl d).2.request_list = d.request_list ++ [r] := by
  cases hc : e.calloc_ok with
  | false =>
    rw [add_request_fail e fl d hc] at h
    exact absurd rfl h
  | true =>
    refine ⟨{ seqno := d.next_gem_seqno, emitted_jiffies := e.jiffies, flush_domains := fl },
      (add_request_ok_fst e fl d hc).symm, ?_⟩
    unfold i915_add_request
    simp only [hc, Bool.true_eq_false, if_false]
    split_ifs <;> rfl

theorem exec_move_to_active_lists (seqno : Nat) :
    ∀ (objects : List Nat) (d : Device),
      (exec_move_to_active seqno objects d).active_list =
        d.active_list.filter (fun x => decide (x ∉ objects)) ++ objects.dedup ∧
      (exec_move_to_active seqno objects d).request_list = d.request_list ∧
      (exec_move_to_active seqno objects d).last_gem_seqno = d.last_gem_seqno := by
  intro objects
  induction objects with
  | nil =>
    intro d
    simp [exec_move_to_active]
  | cons o rest ih =>
    intro d
    simp only [exec_move_to_active]
    obtain ⟨h1, h2, h3, -, -, -⟩ := move_to_active_step seqno o d
    obtain ⟨i1, i2, i3⟩ := ih ((i915_gem_object_move_to_active o d).update_obj o
      (fun x => { x with last_rendering_seqno := seqno }))
    refine ⟨?_, i2.trans h2, i3.trans h3⟩
    rw [i1, h1, List.filter_append, List.filter_filter]
    have hf : d.active_list.filter (fun a => decide (a ∉ rest) && (a != o)) =
        d.active_list.filter (fun x => decide (x ∉ o :: rest)) := by
      apply List.filter_congr
      intro x _
      by_cases hx : x = o
      · simp [hx]
      · by_cases hr : x ∈ rest
        · simp [hx, hr]
        · simp [hx, hr]
    rw [hf]
    by_cases ho : o ∈ rest
    · rw [List.dedup_cons_of_mem ho]
      simp [ho]
    · rw [List.dedup_cons_of_not_mem ho]
      simp [ho]

theorem exec_move_to_active_objs (seqno : Nat) :
    ∀ (objects : List Nat) (d : Device) (x : Nat),
      (x ∈ objects ∨
        ((d.objs x).active = true ∧ (d.objs x).last_rendering_seqno = seqno)) →
      ((exec_move_to_active seqno objects d).objs x).active = true ∧
      ((exec_move_to_active seqno objects d).objs x).last_rendering_seqno = seqno := by
  intro objects
  induction objects with
  | nil =>
    intro d x h
    rcases h with h | h
    · cases h
    · exact h
  | cons o rest ih =>
    intro d x h
    simp only [exec_move_to_active]
    obtain ⟨-, -, -, h4, h5, h6⟩ := move_to_active_step seqno o d
    apply ih
    by_cases hx : x = o
    · subst hx
      exact Or.inr ⟨h4, h5⟩
    · rcases h with h | h
      · rcases List.mem_cons.mp h with h | h
        · exact absurd h hx
        · exact Or.inl h
      · right
        rw [h6 x hx]
        exact h

/-- A successful `exec_submit` has emitted one fence for the submission, made it
the fence of the client, and moved the buffers to the active list under it. -/
theorem exec_submit_ok (es : Nat → Env) (file : Nat) (args : ExecBuffer)
    (objects : List Nat) (entries : List ExecObject) (d d3 : Device)
    (h : exec_submit es file args objects entries d = .ret 0 d3) :
    ∃ (seqno : Nat) (d4 : Device) (ev : Event),
      seqno ≠ 0 ∧ d3 = (exec_move_to_active seqno objects d4).log ev ∧
      d4.last_gem_seqno file = seqno ∧
      ∃ r : Request, r.seqno = seqno ∧ d4.request_list.getLast? = some r := by
  unfold exec_submit at h
  cases ho : objects.getLast? with
  | none =>
    rw [ho] at h
    cases h
  | some batch_obj =>
    cases he : entries.getLast? with
    | none =>
      rw [ho, he] at h
      cases h
    | some batch_entry =>
      rw [ho, he] at h
      simp only [] at h
      generalize (d.update_obj batch_obj (fun x =>
          { x with pending_read_domains := I915_GEM_DOMAIN_COMMAND, pending_write_domain := 0 }))
        = d1 at h
      cases hsd : exec_set_domains es objects d1 with
      | bug =>
        rw [hsd] at h
        cases h
      | ret code d2 =>
        rw [hsd] at h
        simp only [] at h
        by_cases hc : code ≠ 0
        · rw [if_pos hc] at h
          cases h
          exact absurd rfl hc
        · rw [if_neg hc] at h
          generalize i915_gem_dev_set_domain (es d2.tick) d2.tock = r at h
          cases hdi : i915_dispatch_gem_execbuffer es args batch_entry.offset r.2 with
          | bug =>
            rw [hdi] at h
            cases h
          | ret code3 dd =>
            rw [hdi] at h
            simp only [] at h
            by_cases hc3 : code3 ≠ 0
            · rw [if_pos hc3] at h
              cases h
              exact absurd rfl hc3
            · rw [if_neg hc3] at h
              have hq := add_request_queues (es dd.tick)
                (r.1 ||| (i915_retire_commands (es dd.tick) dd.tock).1)
                (i915_retire_commands (es dd.tick) dd.tock).2
              generalize i915_add_request (es dd.tick)
                  (r.1 ||| (i915_retire_commands (es dd.tick) dd.tock).1)
                  (i915_retire_commands (es dd.tick) dd.tock).2 = a at h hq
              by_cases ha : a.1 = 0
              · rw [if_pos ha] at h
                cases h
              · rw [if_neg ha] at h
                obtain ⟨rq, hr1, hr2⟩ := hq ha
                by_cases hcu : (es dd.tick).copy_to_user_ret ≠ 0
                · rw [if_pos hcu] at h
                  injection h with hz _
                  exact absurd hz hcu
                · rw [if_neg hcu] at h
                  cases h
                  refine ⟨a.1, _, _, ha, rfl, ?_, rq, hr1, ?_⟩
                  · show (if file = file then a.1 else a.2.last_gem_seqno file) = a.1
                    rw [if_pos rfl]
                  · show a.2.request_list.getLast? = some rq
                    rw [hr2]
                    simp

theorem exec_cleanup_ok (code : Int) (pinned looked : List Nat) (d d' : Device) (c : Int)
    (h : exec_cleanup code pinned looked d = .ret c d') :
    c = code ∧ ∃ d1, unpin_all pinned d = some d1 ∧ d' = unreference_all looked d1 := by
  unfold exec_cleanup at h
  cases hu : unpin_all pinned d with
  | none =>
    rw [hu] at h
    cases h
  | some d1 =>
    rw [hu] at h
    cases h
    exact ⟨rfl, d1, rfl, rfl⟩

/-- C19: when `i915_gem_execbuffer` returns 0, the buffers of the exec list
resolve to a list `objects` of objects, one fence `seqno`, not 0, was emitted
last for the submission (it is the fence of the last request in the queue) and
is the client's `last_gem_seqno`; every object of the list is on the active
list with its active flag set and `last_rendering_seqno = seqno`; and the
active list ends with the objects of the list in submission order, an object
named more than once standing at its last position. -/
theorem execbuffer_success_activates (es : Nat → Env) (fuel file : Nat) (args : ExecBuffer)
    (d d' : Device) (h : i915_gem_execbuffer es fuel file args d = some (.ret 0 d')) :
    ∃ (objects : List Nat) (seqno : Nat),
      List.Forall₂ (fun (b : ExecObject) o => d.handles file b.handle = some o)
        args.buffers objects ∧
      seqno ≠ 0 ∧
      (∃ r : Request, r.seqno = seqno ∧ d'.request_list.getLast? = some r) ∧
      d'.last_gem_seqno file = seqno ∧
      (∀ o ∈ objects, o ∈ d'.active_list ∧ (d'.objs o).active = true ∧
        (d'.objs o).last_rendering_seqno = seqno) ∧
      (∃ pre, d'.active_list = pre ++ objects.dedup ∧ ∀ o ∈ objects, o ∉ pre) ∧
      (objects.Nodup → ∃ pre, d'.active_list = pre ++ objects) := by
  unfold i915_gem_execbuffer at h
  simp only [] at h
  by_cases h1 : (es d.tick).calloc_ok = false
  · rw [if_pos h1] at h
    cases h
  · rw [if_neg h1] at h
    by_cases h2 : (es d.tick).copy_from_user_ret ≠ 0
    · rw [if_pos h2] at h
      injection h with h
      injection h with hc _
      exact absurd hc h2
    · rw [if_neg h2] at h
      by_cases h3 : d.suspended = true
      · rw [if_pos h3] at h
        cases h
      · rw [if_neg h3] at h
        cases hl : exec_pin_loop es fuel file args.buffers [] []
            { d.tock with invalidate_domains := 0, flush_domains := 0 } with
        | none =>
          rw [hl] at h
          cases h
        | some r =>
          have hspec := pin_loop_spec es fuel file args.buffers [] [] _ r hl
          rw [hl] at h
          cases r with
          | bug => cases h
          | failed code pinned looked d2 =>
            simp only [] at h
            obtain ⟨-, hne, -⟩ := hspec
            obtain ⟨hc, -⟩ := exec_cleanup_ok _ _ _ _ _ _ (Option.some.inj h)
            exact absurd hc.symm hne
          | done objects entries d2 =>
            simp only [] at h
            obtain ⟨-, -, res, hres, hfa⟩ := hspec
            have hobj : objects = res := by simpa using hres
            subst hobj
            cases hsb : exec_submit es file args objects entries d2 with
            | bug =>
              rw [hsb] at h
              cases h
            | ret code d3 =>
              rw [hsb] at h
              simp only [] at h
              obtain ⟨hc, d7, hu, hd'⟩ := exec_cleanup_ok _ _ _ _ _ _ (Option.some.inj h)
              subst hc
              obtain ⟨seqno, d4, ev, hs0, hd3, hlast, rq, hrq, hql⟩ :=
                exec_submit_ok es file args objects entries d2 d3 hsb
              obtain ⟨m1, m2, m3⟩ := exec_move_to_active_lists seqno objects d4
              have hact : ∀ o ∈ objects, (d3.objs o).active = true ∧
                  (d3.objs o).last_rendering_seqno = seqno := by
                intro o ho
                rw [hd3]
                exact exec_move_to_active_objs seqno objects d4 o (Or.inl ho)
              have hfr : ActiveFrame d3 d' := by
                rw [hd']
                exact active_frame_trans
                  (active_frame_unpin_all objects d3 d7 (fun o ho => (hact o ho).1) hu)
                  (active_frame_unreference_all objects d7)
              obtain ⟨f1, -, -, f4, f5, f6⟩ := hfr
              have hal : d'.active_list =
                  d4.active_list.filter (fun x => decide (x ∉ objects)) ++ objects.dedup := by
                rw [f1, hd3]
                exact m1
              refine ⟨objects, seqno, hfa, hs0, ⟨rq, hrq, ?_⟩, ?_, fun o ho => ⟨?_, ?_, ?_⟩,
                ⟨_, hal, fun o ho hin => ?_⟩, fun hnd =>
                  ⟨d4.active_list.filter (fun x => decide (x ∉ objects)), ?_⟩⟩
              · rw [f4, hd3]
                show (exec_move_to_active seqno objects d4).request_list.getLast? = some rq
                rw [m2]
                exact hql
              · rw [f5, hd3]
                show (exec_move_to_active seqno objects d4).last_gem_seqno file = seqno
                rw [m3]
                exact hlast
              · rw [hal]
                exact List.mem_append_right _ (List.mem_dedup.mpr ho)
              · rw [(f6 o).1]
                exact (hact o ho).1
              · rw [(f6 o).2]
                exact (hact o ho).2
              · have := (List.mem_filter.mp hin).2
                simp only [decide_eq_true_eq] at this
                exact this ho
              · rw [hal, hnd.dedup]

/-- Witness for C19: the submission `sample_exec` on `aperture_dev` returns 0 and
leaves the active list `[0, 1]`. -/
theorem execbuffer_success_activates_witness :
    ∃ d', i915_gem_execbuffer sample_es 5 0 sample_exec aperture_dev = some (.ret 0 d') ∧
      d'.active_list = [0, 1] ∧
      ∃ (objects : List Nat) (seqno : Nat),
        List.Forall₂ (fun (b : ExecObject) o => aperture_dev.handles 0 b.handle = some o)
          sample_exec.buffers objects ∧
        seqno ≠ 0 ∧
        (∃ r : Request, r.seqno = seqno ∧ d'.request_list.getLast? = some r) ∧
        d'.last_gem_seqno 0 = seqno ∧
        (∀ o ∈ objects, o ∈ d'.active_list ∧ (d'.objs o).active = true ∧
          (d'.objs o).last_rendering_seqno = seqno) ∧
        (∃ pre, d'.active_list = pre ++ objects.dedup ∧ ∀ o ∈ objects, o ∉ pre) ∧
        (objects.Nodup → ∃ pre, d'.active_list = pre ++ objects) :=
  ⟨_, rfl, rfl, execbuffer_success_activates sample_es 5 0 sample_exec aperture_dev _ rfl⟩

/-! ## Waiting for the fence of a submission -/

theorem shrinks_retire_active (request : Request) (fuel : Nat) :
    ∀ d : Device, ActiveShrinks d (retire_active request fuel d) := by
  induction fuel with
  | zero => intro d; exact active_shrinks_refl d
  | succ n ih =>
    intro d
    simp only [retire_active]
    cases d.active_list with
    | nil => exact active_shrinks_refl d
    | cons o t =>
      simp only []
      by_cases hs : (d.objs o).last_rendering_seqno ≠ request.seqno
      · rw [if_pos hs]
        exact active_shrinks_refl d
      · rw [if_neg hs]
        by_cases hw : (d.objs o).write_domain ≠ 0
        · rw [if_pos hw]
          refine active_shrinks_trans ?_ (ih _)
          obtain ⟨h1, h2⟩ := list_move_tail_active o .flushing (by decide) d
          refine ⟨fun x => by rw [h2], ?_⟩
          rw [h1]
          exact List.filter_sublist _
        · rw [if_neg hw]
          exact active_shrinks_trans (shrinks_move_to_inactive o d) (ih _)

theorem and_page_mask (x : Nat) : x &&& (PAGE_SIZE - 1) = x % PAGE_SIZE :=
  Nat.and_pow_two_sub_one_eq_mod x 12

/-- C27, as stated, fails: the range from 0 to `2 ^ 32` passes the checks of
`i915_gem_init_ioctl`, and the conversion to `uint32_t` records
`gtt_total = 0`, not `gtt_end - gtt_start`. -/
theorem init_ioctl_truncates_total :
    ∃ d', i915_gem_init_ioctl 0 (2 ^ 32) sample_dev = .ret 0 d' ∧
      d'.gtt_free = [(0, 2 ^ 32)] ∧ d'.gtt_total = 0 ∧ 2 ^ 32 - 0 ≠ 0 :=
  ⟨_, rfl, rfl, rfl, by decide⟩

/-- C27, amended: `i915_gem_init_ioctl` returns -EINVAL and the state it was
given exactly when `gtt_start >= gtt_end` or one of the two is not a multiple
of the page size; otherwise it returns 0, makes `[gtt_start, gtt_end)` the one
free region of the allocator, changes nothing else but `gtt_total`, and records
`gtt_total = (gtt_end - gtt_start) mod 2 ^ 32`, which is `gtt_end - gtt_start`
when the range is shorter than `2 ^ 32` bytes. -/
theorem init_ioctl_checks_and_records (gtt_start gtt_end : Nat) (d : Device) :
    (i915_gem_init_ioctl gtt_start gtt_end d = .ret (-EINVAL) d ↔
      (gtt_start ≥ gtt_end ∨ gtt_start % PAGE_SIZE ≠ 0 ∨ gtt_end % PAGE_SIZE ≠ 0)) ∧
    (¬ (gtt_start ≥ gtt_end ∨ gtt_start % PAGE_SIZE ≠ 0 ∨ gtt_end % PAGE_SIZE ≠ 0) →
      i915_gem_init_ioctl gtt_start gtt_end d =
        .ret 0 { d with
          gtt_free := [(gtt_start, gtt_end - gtt_start)]
          gtt_total := (gtt_end - gtt_start) % 2 ^ 32 } ∧
      (gtt_end - gtt_start < 2 ^ 32 →
        ((i915_gem_init_ioctl gtt_start gtt_end d).state d).gtt_total =
          gtt_end - gtt_start)) := by
  unfold i915_gem_init_ioctl
  rw [and_page_mask, and_page_mask]
  by_cases hb : gtt_start ≥ gtt_end ∨ gtt_start % PAGE_SIZE ≠ 0 ∨ gtt_end % PAGE_SIZE ≠ 0
  · rw [if_pos hb]
    exact ⟨⟨fun _ => hb, fun _ => rfl⟩, fun h => absurd hb h⟩
  · rw [if_neg hb]
    refine ⟨⟨fun h => ?_, fun h => absurd h hb⟩, fun _ => ⟨rfl, fun hlt => ?_⟩⟩
    · injection h with hc _
      exact absurd hc (by decide)
    · show (gtt_end - gtt_start) % U32 = gtt_end - gtt_start
      exact Nat.mod_eq_of_lt hlt

/-! ## Object creation -/

theorem roundup_u64_spec (x : Nat) (h : x + (PAGE_SIZE - 1) < 2 ^ 64) :
    roundup_u64 x PAGE_SIZE % PAGE_SIZE = 0 ∧ x ≤ roundup_u64 x PAGE_SIZE ∧
    ∀ m, m % PAGE_SIZE = 0 → x ≤ m → roundup_u64 x PAGE_SIZE ≤ m := by
  have hx : x % 2 ^ 64 = x := Nat.mod_eq_of_lt (by omega)
  have hr : roundup_u64 x PAGE_SIZE = (x + 4095) / 4096 * 4096 := by
    unfold roundup_u64 PAGE_SIZE
    unfold PAGE_SIZE at h
    rw [hx, Nat.mod_eq_of_lt h]
  rw [hr]
  unfold PAGE_SIZE
  have h1 := Nat.div_mul_le_self (x + 4095) 4096
  have h2 := @Nat.lt_div_mul_add (x + 4095) 4096 (by decide)
  refine ⟨Nat.mul_mod_left _ _, by omega, fun m hm hxm => ?_⟩
  obtain ⟨k, hk⟩ := Nat.dvd_of_mod_eq_zero hm
  generalize (x + 4095) / 4096 = q at h1 h2 ⊢
  omega

theorem create_ioctl_reports (e : Env) (file : Nat) (args : CreateArgs) (d : Device) :
    (i915_gem_create_ioctl e file args d).2.1.size = roundup_u64 args.size PAGE_SIZE ∧
    ((i915_gem_create_ioctl e file args d).1 ≠ -ENOMEM →
      ((i915_gem_create_ioctl e file args d).2.2.objs e.new_obj).size =
        roundup_u64 args.size PAGE_SIZE) := by
  unfold i915_gem_create_ioctl
  simp only []
  unfold drm_gem_object_alloc
  by_cases hc : e.calloc_ok = false
  · rw [if_pos hc]
    exact ⟨rfl, fun h => absurd rfl h⟩
  · rw [if_neg hc]
    simp only []
    unfold i915_gem_init_object
    rw [if_neg hc]
    simp only []
    rw [if_neg (by decide)]
    simp only []
    unfold drm_gem_handle_create
    by_cases hh : e.handle_create_ret ≠ 0
    · rw [if_pos hh, if_pos hh]
      refine ⟨rfl, fun _ => ?_⟩
      simp [drm_gem_object_handle_unreference, drm_gem_object_unreference, list_del_init,
        Device.update_obj]
    · rw [if_neg hh, if_neg hh]
      refine ⟨rfl, fun _ => ?_⟩
      simp [drm_gem_object_handle_unreference, drm_gem_object_unreference,
        drm_gem_object_reference, list_del_init, Device.update_obj]

/-- C28, as stated, fails: for the requested size `2 ^ 64 - 1` the sum in
`roundup(args->size, PAGE_SIZE)` wraps, and `i915_gem_create_ioctl` reports the
size 0 and creates an object of size 0. -/
theorem create_ioctl_size_wraps :
    (i915_gem_create_ioctl sample_env 0 { size := 2 ^ 64 - 1, handle := 0 } sample_dev).1 = 0 ∧
    (i915_gem_create_ioctl sample_env 0 { size := 2 ^ 64 - 1, handle := 0 }
      sample_dev).2.1.size = 0 ∧
    ((i915_gem_create_ioctl sample_env 0 { size := 2 ^ 64 - 1, handle := 0 }
      sample_dev).2.2.objs sample_env.new_obj).size = 0 :=
  ⟨by decide, by decide, by decide⟩

/-- C28, amended: for every requested size of at most `2 ^ 64 - PAGE_SIZE`, the
size that `i915_gem_create_ioctl` reports back is the least multiple of
`PAGE_SIZE` that is at least the requested size, and when the call does not
fail for lack of memory the new object has that size. -/
theorem create_ioctl_rounds_up (e : Env) (file : Nat) (args : CreateArgs) (d : Device)
    (h : args.size + PAGE_SIZE ≤ 2 ^ 64) :
    (i915_gem_create_ioctl e file args d).2.1.size % PAGE_SIZE = 0 ∧
    args.size ≤ (i915_gem_create_ioctl e file args d).2.1.size ∧
    (∀ m, m % PAGE_SIZE = 0 → args.size ≤ m →
      (i915_gem_create_ioctl e file args d).2.1.size ≤ m) ∧
    ((i915_gem_create_ioctl e file args d).1 ≠ -ENOMEM →
      ((i915_gem_create_ioctl e file args d).2.2.objs e.new_obj).size =
        (i915_gem_create_ioctl e file args d).2.1.size) := by
  obtain ⟨h1, h2⟩ := create_ioctl_reports e file args d
  have hp : args.size + (PAGE_SIZE - 1) < 2 ^ 64 := by
    unfold PAGE_SIZE at h ⊢
    omega
  obtain ⟨r1, r2, r3⟩ := roundup_u64_spec args.size hp
  rw [h1]
  exact ⟨r1, r2, r3, h2⟩

/-- Witness for C28 (amended): a request for 5000 bytes creates an object of
8192 bytes. -/
theorem create_ioctl_rounds_up_witness :
    (i915_gem_create_ioctl sample_env 0 { size := 5000, handle := 0 } sample_dev).2.1.size
      = 8192 ∧
    ((i915_gem_create_ioctl sample_env 0 { size := 5000, handle := 0 }
        sample_dev).2.1.size % PAGE_SIZE = 0 ∧
      5000 ≤ (i915_gem_create_ioctl sample_env 0 { size := 5000, handle := 0 }
        sample_dev).2.1.size ∧
      (∀ m, m % PAGE_SIZE = 0 → 5000 ≤ m →
        (i915_gem_create_ioctl sample_env 0 { size := 5000, handle := 0 }
          sample_dev).2.1.size ≤ m) ∧
      ((i915_gem_create_ioctl sample_env 0 { size := 5000, handle := 0 } sample_dev).1
          ≠ -ENOMEM →
        ((i915_gem_create_ioctl sample_env 0 { size := 5000, handle := 0 }
          sample_dev).2.2.objs sample_env.new_obj).size =
          (i915_gem_create_ioctl sample_env 0 { size := 5000, handle := 0 }
            sample_dev).2.1.size)) :=
  ⟨by decide,
    create_ioctl_rounds_up sample_env 0 { size := 5000, handle := 0 } sample_dev (by decide)⟩

/-! ## Dispatch of the batch -/

theorem or_and_seven (a b : Nat) : (a ||| b) &&& 0x7 ≠ 0 ↔ a % 8 ≠ 0 ∨ b % 8 ≠ 0 := by
  have h7 : ∀ x : Nat, x &&& 0x7 = x % 8 := fun x => Nat.and_pow_two_sub_one_eq_mod x 3
  rw [Nat.and_distrib_right, h7, h7, Ne, or_eq_zero_iff]
  exact not_and_or

/-- The turns of the loop of `i915_dispatch_gem_execbuffer`: when the loop
returns 0 after `n` turns it has written `n` batch-start commands to the ring,
one per environment answer, and nothing else. -/
theorem dispatch_loop_ring (es : Nat → Env) (exec_start exec_len : Nat) (nbox : Int) :
    ∀ (n i : Nat) (d d' : Device),
      dispatch_loop es exec_start exec_len nbox n i d = .ret 0 d' →
      d'.ring = d.ring ++ ((List.range n).map
        (fun k => batch_start_command (es (d.tick + k)) exec_start exec_len)).flatten ∧
      d'.tick = d.tick + n := by
  intro n
  induction n with
  | zero =>
    intro i d d' h
    simp only [dispatch_loop] at h
    cases h
    simp
  | succ n ih =>
    intro i d d' h
    simp only [dispatch_loop] at h
    have k1 : (if (i : Int) < nbox then d.tock.log (.emit_box i) else d.tock).ring = d.ring ∧
        (if (i : Int) < nbox then d.tock.log (.emit_box i) else d.tock).tick = d.tick + 1 := by
      split <;> exact ⟨rfl, rfl⟩
    generalize (if (i : Int) < nbox then d.tock.log (.emit_box i) else d.tock) = d1 at h k1
    by_cases hb : (i : Int) < nbox ∧ (es d.tick).emit_box_ret ≠ 0
    · rw [if_pos hb] at h
      injection h with hc _
      exact absurd hc hb.2
    · rw [if_neg hb] at h
      have hcmd : (if (es d.tick).is_i830_or_845g = true then
            d1.out_ring [(es d.tick).MI_BATCH_BUFFER,
              exec_start ||| (es d.tick).MI_BATCH_NON_SECURE,
              (exec_start + exec_len + U32 - 4) % U32, 0]
          else if (es d.tick).is_i965g = true then
            d1.out_ring [(es d.tick).MI_BATCH_BUFFER_START ||| (2 <<< 6) |||
              (es d.tick).MI_BATCH_NON_SECURE_I965, exec_start]
          else
            d1.out_ring [(es d.tick).MI_BATCH_BUFFER_START ||| (2 <<< 6),
              exec_start ||| (es d.tick).MI_BATCH_NON_SECURE]) =
          d1.out_ring (batch_start_command (es d.tick) exec_start exec_len) := by
        unfold batch_start_command
        split_ifs <;> rfl
      rw [hcmd] at h
      obtain ⟨r1, r2⟩ := ih _ _ _ h
      constructor
      · rw [r1]
        show d1.ring ++ batch_start_command (es d.tick) exec_start exec_len ++ _ = _
        rw [k1.1, List.range_succ_eq_map, List.map_cons, List.flatten_cons, List.map_map,
          List.append_assoc]
        congr 2
        have ht : (d1.out_ring (batch_start_command (es d.tick) exec_start exec_len)).tick =
            d.tick + 1 := k1.2
        rw [ht]
        congr 2
        funext k
        simp only [Function.comp]
        congr 2
        omega
      · rw [r2]
        show d1.tick + n = d.tick + (n + 1)
        rw [k1.2]
        omega

/-- C24, as stated, fails: a batch of length 0 at the aligned address 4096 is
dispatched: `i915_dispatch_gem_execbuffer` returns 0 and writes a batch-start
command to the ring. The function tests the start address, not the length,
against zero. -/
theorem dispatch_accepts_zero_length :
    empty_batch_exec.batch_len = 0 ∧
    ∃ d', i915_dispatch_gem_execbuffer sample_es empty_batch_exec 4096 sample_dev = .ret 0 d' ∧
      d'.ring = batch_start_command sample_env 4096 0 ∧ d'.ring ≠ sample_dev.ring :=
  ⟨rfl, _, rfl, rfl, by decide⟩

/-- C24, amended: `i915_dispatch_gem_execbuffer` returns -EINVAL and the state
it was given, so that no command is emitted, whenever the start address (bound
address plus `batch_start_offset`) or the batch length is not a multiple of 8,
and whenever the start address, as a 32-bit value, is 0. -/
theorem dispatch_rejects_misaligned (es : Nat → Env) (exec : ExecBuffer) (exec_offset : Nat)
    (d : Device)
    (h : (exec_offset + exec.batch_start_offset) % 8 ≠ 0 ∨ exec.batch_len % 8 ≠ 0 ∨
      (exec_offset + exec.batch_start_offset) % 2 ^ 32 = 0) :
    i915_dispatch_gem_execbuffer es exec exec_offset d = .ret (-EINVAL) d := by
  unfold i915_dispatch_gem_execbuffer
  simp only []
  have hs : (exec_offset % U32 + exec.batch_start_offset % U32) % U32 =
      (exec_offset + exec.batch_start_offset) % 2 ^ 32 := by
    unfold U32
    omega
  rw [hs]
  by_cases ha : ((exec_offset + exec.batch_start_offset) % 2 ^ 32 ||| exec.batch_len % U32)
      &&& 0x7 ≠ 0
  · rw [if_pos ha]
  · rw [if_neg ha]
    by_cases hz : (exec_offset + exec.batch_start_offset) % 2 ^ 32 = 0
    · rw [if_pos hz]
    · exfalso
      rw [or_and_seven] at ha
      apply ha
      rcases h with h | h | h
      · left
        rw [Nat.mod_mod_of_dvd _ (by decide)]
        exact h
      · right
        unfold U32
        rw [Nat.mod_mod_of_dvd _ (by decide)]
        exact h
      · exact absurd h hz

/-- Witness for C24 (amended): a batch of 4 bytes at address 4096 is rejected. -/
theorem dispatch_rejects_misaligned_witness :
    i915_dispatch_gem_execbuffer sample_es { empty_batch_exec with batch_len := 4 } 4096
      sample_dev = .ret (-EINVAL) sample_dev :=
  dispatch_rejects_misaligned sample_es { empty_batch_exec with batch_len := 4 } 4096
    sample_dev (Or.inr (Or.inl (by decide)))

/-- C25 fails in the code: with `num_cliprects = 2 ^ 31` the
`int nbox = exec->num_cliprects` is negative, `count = nbox ? nbox : 1` is
negative as well, the loop `for (i = 0; i < count; i++)` makes no turn, and the
dispatch of an aligned batch of 64 bytes at address 4096 returns 0 without a
batch-start command: the ring is as before. -/
theorem dispatch_negative_nbox_emits_nothing :
    negative_box_exec.num_cliprects < 2 ^ 32 ∧
    i915_dispatch_gem_execbuffer sample_es negative_box_exec 4096 sample_dev =
      .ret 0 sample_dev :=
  ⟨by decide, rfl⟩

/-- What a dispatch that returns 0 has written: the ring has
grown by a sequence of batch-start commands and nothing else; there are
`num_cliprects` of them when that field is between 1 and `2 ^ 31 - 1`, one when
it is 0, and none when it is `2 ^ 31` or more (the `int nbox` is negative). -/
theorem dispatch_emits_per_cliprect (es : Nat → Env) (exec : ExecBuffer) (exec_offset : Nat)
    (d d' : Device) (hn : exec.num_cliprects < 2 ^ 32)
    (h : i915_dispatch_gem_execbuffer es exec exec_offset d = .ret 0 d') :
    ∃ cmds : List (List Nat),
      d'.ring = d.ring ++ cmds.flatten ∧
      (∀ c ∈ cmds, ∃ e, c = batch_start_command e
        ((exec_offset % U32 + exec.batch_start_offset % U32) % U32) (exec.batch_len % U32)) ∧
      (exec.num_cliprects = 0 → cmds.length = 1) ∧
      (0 < exec.num_cliprects → exec.num_cliprects < 2 ^ 31 →
        cmds.length = exec.num_cliprects) ∧
      (2 ^ 31 ≤ exec.num_cliprects → cmds.length = 0) := by
  unfold i915_dispatch_gem_execbuffer at h
  simp only [] at h
  by_cases ha : ((exec_offset % U32 + exec.batch_start_offset % U32) % U32 |||
      exec.batch_len % U32) &&& 0x7 ≠ 0
  · rw [if_pos ha] at h
    injection h with hc _
    exact absurd hc (by decide)
  · rw [if_neg ha] at h
    by_cases hz : (exec_offset % U32 + exec.batch_start_offset % U32) % U32 = 0
    · rw [if_pos hz] at h
      injection h with hc _
      exact absurd hc (by decide)
    · rw [if_neg hz] at h
      obtain ⟨hr, -⟩ := dispatch_loop_ring es _ _ _ _ _ d d' h
      refine ⟨_, hr, ?_, ?_, ?_, ?_⟩
      · intro c hc
        obtain ⟨k, -, hk⟩ := List.mem_map.mp hc
        exact ⟨_, hk.symm⟩
      · intro h0
        rw [List.length_map, List.length_range]
        have : to_int32 exec.num_cliprects = 0 := by
          unfold to_int32
          rw [h0]
          decide
        rw [this]
        decide
      · intro hpos hlt
        rw [List.length_map, List.length_range]
        have hm : exec.num_cliprects % U32 = exec.num_cliprects := Nat.mod_eq_of_lt hn
        have : to_int32 exec.num_cliprects = (exec.num_cliprects : Int) := by
          unfold to_int32
          rw [hm, if_pos (by omega)]
        rw [this, if_pos (by omega)]
        exact Int.toNat_natCast _
      · intro hge
        rw [List.length_map, List.length_range]
        have hm : exec.num_cliprects % U32 = exec.num_cliprects := Nat.mod_eq_of_lt hn
        have : to_int32 exec.num_cliprects = (exec.num_cliprects : Int) - (U32 : Int) := by
          unfold to_int32
          rw [hm, if_neg (by omega)]
        rw [this]
        have hlt : (exec.num_cliprects : Int) - (U32 : Int) < 0 := by
          unfold U32
          omega
        rw [if_pos (by omega)]
        exact Int.toNat_eq_zero.mpr (by omega)

/-- An instance of the count: with three clip rectangles the dispatch writes
three batch-start commands. -/
theorem dispatch_emits_per_cliprect_witness :
    ∃ d', i915_dispatch_gem_execbuffer sample_es three_box_exec 4096 sample_dev = .ret 0 d' ∧
      d'.ring.length = 6 ∧
      ∃ cmds : List (List Nat),
        d'.ring = sample_dev.ring ++ cmds.flatten ∧
        (∀ c ∈ cmds, ∃ e, c = batch_start_command e
          ((4096 % U32 + three_box_exec.batch_start_offset % U32) % U32)
          (three_box_exec.batch_len % U32)) ∧
        (three_box_exec.num_cliprects = 0 → cmds.length = 1) ∧
        (0 < three_box_exec.num_cliprects → three_box_exec.num_cliprects < 2 ^ 31 →
          cmds.length = three_box_exec.num_cliprects) ∧
        (2 ^ 31 ≤ three_box_exec.num_cliprects → cmds.length = 0) :=
  ⟨_, rfl, rfl,
    dispatch_emits_per_cliprect sample_es three_box_exec 4096 sample_dev _ (by decide) rfl⟩

/-! ## Validation of a relocation -/

/-- An unpin of a bound object with a positive pin count returns; only the pin
count of the object, the lists and the pin counters of the device change. -/
theorem unpin_ok (o : Nat) (d : Device) (hp : 0 < (d.objs o).pin_count)
    (hg : (d.objs o).gtt_space ≠ none) :
    ∃ d', i915_gem_object_unpin o d = .ret 0 d' ∧ d'.trace = d.trace ∧ d'.ring = d.ring ∧
      (∀ x, x ≠ o → d'.objs x = d.objs x) ∧
      d'.objs o = { d.objs o with pin_count := (d.objs o).pin_count - 1 } := by
  have hself : (d.update_obj o (fun x => { x with pin_count := x.pin_count - 1 })).objs o =
      { d.objs o with pin_count := (d.objs o).pin_count - 1 } := by
    simp [Device.update_obj]
  have hother : ∀ x, x ≠ o →
      (d.update_obj o (fun x => { x with pin_count := x.pin_count - 1 })).objs x = d.objs x := by
    intro x hx
    simp [Device.update_obj, hx]
  have htr : (d.update_obj o (fun x => { x with pin_count := x.pin_count - 1 })).trace =
      d.trace ∧
      (d.update_obj o (fun x => { x with pin_count := x.pin_count - 1 })).ring = d.ring :=
    ⟨rfl, rfl⟩
  unfold i915_gem_object_unpin
  generalize (d.update_obj o (fun x => { x with pin_count := x.pin_count - 1 })) = d1
    at hself hother htr
  simp only []
  rw [if_neg (by rw [hself]; show ¬ (d.objs o).pin_count - 1 < 0; omega),
    if_neg (by rw [hself]; exact hg)]
  by_cases hz : (d1.objs o).pin_count = 0
  · rw [if_pos hz]
    refine ⟨_, rfl, ?_, ?_, ?_, ?_⟩
    · show (if (d1.objs o).active = false ∧
        (d1.objs o).write_domain &&& not32 I915_GEM_DOMAIN_CPU = 0
        then list_move_tail o .inactive d1 else d1).trace = d.trace
      split
      · exact htr.1
      · exact htr.1
    · show (if (d1.objs o).active = false ∧
        (d1.objs o).write_domain &&& not32 I915_GEM_DOMAIN_CPU = 0
        then list_move_tail o .inactive d1 else d1).ring = d.ring
      split
      · exact htr.2
      · exact htr.2
    · intro x hx
      show (if (d1.objs o).active = false ∧
        (d1.objs o).write_domain &&& not32 I915_GEM_DOMAIN_CPU = 0
        then list_move_tail o .inactive d1 else d1).objs x = d.objs x
      split
      · exact hother x hx
      · exact hother x hx
    · show (if (d1.objs o).active = false ∧
        (d1.objs o).write_domain &&& not32 I915_GEM_DOMAIN_CPU = 0
        then list_move_tail o .inactive d1 else d1).objs o = _
      split
      · exact hself
      · exact hself
  · rw [if_neg hz]
    exact ⟨_, rfl, htr.1, htr.2, hother, hself⟩

theorem ref_unref_objs (t : Nat) (d : Device) :
    (drm_gem_object_unreference t (drm_gem_object_reference t d)).objs = d.objs := by
  funext x
  by_cases hx : x = t
  · subst hx
    simp [drm_gem_object_unreference, drm_gem_object_reference, Device.update_obj]
  · simp [drm_gem_object_unreference, drm_gem_object_reference, Device.update_obj, hx]

/-- The error exit of the relocation loop for a bound object with a positive pin
count: the code is returned and one pin is released. -/
theorem reloc_fail_ok (o : Nat) (code : Int) (d0 d : Device) (ho : d.objs = d0.objs)
    (ht : d.trace = d0.trace) (hr : d.ring = d0.ring)
    (hp : 0 < (d0.objs o).pin_count) (hg : (d0.objs o).gtt_space ≠ none) :
    ∃ d', reloc_fail o code d = .ret code d' ∧ d'.trace = d0.trace ∧ d'.ring = d0.ring ∧
      (∀ x, x ≠ o → d'.objs x = d0.objs x) ∧
      d'.objs o = { d0.objs o with pin_count := (d0.objs o).pin_count - 1 } := by
  obtain ⟨d', h1, h2, h3, h4, h5⟩ := unpin_ok o d (by rw [ho]; exact hp) (by rw [ho]; exact hg)
  unfold reloc_fail
  rw [h1]
  refine ⟨d', rfl, h2.trans ht, h3.trans hr, fun x hx => ?_, ?_⟩
  · rw [h4 x hx, ho]
  · rw [h5, ho]

theorem sub_size_t_four (size : Nat) (h4 : 4 ≤ size) (h64 : size < 2 ^ 64) :
    sub_size_t size 4 = size - 4 := by
  unfold sub_size_t
  omega

/-- C22 fails in the code: a create request for 0 bytes gives an object of size
0. Object 1 of `empty_object_dev` is such an object, and a relocation at its
byte 0 (4-byte aligned, but `offset + 4 > size`) is not rejected: in the bound
test `reloc.offset > obj->size - 4` the difference wraps to `2 ^ 64 - 4`, the
test passes, and `i915_gem_object_pin_and_relocate` binds the object at 4096,
patches the word at aperture address 4096, outside the object, and returns 0
with the pin in place. The relocation loop does the same on `zero_size_dev`,
where the object is bound and pinned already. -/
theorem relocate_accepts_offset_beyond_empty_object :
    (i915_gem_create_ioctl sample_env 0 { size := 0, handle := 0 } sample_dev).1 = 0 ∧
    (i915_gem_create_ioctl sample_env 0 { size := 0, handle := 0 } sample_dev).2.1.size = 0 ∧
    (empty_object_dev.objs 1).size = 0 ∧
    sample_reloc.offset + 4 > (empty_object_dev.objs 1).size ∧ sample_reloc.offset % 4 = 0 ∧
    (∃ e d', i915_gem_object_pin_and_relocate sample_es 5 0 1 empty_object_entry
        empty_object_dev = some (e, .ret 0 d') ∧
      (d'.objs 1).gtt_offset = 4096 ∧
      Event.reloc_write 1 4096 16 ∈ d'.trace ∧ (d'.objs 1).pin_count = 1) ∧
    (zero_size_dev.objs 1).size = 0 ∧
    ∃ d', relocate sample_es 0 1 0 false 0xFFFFFFFF [sample_reloc] zero_size_dev = .ret 0 d' ∧
      Event.reloc_write 1 4096 16 ∈ d'.trace ∧ (d'.objs 1).pin_count = 1 :=
  ⟨rfl, rfl, rfl, by decide, by decide, ⟨_, _, rfl, rfl, by decide, rfl⟩, rfl,
    _, rfl, by decide, rfl⟩

/-- The validation of the patch offset for objects of at least 4 bytes: let the
referencing object `o` be bound and pinned. A relocation whose byte offset is not a multiple of
4, or whose word does not lie within the object (`offset + 4 > size`), ends the
relocation loop with -EINVAL: nothing is written and no collaborator is called
(trace and ring are as before), every other object is as before, and `o` has
one pin less. -/
theorem relocate_rejects_bad_offset (es : Nat → Env) (file o index : Nat) (mapped : Bool)
    (last : Nat) (reloc : Reloc) (rest : List Reloc) (d : Device)
    (hc : (es d.tick).copy_from_user_ret = 0)
    (h4 : 4 ≤ (d.objs o).size) (h64 : (d.objs o).size < 2 ^ 64)
    (hp : 0 < (d.objs o).pin_count) (hg : (d.objs o).gtt_space ≠ none)
    (hbad : reloc.offset % 4 ≠ 0 ∨ reloc.offset + 4 > (d.objs o).size) :
    ∃ d', relocate es file o index mapped last (reloc :: rest) d = .ret (-EINVAL) d' ∧
      d'.trace = d.trace ∧ d'.ring = d.ring ∧
      (∀ x, x ≠ o → d'.objs x = d.objs x) ∧
      d'.objs o = { d.objs o with pin_count := (d.objs o).pin_count - 1 } := by
  simp only [relocate]
  rw [if_neg (by rw [hc]; decide)]
  rcases lookup_spec file reloc.target_handle d.tock with ⟨-, hl⟩ | ⟨t, -, hl⟩
  · rw [hl]
    simp only []
    exact reloc_fail_ok o _ d _ rfl rfl rfl hp hg
  · rw [hl]
    simp only []
    have hu : (drm_gem_object_unreference t (drm_gem_object_reference t d.tock)).objs =
        d.objs := ref_unref_objs t d.tock
    have hsz : ((drm_gem_object_reference t d.tock).objs o).size = (d.objs o).size := by
      by_cases hx : o = t
      · subst hx
        simp [drm_gem_object_reference, Device.update_obj, Device.tock]
      · simp [drm_gem_object_reference, Device.update_obj, Device.tock, hx]
    by_cases h2 : ((drm_gem_object_reference t d.tock).objs t).gtt_space = none
    · rw [if_pos h2]
      exact reloc_fail_ok o _ d _ hu rfl rfl hp hg
    · rw [if_neg h2, hsz, sub_size_t_four _ h4 h64]
      by_cases h3 : reloc.offset > (d.objs o).size - 4
      · rw [if_pos h3]
        exact reloc_fail_ok o _ d _ hu rfl rfl hp hg
      · rw [if_neg h3]
        have hal : reloc.offset &&& 3 ≠ 0 := by
          rw [Nat.and_pow_two_sub_one_eq_mod reloc.offset 2]
          rcases hbad with hb | hb
          · exact hb
          · omega
        rw [if_pos hal]
        exact reloc_fail_ok o _ d _ hu rfl rfl hp hg

/-- An instance of the validation: on `one_page_dev` a relocation at byte 4094 of
the one-page object 1 is rejected. -/
theorem relocate_rejects_bad_offset_witness :
    ∃ d', relocate sample_es 0 1 0 false 0xFFFFFFFF [{ sample_reloc with offset := 4094 }]
        one_page_dev = .ret (-EINVAL) d' ∧
      d'.trace = one_page_dev.trace ∧ d'.ring = one_page_dev.ring ∧
      (∀ x, x ≠ 1 → d'.objs x = one_page_dev.objs x) ∧
      d'.objs 1 = { one_page_dev.objs 1 with
        pin_count := (one_page_dev.objs 1).pin_count - 1 } :=
  relocate_rejects_bad_offset sample_es 0 1 0 false 0xFFFFFFFF
    { sample_reloc with offset := 4094 } [] one_page_dev rfl (by decide) (by decide)
    (by decide) (by decide) (Or.inl (by decide))

/-! ## A relocation that needs no patch -/

/-- C21: a relocation that passes the validation and whose `presumed_offset` is
the `gtt_offset` of its target is done after the pending domains of the target
have taken up its read and write domains: the loop goes on to the next
relocation with the same mapping state, in a state whose trace and ring are as
before (no rendering wait, no cache flush, no write into the buffer, no copy
back to the caller), whose lists are as before, and in which every object but
the target is as before; the target differs in its pending domains only, so
that the write domain of the referencing buffer is unchanged. -/
theorem relocate_skips_matching (es : Nat → Env) (file o index : Nat) (mapped : Bool)
    (last : Nat) (reloc : Reloc) (rest : List Reloc) (d : Device) (t : Nat)
    (hc : (es d.tick).copy_from_user_ret = 0)
    (ht : d.handles file reloc.target_handle = some t)
    (hb : (d.objs t).gtt_space ≠ none)
    (h4 : 4 ≤ (d.objs o).size) (h64 : (d.objs o).size < 2 ^ 64)
    (hin : reloc.offset + 4 ≤ (d.objs o).size) (hal : reloc.offset % 4 = 0)
    (hconf : ¬ (reloc.write_domain ≠ 0 ∧ (d.objs t).pending_write_domain ≠ 0 ∧
      reloc.write_domain ≠ (d.objs t).pending_write_domain))
    (hm : (d.objs t).gtt_offset = reloc.presumed_offset) :
    ∃ dn, relocate es file o index mapped last (reloc :: rest) d =
        relocate es file o (index + 1) mapped last rest dn ∧
      dn.trace = d.trace ∧ dn.ring = d.ring ∧
      dn.active_list = d.active_list ∧ dn.flushing_list = d.flushing_list ∧
      dn.inactive_list = d.inactive_list ∧ dn.request_list = d.request_list ∧
      (∀ x, x ≠ t → dn.objs x = d.objs x) ∧
      dn.objs t = { d.objs t with
        pending_read_domains := (d.objs t).pending_read_domains ||| reloc.read_domains
        pending_write_domain := (d.objs t).pending_write_domain ||| reloc.write_domain } ∧
      (dn.objs o).write_domain = (d.objs o).write_domain ∧
      (dn.objs o).read_domains = (d.objs o).read_domains := by
  have hl : drm_gem_object_lookup file reloc.target_handle d.tock =
      some (t, drm_gem_object_reference t d.tock) := by
    unfold drm_gem_object_lookup
    have : d.tock.handles file reloc.target_handle = some t := ht
    rw [this]
  have hobj : ∀ x, (drm_gem_object_reference t d.tock).objs x =
      if x = t then { d.objs t with refcount := (d.objs t).refcount + 1 } else d.objs x := by
    intro x
    by_cases hx : x = t
    · subst hx
      simp [drm_gem_object_reference, Device.update_obj, Device.tock]
    · simp [drm_gem_object_reference, Device.update_obj, Device.tock, hx]
  have hsz : ((drm_gem_object_reference t d.tock).objs o).size = (d.objs o).size := by
    rw [hobj]
    split
    · rename_i hx
      rw [hx]
    · rfl
  have htt := hobj t
  rw [if_pos rfl] at htt
  simp only [relocate]
  rw [if_neg (by rw [hc]; decide), hl]
  simp only []
  rw [if_neg (by rw [htt]; exact hb), hsz, sub_size_t_four _ h4 h64,
    if_neg (by omega),
    if_neg (by rw [Nat.and_pow_two_sub_one_eq_mod reloc.offset 2]; omega),
    if_neg (by rw [htt]; exact hconf)]
  have hpend : ((drm_gem_object_reference t d.tock).update_obj t (fun x =>
      { x with
        pending_read_domains := x.pending_read_domains ||| reloc.read_domains
        pending_write_domain := x.pending_write_domain ||| reloc.write_domain })).objs t =
      { d.objs t with
        refcount := (d.objs t).refcount + 1
        pending_read_domains := (d.objs t).pending_read_domains ||| reloc.read_domains
        pending_write_domain := (d.objs t).pending_write_domain ||| reloc.write_domain } := by
    simp [Device.update_obj, htt]
  rw [if_pos (by rw [hpend]; exact hm)]
  have hfin_t : (drm_gem_object_unreference t
      ((drm_gem_object_reference t d.tock).update_obj t (fun x =>
        { x with
          pending_read_domains := x.pending_read_domains ||| reloc.read_domains
          pending_write_domain := x.pending_write_domain ||| reloc.write_domain }))).objs t =
      { d.objs t with
        pending_read_domains := (d.objs t).pending_read_domains ||| reloc.read_domains
        pending_write_domain := (d.objs t).pending_write_domain ||| reloc.write_domain } := by
    have : (drm_gem_object_unreference t
      ((drm_gem_object_reference t d.tock).update_obj t (fun x =>
        { x with
          pending_read_domains := x.pending_read_domains ||| reloc.read_domains
          pending_write_domain := x.pending_write_domain ||| reloc.write_domain }))).objs t =
        { ((drm_gem_object_reference t d.tock).update_obj t (fun x =>
          { x with
            pending_read_domains := x.pending_read_domains ||| reloc.read_domains
            pending_write_domain := x.pending_write_domain ||| reloc.write_domain })).objs t
          with refcount := (((drm_gem_object_reference t d.tock).update_obj t (fun x =>
          { x with
            pending_read_domains := x.pending_read_domains ||| reloc.read_domains
            pending_write_domain :=
              x.pending_write_domain ||| reloc.write_domain })).objs t).refcount - 1 } := by
      simp [drm_gem_object_unreference, Device.update_obj]
    rw [this, hpend]
    simp
  have hfin_o : ∀ x, x ≠ t → (drm_gem_object_unreference t
      ((drm_gem_object_reference t d.tock).update_obj t (fun x =>
        { x with
          pending_read_domains := x.pending_read_domains ||| reloc.read_domains
          pending_write_domain := x.pending_write_domain ||| reloc.write_domain }))).objs x =
      d.objs x := by
    intro x hx
    simp [drm_gem_object_unreference, drm_gem_object_reference, Device.update_obj,
      Device.tock, hx]
  refine ⟨_, rfl, rfl, rfl, rfl, rfl, rfl, rfl, hfin_o, hfin_t, ?_, ?_⟩
  · by_cases hx : o = t
    · rw [hx, hfin_t]
    · rw [hfin_o o hx]
  · by_cases hx : o = t
    · rw [hx, hfin_t]
    · rw [hfin_o o hx]

/-- Witness for C21: on `one_page_dev` a relocation in object 1 that points at
object 0 and presumes it at its offset 0 only sets the pending read domain of
object 0. -/
theorem relocate_skips_matching_witness :
    ∃ dn, relocate sample_es 0 1 0 false 0xFFFFFFFF
        [{ sample_reloc with presumed_offset := 0 }] one_page_dev =
        relocate sample_es 0 1 (0 + 1) false 0xFFFFFFFF [] dn ∧
      dn.trace = one_page_dev.trace ∧ dn.ring = one_page_dev.ring ∧
      dn.active_list = one_page_dev.active_list ∧
      dn.flushing_list = one_page_dev.flushing_list ∧
      dn.inactive_list = one_page_dev.inactive_list ∧
      dn.request_list = one_page_dev.request_list ∧
      (∀ x, x ≠ 0 → dn.objs x = one_page_dev.objs x) ∧
      dn.objs 0 = { one_page_dev.objs 0 with
        pending_read_domains :=
          (one_page_dev.objs 0).pending_read_domains ||| I915_GEM_DOMAIN_RENDER
        pending_write_domain := (one_page_dev.objs 0).pending_write_domain ||| 0 } ∧
      (dn.objs 1).write_domain = (one_page_dev.objs 1).write_domain ∧
      (dn.objs 1).read_domains = (one_page_dev.objs 1).read_domains :=
  relocate_skips_matching sample_es 0 1 0 false 0xFFFFFFFF
    { sample_reloc with presumed_offset := 0 } [] one_page_dev 0 rfl rfl (by decide)
    (by decide) (by decide) (by decide) (by decide) (by decide) rfl

/-! ## Idling a wedged device -/

/-- With the status page standing still at a value that has not passed the
fence, the poll loop of `i915_gem_idle` ends by its counter: started with
`last_seqno` equal to the page and `stuck + k = 101`, it makes `k` more sleeps
and leaves; lists, queue, objects and status page are as before. -/
theorem idle_poll_stuck (es : Nat → Env) (seqno c extra : Nat)
    (hw : ∀ n, (es n).hws_after_wait = c) (hp : i915_seqno_passed c seqno = false) :
    ∀ (k stuck : Nat) (d : Device), stuck + k = 101 → d.hws_seqno = c →
      ∃ d', idle_poll es seqno (k + 1 + extra) c stuck d = some d' ∧
        d'.hws_seqno = c ∧ d'.request_list = d.request_list ∧
        d'.active_list = d.active_list ∧ d'.flushing_list = d.flushing_list ∧
        d'.inactive_list = d.inactive_list ∧ d'.objs = d.objs ∧
        d'.tick = d.tick + k := by
  intro k
  induction k with
  | zero =>
    intro stuck d hk hc
    subst hc
    have e1 : 0 + 1 + extra = extra + 1 := by omega
    rw [e1]
    simp only [idle_poll, i915_get_gem_seqno]
    rw [hp]
    simp only [Bool.false_eq_true, if_false]
    have hs : stuck > 100 := by omega
    simp only [hs, and_self, true_and, if_true]
    exact ⟨_, rfl, rfl, rfl, rfl, rfl, rfl, rfl, rfl⟩
  | succ k ih =>
    intro stuck d hk hc
    subst hc
    have e1 : k + 1 + 1 + extra = (k + 1 + extra) + 1 := by omega
    rw [e1]
    simp only [idle_poll, i915_get_gem_seqno]
    rw [hp]
    simp only [Bool.false_eq_true, if_false]
    have hs : ¬ stuck > 100 := by omega
    simp only [hs, and_false, true_and, if_false, if_true]
    obtain ⟨d', h1, h2, h3, h4, h5, h6, h7, h8⟩ := ih (stuck + 1)
      { (d.log (.msleep 10)).tock with hws_seqno := (es d.tick).hws_after_wait }
      (by omega) (hw _)
    refine ⟨d', h1, h2, h3, h4, h5, h6, h7, ?_⟩
    rw [h8]
    show d.tick + 1 + k = d.tick + (k + 1)
    omega

/-- The poll loop of `i915_gem_idle` on a wedged device, from its start
(`last_seqno = 0`, `stuck = 0`): it ends within 103 polls. -/
theorem idle_poll_wedged (es : Nat → Env) (seqno extra : Nat) (d : Device)
    (hw : ∀ n, (es n).hws_after_wait = d.hws_seqno)
    (hp : i915_seqno_passed d.hws_seqno seqno = false) :
    ∃ d', idle_poll es seqno (extra + 103) 0 0 d = some d' ∧
      d'.hws_seqno = d.hws_seqno ∧ d'.request_list = d.request_list ∧
      d'.active_list = d.active_list ∧ d'.flushing_list = d.flushing_list ∧
      d'.inactive_list = d.inactive_list ∧ d'.objs = d.objs ∧
      d'.tick ≤ d.tick + 102 := by
  by_cases h0 : 0 = d.hws_seqno
  · have e1 : extra + 103 = 101 + 1 + (extra + 1) := by omega
    rw [e1]
    obtain ⟨d', h1, h2, h3, h4, h5, h6, h7, h8⟩ :=
      idle_poll_stuck es seqno d.hws_seqno (extra + 1) hw hp 101 0 d (by omega) rfl
    rw [← h0] at h1
    exact ⟨d', h1, h2, h3, h4, h5, h6, h7, by omega⟩
  · have e1 : extra + 103 = (101 + 1 + extra) + 1 := by omega
    rw [e1]
    simp only [idle_poll, i915_get_gem_seqno]
    rw [hp]
    simp only [Bool.false_eq_true, if_false]
    rw [if_neg (fun h => h0 h.1), if_neg h0]
    obtain ⟨d', h1, h2, h3, h4, h5, h6, h7, h8⟩ :=
      idle_poll_stuck es seqno d.hws_seqno extra hw hp 101 0
        { (d.log (.msleep 10)).tock with hws_seqno := (es d.tick).hws_after_wait }
        (by omega) (hw _)
    refine ⟨d', h1, h2, h3, h4, h5, h6, h7, ?_⟩
    rw [h8]
    show d.tick + 1 + 101 ≤ d.tick + 102
    omega

theorem dropWhile_append_unpassed (p : Request → Bool) (r : Request) (hr : p r = false) :
    ∀ l : List Request, (l ++ [r]).dropWhile p ≠ [] := by
  intro l
  induction l with
  | nil => simp [List.dropWhile, hr]
  | cons a t ih =>
    by_cases ha : p a = true
    · simp only [List.cons_append, List.dropWhile_cons, ha, if_true]
      exact ih
    · simp [List.dropWhile_cons, ha]

/-- Retiring leaves in the queue what the completed sequence number has not
passed: a queue that ends with an unpassed request is not empty afterwards. -/
theorem retire_requests_keeps_unpassed (d : Device) (l : List Request) (r : Request)
    (hq : d.request_list = l ++ [r]) (hr : i915_seqno_passed d.hws_seqno r.seqno = false) :
    (i915_gem_retire_requests d).request_list ≠ [] := by
  have hspec := retire_requests_loop_spec d.hws_seqno d.request_list.length d.request_list d rfl
    (Nat.le_refl _)
  have hset : ∀ (q : List Request) (x : Device), (set_requests q x).request_list = q :=
    fun _ _ => rfl
  unfold i915_gem_retire_requests i915_get_gem_seqno
  rw [hspec, hset, hq]
  exact dropWhile_append_unpassed _ r hr l

theorem flush_hws (e : Env) (inv fl : Nat) (d : Device) :
    (i915_gem_flush e inv fl d).hws_seqno = d.hws_seqno ∧
    (i915_gem_flush e inv fl d).next_gem_seqno = d.next_gem_seqno := by
  unfold i915_gem_flush
  simp only []
  split_ifs <;> exact ⟨rfl, rfl⟩

theorem add_request_hws (e : Env) (fl : Nat) (d : Device) :
    (i915_add_request e fl d).2.hws_seqno = d.hws_seqno := by
  unfold i915_add_request
  simp only []
  split_ifs <;> rfl

/-- C29 fails in the code: on a device that is not suspended and whose completed
sequence number stands still short of the idle fence, `i915_gem_idle` leaves
its poll loop within 103 polls ("hardware wedged"), but its own request is
still in the queue, so one of the `BUG_ON(!list_empty(...))` checks after
`i915_gem_retire_requests` fires, at the latest the one on the request list;
`i915_gem_leavevt_ioctl` ends in the same fatal assertion, and no caller gets
an error. -/
theorem idle_wedged_is_fatal (es : Nat → Env) (fuel : Nat) (d : Device)
    (hs : d.suspended = false) (hc : (es d.tick).calloc_ok = true)
    (hn : d.next_gem_seqno ≠ 0)
    (hw : ∀ n, (es n).hws_after_wait = d.hws_seqno)
    (hp : i915_seqno_passed d.hws_seqno d.next_gem_seqno = false) :
    i915_gem_idle es (fuel + 103) d = some .bug ∧
    i915_gem_leavevt_ioctl es (fuel + 103) d = some .bug := by
  have hidle : i915_gem_idle es (fuel + 103) d = some .bug := by
    unfold i915_gem_idle
    rw [hs]
    simp only [Bool.false_eq_true, if_false]
    generalize hd2 : i915_gem_flush (es (({ d with suspended := true } : Device).log
      .kernel_lost_context).tick) (not32 I915_GEM_DOMAIN_CPU) (not32 I915_GEM_DOMAIN_CPU)
      (({ d with suspended := true } : Device).log .kernel_lost_context).tock = d2
    have hf := flush_hws (es (({ d with suspended := true } : Device).log
      .kernel_lost_context).tick) (not32 I915_GEM_DOMAIN_CPU) (not32 I915_GEM_DOMAIN_CPU)
      (({ d with suspended := true } : Device).log .kernel_lost_context).tock
    rw [hd2] at hf
    have hh : d2.hws_seqno = d.hws_seqno := hf.1
    have hnx : d2.next_gem_seqno = d.next_gem_seqno := hf.2
    have he : (es (({ d with suspended := true } : Device).log
      .kernel_lost_context).tick).calloc_ok = true := hc
    generalize es (({ d with suspended := true } : Device).log
      .kernel_lost_context).tick = e at he
    have hfst : (i915_add_request e (not32 I915_GEM_DOMAIN_CPU) d2).1 = d.next_gem_seqno := by
      rw [add_request_ok_fst e _ d2 he, hnx]
    have hne : (i915_add_request e (not32 I915_GEM_DOMAIN_CPU) d2).1 ≠ 0 := by
      rw [hfst]; exact hn
    obtain ⟨r, hr1, hr2⟩ := add_request_queues e (not32 I915_GEM_DOMAIN_CPU) d2 hne
    have hah := add_request_hws e (not32 I915_GEM_DOMAIN_CPU) d2
    generalize i915_add_request e (not32 I915_GEM_DOMAIN_CPU) d2 = a at hfst hne hr1 hr2 hah
    rw [if_neg hne]
    have hw2 : ∀ n, (es n).hws_after_wait =
        ({ a.2 with waiting_gem_seqno := a.1 } : Device).hws_seqno := by
      intro n
      rw [hw n]
      show d.hws_seqno = a.2.hws_seqno
      rw [hah, hh]
    have hp2 : i915_seqno_passed ({ a.2 with waiting_gem_seqno := a.1 } : Device).hws_seqno
        a.1 = false := by
      show i915_seqno_passed a.2.hws_seqno a.1 = false
      rw [hah, hh, hfst]
      exact hp
    obtain ⟨d4, h1, h2, h3, _, _, _, _, _⟩ :=
      idle_poll_wedged es a.1 fuel { a.2 with waiting_gem_seqno := a.1 } hw2 hp2
    rw [h1]
    simp only []
    have hq : ({ d4 with waiting_gem_seqno := 0 } : Device).request_list =
        d2.request_list ++ [r] := by
      show d4.request_list = _
      rw [h3]
      exact hr2
    have hr : i915_seqno_passed ({ d4 with waiting_gem_seqno := 0 } : Device).hws_seqno
        r.seqno = false := by
      show i915_seqno_passed d4.hws_seqno r.seqno = false
      rw [h2, hr1]
      exact hp2
    have hk := retire_requests_keeps_unpassed _ _ r hq hr
    generalize i915_gem_retire_requests { d4 with waiting_gem_seqno := 0 } = d5 at hk
    have hk2 : d5.request_list.isEmpty = false := by
      cases hl : d5.request_list with
      | nil => exact absurd hl hk
      | cons _ _ => rfl
    by_cases ha : d5.active_list.isEmpty = false
    · rw [if_pos ha]
    · rw [if_neg ha]
      by_cases hb : d5.flushing_list.isEmpty = false
      · rw [if_pos hb]
      · rw [if_neg hb, if_pos hk2]
  refine ⟨hidle, ?_⟩
  unfold i915_gem_leavevt_ioctl
  rw [hidle]

/-- Witness for C29: `wedged_dev`, an idle device whose status page stays at 2
while the idle fence is 3. -/
theorem idle_wedged_is_fatal_witness :
    i915_gem_idle sample_es (0 + 103) wedged_dev = some .bug ∧
    i915_gem_leavevt_ioctl sample_es (0 + 103) wedged_dev = some .bug :=
  idle_wedged_is_fatal sample_es 0 wedged_dev (by decide) (by decide) (by decide)
    (fun _ => rfl) (by decide)

/-! ## What waiting, retiring and domain transitions leave alone -/

theorem obj_kept_refl (a : GemObject) : ObjKept a a :=
  ⟨rfl, rfl, rfl, rfl, rfl, rfl, rfl⟩

theorem obj_kept_trans {a b c : GemObject} (h1 : ObjKept a b) (h2 : ObjKept b c) :
    ObjKept a c :=
  ⟨h2.size.trans h1.size, h2.pending_read_domains.trans h1.pending_read_domains,
    h2.pending_write_domain.trans h1.pending_write_domain, h2.gtt_space.trans h1.gtt_space,
    h2.gtt_offset.trans h1.gtt_offset, h2.page_list.trans h1.page_list,
    h2.agp_mem.trans h1.agp_mem⟩

theorem wait_frame_refl (d : Device) : WaitFrame d d :=
  ⟨rfl, rfl, rfl, rfl, fun _ => obj_kept_refl _⟩

theorem wait_frame_trans {a b c : Device} (h1 : WaitFrame a b) (h2 : WaitFrame b c) :
    WaitFrame a c :=
  ⟨h2.gtt_free.trans h1.gtt_free, h2.gtt_count.trans h1.gtt_count,
    h2.gtt_memory.trans h1.gtt_memory, h2.handles.trans h1.handles,
    fun x => obj_kept_trans (h1.objs x) (h2.objs x)⟩

/-- A step that changes neither the allocator, the counters, the handles nor
the objects. -/
theorem wf_rfl (d d' : Device) (h1 : d'.gtt_free = d.gtt_free)
    (h2 : d'.gtt_count = d.gtt_count) (h3 : d'.gtt_memory = d.gtt_memory)
    (h4 : d'.handles = d.handles) (h5 : d'.objs = d.objs) : WaitFrame d d' :=
  ⟨h1, h2, h3, h4, fun x => by rw [h5]; exact obj_kept_refl _⟩

theorem wf_update_obj (d : Device) (o : Nat) (f : GemObject → GemObject)
    (hf : ∀ x : GemObject, ObjKept x (f x)) : WaitFrame d (d.update_obj o f) := by
  refine ⟨rfl, rfl, rfl, rfl, fun x => ?_⟩
  by_cases hx : x = o
  · have : (d.update_obj o f).objs x = f (d.objs x) := by
      simp [Device.update_obj, hx]
    rw [this]
    exact hf _
  · have : (d.update_obj o f).objs x = d.objs x := by
      simp [Device.update_obj, hx]
    rw [this]
    exact obj_kept_refl _

theorem wf_ite {c : Prop} [Decidable c] {d a b : Device} (ha : WaitFrame d a)
    (hb : WaitFrame d b) : WaitFrame d (if c then a else b) := by
  split
  · exact ha
  · exact hb

theorem wf_list_del_init (o : Nat) (d : Device) : WaitFrame d (list_del_init o d) :=
  ⟨rfl, rfl, rfl, rfl, fun _ => ⟨rfl, rfl, rfl, rfl, rfl, rfl, rfl⟩⟩

theorem wf_list_move_tail (o : Nat) (l : Lru) (d : Device) :
    WaitFrame d (list_move_tail o l d) := by
  cases l <;> exact ⟨rfl, rfl, rfl, rfl, fun _ => ⟨rfl, rfl, rfl, rfl, rfl, rfl, rfl⟩⟩

theorem wf_log (d : Device) (ev : Event) : WaitFrame d (d.log ev) :=
  ⟨rfl, rfl, rfl, rfl, fun _ => ⟨rfl, rfl, rfl, rfl, rfl, rfl, rfl⟩⟩

theorem wf_out_ring (d : Device) (ws : List Nat) : WaitFrame d (d.out_ring ws) :=
  ⟨rfl, rfl, rfl, rfl, fun _ => ⟨rfl, rfl, rfl, rfl, rfl, rfl, rfl⟩⟩

theorem wf_reference (o : Nat) (d : Device) : WaitFrame d (drm_gem_object_reference o d) :=
  wf_update_obj d o _ (fun _ => ⟨rfl, rfl, rfl, rfl, rfl, rfl, rfl⟩)

theorem wf_unreference (o : Nat) (d : Device) :
    WaitFrame d (drm_gem_object_unreference o d) :=
  wf_update_obj d o _ (fun _ => ⟨rfl, rfl, rfl, rfl, rfl, rfl, rfl⟩)

theorem wf_move_to_active (o : Nat) (d : Device) :
    WaitFrame d (i915_gem_object_move_to_active o d) := by
  unfold i915_gem_object_move_to_active
  have h1 : WaitFrame d
      (if (d.objs o).active then d
       else (drm_gem_object_reference o d).update_obj o (fun x => { x with active := true })) :=
    wf_ite (wait_frame_refl d) (wait_frame_trans (wf_reference o d)
      (wf_update_obj _ o _ (fun _ => ⟨rfl, rfl, rfl, rfl, rfl, rfl, rfl⟩)))
  exact wait_frame_trans h1 (wf_list_move_tail _ _ _)

theorem wf_move_to_inactive (o : Nat) (d : Device) :
    WaitFrame d (i915_gem_object_move_to_inactive o d) := by
  unfold i915_gem_object_move_to_inactive
  have h1 : WaitFrame d
      (if (d.objs o).pin_count ≠ 0 then list_del_init o d else list_move_tail o .inactive d) :=
    wf_ite (wf_list_del_init o d) (wf_list_move_tail o _ d)
  refine wait_frame_trans h1 (wf_ite ?_ (wait_frame_refl _))
  refine wait_frame_trans ?_ (wf_unreference o _)
  exact wf_update_obj _ o _ (fun _ => ⟨rfl, rfl, rfl, rfl, rfl, rfl, rfl⟩)

theorem wf_add_request (e : Env) (fl : Nat) (d : Device) :
    WaitFrame d (i915_add_request e fl d).2 := by
  cases hc : e.calloc_ok
  · rw [add_request_fail e fl d hc]
    exact wait_frame_refl d
  · unfold i915_add_request
    simp only [hc, Bool.true_eq_false, if_false]
    refine wf_ite (wait_frame_trans ?_ (wf_log _ _)) ?_ <;>
      exact ⟨rfl, rfl, rfl, rfl, fun _ => ⟨rfl, rfl, rfl, rfl, rfl, rfl, rfl⟩⟩

theorem wf_flush (e : Env) (inv fl : Nat) (d : Device) :
    WaitFrame d (i915_gem_flush e inv fl d) := by
  unfold i915_gem_flush
  have h1 : WaitFrame d
      (if fl &&& I915_GEM_DOMAIN_CPU ≠ 0 then d.log .chipset_flush else d) :=
    wf_ite (wf_log d _) (wait_frame_refl d)
  exact wf_ite (wait_frame_trans h1 (wf_out_ring _ _)) h1

theorem wf_retire_flushing (request : Request) (l : List Nat) :
    ∀ d : Device, WaitFrame d (retire_flushing request l d) := by
  induction l with
  | nil => intro d; exact wait_frame_refl d
  | cons o rest ih =>
    intro d
    simp only [retire_flushing]
    refine wait_frame_trans ?_ (ih _)
    split
    · refine wait_frame_trans (wf_update_obj d o _ ?_) (wf_move_to_inactive o _)
      intro x
      exact ⟨rfl, rfl, rfl, rfl, rfl, rfl, rfl⟩
    · exact wait_frame_refl d

theorem wf_retire_active (request : Request) (fuel : Nat) :
    ∀ d : Device, WaitFrame d (retire_active request fuel d) := by
  induction fuel with
  | zero => intro d; exact wait_frame_refl d
  | succ n ih =>
    intro d
    simp only [retire_active]
    split
    · exact wait_frame_refl d
    · split
      · exact wait_frame_refl d
      · split
        · exact wait_frame_trans (wf_list_move_tail _ _ d) (ih _)
        · exact wait_frame_trans (wf_move_to_inactive _ d) (ih _)

theorem wf_retire_request (request : Request) (d : Device) :
    WaitFrame d (i915_gem_retire_request request d) := by
  unfold i915_gem_retire_request
  have h1 : WaitFrame d
      (if request.flush_domains ≠ 0 then retire_flushing request d.flushing_list d else d) := by
    split
    · exact wf_retire_flushing _ _ d
    · exact wait_frame_refl d
  exact wait_frame_trans h1 (wf_retire_active _ _ _)

theorem wf_retire_requests_loop (seqno : Nat) (fuel : Nat) :
    ∀ d : Device, WaitFrame d (retire_requests_loop seqno fuel d) := by
  induction fuel with
  | zero => intro d; exact wait_frame_refl d
  | succ n ih =>
    intro d
    simp only [retire_requests_loop]
    split
    · exact wait_frame_refl d
    · rename_i request _ _
      split
      · have h2 : WaitFrame (i915_gem_retire_request request d)
            { i915_gem_retire_request request d with
              request_list := (i915_gem_retire_request request d).request_list.tail } :=
          ⟨rfl, rfl, rfl, rfl, fun _ => ⟨rfl, rfl, rfl, rfl, rfl, rfl, rfl⟩⟩
        exact wait_frame_trans (wf_retire_request request d) (wait_frame_trans h2 (ih _))
      · exact wait_frame_refl d

theorem wf_retire_requests (d : Device) : WaitFrame d (i915_gem_retire_requests d) :=
  wf_retire_requests_loop _ _ d

theorem wf_wait_request_sleep (e : Env) (seqno : Nat) (d : Device) :
    WaitFrame d (wait_request_sleep e seqno d) :=
  ⟨rfl, rfl, rfl, rfl, fun _ => ⟨rfl, rfl, rfl, rfl, rfl, rfl, rfl⟩⟩

theorem wf_wait_request (e : Env) (seqno : Nat) (d d' : Device) (code : Int)
    (h : i915_wait_request e seqno d = .ret code d') : WaitFrame d d' := by
  unfold i915_wait_request at h
  split at h
  · cases h
  · split at h
    · split at h
      · cases h
        exact wait_frame_trans (wf_wait_request_sleep e seqno d) (wf_retire_requests _)
      · cases h
        exact wf_wait_request_sleep e seqno d
    · cases h
      exact wf_retire_requests d

theorem wf_wait_rendering_flush (e : Env) (o : Nat) (d : Device) :
    WaitFrame d (wait_rendering_flush e o d) := by
  unfold wait_rendering_flush
  have h1 := wf_flush e 0 (d.objs o).write_domain d
  have h2 : WaitFrame (i915_gem_flush e 0 (d.objs o).write_domain d)
      ((i915_gem_flush e 0 (d.objs o).write_domain d).update_obj o
        (fun x => { x with write_domain := 0 })) :=
    wf_update_obj _ o _ (fun _ => ⟨rfl, rfl, rfl, rfl, rfl, rfl, rfl⟩)
  have h3 := wf_move_to_active o ((i915_gem_flush e 0 (d.objs o).write_domain d).update_obj o
        (fun x => { x with write_domain := 0 }))
  have h4 := wf_add_request e (d.objs o).write_domain (i915_gem_object_move_to_active o
    ((i915_gem_flush e 0 (d.objs o).write_domain d).update_obj o
        (fun x => { x with write_domain := 0 })))
  refine wait_frame_trans (wait_frame_trans (wait_frame_trans (wait_frame_trans h1 h2) h3) h4) ?_
  exact wf_update_obj _ o _ (fun _ => ⟨rfl, rfl, rfl, rfl, rfl, rfl, rfl⟩)

theorem wf_wait_rendering_wait (e : Env) (o : Nat) (d d' : Device) (code : Int)
    (h : wait_rendering_wait e o d = .ret code d') : WaitFrame d d' := by
  unfold wait_rendering_wait at h
  split at h
  · split at h
    · cases h
    · rename_i c1 d1 h1
      have h2 := wf_wait_request e _ d d1 c1 h1
      split at h
      · cases h
        exact h2
      · cases h
        exact h2
  · cases h
    exact wait_frame_refl d

theorem wf_wait_rendering (e : Env) (o : Nat) (d d' : Device) (code : Int)
    (h : i915_gem_object_wait_rendering e o d = .ret code d') : WaitFrame d d' := by
  unfold i915_gem_object_wait_rendering at h
  simp only [] at h
  split at h
  · split at h
    · cases h
    · exact wait_frame_trans (wait_frame_trans (wf_log d _)
        (wf_wait_rendering_flush e o _)) (wf_wait_rendering_wait e o _ d' code h)
  · exact wait_frame_trans (wf_log d _) (wf_wait_rendering_wait e o _ d' code h)

theorem wf_tock (d : Device) : WaitFrame d d.tock :=
  ⟨rfl, rfl, rfl, rfl, fun _ => ⟨rfl, rfl, rfl, rfl, rfl, rfl, rfl⟩⟩

theorem wf_clflush (o : Nat) (d : Device) : WaitFrame d (i915_gem_clflush_object o d) := by
  unfold i915_gem_clflush_object
  exact wf_ite (wait_frame_refl d) (wf_log d _)

theorem wf_commit (o reads w inv fl : Nat) (d d' : Device) (code : Int)
    (h : set_domain_commit o reads w inv fl d = .ret code d') : WaitFrame d d' := by
  unfold set_domain_commit at h
  cases h
  have h1 : WaitFrame d (if w ||| fl ≠ 0 then
      d.update_obj o (fun x => { x with write_domain := w }) else d) :=
    wf_ite (wf_update_obj d o _ (fun _ => ⟨rfl, rfl, rfl, rfl, rfl, rfl, rfl⟩))
      (wait_frame_refl d)
  have h2 := wait_frame_trans h1 (wf_update_obj _ o (fun x => { x with read_domains := reads })
    (fun _ => ⟨rfl, rfl, rfl, rfl, rfl, rfl, rfl⟩))
  exact wait_frame_trans h2 ⟨rfl, rfl, rfl, rfl, fun _ => ⟨rfl, rfl, rfl, rfl, rfl, rfl, rfl⟩⟩

theorem wf_set_domain (e : Env) (o r w : Nat) (d d' : Device) (code : Int)
    (h : i915_gem_object_set_domain e o r w d = .ret code d') : WaitFrame d d' :=
  set_domain_rel WaitFrame e o r w d d' code wait_frame_refl (fun _ _ _ => wait_frame_trans)
    (wf_update_obj d o _ (fun _ => ⟨rfl, rfl, rfl, rfl, rfl, rfl, rfl⟩)) (wf_clflush o)
    (fun a c b hw => wf_wait_rendering e o a b c hw)
    (fun a c b hc => wf_commit _ _ _ _ _ a b c hc) h

theorem wf_unpin (o : Nat) (d d' : Device) (code : Int)
    (h : i915_gem_object_unpin o d = .ret code d') : WaitFrame d d' := by
  have h1 : WaitFrame d (d.update_obj o (fun x => { x with pin_count := x.pin_count - 1 })) :=
    wf_update_obj d o _ (fun _ => ⟨rfl, rfl, rfl, rfl, rfl, rfl, rfl⟩)
  unfold i915_gem_object_unpin at h
  generalize (d.update_obj o (fun x => { x with pin_count := x.pin_count - 1 })) = d1 at h h1
  simp only [] at h
  by_cases hn : (d1.objs o).pin_count < 0
  · rw [if_pos hn] at h
    cases h
  · rw [if_neg hn] at h
    by_cases hg : (d1.objs o).gtt_space = none
    · rw [if_pos hg] at h
      cases h
    · rw [if_neg hg] at h
      by_cases hz : (d1.objs o).pin_count = 0
      · rw [if_pos hz] at h
        cases h
        have h2 : WaitFrame d1 (if (d1.objs o).active = false ∧
            (d1.objs o).write_domain &&& not32 I915_GEM_DOMAIN_CPU = 0
            then list_move_tail o .inactive d1 else d1) :=
          wf_ite (wf_list_move_tail o .inactive d1) (wait_frame_refl d1)
        exact wait_frame_trans h1 (wait_frame_trans h2
          ⟨rfl, rfl, rfl, rfl, fun _ => ⟨rfl, rfl, rfl, rfl, rfl, rfl, rfl⟩⟩)
      · rw [if_neg hz] at h
        cases h
        exact h1

theorem wf_reloc_fail (o : Nat) (code : Int) (d d' : Device) (c : Int)
    (h : reloc_fail o code d = .ret c d') : WaitFrame d d' := by
  unfold reloc_fail at h
  cases hu : i915_gem_object_unpin o d with
  | bug =>
    rw [hu] at h
    cases h
  | ret c1 d1 =>
    rw [hu] at h
    cases h
    exact wf_unpin o d d' c1 hu

/-! ## Write-domain requests of relocations -/

theorem settles_of_frame (file : Nat) (relocs : List Reloc) {d d' : Device}
    (h : WaitFrame d d') : PendingWriteSettles file relocs d d' :=
  fun x => Or.inl (h.objs x).pending_write_domain

theorem settles_frame_left (file : Nat) (relocs : List Reloc) {a b c : Device}
    (h1 : WaitFrame a b) (h2 : PendingWriteSettles file relocs b c) :
    PendingWriteSettles file relocs a c := by
  intro x
  have hp := (h1.objs x).pending_write_domain
  rcases h2 x with h | ⟨h0, r, hr, hh, hw⟩
  · exact Or.inl (h.trans hp)
  · exact Or.inr ⟨hp ▸ h0, r, hr, by rw [← h1.handles]; exact hh, hw⟩

/-- One accepted relocation followed by what the rest of the list does. -/
theorem settles_step (file : Nat) (reloc : Reloc) (rest : List Reloc) (d d2 d' : Device)
    (hhead : ∀ x : Nat,
      (d2.objs x).pending_write_domain = (d.objs x).pending_write_domain ∨
      ((d.objs x).pending_write_domain = 0 ∧ d.handles file reloc.target_handle = some x ∧
        (d2.objs x).pending_write_domain = reloc.write_domain))
    (hh : d2.handles = d.handles) (hrest : PendingWriteSettles file rest d2 d') :
    PendingWriteSettles file (reloc :: rest) d d' := by
  intro x
  rcases hrest x with h | ⟨h0, r, hr, hrh, hw⟩
  · rcases hhead x with g | ⟨g0, gh, gw⟩
    · exact Or.inl (h.trans g)
    · exact Or.inr ⟨g0, reloc, List.mem_cons_self _ _, gh, h.trans gw⟩
  · have hz : (d.objs x).pending_write_domain = 0 := by
      rcases hhead x with g | ⟨g0, _, _⟩
      · rw [← g]
        exact h0
      · exact g0
    exact Or.inr ⟨hz, r, List.mem_cons_of_mem _ hr, by rw [← hh]; exact hrh, hw⟩

theorem wf_lookup (file handle t : Nat) (d d1 : Device)
    (h : drm_gem_object_lookup file handle d = some (t, d1)) :
    d.handles file handle = some t ∧ WaitFrame d d1 := by
  rcases lookup_spec file handle d with ⟨-, h2⟩ | ⟨o2, h1, h2⟩
  · rw [h2] at h
    cases h
  · rw [h2] at h
    cases h
    exact ⟨h1, wf_reference _ d⟩

/-- Along the relocation loop a pending write domain other than 0 keeps its
value, and one that is 0 stays 0 or takes the write domain of a relocation of
the list that names the object. -/
theorem settles_relocate (es : Nat → Env) (file o : Nat) :
    ∀ (relocs : List Reloc) (index : Nat) (mapped : Bool) (last : Nat) (d : Device),
      (relocate es file o index mapped last relocs d).Holds
        (fun _ d' => PendingWriteSettles file relocs d d') := by
  intro relocs
  induction relocs with
  | nil =>
    intro index mapped last d
    simp only [relocate]
    exact settles_of_frame file [] (wait_frame_refl d)
  | cons reloc rest ih =>
    intro index mapped last d
    simp only [relocate]
    have fail0 : ∀ (code : Int) (dk : Device), WaitFrame d dk →
        (reloc_fail o code dk).Holds
          (fun _ d' => PendingWriteSettles file (reloc :: rest) d d') :=
      fun code dk hk => holds_intro (fun c d' h =>
        settles_of_frame file _ (wait_frame_trans hk (wf_reloc_fail o code dk d' c h)))
    by_cases h1 : (es d.tick).copy_from_user_ret ≠ 0
    · rw [if_pos h1]
      exact fail0 _ _ (wf_tock d)
    · rw [if_neg h1]
      cases hl : drm_gem_object_lookup file reloc.target_handle d.tock with
      | none =>
        simp only []
        exact fail0 _ _ (wf_tock d)
      | some p =>
        obtain ⟨t, d1⟩ := p
        obtain ⟨hth, k0⟩ := wf_lookup _ _ _ _ _ hl
        have k1 : WaitFrame d d1 := wait_frame_trans (wf_tock d) k0
        simp only []
        by_cases h2 : (d1.objs t).gtt_space = none
        · rw [if_pos h2]
          exact fail0 _ _ (wait_frame_trans k1 (wf_unreference t d1))
        · rw [if_neg h2]
          by_cases h3 : reloc.offset > sub_size_t (d1.objs o).size 4
          · rw [if_pos h3]
            exact fail0 _ _ (wait_frame_trans k1 (wf_unreference t d1))
          · rw [if_neg h3]
            by_cases h4 : reloc.offset &&& 3 ≠ 0
            · rw [if_pos h4]
              exact fail0 _ _ (wait_frame_trans k1 (wf_unreference t d1))
            · rw [if_neg h4]
              by_cases h5 : reloc.write_domain ≠ 0 ∧ (d1.objs t).pending_write_domain ≠ 0 ∧
                  reloc.write_domain ≠ (d1.objs t).pending_write_domain
              · rw [if_pos h5]
                exact fail0 _ _ (wait_frame_trans k1 (wf_unreference t d1))
              · rw [if_neg h5]
                have hhead : ∀ x : Nat,
                    ((d1.update_obj t (fun x =>
                      { x with
                        pending_read_domains := x.pending_read_domains ||| reloc.read_domains
                        pending_write_domain :=
                          x.pending_write_domain ||| reloc.write_domain })).objs
                      x).pending_write_domain = (d.objs x).pending_write_domain ∨
                    ((d.objs x).pending_write_domain = 0 ∧
                      d.handles file reloc.target_handle = some x ∧
                      ((d1.update_obj t (fun x =>
                      { x with
                        pending_read_domains := x.pending_read_domains ||| reloc.read_domains
                        pending_write_domain :=
                          x.pending_write_domain ||| reloc.write_domain })).objs
                      x).pending_write_domain = reloc.write_domain) := by
                  intro x
                  have hp := (k1.objs x).pending_write_domain
                  by_cases hx : x = t
                  · subst hx
                    have e1 : ((d1.update_obj x (fun x =>
                        { x with
                          pending_read_domains := x.pending_read_domains ||| reloc.read_domains
                          pending_write_domain :=
                            x.pending_write_domain ||| reloc.write_domain })).objs
                        x).pending_write_domain =
                        (d1.objs x).pending_write_domain ||| reloc.write_domain := by
                      simp [Device.update_obj]
                    rw [e1]
                    by_cases hw : reloc.write_domain = 0
                    · left
                      rw [hw, Nat.or_zero]
                      exact hp
                    · by_cases hz : (d1.objs x).pending_write_domain = 0
                      · right
                        refine ⟨hp ▸ hz, hth, ?_⟩
                        rw [hz, Nat.zero_or]
                      · left
                        have he : reloc.write_domain = (d1.objs x).pending_write_domain := by
                          by_contra hne
                          exact h5 ⟨hw, hz, hne⟩
                        rw [he, Nat.or_self]
                        exact hp
                  · left
                    have e1 : ((d1.update_obj t (fun x =>
                        { x with
                          pending_read_domains := x.pending_read_domains ||| reloc.read_domains
                          pending_write_domain :=
                            x.pending_write_domain ||| reloc.write_domain })).objs
                        x).pending_write_domain = (d1.objs x).pending_write_domain := by
                      simp [Device.update_obj, hx]
                    rw [e1]
                    exact hp
                have hh2 : (d1.update_obj t (fun x =>
                    { x with
                      pending_read_domains := x.pending_read_domains ||| reloc.read_domains
                      pending_write_domain :=
                        x.pending_write_domain ||| reloc.write_domain })).handles =
                    d.handles := k1.handles
                generalize (d1.update_obj t (fun x =>
                    { x with
                      pending_read_domains := x.pending_read_domains ||| reloc.read_domains
                      pending_write_domain :=
                        x.pending_write_domain ||| reloc.write_domain })) = d2 at hhead hh2
                have fail2 : ∀ (code : Int) (dk : Device), WaitFrame d2 dk →
                    (reloc_fail o code dk).Holds
                      (fun _ d' => PendingWriteSettles file (reloc :: rest) d d') :=
                  fun code dk hk => holds_intro (fun c d' h =>
                    settles_step file reloc rest d d2 d' hhead hh2 (settles_of_frame file _
                      (wait_frame_trans hk (wf_reloc_fail o code dk d' c h))))
                have step : ∀ (i : Nat) (m : Bool) (l : Nat) (dk : Device), WaitFrame d2 dk →
                    (relocate es file o i m l rest dk).Holds
                      (fun _ d' => PendingWriteSettles file (reloc :: rest) d d') :=
                  fun i m l dk hk => holds_mono (ih i m l dk)
                    (fun _ d' h => settles_step file reloc rest d d2 d' hhead hh2
                      (settles_frame_left file rest hk h))
                by_cases h6 : (d2.objs t).gtt_offset = reloc.presumed_offset
                · rw [if_pos h6]
                  exact step _ _ _ _ (wf_unreference t d2)
                · rw [if_neg h6]
                  cases hwr : i915_gem_object_wait_rendering (es d.tick) o d2 with
                  | bug => trivial
                  | ret cw d3 =>
                    have hw := wf_wait_rendering (es d.tick) o d2 d3 cw hwr
                    simp only []
                    have k4 : WaitFrame d2
                        (if (d3.objs o).write_domain &&& I915_GEM_DOMAIN_CPU ≠ 0 then
                        ((i915_gem_clflush_object o d3).log .chipset_flush).update_obj o
                          (fun x => { x with write_domain := 0 })
                        else d3) :=
                      wait_frame_trans hw (wf_ite
                        (wait_frame_trans (wait_frame_trans (wf_clflush o d3) (wf_log _ _))
                          (wf_update_obj _ o _ (fun _ => ⟨rfl, rfl, rfl, rfl, rfl, rfl, rfl⟩)))
                        (wait_frame_refl d3))
                    generalize (if (d3.objs o).write_domain &&& I915_GEM_DOMAIN_CPU ≠ 0 then
                        ((i915_gem_clflush_object o d3).log .chipset_flush).update_obj o
                          (fun x => { x with write_domain := 0 })
                        else d3) = d4 at k4
                    have l1 : ∀ ev, WaitFrame d2 (drm_gem_object_unreference t (d4.log ev)) :=
                      fun ev => wait_frame_trans k4
                        (wait_frame_trans (wf_log _ _) (wf_unreference t _))
                    have l2 : ∀ ev1 ev2,
                        WaitFrame d2 (drm_gem_object_unreference t ((d4.log ev1).log ev2)) :=
                      fun ev1 ev2 => wait_frame_trans k4 (wait_frame_trans (wait_frame_trans
                        (wf_log _ _) (wf_log _ _)) (wf_unreference t _))
                    have l3 : ∀ ev1 ev2 ev3, WaitFrame d2
                        (drm_gem_object_unreference t (((d4.log ev1).log ev2).log ev3)) :=
                      fun ev1 ev2 ev3 => wait_frame_trans k4 (wait_frame_trans
                        (wait_frame_trans (wait_frame_trans (wf_log _ _) (wf_log _ _))
                          (wf_log _ _)) (wf_unreference t _))
                    split_ifs <;> first
                      | exact fail2 _ _ (l1 _)
                      | exact fail2 _ _ (l2 _ _)
                      | exact step _ _ _ _ (l2 _ _)
                      | exact step _ _ _ _ (l3 _ _ _)

/-- C23, as stated, fails: the pending domains are reset at the turn of an
object in the exec list, not when the transaction starts. The submission
`sample_exec` leaves object 0 (handle 1) with `pending_write_domain = RENDER`;
the next submission, `stale_exec`, does not list handle 1, its only relocation
points at handle 1 and requests no write domain, it is accepted and the
submission returns 0, and the pending write domain of the target is RENDER
throughout: not 0, and not a write domain requested in this transaction. -/
theorem execbuffer_keeps_stale_pending_write_domain :
    ∃ d1 d2 : Device,
      i915_gem_execbuffer sample_es 5 0 sample_exec aperture_dev = some (.ret 0 d1) ∧
      i915_gem_execbuffer sample_es 5 0 stale_exec d1 = some (.ret 0 d2) ∧
      (∀ b ∈ stale_exec.buffers, ∀ r ∈ b.relocs, r.write_domain = 0) ∧
      d1.handles 0 1 = some 0 ∧
      (d2.objs 0).pending_write_domain = I915_GEM_DOMAIN_RENDER :=
  ⟨_, _, rfl, rfl, by decide, rfl, rfl⟩

/-- C23, amended: (1) when a relocation is read, its target handle resolves to
`t`, it requests a write domain other than 0, and `pending_write_domain` of `t`
is neither 0 nor that domain, the relocation loop of a bound, pinned object
returns -EINVAL and every object has the pending domains it had. (2) Whenever
the relocation loop of a buffer returns, with any code, the pending write
domain of every object is what it was when the loop started, or it was 0 then
and is now the write domain of a relocation of the list whose target handle
names the object; the value at the start is whatever the last turn of the
object in an exec list or earlier relocations left. -/
theorem relocate_write_domain_conflict (es : Nat → Env) (file o index : Nat) (mapped : Bool)
    (last : Nat) (relocs : List Reloc) (d : Device) :
    (∀ (reloc : Reloc) (rest : List Reloc) (t : Nat), relocs = reloc :: rest →
      (es d.tick).copy_from_user_ret = 0 → d.handles file reloc.target_handle = some t →
      reloc.write_domain ≠ 0 → (d.objs t).pending_write_domain ≠ 0 →
      reloc.write_domain ≠ (d.objs t).pending_write_domain →
      0 < (d.objs o).pin_count → (d.objs o).gtt_space ≠ none →
      ∃ d', relocate es file o index mapped last relocs d = .ret (-EINVAL) d' ∧
        ∀ x : Nat,
          (d'.objs x).pending_read_domains = (d.objs x).pending_read_domains ∧
          (d'.objs x).pending_write_domain = (d.objs x).pending_write_domain) ∧
    (∀ (code : Int) (d' : Device),
      relocate es file o index mapped last relocs d = .ret code d' →
      PendingWriteSettles file relocs d d') := by
  refine ⟨?_, fun code d' h => holds_of_eq (settles_relocate es file o relocs index mapped last d) h⟩
  intro reloc rest t hrel hc ht hw hp hne hpin hg
  subst hrel
  have hl : drm_gem_object_lookup file reloc.target_handle d.tock =
      some (t, drm_gem_object_reference t d.tock) := by
    unfold drm_gem_object_lookup
    show (match d.handles file reloc.target_handle with
      | none => none
      | some o => some (o, drm_gem_object_reference o d.tock)) = _
    rw [ht]
  have hu : (drm_gem_object_unreference t (drm_gem_object_reference t d.tock)).objs =
      d.objs := ref_unref_objs t d.tock
  have hpw : ((drm_gem_object_reference t d.tock).objs t).pending_write_domain =
      (d.objs t).pending_write_domain := by
    simp [drm_gem_object_reference, Device.update_obj, Device.tock]
  have fin : ∀ dk : Device, dk.objs = d.objs → dk.trace = d.trace → dk.ring = d.ring →
      ∃ d', reloc_fail o (-EINVAL) dk = .ret (-EINVAL) d' ∧
        ∀ x : Nat,
          (d'.objs x).pending_read_domains = (d.objs x).pending_read_domains ∧
          (d'.objs x).pending_write_domain = (d.objs x).pending_write_domain := by
    intro dk h1 h2 h3
    obtain ⟨d', e1, -, -, e4, e5⟩ := reloc_fail_ok o (-EINVAL) d dk h1 h2 h3 hpin hg
    refine ⟨d', e1, fun x => ?_⟩
    by_cases hx : x = o
    · subst hx
      rw [e5]
      exact ⟨rfl, rfl⟩
    · rw [e4 x hx]
      exact ⟨rfl, rfl⟩
  simp only [relocate]
  rw [if_neg (by rw [hc]; decide), hl]
  simp only []
  by_cases h2 : ((drm_gem_object_reference t d.tock).objs t).gtt_space = none
  · rw [if_pos h2]
    exact fin _ hu rfl rfl
  · rw [if_neg h2]
    by_cases h3 : reloc.offset > sub_size_t ((drm_gem_object_reference t d.tock).objs o).size 4
    · rw [if_pos h3]
      exact fin _ hu rfl rfl
    · rw [if_neg h3]
      by_cases h4 : reloc.offset &&& 3 ≠ 0
      · rw [if_pos h4]
        exact fin _ hu rfl rfl
      · rw [if_neg h4, if_pos ⟨hw, by rw [hpw]; exact hp, by rw [hpw]; exact hne⟩]
        exact fin _ hu rfl rfl

/-- Witness for C23 (amended): on `conflict_dev` handle 1 names object 0, whose
pending write domain is RENDER; a relocation of the pinned object 1 that asks
for SAMPLER on handle 1 is rejected, and the pending domains stay. -/
theorem relocate_write_domain_conflict_witness :
    ∃ d', relocate sample_es 0 1 0 false 0xFFFFFFFF [conflict_reloc] conflict_dev =
        .ret (-EINVAL) d' ∧
      (∀ x : Nat,
        (d'.objs x).pending_read_domains = (conflict_dev.objs x).pending_read_domains ∧
        (d'.objs x).pending_write_domain = (conflict_dev.objs x).pending_write_domain) ∧
      PendingWriteSettles 0 [conflict_reloc] conflict_dev d' := by
  have h := relocate_write_domain_conflict sample_es 0 1 0 false 0xFFFFFFFF [conflict_reloc]
    conflict_dev
  obtain ⟨d', h1, h2⟩ := h.1 conflict_reloc [] 0 rfl rfl rfl (by decide) (by decide)
    (by decide) (by decide) (by decide)
  exact ⟨d', h1, h2, h.2 _ _ h1⟩

/-! ## The domains of the batch buffer -/

/-- The commit loop of a submission leaves the pending domains and the bindings
alone. -/
theorem wf_exec_set_domains (es : Nat → Env) :
    ∀ (objects : List Nat) (d d' : Device) (code : Int),
      exec_set_domains es objects d = .ret code d' → WaitFrame d d' := by
  intro objects
  induction objects with
  | nil =>
    intro d d' code h
    simp only [exec_set_domains] at h
    cases h
    exact wait_frame_refl d
  | cons o rest ih =>
    intro d d' code h
    simp only [exec_set_domains] at h
    by_cases hg : (d.objs o).gtt_space = none
    · rw [if_pos hg] at h
      cases h
      exact wait_frame_refl d
    · rw [if_neg hg] at h
      cases hsd : i915_gem_object_set_domain (es d.tick) o (d.objs o).pending_read_domains
          (d.objs o).pending_write_domain d.tock with
      | bug =>
        rw [hsd] at h
        cases h
      | ret c d1 =>
        rw [hsd] at h
        simp only [] at h
        have k1 : WaitFrame d d1 :=
          wait_frame_trans (wf_tock d) (wf_set_domain _ _ _ _ _ _ _ hsd)
        by_cases hc : c ≠ 0
        · rw [if_pos hc] at h
          cases h
          exact k1
        · rw [if_neg hc] at h
          exact wait_frame_trans k1 (ih d1 d' code h)

/-- What `i915_gem_object_get_page_list` leaves alone. -/
theorem get_page_list_keeps (e : Env) (o : Nat) (d : Device) :
    (i915_gem_object_get_page_list e o d).2.gtt_free = d.gtt_free ∧
    (i915_gem_object_get_page_list e o d).2.gtt_count = d.gtt_count ∧
    (i915_gem_object_get_page_list e o d).2.gtt_memory = d.gtt_memory ∧
    ((i915_gem_object_get_page_list e o d).2.objs o).gtt_space = (d.objs o).gtt_space ∧
    ((i915_gem_object_get_page_list e o d).2.objs o).size = (d.objs o).size := by
  unfold i915_gem_object_get_page_list i915_gem_object_free_page_list
  split_ifs <;> simp [Device.update_obj]

/-- A successful `bind_pages` has counted the object once and has left the
allocator and the block of the object alone. -/
theorem bind_pages_ok (es : Nat → Env) (o : Nat) (d d' : Device)
    (h : bind_pages es o d = .ret 0 d') :
    d'.gtt_free = d.gtt_free ∧ d'.gtt_count = d.gtt_count + 1 ∧
    d'.gtt_memory = d.gtt_memory + ((d.objs o).size : Int) ∧
    (d'.objs o).gtt_space = (d.objs o).gtt_space ∧ (d'.objs o).size = (d.objs o).size := by
  unfold bind_pages at h
  have hk := get_page_list_keeps (es d.tick) o d.tock
  generalize i915_gem_object_get_page_list (es d.tick) o d.tock = r at h hk
  simp only [] at h
  by_cases h1 : r.1 ≠ 0
  · rw [if_pos h1] at h
    injection h with hc _
    exact absurd hc h1
  · rw [if_neg h1] at h
    by_cases h2 : (es r.2.tick).agp_bind_ok = false
    · rw [if_pos h2] at h
      injection h with hc _
      exact absurd hc (by decide)
    · rw [if_neg h2] at h
      split_ifs at h
      cases h
      obtain ⟨k1, k2, k3, k4, k5⟩ := hk
      refine ⟨k1, ?_, ?_, ?_, ?_⟩
      · show r.2.gtt_count + 1 = d.gtt_count + 1
        rw [k2]
        rfl
      · show r.2.gtt_memory + (((r.2.tock.update_obj o
          (fun x => { x with agp_mem := true })).objs o).size : Int) = _
        have : ((r.2.tock.update_obj o (fun x => { x with agp_mem := true })).objs o).size =
            (d.objs o).size := by
          simp [Device.update_obj, Device.tock]
          exact k5
        rw [this, k3]
        rfl
      · show ((r.2.tock.update_obj o (fun x => { x with agp_mem := true })).objs o).gtt_space = _
        simp [Device.update_obj, Device.tock]
        exact k4
      · show ((r.2.tock.update_obj o (fun x => { x with agp_mem := true })).objs o).size = _
        simp [Device.update_obj, Device.tock]
        exact k5

theorem not_mem_filter_bne (o : Nat) (l : List Nat) : o ∉ l.filter (fun x => x != o) := by
  simp [List.mem_filter]

theorem count_filter_bne_append (o : Nat) (l : List Nat) :
    (l.filter (fun x => x != o) ++ [o]).count o = 1 := by
  rw [List.count_append, List.count_eq_zero_of_not_mem (not_mem_filter_bne o l)]
  simp

/-- The lists after `i915_gem_object_move_to_active`. -/
theorem move_to_active_lists (o : Nat) (d : Device) :
    (i915_gem_object_move_to_active o d).active_list =
      d.active_list.filter (fun x => x != o) ++ [o] ∧
    (i915_gem_object_move_to_active o d).flushing_list =
      d.flushing_list.filter (fun x => x != o) ∧
    (i915_gem_object_move_to_active o d).inactive_list =
      d.inactive_list.filter (fun x => x != o) := by
  unfold i915_gem_object_move_to_active
  simp only []
  split <;> exact ⟨rfl, rfl, rfl⟩

/-- The object after `i915_gem_object_move_to_active`. -/
theorem move_to_active_obj (o : Nat) (d : Device) :
    (i915_gem_object_move_to_active o d).objs o =
      { d.objs o with
        active := true
        refcount := if (d.objs o).active then (d.objs o).refcount
          else (d.objs o).refcount + 1 } := by
  unfold i915_gem_object_move_to_active
  simp only []
  by_cases ha : (d.objs o).active = true
  · rw [if_pos ha, if_pos ha]
    show d.objs o = _
    cases hobj : d.objs o
    rw [hobj] at ha
    simp only [] at ha
    simp [ha]
  · rw [if_neg ha, if_neg ha]
    show ((drm_gem_object_reference o d).update_obj o
      (fun x => { x with active := true })).objs o = _
    simp [Device.update_obj, drm_gem_object_reference]

/-- The lists after `i915_gem_object_move_to_inactive`. -/
theorem move_to_inactive_lists (o : Nat) (d : Device) :
    (i915_gem_object_move_to_inactive o d).active_list =
      d.active_list.filter (fun x => x != o) ∧
    (i915_gem_object_move_to_inactive o d).flushing_list =
      d.flushing_list.filter (fun x => x != o) ∧
    (i915_gem_object_move_to_inactive o d).inactive_list =
      (if (d.objs o).pin_count ≠ 0 then d.inactive_list.filter (fun x => x != o)
       else d.inactive_list.filter (fun x => x != o) ++ [o]) := by
  have hl : ∀ d1 : Device,
      ((if (d1.objs o).active = true then
        drm_gem_object_unreference o (d1.update_obj o (fun x => { x with active := false }))
        else d1).active_list = d1.active_list) ∧
      ((if (d1.objs o).active = true then
        drm_gem_object_unreference o (d1.update_obj o (fun x => { x with active := false }))
        else d1).flushing_list = d1.flushing_list) ∧
      ((if (d1.objs o).active = true then
        drm_gem_object_unreference o (d1.update_obj o (fun x => { x with active := false }))
        else d1).inactive_list = d1.inactive_list) := by
    intro d1
    split <;> exact ⟨rfl, rfl, rfl⟩
  unfold i915_gem_object_move_to_inactive
  simp only []
  by_cases hp : (d.objs o).pin_count ≠ 0
  · rw [if_pos hp, if_pos hp]
    obtain ⟨a, b, c⟩ := hl (list_del_init o d)
    exact ⟨a, b, c⟩
  · rw [if_neg hp, if_neg hp]
    obtain ⟨a, b, c⟩ := hl (list_move_tail o .inactive d)
    exact ⟨a, b, c⟩

/-- The objects after `i915_gem_object_move_to_inactive`. -/
theorem move_to_inactive_objs (o : Nat) (d : Device) :
    (i915_gem_object_move_to_inactive o d).objs o =
      { d.objs o with
        active := false
        refcount := if (d.objs o).active then (d.objs o).refcount - 1
          else (d.objs o).refcount } ∧
    ∀ x, x ≠ o → (i915_gem_object_move_to_inactive o d).objs x = d.objs x := by
  have hobj : ∀ d1 : Device, d1.objs = d.objs →
      (if (d1.objs o).active = true then
        drm_gem_object_unreference o (d1.update_obj o (fun x => { x with active := false }))
        else d1).objs o =
        { d.objs o with
          active := false
          refcount := if (d.objs o).active then (d.objs o).refcount - 1
            else (d.objs o).refcount } ∧
      ∀ x, x ≠ o → (if (d1.objs o).active = true then
        drm_gem_object_unreference o (d1.update_obj o (fun x => { x with active := false }))
        else d1).objs x = d.objs x := by
    intro d1 h1
    rw [h1]
    by_cases ha : (d.objs o).active = true
    · rw [if_pos ha, if_pos ha]
      refine ⟨?_, fun x hx => ?_⟩
      · simp [Device.update_obj, drm_gem_object_unreference, h1]
      · simp [Device.update_obj, drm_gem_object_unreference, h1, hx]
    · rw [if_neg ha, if_neg ha]
      refine ⟨?_, fun x _ => by rw [h1]⟩
      rw [h1]
      cases hobj : d.objs o
      rw [hobj] at ha
      simp only [] at ha
      simp at ha
      simp [ha]
  unfold i915_gem_object_move_to_inactive
  simp only []
  by_cases hp : (d.objs o).pin_count ≠ 0
  · rw [if_pos hp]
    exact hobj (list_del_init o d) rfl
  · rw [if_neg hp]
    exact hobj (list_move_tail o .inactive d) rfl

/-- C34: after `i915_gem_object_move_to_active(obj)` the active list is the old
active list without `obj`, followed by `obj`: the object is its last element
and occurs once; the flushing and the inactive list are the old ones without
`obj`, so that the object is on neither and the other entries keep their
order; the active flag of the object is set; its reference count is one more
than before when it was not active and as before when it was; nothing else of
the object and no other object has changed. -/
theorem move_to_active_moves_to_tail (o : Nat) (d : Device) :
    (i915_gem_object_move_to_active o d).active_list =
      d.active_list.filter (fun x => x != o) ++ [o] ∧
    (i915_gem_object_move_to_active o d).flushing_list =
      d.flushing_list.filter (fun x => x != o) ∧
    (i915_gem_object_move_to_active o d).inactive_list =
      d.inactive_list.filter (fun x => x != o) ∧
    (i915_gem_object_move_to_active o d).active_list.getLast? = some o ∧
    (i915_gem_object_move_to_active o d).active_list.count o = 1 ∧
    o ∉ (i915_gem_object_move_to_active o d).flushing_list ∧
    o ∉ (i915_gem_object_move_to_active o d).inactive_list ∧
    (i915_gem_object_move_to_active o d).objs o =
      { d.objs o with
        active := true
        refcount := if (d.objs o).active then (d.objs o).refcount
          else (d.objs o).refcount + 1 } ∧
    ∀ x, x ≠ o → (i915_gem_object_move_to_active o d).objs x = d.objs x := by
  obtain ⟨h1, h2, h3⟩ := move_to_active_lists o d
  refine ⟨h1, h2, h3, ?_, ?_, ?_, ?_, move_to_active_obj o d, (move_to_active_spec o d).2.2.2.2⟩
  · rw [h1]
    exact List.getLast?_concat _
  · rw [h1]
    exact count_filter_bne_append o _
  · rw [h2]
    exact not_mem_filter_bne o _
  · rw [h3]
    exact not_mem_filter_bne o _

/-- C40 fails in the code: `i915_gem_execbuffer` does not look at
`buffer_count` before it takes `object_list[args->buffer_count - 1]` as the
batch object. With an empty exec list, when the two allocations and the copy
succeed and the device is not suspended, the first loop makes no turn and the
batch object is read from position `buffer_count - 1` of the empty object
list, an access outside the array (the outcome `bug`); no error is returned. -/
theorem execbuffer_without_buffers_is_fatal (es : Nat → Env) (fuel file : Nat)
    (args : ExecBuffer) (d : Device) (hb : args.buffers = [])
    (h1 : (es d.tick).calloc_ok = true) (h2 : (es d.tick).copy_from_user_ret = 0)
    (h3 : d.suspended = false) :
    i915_gem_execbuffer es fuel file args d = some .bug := by
  unfold i915_gem_execbuffer
  simp only []
  rw [if_neg (by rw [h1]; decide), if_neg (by rw [h2]; decide), if_neg (by rw [h3]; decide), hb]
  simp only [exec_pin_loop]
  rfl

/-- Witness for C40: the submission `empty_batch_exec`, which has no buffers, on
`aperture_dev`. -/
theorem execbuffer_without_buffers_is_fatal_witness :
    empty_batch_exec.buffers.length = 0 ∧
    i915_gem_execbuffer sample_es 5 0 empty_batch_exec aperture_dev = some .bug :=
  ⟨rfl, execbuffer_without_buffers_is_fatal sample_es 5 0 empty_batch_exec aperture_dev rfl
    rfl rfl rfl⟩

/-! ## The flushing list when a request is retired -/

theorem cf_list_del_init (o : Nat) (d : Device) : ClientFrame d (list_del_init o d) :=
  ⟨rfl, rfl, rfl⟩

theorem cf_move_to_active (o : Nat) (d : Device) :
    ClientFrame d (i915_gem_object_move_to_active o d) := by
  unfold i915_gem_object_move_to_active
  simp only []
  split <;> exact ⟨rfl, rfl, rfl⟩

theorem cf_move_to_inactive (o : Nat) (d : Device) :
    ClientFrame d (i915_gem_object_move_to_inactive o d) := by
  unfold i915_gem_object_move_to_inactive
  simp only []
  split_ifs <;> exact ⟨rfl, rfl, rfl⟩

theorem fails_iff (x : GemObject) :
    verify_inactive_fails x = true ↔
      x.pin_count ≠ 0 ∨ x.active = true ∨
        x.write_domain &&& not32 I915_GEM_DOMAIN_CPU ≠ 0 := by
  simp [verify_inactive_fails, or_assoc]

theorem fails_of_write_cleared (x : GemObject) :
    verify_inactive_fails { x with write_domain := 0 } = true →
      verify_inactive_fails x = true := by
  intro h
  rw [fails_iff] at h ⊢
  rcases h with h | h | h
  · exact Or.inl h
  · exact Or.inr (Or.inl h)
  · exact absurd (Nat.zero_and _) h

theorem verify_inactive_nil (d : Device) :
    i915_verify_inactive d = [] ↔
      ∀ x ∈ d.inactive_list, verify_inactive_fails (d.objs x) = false := by
  unfold i915_verify_inactive
  rw [List.filter_eq_nil_iff]
  constructor
  · intro h x hx
    cases hf : verify_inactive_fails (d.objs x)
    · rfl
    · exact absurd hf (h x hx)
  · intro h x hx hf
    rw [h x hx] at hf
    cases hf

theorem up_refl {c : Prop} (d : Device) : Upkeep c d d :=
  ⟨rfl, fun _ _ h1 h2 => ⟨h1, h2⟩, fun _ _ h1 h2 => ⟨h1, h2⟩⟩

theorem up_trans {c : Prop} {a b d : Device} (h1 : Upkeep c a b) (h2 : Upkeep c b d) :
    Upkeep c a d := by
  refine ⟨h2.throttle.trans h1.throttle, fun hc x hx hf => ?_, fun hc x hp hg => ?_⟩
  · obtain ⟨p, q⟩ := h2.inactive hc x hx hf
    exact h1.inactive hc x p q
  · obtain ⟨p, q⟩ := h2.bound hc x hp hg
    exact h1.bound hc x p q

theorem up_ite {c p : Prop} [Decidable p] {d a b : Device} (ha : Upkeep c d a)
    (hb : Upkeep c d b) : Upkeep c d (if p then a else b) := by
  split
  · exact ha
  · exact hb

theorem up_weaken {c c' : Prop} {d d' : Device} (h : Upkeep c d d') (hc : c' → c) :
    Upkeep c' d d' :=
  ⟨h.throttle, fun h' => h.inactive (hc h'), fun h' => h.bound (hc h')⟩

/-- The invariants that `Upkeep` hands on. -/
theorem up_verify_inactive {c : Prop} {d d' : Device} (h : Upkeep c d d') (hc : c)
    (hi : i915_verify_inactive d = []) : i915_verify_inactive d' = [] := by
  rw [verify_inactive_nil] at hi ⊢
  intro x hx
  cases hf : verify_inactive_fails (d'.objs x)
  · rfl
  · obtain ⟨p, q⟩ := h.inactive hc x hx hf
    rw [hi x p] at q
    cases q

theorem up_pinned_bound {c : Prop} {d d' : Device} (h : Upkeep c d d') (hc : c)
    (hi : PinnedBound d) : PinnedBound d' := by
  intro x hp hg
  obtain ⟨p, q⟩ := h.bound hc x hp hg
  exact hi x p q

theorem up_of_objs {c : Prop} {d d' : Device}
    (ht : d'.last_gem_throttle_seqno = d.last_gem_throttle_seqno)
    (hl : ∀ x : Nat, x ∈ d'.inactive_list → x ∈ d.inactive_list)
    (ho : ∀ x : Nat, (d'.objs x).pin_count = (d.objs x).pin_count ∧
      (verify_inactive_fails (d'.objs x) = true → verify_inactive_fails (d.objs x) = true) ∧
      ((d'.objs x).gtt_space = none → (d.objs x).gtt_space = none)) : Upkeep c d d' := by
  refine ⟨ht, fun _ x hx hf => ⟨hl x hx, (ho x).2.1 hf⟩, fun _ x hp hg => ⟨?_, (ho x).2.2 hg⟩⟩
  rw [← (ho x).1]
  exact hp

theorem up_update_obj {c : Prop} (d : Device) (o : Nat) (f : GemObject → GemObject)
    (hf : ∀ x : GemObject, (f x).pin_count = x.pin_count ∧
      (verify_inactive_fails (f x) = true → verify_inactive_fails x = true) ∧
      ((f x).gtt_space = none → x.gtt_space = none)) : Upkeep c d (d.update_obj o f) := by
  refine up_of_objs rfl (fun _ h => h) (fun x => ?_)
  by_cases hx : x = o
  · have : (d.update_obj o f).objs x = f (d.objs x) := by
      simp [Device.update_obj, hx]
    rw [this]
    exact hf _
  · have : (d.update_obj o f).objs x = d.objs x := by
      simp [Device.update_obj, hx]
    rw [this]
    exact ⟨rfl, id, id⟩

theorem up_tock {c : Prop} (d : Device) : Upkeep c d d.tock :=
  up_of_objs rfl (fun _ h => h) (fun _ => ⟨rfl, id, id⟩)

theorem up_log {c : Prop} (d : Device) (ev : Event) : Upkeep c d (d.log ev) :=
  up_of_objs rfl (fun _ h => h) (fun _ => ⟨rfl, id, id⟩)

theorem up_out_ring {c : Prop} (d : Device) (ws : List Nat) : Upkeep c d (d.out_ring ws) :=
  up_of_objs rfl (fun _ h => h) (fun _ => ⟨rfl, id, id⟩)

theorem up_list_del_init {c : Prop} (o : Nat) (d : Device) : Upkeep c d (list_del_init o d) :=
  up_of_objs rfl (fun _ h => (List.mem_filter.mp h).1) (fun _ => ⟨rfl, id, id⟩)

theorem up_list_move_tail_active {c : Prop} (o : Nat) (d : Device) :
    Upkeep c d (list_move_tail o .active d) :=
  up_of_objs rfl (fun _ h => (List.mem_filter.mp h).1) (fun _ => ⟨rfl, id, id⟩)

theorem up_list_move_tail_flushing {c : Prop} (o : Nat) (d : Device) :
    Upkeep c d (list_move_tail o .flushing d) :=
  up_of_objs rfl (fun _ h => (List.mem_filter.mp h).1) (fun _ => ⟨rfl, id, id⟩)

/-- An object that `i915_verify_inactive` does not report may join the inactive
list. -/
theorem up_list_move_tail_inactive {c : Prop} (o : Nat) (d : Device)
    (h : verify_inactive_fails (d.objs o) = false) :
    Upkeep c d (list_move_tail o .inactive d) := by
  refine ⟨rfl, fun _ x hx hf => ?_, fun _ x hp hg => ⟨hp, hg⟩⟩
  have hx2 : x ∈ d.inactive_list.filter (fun y => y != o) ++ [o] := hx
  have hf2 : verify_inactive_fails (d.objs x) = true := hf
  rcases List.mem_append.mp hx2 with h1 | h1
  · exact ⟨(List.mem_filter.mp h1).1, hf2⟩
  · rw [List.mem_singleton] at h1
    rw [h1, h] at hf2
    cases hf2

theorem up_reference {c : Prop} (o : Nat) (d : Device) :
    Upkeep c d (drm_gem_object_reference o d) :=
  up_update_obj d o _ (fun _ => ⟨rfl, id, id⟩)

theorem up_unreference {c : Prop} (o : Nat) (d : Device) :
    Upkeep c d (drm_gem_object_unreference o d) :=
  up_update_obj d o _ (fun _ => ⟨rfl, id, id⟩)

theorem up_move_to_active {c : Prop} (o : Nat) (d : Device) :
    Upkeep c d (i915_gem_object_move_to_active o d) := by
  have hl := (move_to_active_lists o d).2.2
  have hobj : ∀ x : Nat,
      ((i915_gem_object_move_to_active o d).objs x).pin_count = (d.objs x).pin_count ∧
      ((i915_gem_object_move_to_active o d).objs x).gtt_space = (d.objs x).gtt_space ∧
      (x ≠ o → (i915_gem_object_move_to_active o d).objs x = d.objs x) := by
    intro x
    unfold i915_gem_object_move_to_active
    simp only []
    by_cases ha : (d.objs o).active = true
    · rw [if_pos ha]
      exact ⟨rfl, rfl, fun _ => rfl⟩
    · rw [if_neg ha]
      by_cases hx : x = o
      · subst hx
        refine ⟨?_, ?_, fun h => absurd rfl h⟩ <;>
          simp [list_move_tail, list_del_init, Device.update_obj, drm_gem_object_reference]
      · refine ⟨?_, ?_, fun _ => ?_⟩ <;>
          simp [list_move_tail, list_del_init, Device.update_obj, drm_gem_object_reference, hx]
  refine ⟨(cf_move_to_active o d).last_gem_throttle_seqno, fun _ x hx hf => ?_,
    fun _ x hp hg => ?_⟩
  · rw [hl] at hx
    obtain ⟨h1, h2⟩ := List.mem_filter.mp hx
    have hne : x ≠ o := by
      intro e
      rw [e] at h2
      simp at h2
    rw [(hobj x).2.2 hne] at hf
    exact ⟨h1, hf⟩
  · rw [(hobj x).1] at hp
    rw [(hobj x).2.1] at hg
    exact ⟨hp, hg⟩

/-- The move of an object to the inactive list reports nothing new when the
object is pinned or its write domain has no bit outside the CPU domain. -/
theorem up_move_to_inactive {c : Prop} (o : Nat) (d : Device)
    (h : (d.objs o).pin_count ≠ 0 ∨
      (d.objs o).write_domain &&& not32 I915_GEM_DOMAIN_CPU = 0) :
    Upkeep c d (i915_gem_object_move_to_inactive o d) := by
  have hl := (move_to_inactive_lists o d).2.2
  obtain ⟨ho, hothers⟩ := move_to_inactive_objs o d
  refine ⟨(cf_move_to_inactive o d).last_gem_throttle_seqno, fun _ x hx hf => ?_,
    fun _ x hp hg => ?_⟩
  · by_cases hxo : x = o
    · subst hxo
      exfalso
      by_cases hp : (d.objs x).pin_count ≠ 0
      · rw [hl, if_pos hp] at hx
        exact not_mem_filter_bne x _ hx
      · rw [ho, fails_iff] at hf
        rcases hf with h1 | h1 | h1
        · exact hp h1
        · cases h1
        · rcases h with h | h
          · exact hp h
          · exact h1 h
    · rw [hothers x hxo] at hf
      rw [hl] at hx
      refine ⟨?_, hf⟩
      split at hx
      · exact (List.mem_filter.mp hx).1
      · rcases List.mem_append.mp hx with h1 | h1
        · exact (List.mem_filter.mp h1).1
        · rw [List.mem_singleton] at h1
          exact absurd h1 hxo
  · by_cases hxo : x = o
    · subst hxo
      rw [ho] at hp hg
      exact ⟨hp, hg⟩
    · rw [hothers x hxo] at hp hg
      exact ⟨hp, hg⟩

theorem up_retire_flushing {c : Prop} (request : Request) (l : List Nat) :
    ∀ d : Device, Upkeep c d (retire_flushing request l d) := by
  induction l with
  | nil => intro d; exact up_refl d
  | cons o rest ih =>
    intro d
    simp only [retire_flushing]
    refine up_trans (up_ite ?_ (up_refl d)) (ih _)
    refine up_trans (up_update_obj d o (fun x => { x with write_domain := 0 })
      (fun x => ⟨rfl, fails_of_write_cleared x, id⟩)) (up_move_to_inactive o _ (Or.inr ?_))
    simp [Device.update_obj]

theorem up_retire_active {c : Prop} (request : Request) (fuel : Nat) :
    ∀ d : Device, Upkeep c d (retire_active request fuel d) := by
  induction fuel with
  | zero => intro d; exact up_refl d
  | succ n ih =>
    intro d
    simp only [retire_active]
    cases hal : d.active_list with
    | nil => exact up_refl d
    | cons o rest =>
      simp only []
      by_cases h1 : (d.objs o).last_rendering_seqno ≠ request.seqno
      · rw [if_pos h1]
        exact up_refl d
      · rw [if_neg h1]
        by_cases h2 : (d.objs o).write_domain ≠ 0
        · rw [if_pos h2]
          exact up_trans (up_list_move_tail_flushing o d) (ih _)
        · rw [if_neg h2]
          refine up_trans (up_move_to_inactive o d (Or.inr ?_)) (ih _)
          rw [not_not.mp h2]
          exact Nat.zero_and _

theorem up_retire_request {c : Prop} (request : Request) (d : Device) :
    Upkeep c d (i915_gem_retire_request request d) := by
  unfold i915_gem_retire_request
  simp only []
  exact up_trans (up_ite (up_retire_flushing request _ d) (up_refl d)) (up_retire_active _ _ _)

theorem up_retire_requests_loop {c : Prop} (seqno : Nat) (fuel : Nat) :
    ∀ d : Device, Upkeep c d (retire_requests_loop seqno fuel d) := by
  induction fuel with
  | zero => intro d; exact up_refl d
  | succ n ih =>
    intro d
    simp only [retire_requests_loop]
    split
    · exact up_refl d
    · split
      · refine up_trans ?_ (ih _)
        exact up_trans (up_retire_request _ d)
          (up_of_objs rfl (fun _ h => h) (fun _ => ⟨rfl, id, id⟩))
      · exact up_refl d

theorem up_retire_requests {c : Prop} (d : Device) : Upkeep c d (i915_gem_retire_requests d) :=
  up_retire_requests_loop _ _ d

theorem up_wait_request {c : Prop} (e : Env) (seqno : Nat) (d : Device) :
    (i915_wait_request e seqno d).Holds (fun _ d' => Upkeep c d d') := by
  have hs : Upkeep c d (wait_request_sleep e seqno d) :=
    up_of_objs rfl (fun _ h => h) (fun _ => ⟨rfl, id, id⟩)
  unfold i915_wait_request
  split
  · trivial
  · split
    · split
      · exact up_trans hs (up_retire_requests _)
      · exact hs
    · exact up_retire_requests d

theorem up_flush {c : Prop} (e : Env) (inv fl : Nat) (d : Device) :
    Upkeep c d (i915_gem_flush e inv fl d) := by
  unfold i915_gem_flush
  have h1 : Upkeep c d (if fl &&& I915_GEM_DOMAIN_CPU ≠ 0 then d.log .chipset_flush else d) :=
    up_ite (up_log d _) (up_refl d)
  exact up_ite (up_trans h1 (up_out_ring _ _)) h1

theorem up_add_request {c : Prop} (e : Env) (fl : Nat) (d : Device) :
    Upkeep c d (i915_add_request e fl d).2 := by
  unfold i915_add_request
  by_cases hc : e.calloc_ok = false
  · rw [if_pos hc]
    exact up_refl d
  · rw [if_neg hc]
    simp only []
    refine up_trans ?_ (up_ite (up_log _ _) (up_refl _))
    exact up_of_objs rfl (fun _ h => h) (fun _ => ⟨rfl, id, id⟩)

theorem up_wait_rendering_flush {c : Prop} (e : Env) (o : Nat) (d : Device) :
    Upkeep c d (wait_rendering_flush e o d) := by
  unfold wait_rendering_flush
  simp only []
  exact up_trans (up_trans (up_trans (up_trans (up_flush e 0 _ d)
    (up_update_obj _ o (fun x => { x with write_domain := 0 })
      (fun x => ⟨rfl, fails_of_write_cleared x, id⟩))) (up_move_to_active o _))
    (up_add_request e _ _)) (up_update_obj _ o _ (fun _ => ⟨rfl, id, id⟩))

theorem up_wait_rendering_wait {c : Prop} (e : Env) (o : Nat) (d : Device) :
    (wait_rendering_wait e o d).Holds (fun _ d' => Upkeep c d d') := by
  unfold wait_rendering_wait
  split
  · have h := up_wait_request (c := c) e (d.objs o).last_rendering_seqno d
    cases hw : i915_wait_request e (d.objs o).last_rendering_seqno d with
    | bug => trivial
    | ret code d1 =>
      rw [hw] at h
      simp only []
      split
      · exact h
      · exact h
  · exact up_refl d

theorem up_wait_rendering {c : Prop} (e : Env) (o : Nat) (d : Device) :
    (i915_gem_object_wait_rendering e o d).Holds (fun _ d' => Upkeep c d d') := by
  unfold i915_gem_object_wait_rendering
  simp only []
  split
  · split
    · trivial
    · exact holds_mono (up_wait_rendering_wait e o _)
        (fun _ _ h => up_trans (up_trans (up_log d _) (up_wait_rendering_flush e o _)) h)
  · exact holds_mono (up_wait_rendering_wait e o _) (fun _ _ h => up_trans (up_log d _) h)

theorem up_clflush {c : Prop} (o : Nat) (d : Device) :
    Upkeep c d (i915_gem_clflush_object o d) := by
  unfold i915_gem_clflush_object
  exact up_ite (up_refl d) (up_log d _)

/-- The assignment of a write domain reports nothing new when the object is
pinned or the write domain has no bit outside the CPU domain. -/
theorem up_write_domain {c : Prop} (o w : Nat) (d : Device)
    (hw : c → (d.objs o).pin_count ≠ 0 ∨ w &&& not32 I915_GEM_DOMAIN_CPU = 0) :
    Upkeep c d (d.update_obj o (fun y => { y with write_domain := w })) := by
  have hobj : ∀ x : Nat,
      ((d.update_obj o (fun y => { y with write_domain := w })).objs x).pin_count
        = (d.objs x).pin_count ∧
      ((d.update_obj o (fun y => { y with write_domain := w })).objs x).gtt_space
        = (d.objs x).gtt_space ∧
      ((d.update_obj o (fun y => { y with write_domain := w })).objs x).active
        = (d.objs x).active ∧
      (x ≠ o → (d.update_obj o (fun y => { y with write_domain := w })).objs x = d.objs x) ∧
      (x = o → ((d.update_obj o (fun y => { y with write_domain := w })).objs x).write_domain
        = w) := by
    intro x
    by_cases hxo : x = o
    · subst hxo
      simp [Device.update_obj]
    · simp [Device.update_obj, hxo]
  refine ⟨rfl, fun hc x hx hf => ⟨hx, ?_⟩, fun _ x hp hg => ?_⟩
  · by_cases hxo : x = o
    · rw [fails_iff] at hf ⊢
      rw [(hobj x).1, (hobj x).2.2.1, (hobj x).2.2.2.2 hxo] at hf
      rcases hf with h1 | h1 | h1
      · exact Or.inl h1
      · exact Or.inr (Or.inl h1)
      · rcases hw hc with h2 | h2
        · rw [hxo]
          exact Or.inl h2
        · exact absurd h2 h1
    · rw [(hobj x).2.2.2.1 hxo] at hf
      exact hf
  · rw [(hobj x).1] at hp
    rw [(hobj x).2.1] at hg
    exact ⟨hp, hg⟩

/-- The commit step of a domain transition reports nothing new when the object
is pinned or the new write domain has no bit outside the CPU domain. -/
theorem up_commit {c : Prop} (o reads w inv fl : Nat) (d d' : Device) (code : Int)
    (hw : c → (d.objs o).pin_count ≠ 0 ∨ w &&& not32 I915_GEM_DOMAIN_CPU = 0)
    (h : set_domain_commit o reads w inv fl d = .ret code d') : Upkeep c d d' := by
  unfold set_domain_commit at h
  cases h
  have h1 : Upkeep c d (if w ||| fl ≠ 0 then
      d.update_obj o (fun x => { x with write_domain := w }) else d) :=
    up_ite (up_write_domain o w d hw) (up_refl d)
  have h2 := up_trans h1 (up_update_obj _ o (fun x => { x with read_domains := reads })
    (fun _ => ⟨rfl, id, id⟩))
  exact up_trans h2 (up_of_objs rfl (fun _ h => h) (fun _ => ⟨rfl, id, id⟩))

/-- A domain transition reports nothing new when the object is pinned or the
requested write domain has no bit outside the CPU domain. -/
theorem up_set_domain {c : Prop} (e : Env) (o r w : Nat) (d : Device)
    (hw : c → (d.objs o).pin_count ≠ 0 ∨ w &&& not32 I915_GEM_DOMAIN_CPU = 0) :
    (i915_gem_object_set_domain e o r w d).Holds (fun _ d' => Upkeep c d d') := by
  refine holds_intro (fun code d' h => ?_)
  have hd1 : Upkeep c d (if w = 0 then d else d.update_obj o (fun x => { x with dirty := true })) :=
    up_ite (up_refl d) (up_update_obj d o _ (fun _ => ⟨rfl, id, id⟩))
  have kd1 : Kept d (if w = 0 then d else d.update_obj o (fun x => { x with dirty := true })) :=
    kept_ite (kept_refl d) (kept_update_obj d o _ (fun _ => rfl))
  have hcm : ∀ (a b : Device) (cc : Int), Kept d a →
      set_domain_commit o (set_domain_reads r w (d.objs o).read_domains) w
        (set_domain_invalidate (d.objs o).read_domains (d.objs o).write_domain
          (set_domain_reads r w (d.objs o).read_domains))
        (set_domain_flush (d.objs o).write_domain
          (set_domain_reads r w (d.objs o).read_domains)) a = .ret cc b → Upkeep c a b := by
    intro a b cc ka hab
    refine up_commit o _ w _ _ a b cc (fun hc => ?_) hab
    rw [ka.2 o]
    exact hw hc
  rcases set_domain_cases e o r w d d' code h with ⟨-, hc⟩ | ⟨-, d2, h2, ⟨-, he⟩ | ⟨-, hc⟩⟩
  · refine up_trans hd1 (up_trans (up_ite (up_clflush o _) (up_refl _)) (hcm _ _ _ ?_ hc))
    exact kept_trans kd1 (kept_ite (kept_clflush o _) (kept_refl _))
  · rw [he]
    exact up_trans hd1 (holds_of_eq (up_wait_rendering e o _) h2)
  · refine up_trans hd1 (up_trans (holds_of_eq (up_wait_rendering e o _) h2)
      (up_trans (up_clflush o _) (hcm _ _ _ ?_ hc)))
    exact kept_trans kd1 (kept_trans (holds_of_eq (kept_wait_rendering e o _) h2)
      (kept_clflush o _))

theorem bo_refl (o : Nat) (d : Device) : BindOnly o d d :=
  ⟨rfl, fun _ h => h, fun _ => rfl, fun _ => rfl, fun _ _ => rfl⟩

theorem bo_trans {o : Nat} {a b d : Device} (h1 : BindOnly o a b) (h2 : BindOnly o b d) :
    BindOnly o a d :=
  ⟨h2.throttle.trans h1.throttle, fun x h => h1.inactive x (h2.inactive x h),
    fun x => (h2.pins x).trans (h1.pins x), fun x => (h2.fails x).trans (h1.fails x),
    fun x hx => (h2.others x hx).trans (h1.others x hx)⟩

theorem bo_ite {p : Prop} [Decidable p] {o : Nat} {d a b : Device} (ha : BindOnly o d a)
    (hb : BindOnly o d b) : BindOnly o d (if p then a else b) := by
  split
  · exact ha
  · exact hb

theorem bo_update_obj (d : Device) (o : Nat) (f : GemObject → GemObject)
    (hf : ∀ x : GemObject, (f x).pin_count = x.pin_count ∧
      verify_inactive_fails (f x) = verify_inactive_fails x) :
    BindOnly o d (d.update_obj o f) := by
  have hobj : ∀ x : Nat, (x = o → (d.update_obj o f).objs x = f (d.objs x)) ∧
      (x ≠ o → (d.update_obj o f).objs x = d.objs x) := by
    intro x
    by_cases hx : x = o
    · simp [Device.update_obj, hx]
    · simp [Device.update_obj, hx]
  refine ⟨rfl, fun _ h => h, fun x => ?_, fun x => ?_, fun x hx => ?_⟩
  · by_cases hx : x = o
    · rw [(hobj x).1 hx]
      exact (hf _).1
    · rw [(hobj x).2 hx]
  · by_cases hx : x = o
    · rw [(hobj x).1 hx]
      exact (hf _).2
    · rw [(hobj x).2 hx]
  · rw [(hobj x).2 hx]

theorem bo_tock (o : Nat) (d : Device) : BindOnly o d d.tock :=
  ⟨rfl, fun _ h => h, fun _ => rfl, fun _ => rfl, fun _ _ => rfl⟩

theorem bo_list_del_init (o a : Nat) (d : Device) : BindOnly o d (list_del_init a d) :=
  ⟨rfl, fun _ h => (List.mem_filter.mp h).1, fun _ => rfl, fun _ => rfl, fun _ _ => rfl⟩

theorem bo_free_page_list (o : Nat) (d : Device) :
    BindOnly o d (i915_gem_object_free_page_list o d) := by
  unfold i915_gem_object_free_page_list
  exact bo_ite (bo_refl o d) (bo_update_obj d o _ (fun _ => ⟨rfl, rfl⟩))

theorem bo_get_page_list (e : Env) (o : Nat) (d : Device) :
    BindOnly o d (i915_gem_object_get_page_list e o d).2 := by
  unfold i915_gem_object_get_page_list
  by_cases hp : (d.objs o).page_list = true
  · rw [if_pos hp]
    exact bo_refl o d
  · rw [if_neg hp]
    by_cases hc : e.calloc_ok = false
    · rw [if_pos hc]
      exact bo_refl o d
    · rw [if_neg hc]
      simp only []
      by_cases hg : e.getpage_ret ≠ 0
      · rw [if_pos hg]
        exact bo_trans (bo_update_obj d o (fun x => { x with page_list := true })
          (fun _ => ⟨rfl, rfl⟩)) (bo_free_page_list o _)
      · rw [if_neg hg]
        exact bo_update_obj d o (fun x => { x with page_list := true }) (fun _ => ⟨rfl, rfl⟩)

theorem bo_put_gtt_space (o : Nat) (d : Device) : BindOnly o d (put_gtt_space o d) := by
  unfold put_gtt_space
  cases (d.objs o).gtt_space with
  | none => exact bo_refl o d
  | some start =>
    have h1 : BindOnly o d { d with
        gtt_free := drm_memrange_put_block (start, (d.objs o).size) d.gtt_free } :=
      ⟨rfl, fun _ h => h, fun _ => rfl, fun _ => rfl, fun _ _ => rfl⟩
    exact bo_trans h1 (bo_update_obj _ o _ (fun _ => ⟨rfl, rfl⟩))

theorem bo_unbind_release (o : Nat) (d : Device) :
    (unbind_release o d).Holds (fun _ d' => BindOnly o d d') := by
  unfold unbind_release
  have h1 : BindOnly o d (if (d.objs o).agp_mem = true then
      d.update_obj o (fun x => { x with agp_mem := false }) else d) :=
    bo_ite (bo_update_obj d o _ (fun _ => ⟨rfl, rfl⟩)) (bo_refl o d)
  generalize (if (d.objs o).agp_mem = true then
    d.update_obj o (fun x => { x with agp_mem := false }) else d) = d1 at h1
  simp only []
  by_cases ha : (d1.objs o).active = true
  · rw [if_pos ha]
    trivial
  · rw [if_neg ha]
    have h2 := bo_trans h1 (bo_free_page_list o d1)
    have h3 : BindOnly o d (put_gtt_space o
        { i915_gem_object_free_page_list o d1 with
          gtt_count := (i915_gem_object_free_page_list o d1).gtt_count - 1
          gtt_memory := (i915_gem_object_free_page_list o d1).gtt_memory -
            (((i915_gem_object_free_page_list o d1).objs o).size : Int) }) := by
      refine bo_trans (bo_trans h2 ?_) (bo_put_gtt_space o _)
      exact ⟨rfl, fun _ h => h, fun _ => rfl, fun _ => rfl, fun _ _ => rfl⟩
    exact bo_ite (bo_trans h3 (bo_list_del_init o o _)) h3

theorem bo_bind_pages (es : Nat → Env) (o : Nat) (d : Device) :
    (bind_pages es o d).Holds (fun _ d' => BindOnly o d d') := by
  unfold bind_pages
  have hr : BindOnly o d (i915_gem_object_get_page_list (es d.tick) o d.tock).2 :=
    bo_trans (bo_tock o d) (bo_get_page_list _ o _)
  generalize i915_gem_object_get_page_list (es d.tick) o d.tock = r at hr
  simp only []
  by_cases h1 : r.1 ≠ 0
  · rw [if_pos h1]
    exact bo_trans hr (bo_put_gtt_space o _)
  · rw [if_neg h1]
    by_cases h2 : (es r.2.tick).agp_bind_ok = false
    · rw [if_pos h2]
      exact bo_trans hr (bo_trans (bo_trans (bo_tock o _) (bo_free_page_list o _))
        (bo_put_gtt_space o _))
    · rw [if_neg h2]
      have h3 : BindOnly o d (r.2.tock.update_obj o (fun x => { x with agp_mem := true })) :=
        bo_trans hr (bo_trans (bo_tock o _) (bo_update_obj _ o _ (fun _ => ⟨rfl, rfl⟩)))
      split_ifs
      · trivial
      · trivial
      · refine bo_trans h3 ?_
        exact ⟨rfl, fun _ h => h, fun _ => rfl, fun _ => rfl, fun _ _ => rfl⟩

/-- A step that touches the binding of an unpinned object only keeps everything
up. -/
theorem up_of_bind_only {c : Prop} {o : Nat} {d d' : Device} (h : BindOnly o d d')
    (hp : (d.objs o).pin_count ≤ 0) : Upkeep c d d' := by
  refine ⟨h.throttle, fun _ x hx hf => ⟨h.inactive x hx, ?_⟩, fun _ x hpx hg => ?_⟩
  · rw [← h.fails x]
    exact hf
  · rw [h.pins x] at hpx
    by_cases hxo : x = o
    · rw [hxo] at hpx
      omega
    · rw [h.others x hxo] at hg
      exact ⟨hpx, hg⟩

/-- Steps that keep everything up, followed by steps that touch the binding
only of an object that was unbound at the start, keep everything up. -/
theorem up_rebind {c : Prop} {o : Nat} {d d1 d2 : Device} (h1 : Upkeep c d d1)
    (k : Kept d d1) (h2 : BindOnly o d1 d2) (hg : c → (d.objs o).gtt_space = none) :
    Upkeep c d d2 := by
  refine ⟨h2.throttle.trans h1.throttle, fun hc x hx hf => ?_, fun hc x hpx hgx => ?_⟩
  · rw [h2.fails x] at hf
    exact h1.inactive hc x (h2.inactive x hx) hf
  · rw [h2.pins x] at hpx
    by_cases hxo : x = o
    · rw [k.2 x] at hpx
      rw [hxo] at hpx ⊢
      exact ⟨hpx, hg hc⟩
    · rw [h2.others x hxo] at hgx
      exact h1.bound hc x hpx hgx

theorem up_unbind {c : Prop} (es : Nat → Env) (o : Nat) (d : Device) :
    (i915_gem_object_unbind es o d).Holds (fun _ d' => Upkeep c d d') := by
  unfold i915_gem_object_unbind
  by_cases hg : (d.objs o).gtt_space = none
  · rw [if_pos hg]
    exact up_refl d
  · rw [if_neg hg]
    by_cases hp : (d.objs o).pin_count ≠ 0
    · rw [if_pos hp]
      exact up_refl d
    · rw [if_neg hp]
      have hw := up_wait_rendering (c := c) (es d.tick) o d.tock
      have kw := kept_wait_rendering (es d.tick) o d.tock
      cases hwr : i915_gem_object_wait_rendering (es d.tick) o d.tock with
      | bug => trivial
      | ret code d1 =>
        rw [hwr] at hw kw
        have u1 : Upkeep c d d1 := up_trans (up_tock d) hw
        have k1 : Kept d d1 := kept_trans (kept_tock d) kw
        simp only []
        by_cases hc : code ≠ 0
        · rw [if_pos hc]
          exact u1
        · rw [if_neg hc]
          have hs := up_set_domain (c := c) (es d1.tick) o I915_GEM_DOMAIN_CPU
            I915_GEM_DOMAIN_CPU d1.tock (fun _ => Or.inr (by decide))
          have ks := kept_set_domain (es d1.tick) o I915_GEM_DOMAIN_CPU I915_GEM_DOMAIN_CPU
            d1.tock
          cases hsd : i915_gem_object_set_domain (es d1.tick) o I915_GEM_DOMAIN_CPU
              I915_GEM_DOMAIN_CPU d1.tock with
          | bug => trivial
          | ret code2 d2 =>
            rw [hsd] at hs ks
            have u2 : Upkeep c d d2 := up_trans u1 (up_trans (up_tock d1) hs)
            have k2 : Kept d d2 := kept_trans k1 (kept_trans (kept_tock d1) ks)
            simp only []
            by_cases hc2 : code2 ≠ 0
            · rw [if_pos hc2]
              exact u2
            · rw [if_neg hc2]
              refine holds_mono (bo_unbind_release o d2)
                (fun _ _ h => up_trans u2 (up_of_bind_only h ?_))
              rw [k2.2 o, not_not.mp hp]

theorem up_evict {c : Prop} (es : Nat → Env) :
    ∀ (fuel : Nat) (d : Device),
      holds_opt (fun _ d' => Upkeep c d d') (i915_gem_evict_something es fuel d) := by
  intro fuel
  induction fuel with
  | zero => intro d; trivial
  | succ n ih =>
    intro d
    simp only [i915_gem_evict_something]
    cases d.inactive_list with
    | cons o t =>
      simp only []
      split_ifs
      · trivial
      · trivial
      · exact up_unbind es o d
    | nil =>
      simp only []
      cases d.request_list with
      | cons request t =>
        simp only []
        have hw := up_wait_request (c := c) (es d.tick) request.seqno d.tock
        cases hwr : i915_wait_request (es d.tick) request.seqno d.tock with
        | bug => trivial
        | ret code d1 =>
          rw [hwr] at hw
          have k1 : Upkeep c d d1 := up_trans (up_tock d) hw
          simp only []
          split_ifs
          · exact holds_opt_mono (ih d1) (fun _ _ h => up_trans k1 h)
          · exact k1
      | nil =>
        simp only []
        cases d.flushing_list with
        | cons o t =>
          simp only []
          exact holds_opt_mono (ih _) (fun _ _ h =>
            up_trans (up_trans (up_tock d)
              (up_trans (up_flush _ _ _ _) (up_add_request _ _ _))) h)
        | nil => exact up_refl d

/-- The search loop of the bind keeps everything up, and a search that
succeeds has given the object a block. -/
theorem up_bind_search {c : Prop} (es : Nat → Env) (o alignment efuel : Nat) :
    ∀ (fuel : Nat) (d : Device),
      holds_opt (fun code d' => Upkeep c d d' ∧ (code = 0 → (d'.objs o).gtt_space ≠ none))
        (bind_search es o alignment efuel fuel d) := by
  intro fuel
  induction fuel with
  | zero => intro d; trivial
  | succ n ih =>
    intro d
    simp only [bind_search]
    cases drm_memrange_search_free d.gtt_free (d.objs o).size alignment with
    | some r =>
      simp only []
      have h1 : Upkeep c d { d with
          gtt_free := (drm_memrange_get_block d.gtt_free r (d.objs o).size alignment).2 } :=
        up_of_objs rfl (fun _ h => h) (fun _ => ⟨rfl, id, id⟩)
      refine ⟨up_trans h1 (up_update_obj _ o _ (fun _ => ⟨rfl, id, fun h => ?_⟩)), fun _ => ?_⟩
      · cases h
      · simp [Device.update_obj]
    | none =>
      simp only []
      by_cases he : d.inactive_list.isEmpty ∧ d.flushing_list.isEmpty ∧ d.active_list.isEmpty
      · rw [if_pos he]
        exact ⟨up_refl d, fun h => absurd h (by decide)⟩
      · rw [if_neg he]
        have hev := up_evict (c := c) es efuel d
        cases hr : i915_gem_evict_something es efuel d with
        | none => trivial
        | some r =>
          rw [hr] at hev
          cases r with
          | bug => trivial
          | ret code d1 =>
            simp only []
            by_cases hc : code ≠ 0
            · rw [if_pos hc]
              exact ⟨hev, fun h => absurd h hc⟩
            · rw [if_neg hc]
              exact holds_opt_mono (ih d1) (fun _ _ h => ⟨up_trans hev h.1, h.2⟩)

/-- A bind of an object that is unbound when the call starts keeps everything
up, whatever it returns; a bind that returns 0 has bound the object. -/
theorem up_bind_to_gtt {c : Prop} (es : Nat → Env) (fuel o alignment : Nat) (d : Device)
    (hg : c → (d.objs o).gtt_space = none) :
    holds_opt (fun code d' => Upkeep c d d' ∧ (code = 0 → (d'.objs o).gtt_space ≠ none))
      (i915_gem_object_bind_to_gtt es fuel o alignment d) := by
  unfold i915_gem_object_bind_to_gtt
  generalize (if alignment = 0 then PAGE_SIZE else alignment) = al
  simp only []
  by_cases ha : al &&& (PAGE_SIZE - 1) ≠ 0
  · rw [if_pos ha]
    exact ⟨up_refl d, fun h => absurd h (by decide)⟩
  · rw [if_neg ha]
    have hs := up_bind_search (c := c) es o al fuel fuel d
    have ks := kept_bind_search es o al fuel fuel d
    cases hr : bind_search es o al fuel fuel d with
    | none => trivial
    | some r =>
      rw [hr] at hs ks
      cases r with
      | bug => trivial
      | ret code d1 =>
        simp only []
        by_cases hc : code ≠ 0
        · rw [if_pos hc]
          exact ⟨hs.1, fun h => absurd h hc⟩
        · rw [if_neg hc]
          refine holds_intro (fun c2 d2 hb => ⟨?_, fun h0 => ?_⟩)
          · exact up_rebind hs.1 ks (holds_of_eq (bo_bind_pages es o d1) hb) hg
          · subst h0
            rw [(bind_pages_ok es o d1 d2 hb).2.2.2.1]
            exact hs.2 (not_not.mp hc)

/-- Counting a pin of a bound object keeps everything up. -/
theorem up_pin_account {c : Prop} (o : Nat) (d : Device)
    (hb : (d.objs o).gtt_space ≠ none) : Upkeep c d (pin_account o d) := by
  have hobj : ∀ (a : Device) (x : Nat), a.objs = (d.update_obj o
      (fun y => { y with pin_count := y.pin_count + 1 })).objs →
      (a.objs x).gtt_space = (d.objs x).gtt_space ∧
      (a.objs x).active = (d.objs x).active ∧
      (a.objs x).write_domain = (d.objs x).write_domain ∧
      (x ≠ o → (a.objs x).pin_count = (d.objs x).pin_count) ∧
      (x = o → (a.objs x).pin_count = (d.objs x).pin_count + 1) := by
    intro a x ha
    rw [ha]
    by_cases hx : x = o
    · subst hx
      simp [Device.update_obj]
    · simp [Device.update_obj, hx]
  have hcase : (pin_account o d).last_gem_throttle_seqno = d.last_gem_throttle_seqno ∧
      (pin_account o d).objs = (d.update_obj o
        (fun y => { y with pin_count := y.pin_count + 1 })).objs ∧
      (∀ x, x ∈ (pin_account o d).inactive_list → x ∈ d.inactive_list) ∧
      (o ∈ (pin_account o d).inactive_list → verify_inactive_fails (d.objs o) = true) := by
    unfold pin_account
    simp only []
    by_cases h1 : ((d.update_obj o (fun y => { y with pin_count := y.pin_count + 1 })).objs
        o).pin_count = 1
    · rw [if_pos h1]
      have hpin : (d.objs o).pin_count = 0 := by
        have := h1
        simp [Device.update_obj] at this
        omega
      by_cases h2 : (({ d.update_obj o (fun y => { y with pin_count := y.pin_count + 1 }) with
            pin_count := (d.update_obj o
              (fun y => { y with pin_count := y.pin_count + 1 })).pin_count + 1
            pin_memory := (d.update_obj o
              (fun y => { y with pin_count := y.pin_count + 1 })).pin_memory +
              (((d.update_obj o (fun y => { y with pin_count := y.pin_count + 1 })).objs
                o).size : Int) } : Device).objs o).active = false ∧
          (({ d.update_obj o (fun y => { y with pin_count := y.pin_count + 1 }) with
            pin_count := (d.update_obj o
              (fun y => { y with pin_count := y.pin_count + 1 })).pin_count + 1
            pin_memory := (d.update_obj o
              (fun y => { y with pin_count := y.pin_count + 1 })).pin_memory +
              (((d.update_obj o (fun y => { y with pin_count := y.pin_count + 1 })).objs
                o).size : Int) } : Device).objs o).write_domain &&&
            not32 I915_GEM_DOMAIN_CPU = 0 ∧
          on_list o { d.update_obj o (fun y => { y with pin_count := y.pin_count + 1 }) with
            pin_count := (d.update_obj o
              (fun y => { y with pin_count := y.pin_count + 1 })).pin_count + 1
            pin_memory := (d.update_obj o
              (fun y => { y with pin_count := y.pin_count + 1 })).pin_memory +
              (((d.update_obj o (fun y => { y with pin_count := y.pin_count + 1 })).objs
                o).size : Int) } = true
      · rw [if_pos h2]
        refine ⟨rfl, rfl, fun x hx => (List.mem_filter.mp hx).1, fun hx => ?_⟩
        exact absurd hx (not_mem_filter_bne o _)
      · rw [if_neg h2]
        refine ⟨rfl, rfl, fun x hx => hx, fun hx => ?_⟩
        have hx2 : o ∈ d.inactive_list := hx
        by_contra hnf
        apply h2
        have hnf2 : ¬ ((d.objs o).pin_count ≠ 0 ∨ (d.objs o).active = true ∨
            (d.objs o).write_domain &&& not32 I915_GEM_DOMAIN_CPU ≠ 0) :=
          fun h => hnf ((fails_iff _).mpr h)
        have ha : (d.objs o).active = false := by
          cases hact : (d.objs o).active
          · rfl
          · exact absurd (Or.inr (Or.inl hact)) hnf2
        have hw : (d.objs o).write_domain &&& not32 I915_GEM_DOMAIN_CPU = 0 := by
          by_contra hw
          exact hnf2 (Or.inr (Or.inr hw))
        refine ⟨?_, ?_, ?_⟩
        · simp [Device.update_obj, ha]
        · simp [Device.update_obj, hw]
        · simp [on_list, Device.update_obj, hx2]
    · rw [if_neg h1]
      refine ⟨rfl, rfl, fun x hx => hx, fun hx => ?_⟩
      rw [fails_iff]
      left
      intro h0
      apply h1
      simp [Device.update_obj, h0]
  obtain ⟨ht, hobjs, hl, hlo⟩ := hcase
  refine ⟨ht, fun _ x hx hf => ⟨hl x hx, ?_⟩, fun _ x hp hgx => ?_⟩
  · by_cases hxo : x = o
    · rw [hxo] at hx ⊢
      exact hlo hx
    · obtain ⟨-, e2, e3, e4, -⟩ := hobj (pin_account o d) x hobjs
      rw [fails_iff] at hf ⊢
      rw [e2, e3, e4 hxo] at hf
      exact hf
  · obtain ⟨e1, -, -, e4, -⟩ := hobj (pin_account o d) x hobjs
    rw [e1] at hgx
    by_cases hxo : x = o
    · rw [hxo] at hgx
      exact absurd hgx hb
    · rw [e4 hxo] at hp
      exact ⟨hp, hgx⟩

theorem up_pin {c : Prop} (es : Nat → Env) (fuel o alignment : Nat) (d : Device) :
    holds_opt (fun _ d' => Upkeep c d d') (i915_gem_object_pin es fuel o alignment d) := by
  unfold i915_gem_object_pin
  have hb : holds_opt (fun code d' => Upkeep c d d' ∧ (code = 0 → (d'.objs o).gtt_space ≠ none))
      (if (d.objs o).gtt_space = none then i915_gem_object_bind_to_gtt es fuel o alignment d
        else some (.ret 0 d)) := by
    by_cases hg : (d.objs o).gtt_space = none
    · rw [if_pos hg]
      exact up_bind_to_gtt es fuel o alignment d (fun _ => hg)
    · rw [if_neg hg]
      exact ⟨up_refl d, fun _ => hg⟩
  generalize (if (d.objs o).gtt_space = none then i915_gem_object_bind_to_gtt es fuel o alignment d
    else some (.ret 0 d)) = bound at hb
  simp only []
  cases bound with
  | none => trivial
  | some r =>
    cases r with
    | bug => trivial
    | ret code d1 =>
      simp only []
      by_cases hc : code ≠ 0
      · rw [if_pos hc]
        exact hb.1
      · rw [if_neg hc]
        exact up_trans hb.1 (up_pin_account o d1 (hb.2 (not_not.mp hc)))

theorem up_unpin {c : Prop} (o : Nat) (d : Device) :
    (i915_gem_object_unpin o d).Holds (fun _ d' => Upkeep c d d') := by
  have hobj : ∀ x : Nat,
      ((d.update_obj o (fun y => { y with pin_count := y.pin_count - 1 })).objs x).gtt_space
        = (d.objs x).gtt_space ∧
      ((d.update_obj o (fun y => { y with pin_count := y.pin_count - 1 })).objs x).active
        = (d.objs x).active ∧
      ((d.update_obj o (fun y => { y with pin_count := y.pin_count - 1 })).objs x).write_domain
        = (d.objs x).write_domain ∧
      (x ≠ o → ((d.update_obj o (fun y => { y with pin_count := y.pin_count - 1 })).objs
        x).pin_count = (d.objs x).pin_count) ∧
      (x = o → ((d.update_obj o (fun y => { y with pin_count := y.pin_count - 1 })).objs
        x).pin_count = (d.objs x).pin_count - 1) := by
    intro x
    by_cases hx : x = o
    · subst hx
      simp [Device.update_obj]
    · simp [Device.update_obj, hx]
  unfold i915_gem_object_unpin
  generalize hd1 : (d.update_obj o (fun y => { y with pin_count := y.pin_count - 1 })) = d1
    at hobj
  have ht : d1.last_gem_throttle_seqno = d.last_gem_throttle_seqno := by
    rw [← hd1]
    rfl
  have hli : d1.inactive_list = d.inactive_list := by
    rw [← hd1]
    rfl
  simp only []
  by_cases hn : (d1.objs o).pin_count < 0
  · rw [if_pos hn]
    trivial
  · rw [if_neg hn]
    have hpos : 0 < (d.objs o).pin_count := by
      have := (hobj o).2.2.2.2 rfl
      omega
    have hbase : Upkeep c d d1 := by
      refine ⟨ht, fun _ x hx hf => ?_, fun _ x hp hg => ?_⟩
      · rw [hli] at hx
        refine ⟨hx, ?_⟩
        rw [fails_iff] at hf ⊢
        by_cases hxo : x = o
        · left
          rw [hxo]
          omega
        · rw [(hobj x).2.1, (hobj x).2.2.1, (hobj x).2.2.2.1 hxo] at hf
          exact hf
      · rw [(hobj x).1] at hg
        refine ⟨?_, hg⟩
        by_cases hxo : x = o
        · rw [hxo]
          exact hpos
        · rw [(hobj x).2.2.2.1 hxo] at hp
          exact hp
    by_cases hg : (d1.objs o).gtt_space = none
    · rw [if_pos hg]
      trivial
    · rw [if_neg hg]
      by_cases hz : (d1.objs o).pin_count = 0
      · rw [if_pos hz]
        have h2 : Upkeep c d1 (if (d1.objs o).active = false ∧
            (d1.objs o).write_domain &&& not32 I915_GEM_DOMAIN_CPU = 0
            then list_move_tail o .inactive d1 else d1) := by
          by_cases hq : (d1.objs o).active = false ∧
              (d1.objs o).write_domain &&& not32 I915_GEM_DOMAIN_CPU = 0
          · rw [if_pos hq]
            refine up_list_move_tail_inactive o d1 ?_
            cases hf : verify_inactive_fails (d1.objs o)
            · rfl
            · rw [fails_iff] at hf
              rcases hf with h | h | h
              · exact absurd hz h
              · rw [hq.1] at h
                cases h
              · exact absurd hq.2 h
          · rw [if_neg hq]
            exact up_refl d1
        exact up_trans hbase (up_trans h2 (up_of_objs rfl (fun _ h => h)
          (fun _ => ⟨rfl, id, id⟩)))
      · rw [if_neg hz]
        exact hbase

theorem up_lookup {c : Prop} (file handle o : Nat) (d d1 : Device)
    (h : drm_gem_object_lookup file handle d = some (o, d1)) : Upkeep c d d1 := by
  rcases lookup_spec file handle d with ⟨-, h2⟩ | ⟨o2, -, h2⟩
  · rw [h2] at h
    cases h
  · rw [h2] at h
    cases h
    exact up_reference o d

theorem up_reloc_fail {c : Prop} (o : Nat) (code : Int) (d : Device) :
    (reloc_fail o code d).Holds (fun _ d' => Upkeep c d d') := by
  unfold reloc_fail
  have h := up_unpin (c := c) o d
  cases hu : i915_gem_object_unpin o d with
  | bug => trivial
  | ret c1 d1 =>
    rw [hu] at h
    exact h

theorem up_reloc_fail_after {c : Prop} (o : Nat) (code : Int) (d0 d : Device)
    (hk : Upkeep c d0 d) : (reloc_fail o code d).Holds (fun _ d' => Upkeep c d0 d') :=
  holds_mono (up_reloc_fail o code d) (fun _ _ h => up_trans hk h)

theorem up_relocate {c : Prop} (es : Nat → Env) (file o : Nat) :
    ∀ (relocs : List Reloc) (index : Nat) (mapped : Bool) (last : Nat) (d : Device),
      (relocate es file o index mapped last relocs d).Holds (fun _ d' => Upkeep c d d') := by
  intro relocs
  induction relocs with
  | nil =>
    intro index mapped last d
    simp only [relocate]
    exact up_refl d
  | cons reloc rest ih =>
    intro index mapped last d
    simp only [relocate]
    have step : ∀ (i : Nat) (m : Bool) (l : Nat) (d1 : Device), Upkeep c d d1 →
        (relocate es file o i m l rest d1).Holds (fun _ d' => Upkeep c d d') :=
      fun i m l d1 hk => holds_mono (ih i m l d1) (fun _ _ h => up_trans hk h)
    by_cases h1 : (es d.tick).copy_from_user_ret ≠ 0
    · rw [if_pos h1]
      exact up_reloc_fail_after o _ d _ (up_tock d)
    · rw [if_neg h1]
      cases hl : drm_gem_object_lookup file reloc.target_handle d.tock with
      | none =>
        simp only []
        exact up_reloc_fail_after o _ d _ (up_tock d)
      | some p =>
        obtain ⟨t, d1⟩ := p
        have k1 : Upkeep c d d1 := up_trans (up_tock d) (up_lookup _ _ _ _ _ hl)
        simp only []
        by_cases h2 : (d1.objs t).gtt_space = none
        · rw [if_pos h2]
          exact up_reloc_fail_after o _ d _ (up_trans k1 (up_unreference t d1))
        · rw [if_neg h2]
          by_cases h3 : reloc.offset > sub_size_t (d1.objs o).size 4
          · rw [if_pos h3]
            exact up_reloc_fail_after o _ d _ (up_trans k1 (up_unreference t d1))
          · rw [if_neg h3]
            by_cases h4 : reloc.offset &&& 3 ≠ 0
            · rw [if_pos h4]
              exact up_reloc_fail_after o _ d _ (up_trans k1 (up_unreference t d1))
            · rw [if_neg h4]
              by_cases h5 : reloc.write_domain ≠ 0 ∧ (d1.objs t).pending_write_domain ≠ 0 ∧
                  reloc.write_domain ≠ (d1.objs t).pending_write_domain
              · rw [if_pos h5]
                exact up_reloc_fail_after o _ d _ (up_trans k1 (up_unreference t d1))
              · rw [if_neg h5]
                have k2 : Upkeep c d (d1.update_obj t (fun x =>
                    { x with
                      pending_read_domains := x.pending_read_domains ||| reloc.read_domains
                      pending_write_domain :=
                        x.pending_write_domain ||| reloc.write_domain })) :=
                  up_trans k1 (up_update_obj d1 t _ (fun _ => ⟨rfl, id, id⟩))
                generalize (d1.update_obj t (fun x =>
                    { x with
                      pending_read_domains := x.pending_read_domains ||| reloc.read_domains
                      pending_write_domain :=
                        x.pending_write_domain ||| reloc.write_domain })) = d2 at k2
                by_cases h6 : (d2.objs t).gtt_offset = reloc.presumed_offset
                · rw [if_pos h6]
                  exact step _ _ _ _ (up_trans k2 (up_unreference t d2))
                · rw [if_neg h6]
                  have hw := up_wait_rendering (c := c) (es d.tick) o d2
                  cases hwr : i915_gem_object_wait_rendering (es d.tick) o d2 with
                  | bug => trivial
                  | ret cw d3 =>
                    rw [hwr] at hw
                    simp only []
                    have k4 : Upkeep c d
                        (if (d3.objs o).write_domain &&& I915_GEM_DOMAIN_CPU ≠ 0 then
                          ((i915_gem_clflush_object o d3).log .chipset_flush).update_obj o
                            (fun x => { x with write_domain := 0 })
                        else d3) :=
                      up_trans (up_trans k2 hw) (up_ite
                        (up_trans (up_trans (up_clflush o d3) (up_log _ _))
                          (up_update_obj _ o (fun x => { x with write_domain := 0 })
                            (fun x => ⟨rfl, fails_of_write_cleared x, id⟩))) (up_refl d3))
                    generalize (if (d3.objs o).write_domain &&& I915_GEM_DOMAIN_CPU ≠ 0 then
                        ((i915_gem_clflush_object o d3).log .chipset_flush).update_obj o
                          (fun x => { x with write_domain := 0 })
                        else d3) = d4 at k4
                    have l1 : ∀ ev, Upkeep c d (drm_gem_object_unreference t (d4.log ev)) :=
                      fun ev => up_trans k4 (up_trans (up_log _ _) (up_unreference t _))
                    have l2 : ∀ ev1 ev2,
                        Upkeep c d (drm_gem_object_unreference t ((d4.log ev1).log ev2)) :=
                      fun ev1 ev2 => up_trans k4 (up_trans (up_trans (up_log _ _)
                        (up_log _ _)) (up_unreference t _))
                    have l3 : ∀ ev1 ev2 ev3,
                        Upkeep c d
                          (drm_gem_object_unreference t (((d4.log ev1).log ev2).log ev3)) :=
                      fun ev1 ev2 ev3 => up_trans k4 (up_trans (up_trans (up_trans
                        (up_log _ _) (up_log _ _)) (up_log _ _)) (up_unreference t _))
                    split_ifs <;> first
                      | exact up_reloc_fail_after o _ d _ (l1 _)
                      | exact up_reloc_fail_after o _ d _ (l2 _ _)
                      | exact step _ _ _ _ (l2 _ _)
                      | exact step _ _ _ _ (l3 _ _ _)

theorem up_pin_and_relocate {c : Prop} (es : Nat → Env) (fuel file o : Nat)
    (entry : ExecObject) (d : Device) (r : ExecObject × Outcome)
    (h : i915_gem_object_pin_and_relocate es fuel file o entry d = some r) :
    r.2.Holds (fun _ d' => Upkeep c d d') := by
  unfold i915_gem_object_pin_and_relocate at h
  have hp := up_pin (c := c) es fuel o (entry.alignment % U32) d
  cases hpin : i915_gem_object_pin es fuel o (entry.alignment % U32) d with
  | none =>
    rw [hpin] at h
    cases h
  | some p =>
    rw [hpin] at h hp
    cases p with
    | bug =>
      cases h
      trivial
    | ret code d1 =>
      simp only [] at h
      by_cases hc : code ≠ 0
      · rw [if_pos hc] at h
        cases h
        exact hp
      · rw [if_neg hc] at h
        cases h
        exact holds_mono (up_relocate es file o entry.relocs 0 false 0xFFFFFFFF d1)
          (fun _ _ hr => up_trans hp hr)

/-- The first loop of `i915_gem_execbuffer` keeps everything up, however it
ends. -/
theorem up_pin_loop {c : Prop} (es : Nat → Env) (fuel file : Nat) :
    ∀ (buffers : List ExecObject) (objects : List Nat) (entries : List ExecObject)
      (d : Device) (r : PinLoop),
      exec_pin_loop es fuel file buffers objects entries d = some r →
      match r with
      | .done _ _ d' => Upkeep c d d'
      | .failed _ _ _ d' => Upkeep c d d'
      | .bug => True := by
  intro buffers
  induction buffers with
  | nil =>
    intro objects entries d r h
    simp only [exec_pin_loop] at h
    cases h
    exact up_refl d
  | cons entry rest ih =>
    intro objects entries d r h
    simp only [exec_pin_loop] at h
    cases hl : drm_gem_object_lookup file entry.handle d with
    | none =>
      rw [hl] at h
      cases h
      exact up_refl d
    | some p =>
      obtain ⟨o, d1⟩ := p
      rw [hl] at h
      simp only [] at h
      have k2 : Upkeep c d (d1.update_obj o (fun x =>
          { x with pending_read_domains := 0, pending_write_domain := 0 })) :=
        up_trans (up_lookup _ _ _ _ _ hl) (up_update_obj d1 o _ (fun _ => ⟨rfl, id, id⟩))
      generalize (d1.update_obj o (fun x =>
          { x with pending_read_domains := 0, pending_write_domain := 0 })) = d2 at h k2
      cases hpr : i915_gem_object_pin_and_relocate es fuel file o entry d2 with
      | none =>
        rw [hpr] at h
        cases h
      | some q =>
        have hq := up_pin_and_relocate (c := c) es fuel file o entry d2 q hpr
        obtain ⟨entry1, out⟩ := q
        rw [hpr] at h
        cases out with
        | bug =>
          cases h
          trivial
        | ret code d3 =>
          simp only [] at h
          have k3 : Upkeep c d d3 := up_trans k2 hq
          by_cases hc : code ≠ 0
          · rw [if_pos hc] at h
            cases h
            exact k3
          · rw [if_neg hc] at h
            have hrec := ih (objects ++ [o]) (entries ++ [entry1]) d3 r h
            cases r with
            | bug => trivial
            | done objects1 entries1 d' => exact up_trans k3 hrec
            | failed code2 pinned looked d' => exact up_trans k3 hrec

/-- The second loop of `i915_gem_execbuffer` keeps everything up when its
objects are pinned. -/
theorem up_exec_set_domains {c : Prop} (es : Nat → Env) :
    ∀ (objects : List Nat) (d : Device), (c → ∀ o ∈ objects, (d.objs o).pin_count ≠ 0) →
      (exec_set_domains es objects d).Holds (fun _ d' => Upkeep c d d') := by
  intro objects
  induction objects with
  | nil => intro d _; exact up_refl d
  | cons o rest ih =>
    intro d hpin
    simp only [exec_set_domains]
    by_cases hg : (d.objs o).gtt_space = none
    · rw [if_pos hg]
      exact up_refl d
    · rw [if_neg hg]
      have hs := up_set_domain (c := c) (es d.tick) o (d.objs o).pending_read_domains
        (d.objs o).pending_write_domain d.tock
        (fun hc => Or.inl (hpin hc o (List.mem_cons_self _ _)))
      have ks := kept_set_domain (es d.tick) o (d.objs o).pending_read_domains
        (d.objs o).pending_write_domain d.tock
      cases hsd : i915_gem_object_set_domain (es d.tick) o (d.objs o).pending_read_domains
          (d.objs o).pending_write_domain d.tock with
      | bug => trivial
      | ret code d1 =>
        rw [hsd] at hs ks
        have k1 : Upkeep c d d1 := up_trans (up_tock d) hs
        simp only []
        by_cases hc : code ≠ 0
        · rw [if_pos hc]
          exact k1
        · rw [if_neg hc]
          refine holds_mono (ih d1 (fun hcc x hx => ?_)) (fun _ _ h => up_trans k1 h)
          rw [ks.2 x]
          exact hpin hcc x (List.mem_cons_of_mem _ hx)

theorem up_dev_set_domain {c : Prop} (e : Env) (d : Device) :
    Upkeep c d (i915_gem_dev_set_domain e d).2 := by
  unfold i915_gem_dev_set_domain
  by_cases h : d.invalidate_domains ||| d.flush_domains ≠ 0
  · rw [if_pos h]
    exact up_trans (up_flush e _ _ d) (up_of_objs rfl (fun _ h => h) (fun _ => ⟨rfl, id, id⟩))
  · rw [if_neg h]
    exact up_refl d

theorem up_dispatch_loop {c : Prop} (es : Nat → Env) (exec_start exec_len : Nat) (nbox : Int) :
    ∀ (n i : Nat) (d : Device),
      (dispatch_loop es exec_start exec_len nbox n i d).Holds (fun _ d' => Upkeep c d d') := by
  intro n
  induction n with
  | zero => intro i d; exact up_refl d
  | succ n ih =>
    intro i d
    simp only [dispatch_loop]
    have k1 : Upkeep c d (if (i : Int) < nbox then d.tock.log (.emit_box i) else d.tock) :=
      up_ite (up_trans (up_tock d) (up_log _ _)) (up_tock d)
    generalize (if (i : Int) < nbox then d.tock.log (.emit_box i) else d.tock) = d1 at k1
    by_cases hb : (i : Int) < nbox ∧ (es d.tick).emit_box_ret ≠ 0
    · rw [if_pos hb]
      exact k1
    · rw [if_neg hb]
      refine holds_mono (ih _ _) (fun _ _ h => up_trans (up_trans k1 ?_) h)
      exact up_ite (up_out_ring _ _) (up_ite (up_out_ring _ _) (up_out_ring _ _))

theorem up_dispatch {c : Prop} (es : Nat → Env) (exec : ExecBuffer) (exec_offset : Nat)
    (d : Device) :
    (i915_dispatch_gem_execbuffer es exec exec_offset d).Holds (fun _ d' => Upkeep c d d') := by
  unfold i915_dispatch_gem_execbuffer
  simp only []
  split_ifs
  · exact up_refl d
  · exact up_refl d
  · exact up_dispatch_loop es _ _ _ _ _ d
  · exact up_dispatch_loop es _ _ _ _ _ d

theorem up_exec_move_to_active {c : Prop} (seqno : Nat) :
    ∀ (objects : List Nat) (d : Device), Upkeep c d (exec_move_to_active seqno objects d) := by
  intro objects
  induction objects with
  | nil => intro d; exact up_refl d
  | cons o rest ih =>
    intro d
    simp only [exec_move_to_active]
    exact up_trans (up_trans (up_move_to_active o d)
      (up_update_obj _ o (fun x => { x with last_rendering_seqno := seqno })
        (fun _ => ⟨rfl, id, id⟩))) (ih _)

/-- The submission proper keeps everything up when the objects of the list
are pinned. -/
theorem up_exec_submit {c : Prop} (es : Nat → Env) (file : Nat) (args : ExecBuffer)
    (objects : List Nat) (entries : List ExecObject) (d : Device)
    (hpin : c → ∀ o ∈ objects, (d.objs o).pin_count ≠ 0) :
    (exec_submit es file args objects entries d).Holds (fun _ d' => Upkeep c d d') := by
  unfold exec_submit
  cases objects.getLast? with
  | none => trivial
  | some batch_obj =>
    cases entries.getLast? with
    | none => trivial
    | some batch_entry =>
      simp only []
      have k1 : Upkeep c d (d.update_obj batch_obj (fun x =>
          { x with pending_read_domains := I915_GEM_DOMAIN_COMMAND, pending_write_domain := 0 })) :=
        up_update_obj d batch_obj _ (fun _ => ⟨rfl, id, id⟩)
      have kk1 : Kept d (d.update_obj batch_obj (fun x =>
          { x with pending_read_domains := I915_GEM_DOMAIN_COMMAND, pending_write_domain := 0 })) :=
        kept_update_obj d batch_obj _ (fun _ => rfl)
      generalize (d.update_obj batch_obj (fun x =>
          { x with pending_read_domains := I915_GEM_DOMAIN_COMMAND, pending_write_domain := 0 }))
        = d1 at k1 kk1
      have hs := up_exec_set_domains (c := c) es objects d1 (fun hc x hx => by
        rw [kk1.2 x]
        exact hpin hc x hx)
      cases hsd : exec_set_domains es objects d1 with
      | bug => trivial
      | ret code d2 =>
        rw [hsd] at hs
        have k2 : Upkeep c d d2 := up_trans k1 hs
        simp only []
        by_cases hc : code ≠ 0
        · rw [if_pos hc]
          exact k2
        · rw [if_neg hc]
          have k3 : Upkeep c d (i915_gem_dev_set_domain (es d2.tick) d2.tock).2 :=
            up_trans k2 (up_trans (up_tock d2) (up_dev_set_domain _ _))
          generalize i915_gem_dev_set_domain (es d2.tick) d2.tock = r at k3
          have hd := up_dispatch (c := c) es args batch_entry.offset r.2
          cases hdi : i915_dispatch_gem_execbuffer es args batch_entry.offset r.2 with
          | bug => trivial
          | ret code3 d3 =>
            rw [hdi] at hd
            have k4 : Upkeep c d d3 := up_trans k3 hd
            simp only []
            by_cases hc3 : code3 ≠ 0
            · rw [if_pos hc3]
              exact k4
            · rw [if_neg hc3]
              have k5 : Upkeep c d (i915_add_request (es d3.tick)
                  (r.1 ||| (i915_retire_commands (es d3.tick) d3.tock).1)
                  (i915_retire_commands (es d3.tick) d3.tock).2).2 :=
                up_trans k4 (up_trans (up_trans (up_tock d3) (up_out_ring _ _))
                  (up_add_request _ _ _))
              generalize i915_add_request (es d3.tick)
                  (r.1 ||| (i915_retire_commands (es d3.tick) d3.tock).1)
                  (i915_retire_commands (es d3.tick) d3.tock).2 = a at k5
              by_cases ha : a.1 = 0
              · rw [if_pos ha]
                trivial
              · rw [if_neg ha]
                have k6 : Upkeep c d (exec_move_to_active a.1 objects
                    { a.2 with last_gem_seqno := fun f =>
                      if f = file then a.1 else a.2.last_gem_seqno f }) := by
                  refine up_trans (up_trans k5 ?_) (up_exec_move_to_active _ _ _)
                  exact up_of_objs rfl (fun _ h => h) (fun _ => ⟨rfl, id, id⟩)
                split_ifs
                · exact k6
                · exact up_trans k6 (up_log _ _)

theorem up_unpin_all {c : Prop} :
    ∀ (l : List Nat) (d d' : Device), unpin_all l d = some d' → Upkeep c d d' := by
  intro l
  induction l with
  | nil =>
    intro d d' h
    simp only [unpin_all] at h
    cases h
    exact up_refl d
  | cons o rest ih =>
    intro d d' h
    simp only [unpin_all] at h
    have hu := up_unpin (c := c) o d
    cases hun : i915_gem_object_unpin o d with
    | bug =>
      rw [hun] at h
      cases h
    | ret c1 d1 =>
      rw [hun] at h hu
      simp only [] at h
      exact up_trans hu (ih d1 d' h)

theorem up_unreference_all {c : Prop} :
    ∀ (l : List Nat) (d : Device), Upkeep c d (unreference_all l d) := by
  intro l
  induction l with
  | nil => intro d; exact up_refl d
  | cons o rest ih =>
    intro d
    simp only [unreference_all]
    exact up_trans (up_unreference o d) (ih _)

theorem up_exec_cleanup {c : Prop} (code : Int) (pinned looked_up : List Nat) (d : Device) :
    (exec_cleanup code pinned looked_up d).Holds (fun _ d' => Upkeep c d d') := by
  unfold exec_cleanup
  cases hu : unpin_all pinned d with
  | none => trivial
  | some d1 => exact up_trans (up_unpin_all pinned d d1 hu) (up_unreference_all _ _)

/-- A submission keeps everything up when no pin count is negative at its
start. -/
theorem up_execbuffer {c : Prop} (es : Nat → Env) (fuel file : Nat) (args : ExecBuffer)
    (d : Device) (hn : c → NonNegPins d) :
    holds_opt (fun _ d' => Upkeep c d d') (i915_gem_execbuffer es fuel file args d) := by
  unfold i915_gem_execbuffer
  simp only []
  by_cases h1 : (es d.tick).calloc_ok = false
  · rw [if_pos h1]
    exact up_tock d
  · rw [if_neg h1]
    by_cases h2 : (es d.tick).copy_from_user_ret ≠ 0
    · rw [if_pos h2]
      exact up_tock d
    · rw [if_neg h2]
      by_cases h3 : d.suspended = true
      · rw [if_pos h3]
        exact up_tock d
      · rw [if_neg h3]
        have k1 : Upkeep c d { d.tock with invalidate_domains := 0, flush_domains := 0 } :=
          up_of_objs rfl (fun _ h => h) (fun _ => ⟨rfl, id, id⟩)
        have kk1 : Kept d { d.tock with invalidate_domains := 0, flush_domains := 0 } :=
          ⟨rfl, fun _ => rfl⟩
        generalize ({ d.tock with invalidate_domains := 0, flush_domains := 0 } : Device) = d1
          at k1 kk1
        cases hl : exec_pin_loop es fuel file args.buffers [] [] d1 with
        | none => trivial
        | some r =>
          have hspec := pin_loop_spec es fuel file args.buffers [] [] d1 r hl
          have hup := up_pin_loop (c := c) es fuel file args.buffers [] [] d1 r hl
          cases r with
          | bug => trivial
          | failed code pinned looked d2 =>
            simp only []
            exact holds_mono (up_exec_cleanup code pinned looked d2)
              (fun _ _ h => up_trans k1 (up_trans hup h))
          | done objects entries d2 =>
            simp only []
            obtain ⟨hs, -, -⟩ := hspec
            have hsub := up_exec_submit (c := c) es file args objects entries d2
              (fun hc o ho => by
                have hp := hs.2 o
                have h0 := hn hc o
                rw [← kk1.2 o] at h0
                have hcount : 0 < objects.count o := List.count_pos_iff.mpr ho
                simp only [List.count_nil, Nat.cast_zero, sub_zero] at hp
                omega)
            cases hsb : exec_submit es file args objects entries d2 with
            | bug => trivial
            | ret code d3 =>
              rw [hsb] at hsub
              simp only []
              exact holds_mono (up_exec_cleanup code objects objects d3)
                (fun _ _ h => up_trans k1 (up_trans hup (up_trans hsub h)))

/-! ## The predicate of `i915_verify_inactive` -/

theorem unpin_nonneg (o : Nat) (d : Device) (hn : NonNegPins d) :
    (i915_gem_object_unpin o d).Holds (fun _ d' => NonNegPins d') := by
  refine holds_intro (fun code d' h => ?_)
  have hs := holds_of_eq (shift_unpin o d) h
  have ho : 0 ≤ (d'.objs o).pin_count := by
    rw [hs.2 o]
    unfold i915_gem_object_unpin at h
    simp only [] at h
    by_cases hneg : ((d.update_obj o (fun x => { x with pin_count := x.pin_count - 1 })).objs
        o).pin_count < 0
    · rw [if_pos hneg] at h
      cases h
    · have e : ((d.update_obj o (fun x => { x with pin_count := x.pin_count - 1 })).objs
          o).pin_count = (d.objs o).pin_count - 1 := by
        simp [Device.update_obj]
      rw [e] at hneg
      simp only [pin_delta, if_true]
      omega
  intro x
  by_cases hx : x = o
  · rw [hx]
    exact ho
  · rw [hs.2 x]
    have := hn x
    simp only [pin_delta, if_neg hx]
    omega

theorem pin_nonneg (es : Nat → Env) (fuel o alignment : Nat) (d : Device) (hn : NonNegPins d) :
    holds_opt (fun _ d' => NonNegPins d') (i915_gem_object_pin es fuel o alignment d) := by
  refine holds_opt_mono (shift_pin es fuel o alignment d) (fun c d' h x => ?_)
  have := hn x
  by_cases hc : c = 0
  · rw [(h.1 hc).2 x]
    unfold pin_delta
    split <;> omega
  · rw [(h.2 hc).2 x]
    exact this

/-- A call of `LruStep` hands on that `i915_verify_inactive` reports nothing and
that no pin count is negative. -/
theorem lru_step_keeps (es : Nat → Env) (fuel : Nat) (d d' : Device)
    (hs : LruStep es fuel d d') (hi : i915_verify_inactive d = []) (hn : NonNegPins d) :
    i915_verify_inactive d' = [] ∧ NonNegPins d' := by
  cases hs with
  | pin o al code _ _ h =>
    exact ⟨up_verify_inactive (holds_opt_of_eq (up_pin (c := True) es fuel o al d) h) trivial hi,
      holds_opt_of_eq (pin_nonneg es fuel o al d hn) h⟩
  | unpin o code _ _ h =>
    exact ⟨up_verify_inactive (holds_of_eq (up_unpin (c := True) o d) h) trivial hi,
      holds_of_eq (unpin_nonneg o d hn) h⟩
  | move_to_active o =>
    refine ⟨up_verify_inactive (up_move_to_active (c := True) o d) trivial hi, fun x => ?_⟩
    rw [(kept_move_to_active o d).2 x]
    exact hn x
  | move_to_inactive o _ hg =>
    refine ⟨up_verify_inactive (up_move_to_inactive (c := True) o d hg) trivial hi, fun x => ?_⟩
    rw [((frame_move_to_inactive o d).2.2 x).2.2.2.2.1]
    exact hn x
  | retire_request r =>
    refine ⟨up_verify_inactive (up_retire_request (c := True) r d) trivial hi, fun x => ?_⟩
    rw [((frame_retire_request r d).2.2 x).2.2.2.2.1]
    exact hn x
  | execbuffer file args code _ _ h =>
    refine ⟨up_verify_inactive (holds_opt_of_eq
      (up_execbuffer (c := True) es fuel file args d (fun _ => hn)) h) trivial hi, fun x => ?_⟩
    rw [(holds_opt_of_eq (kept_execbuffer es fuel file args d) h).2 x]
    exact hn x

/-- C32, as stated, fails. The submission `sample_exec` on `aperture_dev`, where
nothing is pinned and every list is empty, returns 0 and leaves object 0
unpinned on the active list; `i915_gem_object_pin` of object 0 then returns 0
and leaves the object, now with pin count 1, on the active list: the pin takes
an object off its list only when the object is neither active nor written by
the GPU. And `i915_gem_object_move_to_inactive` puts object 0 of `render_dev`,
whose write domain is RENDER, on the inactive list, where the pin leaves it. -/
theorem pin_leaves_active_object_on_its_list :
    (∃ d1 d2 : Device,
      aperture_dev.active_list = [] ∧ aperture_dev.flushing_list = [] ∧
      aperture_dev.inactive_list = [] ∧
      i915_gem_execbuffer sample_es 5 0 sample_exec aperture_dev = some (.ret 0 d1) ∧
      (d1.objs 0).pin_count = 0 ∧ (d1.objs 1).pin_count = 0 ∧ d1.active_list = [0, 1] ∧
      i915_gem_object_pin sample_es 5 0 0 d1 = some (.ret 0 d2) ∧
      0 < (d2.objs 0).pin_count ∧ 0 ∈ d2.active_list) ∧
    (∃ d2 : Device,
      i915_gem_object_pin sample_es 5 0 0 (i915_gem_object_move_to_inactive 0 render_dev)
        = some (.ret 0 d2) ∧
      0 < (d2.objs 0).pin_count ∧ 0 ∈ d2.inactive_list) :=
  ⟨⟨_, _, rfl, rfl, rfl, rfl, by decide, by decide, by decide, rfl, by decide, by decide⟩,
    ⟨_, rfl, by decide, by decide⟩⟩

/-- C32, amended: let `i915_verify_inactive` report nothing in the state `d` and
let no pin count be negative there. In every state reached from `d` through
calls of pin, unpin, move_to_active, retire_request and execbuffer, and of
move_to_inactive for objects that are pinned or have no write domain outside
the CPU domain, an object with `pin_count > 0` is not on the inactive list;
`i915_verify_inactive` reports nothing there and no pin count is negative. (A
pinned object stays on the active or flushing list while it is active or
written by the GPU.) -/
theorem pinned_objects_off_inactive_list (es : Nat → Env) (fuel : Nat) (d d' : Device)
    (hi : i915_verify_inactive d = []) (hn : NonNegPins d) (hr : LruReach es fuel d d') :
    (∀ o : Nat, 0 < (d'.objs o).pin_count → o ∉ d'.inactive_list) ∧
    i915_verify_inactive d' = [] ∧ NonNegPins d' := by
  have key : i915_verify_inactive d' = [] ∧ NonNegPins d' := by
    induction hr with
    | start => exact ⟨hi, hn⟩
    | step d1 d2 _ hs ih => exact lru_step_keeps es fuel d1 d2 hs ih.1 ih.2
  refine ⟨fun o hp hm => ?_, key.1, key.2⟩
  have hf := (verify_inactive_nil d').mp key.1 o hm
  have hfails : verify_inactive_fails (d'.objs o) = true :=
    (fails_iff _).mpr (Or.inl (by omega))
  rw [hf] at hfails
  cases hfails

/-- Witness for C32 (amended): the submission `sample_exec` on `aperture_dev`
followed by the pin of object 0 reaches a state in which object 0 is pinned;
it is not on the inactive list there. -/
theorem pinned_objects_off_inactive_list_witness :
    ∃ d1 d2 : Device,
      i915_gem_execbuffer sample_es 5 0 sample_exec aperture_dev = some (.ret 0 d1) ∧
      i915_gem_object_pin sample_es 5 0 0 d1 = some (.ret 0 d2) ∧
      0 < (d2.objs 0).pin_count ∧ 0 ∉ d2.inactive_list :=
  ⟨_, _, rfl, rfl, by decide,
    (pinned_objects_off_inactive_list sample_es 5 aperture_dev _ (by decide)
      (fun x => by
        show 0 ≤ ((if x = 2 then { sample_obj with size := 8192 } else sample_obj)).pin_count
        split <;> decide)
      (LruReach.step _ _ (LruReach.step _ _ LruReach.start
        (LruStep.execbuffer 0 sample_exec 0 _ _ rfl)) (LruStep.pin 0 0 0 _ _ rfl))).1 0
      (by decide)⟩

/-! ## Pinned objects keep their binding -/

/-- The second loop of `i915_gem_execbuffer`, once it has committed the objects
of `pre` with code 0, goes on with the rest of the list in the state it has
reached. -/
theorem exec_set_domains_prefix (es : Nat → Env) :
    ∀ (pre rest : List Nat) (d d' : Device), exec_set_domains es pre d = .ret 0 d' →
      exec_set_domains es (pre ++ rest) d = exec_set_domains es rest d' := by
  intro pre
  induction pre with
  | nil =>
    intro rest d d' h
    simp only [exec_set_domains] at h
    cases h
    rfl
  | cons a pre ih =>
    intro rest d d' h
    simp only [exec_set_domains, List.cons_append] at h ⊢
    by_cases hg : (d.objs a).gtt_space = none
    · rw [if_pos hg] at h
      injection h with hc _
      exact absurd hc (by decide)
    · rw [if_neg hg] at h ⊢
      cases hsd : i915_gem_object_set_domain (es d.tick) a (d.objs a).pending_read_domains
          (d.objs a).pending_write_domain d.tock with
      | bug =>
        rw [hsd] at h
        cases h
      | ret code d1 =>
        rw [hsd] at h
        simp only [] at h ⊢
        by_cases hc : code ≠ 0
        · rw [if_pos hc] at h
          injection h with hc0 _
          exact absurd hc0 hc
        · rw [if_neg hc] at h ⊢
          exact ih rest d1 d' h

/-- C39: let every pinned object be bound in the state `d` (`pin_count > 0`
implies that `gtt_space` is not NULL). The same holds in the state that
`i915_gem_object_pin` returns, with any code (the failure paths of the bind it
calls included), in the states that `i915_gem_object_unpin`,
`i915_gem_object_unbind` and `i915_gem_evict_something` return, and in the state
that `i915_gem_object_bind_to_gtt` returns, with any code, when it is called
for an unbound object, as the pin calls it. Consequently, when the first loop
of `i915_gem_execbuffer` has gone through its list, every object of the list
that holds a pin is bound in the state in which the second loop examines it,
and when no pin count is negative in `d` that is every object of the list: the
branch that returns `-ENOMEM` for a lost binding is not taken. -/
theorem pinned_objects_stay_bound (es : Nat → Env) (fuel : Nat) (d : Device)
    (h : PinnedBound d) :
    (∀ o alignment : Nat, holds_opt (fun _ d' => PinnedBound d')
      (i915_gem_object_pin es fuel o alignment d)) ∧
    (∀ o : Nat, (i915_gem_object_unpin o d).Holds (fun _ d' => PinnedBound d')) ∧
    (∀ o : Nat, (i915_gem_object_unbind es o d).Holds (fun _ d' => PinnedBound d')) ∧
    holds_opt (fun _ d' => PinnedBound d') (i915_gem_evict_something es fuel d) ∧
    (∀ o alignment : Nat, (d.objs o).gtt_space = none →
      holds_opt (fun _ d' => PinnedBound d')
        (i915_gem_object_bind_to_gtt es fuel o alignment d)) ∧
    (∀ (file : Nat) (args : ExecBuffer) (objects : List Nat) (entries : List ExecObject)
      (d2 : Device) (batch_obj : Nat),
      exec_pin_loop es fuel file args.buffers [] []
        { d.tock with invalidate_domains := 0, flush_domains := 0 }
        = some (.done objects entries d2) →
      objects.getLast? = some batch_obj →
      ∀ (pre post : List Nat) (o : Nat) (d' : Device), objects = pre ++ o :: post →
        exec_set_domains es pre (d2.update_obj batch_obj (fun x =>
          { x with pending_read_domains := I915_GEM_DOMAIN_COMMAND
                   pending_write_domain := 0 })) = .ret 0 d' →
        (0 < (d2.objs o).pin_count → (d'.objs o).gtt_space ≠ none) ∧
        (NonNegPins d → (d'.objs o).gtt_space ≠ none) ∧
        exec_set_domains es objects (d2.update_obj batch_obj (fun x =>
          { x with pending_read_domains := I915_GEM_DOMAIN_COMMAND
                   pending_write_domain := 0 })) = exec_set_domains es (o :: post) d') := by
  refine ⟨fun o al => ?_, fun o => ?_, fun o => ?_, ?_, fun o al hg => ?_, ?_⟩
  · exact holds_opt_mono (up_pin (c := True) es fuel o al d)
      (fun _ _ hu => up_pinned_bound hu trivial h)
  · exact holds_mono (up_unpin (c := True) o d) (fun _ _ hu => up_pinned_bound hu trivial h)
  · exact holds_mono (up_unbind (c := True) es o d) (fun _ _ hu => up_pinned_bound hu trivial h)
  · exact holds_opt_mono (up_evict (c := True) es fuel d)
      (fun _ _ hu => up_pinned_bound hu trivial h)
  · exact holds_opt_mono (up_bind_to_gtt (c := True) es fuel o al d (fun _ => hg))
      (fun _ _ hu => up_pinned_bound hu.1 trivial h)
  · intro file args objects entries d2 batch_obj hl _ pre post o d' hsplit hpre
    have k1 : Upkeep True d { d.tock with invalidate_domains := 0, flush_domains := 0 } :=
      up_of_objs rfl (fun _ h => h) (fun _ => ⟨rfl, id, id⟩)
    have kk1 : Kept d { d.tock with invalidate_domains := 0, flush_domains := 0 } :=
      ⟨rfl, fun _ => rfl⟩
    generalize ({ d.tock with invalidate_domains := 0, flush_domains := 0 } : Device) = d1
      at hl k1 kk1
    have hspec := pin_loop_spec es fuel file args.buffers [] [] d1 _ hl
    have hup : Upkeep True d1 d2 := up_pin_loop (c := True) es fuel file args.buffers [] [] d1 _ hl
    obtain ⟨hs, -, -⟩ := hspec
    have hb2 : PinnedBound d2 := up_pinned_bound (up_trans k1 hup) trivial h
    have ho : o ∈ objects := by
      rw [hsplit]
      simp
    have hg3 : ((d2.update_obj batch_obj (fun x =>
        { x with pending_read_domains := I915_GEM_DOMAIN_COMMAND
                 pending_write_domain := 0 })).objs o).gtt_space = (d2.objs o).gtt_space := by
      by_cases hx : o = batch_obj
      · simp [Device.update_obj, hx]
      · simp [Device.update_obj, hx]
    have hwf := wf_exec_set_domains es pre _ d' 0 hpre
    have hbound : 0 < (d2.objs o).pin_count → (d'.objs o).gtt_space ≠ none := by
      intro hpin
      rw [(hwf.objs o).gtt_space, hg3]
      exact hb2 o hpin
    refine ⟨hbound, fun hn => hbound ?_, ?_⟩
    · have hp := hs.2 o
      have h0 := hn o
      rw [← kk1.2 o] at h0
      have hcount : 0 < objects.count o := List.count_pos_iff.mpr ho
      simp only [List.count_nil, Nat.cast_zero, sub_zero] at hp
      omega
    · rw [hsplit]
      exact exec_set_domains_prefix es pre (o :: post) _ d' hpre

/-- Witness for C39: nothing is pinned on `aperture_dev`; the pin of object 0
returns 0 there and leaves every pinned object bound, and the second loop of the
submission `sample_exec` finds its first object bound. -/
theorem pinned_objects_stay_bound_witness :
    (∃ d', i915_gem_object_pin sample_es 5 0 0 aperture_dev = some (.ret 0 d') ∧
      0 < (d'.objs 0).pin_count ∧ PinnedBound d') ∧
    (∃ d2 entries,
      exec_pin_loop sample_es 5 0 sample_exec.buffers [] []
        { aperture_dev.tock with invalidate_domains := 0, flush_domains := 0 }
        = some (.done [0, 1] entries d2) ∧
      (d2.objs 0).gtt_space ≠ none) := by
  have hpb : PinnedBound aperture_dev := by
    intro x hp
    have h0 : (aperture_dev.objs x).pin_count = 0 := by
      show ((if x = 2 then { sample_obj with size := 8192 } else sample_obj)).pin_count = 0
      split <;> rfl
    omega
  have hnn : NonNegPins aperture_dev := by
    intro x
    show 0 ≤ ((if x = 2 then { sample_obj with size := 8192 } else sample_obj)).pin_count
    split <;> decide
  have hthm := pinned_objects_stay_bound sample_es 5 aperture_dev hpb
  refine ⟨⟨_, rfl, by decide, holds_opt_of_eq (hthm.1 0 0) rfl⟩, ⟨_, _, rfl, ?_⟩⟩
  have hc := hthm.2.2.2.2.2 0 sample_exec [0, 1] _ _ 1 rfl rfl [] [1] 0 _ rfl rfl
  have hg := hc.2.1 hnn
  intro hcontra
  apply hg
  by_cases hx : (0 : Nat) = 1
  · cases hx
  · simpa [Device.update_obj] using hcontra

/-! ## The order of the active list -/

theorem seqno_rank_of_mem (q : List Request) (s : Nat) (h : ∃ r ∈ q, r.seqno = s)
    (l : List Request) :
    seqno_rank (q ++ l) s = seqno_rank q s ∧ seqno_rank q s < q.length := by
  induction q with
  | nil =>
    obtain ⟨r, hr, -⟩ := h
    cases hr
  | cons a q ih =>
    show (if a.seqno = s then 0 else seqno_rank (q ++ l) s + 1) =
        (if a.seqno = s then 0 else seqno_rank q s + 1) ∧
      (if a.seqno = s then 0 else seqno_rank q s + 1) < q.length + 1
    by_cases ha : a.seqno = s
    · rw [if_pos ha, if_pos ha]
      exact ⟨rfl, Nat.succ_pos _⟩
    · rw [if_neg ha, if_neg ha]
      have h2 : ∃ r ∈ q, r.seqno = s := by
        obtain ⟨r, hr, hs⟩ := h
        rcases List.mem_cons.mp hr with h1 | h1
        · rw [h1] at hs
          exact absurd hs ha
        · exact ⟨r, h1, hs⟩
      obtain ⟨i1, i2⟩ := ih h2
      exact ⟨by rw [i1], by omega⟩

theorem seqno_rank_fresh (q : List Request) (r : Request)
    (h : ∀ x ∈ q, x.seqno ≠ r.seqno) : seqno_rank (q ++ [r]) r.seqno = q.length := by
  induction q with
  | nil => simp [seqno_rank]
  | cons a q ih =>
    show (if a.seqno = r.seqno then 0 else seqno_rank (q ++ [r]) r.seqno + 1) = q.length + 1
    rw [if_neg (h a (List.mem_cons_self _ _)), ih (fun x hx => h x (List.mem_cons_of_mem _ hx))]

/-- Objects that join the tail of the active list under the fence of a request
that joins the tail of the queue leave the list in queue order. -/
theorem fifo_enqueue {d d' : Device} (pre tail : List Nat) (new : Request)
    (ho : ActiveInQueueOrder d) (hq : ActiveQueued d)
    (hfresh : ∀ r ∈ d.request_list, r.seqno ≠ new.seqno)
    (hreq : d'.request_list = d.request_list ++ [new])
    (hact : d'.active_list = pre ++ tail) (hsub : pre.Sublist d.active_list)
    (hpre : ∀ x ∈ pre, (d'.objs x).last_rendering_seqno = (d.objs x).last_rendering_seqno)
    (htail : ∀ x ∈ tail, (d'.objs x).last_rendering_seqno = new.seqno) :
    ActiveInQueueOrder d' ∧ ActiveQueued d' := by
  have rpre : ∀ x ∈ pre,
      seqno_rank d'.request_list (d'.objs x).last_rendering_seqno =
        seqno_rank d.request_list (d.objs x).last_rendering_seqno ∧
      seqno_rank d.request_list (d.objs x).last_rendering_seqno < d.request_list.length := by
    intro x hx
    rw [hreq, hpre x hx]
    exact seqno_rank_of_mem _ _ (hq x (hsub.subset hx)) _
  have rtail : ∀ x ∈ tail,
      seqno_rank d'.request_list (d'.objs x).last_rendering_seqno = d.request_list.length := by
    intro x hx
    rw [hreq, htail x hx]
    exact seqno_rank_fresh _ _ hfresh
  constructor
  · unfold ActiveInQueueOrder
    rw [hact, List.pairwise_append]
    refine ⟨?_, ?_, fun a ha b hb => ?_⟩
    · refine List.Pairwise.imp_of_mem ?_ (List.Pairwise.sublist hsub ho)
      intro a b ha hb hab
      rw [(rpre a ha).1, (rpre b hb).1]
      exact hab
    · refine List.pairwise_of_forall_mem_list (fun a ha b hb => ?_)
      rw [rtail a ha, rtail b hb]
    · rw [(rpre a ha).1, rtail b hb]
      exact Nat.le_of_lt (rpre a ha).2
  · intro a ha
    rw [hact] at ha
    rcases List.mem_append.mp ha with h | h
    · obtain ⟨r, hr, hs⟩ := hq a (hsub.subset h)
      refine ⟨r, ?_, ?_⟩
      · rw [hreq]
        exact List.mem_append_left _ hr
      · rw [hpre a h]
        exact hs
    · refine ⟨new, ?_, (htail a h).symm⟩
      rw [hreq]
      simp

theorem add_request_active (e : Env) (fl : Nat) (d : Device) :
    (i915_add_request e fl d).2.active_list = d.active_list ∧
    (i915_add_request e fl d).2.objs = d.objs := by
  unfold i915_add_request
  by_cases hc : e.calloc_ok = false
  · rw [if_pos hc]
    exact ⟨rfl, rfl⟩
  · rw [if_neg hc]
    simp only []
    split_ifs <;> exact ⟨rfl, rfl⟩

theorem exec_move_to_active_others (seqno : Nat) :
    ∀ (objects : List Nat) (d : Device) (x : Nat), x ∉ objects →
      (exec_move_to_active seqno objects d).objs x = d.objs x := by
  intro objects
  induction objects with
  | nil => intro d x _; rfl
  | cons o rest ih =>
    intro d x hx
    simp only [exec_move_to_active]
    have hxo : x ≠ o := fun e => hx (e ▸ List.mem_cons_self _ _)
    rw [ih _ x (fun h => hx (List.mem_cons_of_mem _ h))]
    exact (move_to_active_step seqno o d).2.2.2.2.2 x hxo

theorem flush_queue (e : Env) (inv fl : Nat) (d : Device) :
    (i915_gem_flush e inv fl d).request_list = d.request_list ∧
    (i915_gem_flush e inv fl d).active_list = d.active_list ∧
    (i915_gem_flush e inv fl d).objs = d.objs ∧
    (i915_gem_flush e inv fl d).next_gem_seqno = d.next_gem_seqno := by
  unfold i915_gem_flush
  simp only []
  split_ifs <;> exact ⟨rfl, rfl, rfl, rfl⟩

/-- The first loop of `i915_gem_retire_request` leaves the active list alone
when no entry of the flushing list is on it. -/
theorem retire_flushing_active (request : Request) (l : List Nat) :
    ∀ d : Device, (∀ x ∈ l, x ∉ d.active_list) →
      (retire_flushing request l d).active_list = d.active_list := by
  induction l with
  | nil => intro d _; rfl
  | cons o rest ih =>
    intro d h
    simp only [retire_flushing]
    have ho : o ∉ d.active_list := h o (List.mem_cons_self _ _)
    have h1 : (if (d.objs o).write_domain &&& request.flush_domains ≠ 0 then
        i915_gem_object_move_to_inactive o
          (d.update_obj o (fun x => { x with write_domain := 0 })) else d).active_list
        = d.active_list := by
      split
      · rw [(move_to_inactive_lists o _).1]
        show d.active_list.filter (fun x => x != o) = d.active_list
        rw [List.filter_eq_self]
        intro a ha
        simp only [bne_iff_ne, ne_eq]
        intro e
        exact ho (e ▸ ha)
      · rfl
    rw [ih _ (fun x hx => by rw [h1]; exact h x (List.mem_cons_of_mem _ hx)), h1]

/-- The second loop of `i915_gem_retire_request` takes the longest run of
entries under the retired fence off the head of the active list. -/
theorem retire_active_drops (request : Request) (fuel : Nat) :
    ∀ d : Device, d.active_list.length ≤ fuel → d.active_list.Nodup →
      (retire_active request fuel d).active_list =
        d.active_list.dropWhile
          (fun x => decide ((d.objs x).last_rendering_seqno = request.seqno)) := by
  induction fuel with
  | zero =>
    intro d hlen _
    have hnil : d.active_list = [] := List.length_eq_zero.mp (Nat.le_zero.mp hlen)
    simp only [retire_active]
    rw [hnil]
    rfl
  | succ n ih =>
    intro d hlen hnd
    simp only [retire_active]
    cases hal : d.active_list with
    | nil => simp [hal]
    | cons o rest =>
      rw [hal] at hlen hnd
      have hor : o ∉ rest := (List.nodup_cons.mp hnd).1
      have hrest : rest.filter (fun x => x != o) = rest := by
        rw [List.filter_eq_self]
        intro a ha
        simp only [bne_iff_ne, ne_eq]
        intro e
        exact hor (e ▸ ha)
      have hfilter : (o :: rest).filter (fun x => x != o) = rest := by
        simp [List.filter_cons, hrest]
      simp only []
      by_cases h1 : (d.objs o).last_rendering_seqno ≠ request.seqno
      · rw [if_pos h1]
        simp [List.dropWhile_cons, h1, hal]
      · rw [if_neg h1]
        have hdrop : (o :: rest).dropWhile
            (fun x => decide ((d.objs x).last_rendering_seqno = request.seqno)) =
            rest.dropWhile
              (fun x => decide ((d.objs x).last_rendering_seqno = request.seqno)) := by
          simp [List.dropWhile_cons, not_not.mp h1]
        rw [hdrop]
        have step : ∀ d1 : Device, d1.active_list = rest →
            (∀ x, (d1.objs x).last_rendering_seqno = (d.objs x).last_rendering_seqno) →
            (retire_active request n d1).active_list =
              rest.dropWhile
                (fun x => decide ((d.objs x).last_rendering_seqno = request.seqno)) := by
          intro d1 ha hl
          rw [ih d1 (by rw [ha]; simpa using hlen) (by rw [ha]; exact (List.nodup_cons.mp hnd).2),
            ha]
          congr 1
          funext x
          rw [hl x]
        by_cases h2 : (d.objs o).write_domain ≠ 0
        · rw [if_pos h2]
          refine step _ ?_ (fun _ => rfl)
          show d.active_list.filter (fun x => x != o) = rest
          rw [hal, hfilter]
        · rw [if_neg h2]
          refine step _ ?_ (shrinks_move_to_inactive o d).1
          rw [(move_to_inactive_lists o d).1, hal, hfilter]

/-- C37: let the active list be in the order of the request queue (of two
objects on it, the fence of the earlier one is not queued after the fence of
the later one), with the fence of every object on it in the queue. The order
is kept, with every fence still queued, by the enqueue of `i915_gem_execbuffer`
(the new request, then the move of every buffer to the active list under the
new fence), by the enqueue of `i915_gem_object_wait_rendering` (the move to the
active list, then the new request and its fence), both while the new fence is
not the fence of a queued request, and by `i915_gem_retire_request`, which
takes off the active list exactly the longest run of head entries whose
`last_rendering_seqno` is the fence of the retired request (each object being
on one list, once). -/
theorem active_list_stays_fifo (d : Device) (ho : ActiveInQueueOrder d)
    (hq : ActiveQueued d) :
    (∀ (e : Env) (fl file : Nat) (objects : List Nat),
      (∀ r ∈ d.request_list, r.seqno ≠ d.next_gem_seqno) →
      (i915_add_request e fl d).1 ≠ 0 →
      ActiveInQueueOrder (exec_move_to_active (i915_add_request e fl d).1 objects
        { (i915_add_request e fl d).2 with last_gem_seqno := fun f =>
          if f = file then (i915_add_request e fl d).1
          else (i915_add_request e fl d).2.last_gem_seqno f }) ∧
      ActiveQueued (exec_move_to_active (i915_add_request e fl d).1 objects
        { (i915_add_request e fl d).2 with last_gem_seqno := fun f =>
          if f = file then (i915_add_request e fl d).1
          else (i915_add_request e fl d).2.last_gem_seqno f })) ∧
    (∀ (e : Env) (o : Nat),
      (∀ r ∈ d.request_list, r.seqno ≠ d.next_gem_seqno) → e.calloc_ok = true →
      ActiveInQueueOrder (wait_rendering_flush e o d) ∧
      ActiveQueued (wait_rendering_flush e o d)) ∧
    (∀ request : Request,
      ActiveInQueueOrder (i915_gem_retire_request request d) ∧
      ActiveQueued (i915_gem_retire_request request d) ∧
      (OneList d →
        (i915_gem_retire_request request d).active_list =
          d.active_list.dropWhile
            (fun x => decide ((d.objs x).last_rendering_seqno = request.seqno)))) := by
  refine ⟨fun e fl file objects hfresh hne => ?_, fun e o hfresh hc => ?_, fun request => ?_⟩
  · obtain ⟨r, hr1, hr2⟩ := add_request_queues e fl d hne
    have hcal : e.calloc_ok = true := by
      cases hcc : e.calloc_ok
      · rw [add_request_fail e fl d hcc] at hne
        exact absurd rfl hne
      · rfl
    have hfst := add_request_ok_fst e fl d hcal
    obtain ⟨ha1, ha2⟩ := add_request_active e fl d
    generalize i915_add_request e fl d = a at hne hr1 hr2 hfst ha1 ha2
    obtain ⟨l1, l2, -⟩ := exec_move_to_active_lists a.1 objects
      { a.2 with last_gem_seqno := fun f => if f = file then a.1 else a.2.last_gem_seqno f }
    refine fifo_enqueue (d.active_list.filter (fun x => decide (x ∉ objects))) objects.dedup r
      ho hq (fun x hx => ?_) ?_ ?_ (List.filter_sublist _) (fun x hx => ?_) (fun x hx => ?_)
    · rw [hr1, hfst]
      exact hfresh x hx
    · rw [l2]
      exact hr2
    · rw [l1]
      show a.2.active_list.filter (fun x => decide (x ∉ objects)) ++ objects.dedup = _
      rw [ha1]
    · have hx2 : x ∉ objects := by
        have := (List.mem_filter.mp hx).2
        simpa using this
      rw [exec_move_to_active_others a.1 objects _ x hx2]
      show (a.2.objs x).last_rendering_seqno = _
      rw [ha2]
    · rw [hr1]
      exact (exec_move_to_active_objs a.1 objects _ x (Or.inl (List.mem_dedup.mp hx))).2
  · unfold wait_rendering_flush
    simp only []
    obtain ⟨f1, f2, f3, f4⟩ := flush_queue e 0 (d.objs o).write_domain d
    generalize i915_gem_flush e 0 (d.objs o).write_domain d = d1 at f1 f2 f3 f4
    obtain ⟨m1, m2, -, -, m5⟩ := move_to_active_spec o
      (d1.update_obj o (fun x => { x with write_domain := 0 }))
    have m6 := move_to_active_obj o (d1.update_obj o (fun x => { x with write_domain := 0 }))
    generalize hd3 : i915_gem_object_move_to_active o
      (d1.update_obj o (fun x => { x with write_domain := 0 })) = d3 at m1 m2 m5 m6
    have hn3 : d3.next_gem_seqno = d.next_gem_seqno := by
      rw [← hd3, ← f4]
      unfold i915_gem_object_move_to_active
      simp only []
      split <;> rfl
    have hne : (i915_add_request e (d.objs o).write_domain d3).1 ≠ 0 ∨
        (i915_add_request e (d.objs o).write_domain d3).1 = 0 := (em _).symm
    have hfst := add_request_ok_fst e (d.objs o).write_domain d3 hc
    obtain ⟨ha1, ha2⟩ := add_request_active e (d.objs o).write_domain d3
    have hqueue : (i915_add_request e (d.objs o).write_domain d3).2.request_list =
        d3.request_list ++ [{ seqno := d3.next_gem_seqno, emitted_jiffies := e.jiffies
                              flush_domains := (d.objs o).write_domain }] := by
      unfold i915_add_request
      simp only [hc, Bool.true_eq_false, if_false]
      split_ifs <;> rfl
    generalize i915_add_request e (d.objs o).write_domain d3 = a at hfst ha1 ha2 hqueue
    refine fifo_enqueue (d.active_list.filter (fun x => x != o)) [o]
      { seqno := d3.next_gem_seqno, emitted_jiffies := e.jiffies
        flush_domains := (d.objs o).write_domain }
      ho hq (fun x hx => ?_) ?_ ?_ (List.filter_sublist _) (fun x hx => ?_) (fun x hx => ?_)
    · show x.seqno ≠ d3.next_gem_seqno
      rw [hn3]
      exact hfresh x hx
    · show a.2.request_list = _
      rw [hqueue, m2]
      show d1.request_list ++ _ = _
      rw [f1]
    · show a.2.active_list = _
      rw [ha1, m1]
      show d1.active_list.filter (fun x => x != o) ++ [o] = _
      rw [f2]
    · have hxo : x ≠ o := by
        have := (List.mem_filter.mp hx).2
        simpa using this
      show ((a.2.update_obj o (fun y => { y with last_rendering_seqno := a.1 })).objs
        x).last_rendering_seqno = _
      have e1 : (a.2.update_obj o (fun y => { y with last_rendering_seqno := a.1 })).objs x
          = a.2.objs x := by
        simp [Device.update_obj, hxo]
      rw [e1, ha2, m5 x hxo]
      show ((d1.update_obj o (fun x => { x with write_domain := 0 })).objs
        x).last_rendering_seqno = _
      have e2 : (d1.update_obj o (fun x => { x with write_domain := 0 })).objs x = d1.objs x := by
        simp [Device.update_obj, hxo]
      rw [e2, f3]
    · rw [List.mem_singleton] at hx
      subst hx
      show ((a.2.update_obj x (fun y => { y with last_rendering_seqno := a.1 })).objs
        x).last_rendering_seqno = d3.next_gem_seqno
      rw [← hfst]
      simp [Device.update_obj]
  · have hsh : ActiveShrinks d (i915_gem_retire_request request d) := by
      unfold i915_gem_retire_request
      simp only []
      refine active_shrinks_trans ?_ (shrinks_retire_active _ _ _)
      split
      · exact shrinks_retire_flushing _ _ d
      · exact active_shrinks_refl d
    have hreq : (i915_gem_retire_request request d).request_list = d.request_list := by
      unfold i915_gem_retire_request
      simp only []
      have h1 : ∀ (fuel : Nat) (x : Device),
          (retire_active request fuel x).request_list = x.request_list := by
        intro fuel
        induction fuel with
        | zero => intro x; rfl
        | succ n ih =>
          intro x
          simp only [retire_active]
          split
          · rfl
          · split
            · rfl
            · split
              · rw [ih]
                rfl
              · rw [ih]
                unfold i915_gem_object_move_to_inactive
                simp only []
                split_ifs <;> rfl
      have h2 : ∀ (l : List Nat) (x : Device),
          (retire_flushing request l x).request_list = x.request_list := by
        intro l
        induction l with
        | nil => intro x; rfl
        | cons o rest ih =>
          intro x
          simp only [retire_flushing]
          rw [ih]
          split
          · unfold i915_gem_object_move_to_inactive
            simp only []
            split_ifs <;> rfl
          · rfl
      rw [h1]
      split
      · exact h2 _ _
      · rfl
    refine ⟨?_, ?_, fun hone => ?_⟩
    · unfold ActiveInQueueOrder
      rw [hreq]
      refine List.Pairwise.imp ?_ (List.Pairwise.sublist hsh.2 ho)
      intro a b hab
      rw [hsh.1 a, hsh.1 b]
      exact hab
    · intro a ha
      obtain ⟨r, hr, hs⟩ := hq a (hsh.2.subset ha)
      refine ⟨r, ?_, ?_⟩
      · rw [hreq]
        exact hr
      · rw [hsh.1 a]
        exact hs
    · have hnd : d.active_list.Nodup := by
        unfold OneList at hone
        rw [List.append_assoc] at hone
        exact (List.nodup_append.mp hone).1
      have hdis : ∀ x ∈ d.flushing_list, x ∉ d.active_list := by
        unfold OneList at hone
        rw [List.append_assoc] at hone
        intro x hx hxa
        exact (List.nodup_append.mp hone).2.2 hxa (List.mem_append_left _ hx)
      have h1 : (if request.flush_domains ≠ 0 then
          retire_flushing request d.flushing_list d else d).active_list = d.active_list := by
        split
        · exact retire_flushing_active request _ d hdis
        · rfl
      have h2 : ∀ x, ((if request.flush_domains ≠ 0 then
          retire_flushing request d.flushing_list d else d).objs x).last_rendering_seqno
            = (d.objs x).last_rendering_seqno := by
        intro x
        split
        · exact (shrinks_retire_flushing request _ d).1 x
        · rfl
      unfold i915_gem_retire_request
      simp only []
      generalize (if request.flush_domains ≠ 0 then
        retire_flushing request d.flushing_list d else d) = d1 at h1 h2
      rw [retire_active_drops request _ d1 (Nat.le_refl _) (by rw [h1]; exact hnd), h1]
      congr 1
      funext x
      rw [h2 x]

/-- Witness for C37: on `render_dev` the active list holds object 0 under the
queued fence 1; the retirement of request 1 takes it off, and the enqueue of a
rendering wait for object 1 keeps the list in queue order. -/
theorem active_list_stays_fifo_witness :
    (i915_gem_retire_request { seqno := 1, emitted_jiffies := 0, flush_domains := 0 }
      render_dev).active_list = [] ∧
    ActiveInQueueOrder (wait_rendering_flush sample_env 1 render_dev) ∧
    (wait_rendering_flush sample_env 1 render_dev).active_list = [0, 1] := by
  have hthm := active_list_stays_fifo render_dev (by unfold ActiveInQueueOrder; decide)
    (by unfold ActiveQueued; decide)
  refine ⟨?_, (hthm.2.1 sample_env 1 (by decide) rfl).1, by decide⟩
  rw [(hthm.2.2 { seqno := 1, emitted_jiffies := 0, flush_domains := 0 }).2.2
    (by unfold OneList; decide)]
  decide

/-! ## Throttling -/

end I915
